import Mathlib

/-!
# Jade firmware update (`main/process/ota.c`)

A shallow embedding of `ota_process` and its helpers `ota_init`, `reset_ctx`
and `handle_in_bin_data`.

`ota_process` is a single sequential task that talks to four collaborators:
the message channel, the miniz decompressor (`tinfl_decompress`), the ESP-IDF
partition API (`esp_ota_*`) and the GUI.  The collaborators are parameters of
the model (`Env`); every call to one of them is recorded, in call order, in
the `trace` of the machine state.  The body of `ota_process` uses `goto`, so
it is embedded as a transition function `step` over the labelled program
points of the C function; `ota_process env req n` is the state after `n`
transitions.  `size_t` and `uint32_t` are 32 bits wide on the ESP32 target,
so the counters are natural numbers reduced modulo `2^32`.
-/

namespace Jade

/-! ## Constants and machine arithmetic -/

/-- A `uint8_t`.  Only equality of bytes is ever used. -/
abbrev Byte := Nat

/-- `#define UNCOMPRESSED_BUF_SIZE 32768` (ota.c:23). -/
def UNCOMPRESSED_BUF_SIZE : Nat := 32768

/-- `#define VERSION_STRING_MAX_LENGTH 32` (ota.c:25). -/
def VERSION_STRING_MAX_LENGTH : Nat := 32

/-- Number of values of a 32-bit word (`size_t`, `uint32_t`). -/
def WORD : Nat := 4294967296

/-- Conversion to `uint32_t`. -/
def u32 (a : Nat) : Nat := a % WORD

/-- Subtraction of 32-bit unsigned words, `a - b` in C: wraps around below zero. -/
def sub32 (a b : Nat) : Nat := (a % WORD + WORD - b % WORD) % WORD

/-- `TINFL_STATUS_DONE` of miniz. -/
def TINFL_STATUS_DONE : Int := 0

/-- `TINFL_STATUS_NEEDS_MORE_INPUT` of miniz. -/
def TINFL_STATUS_NEEDS_MORE_INPUT : Int := 1

/-- `TINFL_STATUS_HAS_MORE_OUTPUT` of miniz. -/
def TINFL_STATUS_HAS_MORE_OUTPUT : Int := 2

/-- `TINFL_FLAG_PARSE_ZLIB_HEADER` of miniz. -/
def TINFL_FLAG_PARSE_ZLIB_HEADER : Nat := 1

/-- `TINFL_FLAG_HAS_MORE_INPUT` of miniz. -/
def TINFL_FLAG_HAS_MORE_INPUT : Nat := 2

/-- `ESP_OK` of ESP-IDF. -/
def ESP_OK : Int := 0

/-- `ESP_FAIL` of ESP-IDF. -/
def ESP_FAIL : Int := -1

/-- `ESP_ERR_OTA_VALIDATE_FAILED` of ESP-IDF (`ESP_ERR_OTA_BASE + 3`). -/
def ESP_ERR_OTA_VALIDATE_FAILED : Int := 5379

/-- `enum ota_status` (ota.c:27-40). -/
inductive ota_status where
  | SUCCESS
  | ERROR_OTA_SETUP
  | ERROR_OTA_INIT
  | ERROR_BADPARTITION
  | ERROR_DECOMPRESS
  | ERROR_WRITE
  | ERROR_FINISH
  | ERROR_SETPARTITION
  | ERROR_BADDATA
  | ERROR_NODOWNGRADE
  | ERROR_INVALIDFW
  | ERROR_USER_DECLINED
  deriving DecidableEq, Repr

/-- The table `MESSAGES` (ota.c:43-56), indexed by status. -/
def MESSAGES : ota_status → String
  | .SUCCESS => "OK"
  | .ERROR_OTA_SETUP => "ERROR_OTA_SETUP"
  | .ERROR_OTA_INIT => "ERROR_OTA_INIT"
  | .ERROR_BADPARTITION => "ERROR_BADPARTITION"
  | .ERROR_DECOMPRESS => "ERROR_DECOMPRESS"
  | .ERROR_WRITE => "ERROR_WRITE"
  | .ERROR_FINISH => "ERROR_FINISH"
  | .ERROR_SETPARTITION => "ERROR_SETPARTITION"
  | .ERROR_BADDATA => "ERROR_BADDATA"
  | .ERROR_NODOWNGRADE => "ERROR_NODOWNGRADE"
  | .ERROR_INVALIDFW => "ERROR_INVALIDFW"
  | .ERROR_USER_DECLINED => "ERROR_USER_DECLINED"

/-- The error codes of `utils/cbor_rpc.h` that `ota_process` replies with. -/
inductive rpc_error where
  | CBOR_RPC_BAD_PARAMETERS
  | CBOR_RPC_PROTOCOL_ERROR
  | CBOR_RPC_INTERNAL_ERROR
  deriving DecidableEq, Repr

/-! ## Messages -/

/-- An inbound request as the message channel hands it over: the raw frame is
`data[0]`, the tag of the source it arrived on, followed by a CBOR request.
The callers assert that the CBOR parses and is a valid request with a
non-empty id (ota.c:162-174), so the model starts from the parsed request:
`params_bytes` is the byte string `rpc_get_bytes_ptr("params", ..)` finds, if
there is one. -/
structure Msg where
  source : Nat
  id : String
  method : String
  params_bytes : Option (List Byte)
  deriving DecidableEq, Repr

/-- `struct bin_msg` (ota.c:58-64).  `inbound_buf` is `none` for `NULL`. -/
structure bin_msg where
  id : String
  inbound_buf : Option (List Byte)
  len : Nat
  expected_source : Nat
  error : Bool
  deriving DecidableEq, Repr

/-- `reset_ctx` (ota.c:147-156). -/
def reset_ctx (inbound_buf : Option (List Byte)) (expected_source : Nat) : bin_msg :=
  { id := "", inbound_buf := inbound_buf, len := 0,
    expected_source := expected_source, error := false }

/-- `handle_in_bin_data` (ota.c:158-190), given `JADE_OTA_BUF_SIZE`.
`rpc_get_bytes_ptr` stores the pointer and length of the byte string when
`params` is one and leaves `written` at 0 otherwise. -/
def handle_in_bin_data (JADE_OTA_BUF_SIZE : Nat) (bctx : bin_msg) (m : Msg) : bin_msg :=
  let bctx := { bctx with id := m.id }
  if m.method ≠ "ota_data" then
    { bctx with error := true }
  else
    let written : Nat := match m.params_bytes with
      | some bytes => bytes.length
      | none => 0
    let bctx := match m.params_bytes with
      | some bytes => { bctx with inbound_buf := some bytes }
      | none => bctx
    if written = 0 ∨ m.source ≠ bctx.expected_source ∨ written > JADE_OTA_BUF_SIZE then
      { bctx with error := true }
    else
      { bctx with len := written }

/-! ## Collaborators -/

/-- What one call of `tinfl_decompress` hands back: the status it returns, the
number of input bytes it consumed (`*pIn_buf_size` on return), the bytes it
stored at `nout` (`*pOut_buf_size` on return is their number) and the new
state of the `tinfl_decompressor`. -/
structure TinflResult (σ : Type) where
  status : Int
  in_bytes : Nat
  out : List Byte
  decomp : σ

/-- The fields of `esp_app_desc_t` that `ota_init` reads: the memory from
`version[0]` on (the C string is read with `strnlen`) and `secure_version`. -/
structure esp_app_desc_t where
  version : List Byte
  secure_version : Nat

/-- The collaborators of `ota_process`, none of which is code of ota.c.
`σ` is the state of the `tinfl_decompressor`, which also stands for the
dictionary window the decompressor keeps in the output buffer. -/
structure Env (σ : Type) where
  /-- The macro `JADE_OTA_BUF_SIZE`, the largest payload of a data frame. -/
  JADE_OTA_BUF_SIZE : Nat
  /-- The button event `BTN_ACCEPT_OTA`. -/
  BTN_ACCEPT_OTA : Int
  /-- Whether the build defines `CONFIG_DEBUG_UNATTENDED_CI`. -/
  CONFIG_DEBUG_UNATTENDED_CI : Bool
  /-- The decompressor state after `tinfl_init`. -/
  tinfl_init : σ
  /-- The call `tinfl_decompress decomp data_buf in_bytes out_bytes flags`:
  the readable input, the input size offered, the output space offered. -/
  tinfl_decompress : σ → List Byte → Nat → Nat → Nat → TinflResult σ
  /-- The partition `esp_ota_get_running_partition` returns. -/
  esp_ota_get_running_partition : Nat
  /-- The result of `esp_ota_get_partition_description` on the running partition. -/
  esp_ota_get_partition_description : Int
  /-- The `esp_app_desc_t` found at `uncompressed + offset`. -/
  new_app_info : List Byte → esp_app_desc_t
  /-- The anti-rollback check of the eFuse counter. -/
  esp_efuse_check_secure_version : Nat → Bool
  /-- The partition `esp_ota_get_next_update_partition(NULL)` returns, `none` for `NULL`. -/
  esp_ota_get_next_update_partition : Option Nat
  /-- The return value of `gui_activity_wait_event` and the event id it stores. -/
  gui_activity_wait_event : Bool × Int
  /-- The result of `esp_ota_begin`. -/
  esp_ota_begin : Int
  /-- The result of the call of `esp_ota_write` that follows `k` earlier ones. -/
  esp_ota_write : Nat → List Byte → Int
  /-- The result of `esp_ota_end`. -/
  esp_ota_end : Int
  /-- The result of `esp_ota_set_boot_partition`. -/
  esp_ota_set_boot_partition : Int

/-- A call that `ota_process` or `ota_init` makes to a collaborator, with the
arguments and results that matter. -/
inductive Event where
  /-- The call `jade_process_reject_message(process, code, message, data)`. -/
  | reject_message (code : rpc_error) (message : String) (data : Option String)
  /-- The call `jade_process_reply_to_message_ok(process)`. -/
  | reply_to_message_ok
  /-- The call `display_message_activity*`. -/
  | display_message (text : String)
  /-- The call `jade_process_get_in_message` delivered `m` to `handle_in_bin_data`. -/
  | get_in_message (m : Msg)
  /-- The call `tinfl_decompress`: input and output sizes offered, flags,
  returned status, input consumed, output produced. -/
  | tinfl_decompress (in_offered out_offered flags : Nat) (status : Int)
      (in_bytes out_bytes : Nat)
  /-- The call `esp_ota_get_partition_description(running, ..)`. -/
  | esp_ota_get_partition_description (err : Int)
  /-- The call `esp_efuse_check_secure_version(secure_version)`. -/
  | esp_efuse_check_secure_version (secure_version : Nat) (ok : Bool)
  /-- The call `esp_ota_get_next_update_partition(NULL)`. -/
  | esp_ota_get_next_update_partition (p : Option Nat)
  /-- The calls `make_ota_versions_activity` and `gui_set_current_activity`. -/
  | make_ota_versions_activity
  /-- The call `gui_activity_wait_event`: return value and event id. -/
  | gui_activity_wait_event (ret : Bool) (ev_id : Int)
  /-- The call `display_progress_bar_activity`. -/
  | display_progress_bar_activity
  /-- The call `esp_ota_begin(update_partition, firmwaresize, ..)`. -/
  | esp_ota_begin (firmwaresize : Nat) (err : Int)
  /-- The function `ota_init` returned `res` to `ota_process`. -/
  | ota_init (res : ota_status)
  /-- The call `esp_ota_write(update_handle, uncompressed, towrite)`. -/
  | esp_ota_write (data : List Byte) (err : Int)
  /-- The call `update_progress_bar(&progress_bar, total, current)`. -/
  | update_progress_bar (total current : Nat)
  /-- The call `send_ok(id, source)`. -/
  | send_ok (id : String)
  /-- The call `esp_ota_end(update_handle)`. -/
  | esp_ota_end (err : Int)
  /-- The call `esp_ota_set_boot_partition(update_partition)`. -/
  | esp_ota_set_boot_partition (err : Int)
  /-- The call `jade_process_load_in_message` loaded `m`. -/
  | load_in_message (m : Msg)
  /-- The call `esp_restart()`. -/
  | esp_restart
  /-- The call `jade_process_reject_message_with_id(id, code, message, data, ..)`. -/
  | reject_message_with_id (id : String) (code : rpc_error) (message : String) (data : String)
  /-- The call `await_error_activity(message)`. -/
  | await_error_activity (message : String)
  deriving DecidableEq, Repr

/-! ## `ota_init` -/

/-- `strnlen(s, maxlen)` on the memory `s`: the index of the first NUL among
the first `maxlen` bytes, `maxlen` if there is none. -/
def strnlen : List Byte → Nat → Nat
  | _, 0 => 0
  | [], _ + 1 => 0
  | b :: s, n + 1 => if b = 0 then 0 else strnlen s n + 1

/-- What `ota_init` hands back: the status, the calls it made and
`*update_partition`. -/
structure InitResult where
  res : ota_status
  calls : List Event
  update_partition : Option Nat

/-- The user's answer at the confirmation step (ota.c:119-127): the return
value and the event id of `gui_activity_wait_event`; in a build with
`CONFIG_DEBUG_UNATTENDED_CI` there is no wait and the accept button is assumed. -/
def confirmation {σ : Type} (env : Env σ) : Bool × Int :=
  if env.CONFIG_DEBUG_UNATTENDED_CI = true then (true, env.BTN_ACCEPT_OTA)
  else env.gui_activity_wait_event

/-- The call the confirmation step makes (ota.c:121-127). -/
def confirmation_calls {σ : Type} (env : Env σ) : List Event :=
  if env.CONFIG_DEBUG_UNATTENDED_CI = true then []
  else [Event.gui_activity_wait_event env.gui_activity_wait_event.1 env.gui_activity_wait_event.2]

/-- `ota_init` (ota.c:69-144).  `uncompressed` is the content of the output
buffer. -/
def ota_init {σ : Type} (env : Env σ) (uncompressed : List Byte) (firmwaresize : Nat) :
    InitResult :=
  let running := env.esp_ota_get_running_partition
  let err := env.esp_ota_get_partition_description
  let calls := [Event.esp_ota_get_partition_description err]
  if err ≠ ESP_OK then
    ⟨.ERROR_BADPARTITION, calls, none⟩
  else
    let new_app_info := env.new_app_info uncompressed
    if strnlen new_app_info.version (VERSION_STRING_MAX_LENGTH + 1) > VERSION_STRING_MAX_LENGTH then
      ⟨.ERROR_INVALIDFW, calls, none⟩
    else
      let ok := env.esp_efuse_check_secure_version new_app_info.secure_version
      let calls := calls ++ [Event.esp_efuse_check_secure_version new_app_info.secure_version ok]
      if ok = false then
        ⟨.ERROR_NODOWNGRADE, calls, none⟩
      else
        let update_partition := env.esp_ota_get_next_update_partition
        let calls := calls ++ [Event.esp_ota_get_next_update_partition update_partition]
        if update_partition = none then
          ⟨.ERROR_BADPARTITION, calls, update_partition⟩
        else if update_partition = some running then
          ⟨.ERROR_BADPARTITION, calls, update_partition⟩
        else
          let calls := calls ++ [Event.make_ota_versions_activity] ++ confirmation_calls env
          let ret := (confirmation env).1
          let ev_id := (confirmation env).2
          if ret = false ∨ ev_id ≠ env.BTN_ACCEPT_OTA then
            ⟨.ERROR_USER_DECLINED, calls, update_partition⟩
          else
            let calls := calls ++ [Event.display_progress_bar_activity]
            let err := env.esp_ota_begin
            let calls := calls ++ [Event.esp_ota_begin firmwaresize err]
            if err ≠ ESP_OK then
              ⟨.ERROR_OTA_INIT, calls, update_partition⟩
            else
              ⟨.SUCCESS, calls, update_partition⟩

/-! ## `ota_process` -/

/-- The program points of `ota_process` at which the machine rests. -/
inductive Label where
  /-- The test of `while (remaining_compressed)` (ota.c:253). -/
  | chunk_loop
  /-- The test of the inner `while` (ota.c:276). -/
  | inner_loop
  /-- After the inner loop (ota.c:315). -/
  | chunk_end
  /-- After the chunk loop: `// Uploading complete` (ota.c:334). -/
  | upload_complete
  /-- The label `otacomplete` (ota.c:362). -/
  | otacomplete
  /-- The label `cleanup` (ota.c:376). -/
  | cleanup
  /-- The function has returned (ota.c:405). -/
  | returned
  /-- The call `esp_restart()` was made; it does not return. -/
  | restarted
  /-- A `JADE_ASSERT` failed. -/
  | aborted
  deriving DecidableEq, Repr

/-- The local variables of `ota_process`, the program point, the messages the
channel has yet to deliver and the calls made so far.  `uncompressed` holds
the bytes of the output buffer below the cursor, so `nout - uncompressed` is
its length. -/
structure State (σ : Type) where
  pc : Label
  source : Nat
  uploading : Bool
  ota_return_status : ota_status
  prevalidated : Bool
  ota_end_called : Bool
  firmwaresize : Nat
  compressedsize : Nat
  update_partition : Option Nat
  decomp : σ
  remaining_compressed : Nat
  remaining : Nat
  status : Int
  uncompressed : List Byte
  binctx : bin_msg
  length : Nat
  data_buf : List Byte
  /-- Number of calls of `esp_ota_write` so far. -/
  n_writes : Nat
  inbox : List Msg
  trace : List Event

/-- The initiating request: the results of `rpc_get_sizet` for `fwsize` and
`cmpsize` (`none` when the call fails), the source the request came from and
the messages that arrive after it. -/
structure Request where
  fwsize : Option Nat
  cmpsize : Option Nat
  source : Nat
  inbox : List Msg

/-- The entry of `ota_process` up to the chunk loop (ota.c:199-252). -/
def ota_start {σ : Type} (env : Env σ) (req : Request) : State σ :=
  let firmwaresize := req.fwsize.getD 0
  let compressedsize := if req.fwsize.isSome then req.cmpsize.getD 0 else 0
  let s : State σ :=
    { pc := .cleanup, source := req.source, uploading := false,
      ota_return_status := .ERROR_OTA_SETUP, prevalidated := false,
      ota_end_called := false, firmwaresize := firmwaresize,
      compressedsize := compressedsize, update_partition := none,
      decomp := env.tinfl_init, remaining_compressed := 0, remaining := 0,
      status := TINFL_STATUS_NEEDS_MORE_INPUT, uncompressed := [],
      binctx := reset_ctx none req.source, length := 0, data_buf := [],
      n_writes := 0, inbox := req.inbox, trace := [] }
  if req.fwsize.isNone ∨ req.cmpsize.isNone ∨ firmwaresize ≤ compressedsize then
    { s with trace := [Event.reject_message .CBOR_RPC_BAD_PARAMETERS "Bad parameters" none] }
  else
    { s with
      pc := .chunk_loop
      remaining_compressed := u32 compressedsize
      remaining := u32 firmwaresize
      ota_return_status := .SUCCESS
      trace := [Event.reply_to_message_ok,
                Event.display_message "Preparing for firmware update"] }

/-- The flags of the call of `tinfl_decompress` (ota.c:279-281). -/
def tinfl_flags {σ : Type} (s : State σ) : Nat :=
  if s.remaining_compressed > s.length then
    TINFL_FLAG_PARSE_ZLIB_HEADER + TINFL_FLAG_HAS_MORE_INPUT
  else TINFL_FLAG_PARSE_ZLIB_HEADER

/-- The output space offered to `tinfl_decompress`:
`uncompressed + UNCOMPRESSED_BUF_SIZE - nout` (ota.c:278). -/
def out_space {σ : Type} (s : State σ) : Nat :=
  sub32 UNCOMPRESSED_BUF_SIZE s.uncompressed.length

/-- The call of `tinfl_decompress` in the inner loop (ota.c:283): all of the
rest of the chunk is offered as input, the rest of the buffer as output. -/
def tinfl_call {σ : Type} (env : Env σ) (s : State σ) : TinflResult σ :=
  env.tinfl_decompress s.decomp s.data_buf s.length (out_space s) (tinfl_flags s)

/-- The call of `tinfl_decompress` in the inner loop and the updates of the
counters and cursors that follow it (ota.c:277-290). -/
def decompress {σ : Type} (env : Env σ) (s : State σ) : State σ :=
  let r := tinfl_call env s
  { s with
    status := r.status
    decomp := r.decomp
    remaining_compressed := sub32 s.remaining_compressed r.in_bytes
    length := sub32 s.length r.in_bytes
    data_buf := s.data_buf.drop r.in_bytes
    uncompressed := s.uncompressed ++ r.out
    trace := s.trace ++
      [Event.tinfl_decompress s.length (out_space s) (tinfl_flags s) r.status r.in_bytes
        r.out.length] }

/-- The validation at the first flush (ota.c:292-301): the call of `ota_init`,
`goto cleanup` when it fails, `prevalidated = true` when it succeeds. -/
def validate {σ : Type} (env : Env σ) (s : State σ) : State σ :=
  let i := ota_init env s.uncompressed s.firmwaresize
  let s := { s with
    update_partition := i.update_partition
    trace := s.trace ++ i.calls ++ [Event.ota_init i.res] }
  if i.res ≠ .SUCCESS then
    { s with ota_return_status := i.res, pc := .cleanup }
  else
    { s with prevalidated := true }

/-- The flush of the output buffer (ota.c:303-311): `esp_ota_write` of the
`towrite` bytes below the cursor, `goto cleanup` when it fails, else the
update of `remaining` and the reset of the cursor. -/
def flush {σ : Type} (env : Env σ) (s : State σ) : State σ :=
  let towrite := s.uncompressed.length
  let res := env.esp_ota_write s.n_writes s.uncompressed
  let s := { s with
    n_writes := s.n_writes + 1
    trace := s.trace ++ [Event.esp_ota_write s.uncompressed res] }
  if res ≠ ESP_OK then
    { s with ota_return_status := .ERROR_WRITE, pc := .cleanup }
  else
    { s with remaining := sub32 s.remaining towrite, uncompressed := [] }

/-- One iteration of the inner loop (ota.c:276-313), the test included. -/
def inner_step {σ : Type} (env : Env σ) (s : State σ) : State σ :=
  if s.length > 0 ∧ s.remaining > 0 ∧ s.status > TINFL_STATUS_DONE then
    let s := decompress env s
    let towrite := s.uncompressed.length
    if (s.prevalidated = true ∧ s.status ≤ TINFL_STATUS_DONE)
        ∨ towrite = UNCOMPRESSED_BUF_SIZE then
      if s.prevalidated = false then
        if (ota_init env s.uncompressed s.firmwaresize).res ≠ .SUCCESS then
          validate env s
        else
          flush env (validate env s)
      else flush env s
    else s
  else
    { s with pc := .chunk_end }

/-- The head of the chunk loop: the test, the receipt of a data frame and its
checks (ota.c:253-275). -/
def chunk_step {σ : Type} (env : Env σ) (s : State σ) : State σ :=
  if s.remaining_compressed = 0 then
    { s with pc := .upload_complete }
  else
    match s.inbox with
    | [] => s
    | m :: inbox =>
      let binctx := handle_in_bin_data env.JADE_OTA_BUF_SIZE (reset_ctx none s.source) m
      let s := { s with
        inbox := inbox
        binctx := binctx
        trace := s.trace ++ [Event.get_in_message m] }
      if binctx.error = true then
        { s with ota_return_status := .ERROR_BADDATA, pc := .cleanup }
      else
        let s := { s with uploading := true }
        if binctx.len > s.remaining_compressed then
          { s with ota_return_status := .ERROR_BADDATA, pc := .cleanup }
        else
          { s with
            length := binctx.len
            data_buf := binctx.inbound_buf.getD []
            pc := .inner_loop }

/-- The end of an iteration of the chunk loop (ota.c:315-332). -/
def chunk_end_step {σ : Type} (s : State σ) : State σ :=
  let s :=
    if s.prevalidated = true then
      { s with trace := s.trace ++
          [Event.update_progress_bar s.compressedsize
            (sub32 s.compressedsize s.remaining_compressed)] }
    else s
  if (s.status ≠ TINFL_STATUS_DONE ∧ s.remaining_compressed = 0)
      ∨ s.status < TINFL_STATUS_DONE
      ∨ (s.status = TINFL_STATUS_DONE ∧ s.remaining_compressed > 0) then
    { s with ota_return_status := .ERROR_DECOMPRESS, pc := .cleanup }
  else
    { s with trace := s.trace ++ [Event.send_ok s.binctx.id], pc := .chunk_loop }

/-- From `// Uploading complete` to the label `otacomplete` (ota.c:334-360). -/
def upload_complete_step {σ : Type} (env : Env σ) (s : State σ) : State σ :=
  let s := { s with uploading := false }
  if s.remaining ≠ 0 then
    { s with ota_return_status := .ERROR_DECOMPRESS, pc := .otacomplete }
  else
    let err := env.esp_ota_end
    let s := { s with ota_end_called := true, trace := s.trace ++ [Event.esp_ota_end err] }
    if err ≠ ESP_OK then
      { s with ota_return_status := .ERROR_FINISH, pc := .otacomplete }
    else
      let err := env.esp_ota_set_boot_partition
      let s := { s with trace := s.trace ++ [Event.esp_ota_set_boot_partition err] }
      if err ≠ ESP_OK then
        { s with ota_return_status := .ERROR_SETPARTITION, pc := .otacomplete }
      else if s.prevalidated = false then
        { s with pc := .aborted }
      else
        { s with pc := .otacomplete }

/-- The label `otacomplete` (ota.c:362-374). -/
def otacomplete_step {σ : Type} (s : State σ) : State σ :=
  match s.inbox with
  | [] => s
  | m :: inbox =>
    let s := { s with inbox := inbox, trace := s.trace ++ [Event.load_in_message m] }
    let reply :=
      if m.method ≠ "ota_complete" then
        Event.reject_message .CBOR_RPC_PROTOCOL_ERROR
          "Unexpected message, expecting 'ota_complete'" none
      else if s.ota_return_status ≠ .SUCCESS then
        Event.reject_message .CBOR_RPC_INTERNAL_ERROR "Error completing OTA"
          (some (MESSAGES s.ota_return_status))
      else Event.reply_to_message_ok
    { s with trace := s.trace ++ [reply], pc := .cleanup }

/-- The label `cleanup` (ota.c:376-404). -/
def cleanup_step {σ : Type} (env : Env σ) (s : State σ) : State σ :=
  if s.ota_return_status = .SUCCESS then
    { s with
      trace := s.trace ++ [Event.display_message "Upgrade successful!", Event.esp_restart]
      pc := .restarted }
  else
    let abort := s.prevalidated = true ∧ s.ota_end_called = false
    let err := env.esp_ota_end
    let s := if abort then { s with trace := s.trace ++ [Event.esp_ota_end err] } else s
    if abort ∧ ¬ (err = ESP_OK ∨ err = ESP_ERR_OTA_VALIDATE_FAILED) then
      { s with pc := .aborted }
    else
      let s :=
        if s.uploading = true then
          { s with trace := s.trace ++
              [Event.reject_message_with_id s.binctx.id .CBOR_RPC_INTERNAL_ERROR
                "Error uploading OTA data" (MESSAGES s.ota_return_status)] }
        else s
      let s :=
        if s.ota_return_status ≠ .ERROR_OTA_SETUP ∧ s.ota_return_status ≠ .ERROR_USER_DECLINED then
          { s with trace := s.trace ++ [Event.await_error_activity (MESSAGES s.ota_return_status)] }
        else s
      { s with pc := .returned }

/-- One transition of `ota_process`.  A state that waits for a message the
channel never delivers, and a state in which the function has ended, do not
change. -/
def step {σ : Type} (env : Env σ) (s : State σ) : State σ :=
  match s.pc with
  | .chunk_loop => chunk_step env s
  | .inner_loop => inner_step env s
  | .chunk_end => chunk_end_step s
  | .upload_complete => upload_complete_step env s
  | .otacomplete => otacomplete_step s
  | .cleanup => cleanup_step env s
  | .returned => s
  | .restarted => s
  | .aborted => s

/-- The state of `ota_process` after `n` transitions from `s`. -/
def run {σ : Type} (env : Env σ) : Nat → State σ → State σ
  | 0, s => s
  | n + 1, s => run env n (step env s)

/-- The state of `ota_process`, started on the request `req`, after `n` transitions. -/
def ota_process {σ : Type} (env : Env σ) (req : Request) (n : Nat) : State σ :=
  run env n (ota_start env req)

/-! ## Generic facts about the transition system -/

/-- The program points of the chunk loop (ota.c:253-332). -/
def Label.in_loop : Label → Bool
  | .chunk_loop => true
  | .inner_loop => true
  | .chunk_end => true
  | _ => false

/-- The program points from the label `otacomplete` on. -/
def Label.after_loop : Label → Bool
  | .otacomplete => true
  | .cleanup => true
  | .returned => true
  | .restarted => true
  | .aborted => true
  | _ => false

/-- The label `cleanup` and the program points after it. -/
def Label.late : Label → Bool
  | .cleanup => true
  | .returned => true
  | .restarted => true
  | .aborted => true
  | _ => false

/-- The program points at which `ota_process` has ended. -/
def Label.ended : Label → Bool
  | .returned => true
  | .restarted => true
  | .aborted => true
  | _ => false

/-- The reply to the message loaded at `otacomplete` (ota.c:366-374). -/
def completion_reply (method : String) (st : ota_status) : Event :=
  if method ≠ "ota_complete" then
    Event.reject_message .CBOR_RPC_PROTOCOL_ERROR
      "Unexpected message, expecting 'ota_complete'" none
  else if st ≠ .SUCCESS then
    Event.reject_message .CBOR_RPC_INTERNAL_ERROR "Error completing OTA" (some (MESSAGES st))
  else Event.reply_to_message_ok

/-- The calls of the failure branch of `cleanup` after the abort of the
partition write (ota.c:392-403). -/
def failure_report {σ : Type} (s : State σ) : List Event :=
  (if s.uploading = true then
    [Event.reject_message_with_id s.binctx.id .CBOR_RPC_INTERNAL_ERROR
      "Error uploading OTA data" (MESSAGES s.ota_return_status)] else []) ++
  (if s.ota_return_status ≠ .ERROR_OTA_SETUP ∧ s.ota_return_status ≠ .ERROR_USER_DECLINED then
    [Event.await_error_activity (MESSAGES s.ota_return_status)] else [])

/-- The calls that `ota_init` makes. -/
def Event.in_ota_init : Event → Bool
  | .esp_ota_get_partition_description _ => true
  | .esp_efuse_check_secure_version _ _ => true
  | .esp_ota_get_next_update_partition _ => true
  | .make_ota_versions_activity => true
  | .gui_activity_wait_event _ _ => true
  | .display_progress_bar_activity => true
  | .esp_ota_begin _ _ => true
  | _ => false

/-- The invariant behind the gating of the boot target: the boot partition is
set only after the chunk loop, with both counters at 0 and right after a
successful `esp_ota_end`; a status `SUCCESS` after the loop means both
counters are 0. -/
def GateInv {σ : Type} (s : State σ) : Prop :=
  (s.pc = .upload_complete → s.remaining_compressed = 0) ∧
  (s.pc.in_loop = true ∨ s.pc = .upload_complete →
      ∀ err, Event.esp_ota_set_boot_partition err ∉ s.trace) ∧
  (∀ err, Event.esp_ota_set_boot_partition err ∈ s.trace →
      s.remaining_compressed = 0 ∧ s.remaining = 0 ∧
      ∃ pre post, s.trace =
        pre ++ [Event.esp_ota_end ESP_OK, Event.esp_ota_set_boot_partition err] ++ post) ∧
  (s.pc.in_loop = false → s.pc ≠ .upload_complete → s.ota_return_status = .SUCCESS →
      s.remaining_compressed = 0 ∧ s.remaining = 0)

/-- The return of `ota_init`. -/
def Event.is_ota_init : Event → Bool
  | .ota_init _ => true
  | _ => false

/-- The events of a validation: a call made by `ota_init`, or its return. -/
def Event.validation (e : Event) : Bool := e.is_ota_init || e.in_ota_init

/-- The call `tinfl_decompress`. -/
def Event.is_tinfl_decompress : Event → Bool
  | .tinfl_decompress _ _ _ _ _ _ => true
  | _ => false

/-- The call `esp_ota_write`. -/
def Event.is_esp_ota_write : Event → Bool
  | .esp_ota_write _ _ => true
  | _ => false

/-- The invariant behind "validation runs at most once": while `prevalidated`
is false and the run has not left for `cleanup`, no validation event has
happened; once `prevalidated` is true the trace holds exactly one return of
`ota_init`, a `SUCCESS`, and no validation event after it; a failed `ota_init`
is followed by the calls of `cleanup` only. -/
def ValidInv {σ : Type} (s : State σ) : Prop :=
  (s.prevalidated = false → s.pc.late = false → ∀ e ∈ s.trace, e.validation = false) ∧
  (s.prevalidated = true → ∃ pre post,
    s.trace = pre ++ Event.ota_init .SUCCESS :: post ∧
    (∀ e ∈ pre, e.is_ota_init = false) ∧ (∀ e ∈ post, e.validation = false)) ∧
  (s.prevalidated = false →
    (∀ e ∈ s.trace, e.validation = false) ∨
    (∃ pre res post, s.trace = pre ++ Event.ota_init res :: post ∧ res ≠ .SUCCESS ∧
      (∀ e ∈ pre, e.is_ota_init = false) ∧
      (∀ e ∈ post, e.validation = false ∧ e.is_tinfl_decompress = false ∧
        e.is_esp_ota_write = false) ∧
      s.pc.late = true))

/-- The call `esp_ota_begin`. -/
def Event.is_esp_ota_begin : Event → Bool
  | .esp_ota_begin _ _ => true
  | _ => false

/-- The call `esp_ota_end`. -/
def Event.is_esp_ota_end : Event → Bool
  | .esp_ota_end _ => true
  | _ => false

/-- The call `await_error_activity`. -/
def Event.is_await_error_activity : Event → Bool
  | .await_error_activity _ => true
  | _ => false

/-- The call `send_ok`. -/
def Event.is_send_ok : Event → Bool
  | .send_ok _ => true
  | _ => false

/-- The calls of the failure branch of `cleanup` (ota.c:384-403). -/
def Event.in_failed_cleanup : Event → Bool
  | .esp_ota_end _ => true
  | .reject_message_with_id _ _ _ _ => true
  | .await_error_activity _ => true
  | _ => false

/-- The input bytes a call consumed: `in_bytes` on return for a call of
`tinfl_decompress`, 0 for any other call. -/
def Event.consumed : Event → Nat
  | .tinfl_decompress _ _ _ _ in_bytes _ => in_bytes
  | _ => 0

/-- The total number of compressed bytes the decompressor has consumed in the
calls of a trace. -/
def consumed (trace : List Event) : Nat := (trace.map Event.consumed).sum

/-- The buffer a call passes to `esp_ota_write`; nothing for any other call. -/
def Event.written : Event → List Byte
  | .esp_ota_write data _ => data
  | _ => []

/-- The buffers passed to `esp_ota_write` in the calls of a trace,
concatenated in call order. -/
def written : List Event → List Byte
  | [] => []
  | e :: trace => e.written ++ written trace

/-- The lengths of the buffers passed to `esp_ota_write` in the calls of a
trace, in call order. -/
def write_lengths : List Event → List Nat
  | [] => []
  | Event.esp_ota_write data _ :: trace => data.length :: write_lengths trace
  | _ :: trace => write_lengths trace

/-- The payloads of a sequence of data frames, concatenated. -/
def payloads : List Msg → List Byte
  | [] => []
  | m :: ms => m.params_bytes.getD [] ++ payloads ms

/-- A data frame that `handle_in_bin_data` accepts from the source `src`. -/
def Msg.accepted (JADE_OTA_BUF_SIZE src : Nat) (m : Msg) : Prop :=
  m.method = "ota_data" ∧ m.source = src ∧
  ∃ bytes, m.params_bytes = some bytes ∧ 0 < bytes.length ∧ bytes.length ≤ JADE_OTA_BUF_SIZE

/-- The calls that the entry of `ota_process` and its chunk loop make. -/
def Event.loop_event : Event → Bool
  | .reply_to_message_ok => true
  | .display_message _ => true
  | .get_in_message _ => true
  | .tinfl_decompress _ _ _ _ _ _ => true
  | .esp_ota_get_partition_description _ => true
  | .esp_efuse_check_secure_version _ _ => true
  | .esp_ota_get_next_update_partition _ => true
  | .make_ota_versions_activity => true
  | .gui_activity_wait_event _ _ => true
  | .display_progress_bar_activity => true
  | .esp_ota_begin _ _ => true
  | .ota_init _ => true
  | .esp_ota_write _ _ => true
  | .update_progress_bar _ _ => true
  | .send_ok _ => true
  | _ => false

/-- Up to the end of the chunk loop only calls of the loop have been made, and
nothing is written to the partition while `prevalidated` is false. -/
def PhaseInv {σ : Type} (s : State σ) : Prop :=
  (s.pc.in_loop = true ∨ s.pc = .upload_complete → ∀ e ∈ s.trace, e.loop_event = true) ∧
  (s.prevalidated = false → ∀ e ∈ s.trace, e.is_esp_ota_write = false)

/-- The invariant behind the failures of `ota_init`.  Before `cleanup` no
anti-rollback check has failed, no confirmation has been declined and no
`ota_init` has failed; a failed anti-rollback check and a declined
confirmation are followed by the matching return of `ota_init`; and once
`ota_init` has returned a failure `res`, the status is `res`, `prevalidated`
is false, the run is at `cleanup` or has returned, nothing was written and no
`esp_ota_end` was called, `esp_ota_begin` was called only if `res` is
`ERROR_OTA_INIT`, and no error screen was shown if `res` is
`ERROR_USER_DECLINED`. -/
def InitFailInv {σ : Type} (env : Env σ) (s : State σ) : Prop :=
  (s.pc.late = false →
    (∀ v, Event.esp_efuse_check_secure_version v false ∉ s.trace) ∧
    (∀ ret ev, Event.gui_activity_wait_event ret ev ∈ s.trace →
      ret = true ∧ ev = env.BTN_ACCEPT_OTA) ∧
    (∀ res, Event.ota_init res ∈ s.trace → res = .SUCCESS)) ∧
  (∀ v, Event.esp_efuse_check_secure_version v false ∈ s.trace →
    Event.ota_init .ERROR_NODOWNGRADE ∈ s.trace) ∧
  (∀ ret ev, Event.gui_activity_wait_event ret ev ∈ s.trace →
    (ret = false ∨ ev ≠ env.BTN_ACCEPT_OTA) →
    Event.ota_init .ERROR_USER_DECLINED ∈ s.trace) ∧
  (∀ res, Event.ota_init res ∈ s.trace → res ≠ .SUCCESS →
    s.ota_return_status = res ∧ s.prevalidated = false ∧
    (s.pc = .cleanup ∨ s.pc = .returned) ∧
    (∀ e ∈ s.trace, e.is_esp_ota_write = false ∧ e.is_esp_ota_end = false) ∧
    (res ≠ .ERROR_OTA_INIT → ∀ e ∈ s.trace, e.is_esp_ota_begin = false) ∧
    (res = .ERROR_USER_DECLINED → ∀ e ∈ s.trace, e.is_await_error_activity = false))

/-! ## Example collaborators -/

/-- A run of `n` zero bytes. -/
def zeros (n : Nat) : List Byte := List.replicate n 0

/-- A decompressor for examples: every call consumes one byte of input, fills
the output space offered with zero bytes and reports
`TINFL_STATUS_HAS_MORE_OUTPUT`. -/
def fill_decompress : Unit → List Byte → Nat → Nat → Nat → TinflResult Unit :=
  fun _ _ _ out_bytes _ =>
    { status := TINFL_STATUS_HAS_MORE_OUTPUT, in_bytes := 1,
      out := zeros out_bytes, decomp := () }

/-- Collaborators for examples in which every call succeeds and the user
accepts: frames of up to 4096 bytes, the accept button is event 1, the running
partition is 0 and the next update partition is 1. -/
def example_env : Env Unit :=
  { JADE_OTA_BUF_SIZE := 4096
    BTN_ACCEPT_OTA := 1
    CONFIG_DEBUG_UNATTENDED_CI := false
    tinfl_init := ()
    tinfl_decompress := fill_decompress
    esp_ota_get_running_partition := 0
    esp_ota_get_partition_description := ESP_OK
    new_app_info := fun _ => { version := [0], secure_version := 0 }
    esp_efuse_check_secure_version := fun _ => true
    esp_ota_get_next_update_partition := some 1
    gui_activity_wait_event := (true, 1)
    esp_ota_begin := ESP_OK
    esp_ota_write := fun _ _ => ESP_OK
    esp_ota_end := ESP_OK
    esp_ota_set_boot_partition := ESP_OK }

/-- The example collaborators on a device whose anti-rollback counter is above
the secure version of every image. -/
def downgrade_env : Env Unit :=
  { example_env with esp_efuse_check_secure_version := fun _ => false }

/-- The example collaborators with a user who presses another button (event 2). -/
def decline_env : Env Unit :=
  { example_env with gui_activity_wait_event := (true, 2) }

/-- An update request for 40000 bytes of firmware in 2 compressed bytes,
followed by a premature `ota_complete`. -/
def premature_request : Request :=
  { fwsize := some 40000, cmpsize := some 2, source := 0,
    inbox := [{ source := 0, id := "1", method := "ota_complete", params_bytes := none }] }

/-- An update request for 40000 bytes of firmware in 2 compressed bytes,
followed by one data frame that carries both bytes. -/
def example_request : Request :=
  { fwsize := some 40000, cmpsize := some 2, source := 0,
    inbox := [{ source := 0, id := "1", method := "ota_data", params_bytes := some [0, 0] }] }

/-- The accounting of the compressed bytes: `compressedsize` fits a 32-bit
word, `remaining_compressed` plus the bytes consumed so far is
`compressedsize`, and inside an iteration of the chunk loop the unconsumed
`length` of the chunk is at most `remaining_compressed`. -/
def CompInv {σ : Type} (s : State σ) : Prop :=
  s.compressedsize < WORD ∧
  s.remaining_compressed + consumed s.trace = s.compressedsize ∧
  (s.pc = .inner_loop ∨ s.pc = .chunk_end → s.length ≤ s.remaining_compressed)

/-! ## The decompressor on a compressed stream of an image -/

/-- The flags `ota_process` passes to `tinfl_decompress` (ota.c:279-281) when
it offers `n` bytes from offset `i` of a compressed stream of `clen` bytes. -/
def stream_flags (clen i n : Nat) : Nat :=
  if i + n < clen then TINFL_FLAG_PARSE_ZLIB_HEADER + TINFL_FLAG_HAS_MORE_INPUT
  else TINFL_FLAG_PARSE_ZLIB_HEADER

/-- The decompressor reproduces the image `img` incrementally from its
compressed stream `cmp`.  `R d i o` relates a state `d` of the decompressor to
the numbers of bytes consumed and produced so far.  A call that offers the
next `n` bytes of the stream and `k` bytes of output space consumes at most
`n` bytes, stores the next bytes of the image, at most `k`, and returns, as
miniz documents it, `TINFL_STATUS_DONE` exactly when it has consumed the last
byte of the stream, by when the image is complete, `TINFL_STATUS_NEEDS_MORE_INPUT`
only when it has consumed all the input offered and `TINFL_STATUS_HAS_MORE_OUTPUT`
only when it has filled the output space. -/
structure Faithful {σ : Type} (env : Env σ) (R : σ → Nat → Nat → Prop)
    (img cmp : List Byte) : Prop where
  stream : 0 < cmp.length
  init : R env.tinfl_init 0 0
  call : ∀ d i o n k, R d i o → 0 < n → 0 < k → i + n ≤ cmp.length → o ≤ img.length →
    ∀ r, r = env.tinfl_decompress d ((cmp.drop i).take n) n k (stream_flags cmp.length i n) →
      r.in_bytes ≤ n ∧ r.out.length ≤ k ∧ o + r.out.length ≤ img.length ∧
      r.out = (img.drop o).take r.out.length ∧
      R r.decomp (i + r.in_bytes) (o + r.out.length) ∧
      (r.status = TINFL_STATUS_DONE ∨ r.status = TINFL_STATUS_NEEDS_MORE_INPUT ∨
        r.status = TINFL_STATUS_HAS_MORE_OUTPUT) ∧
      (r.status = TINFL_STATUS_DONE ↔ i + r.in_bytes = cmp.length) ∧
      (r.status = TINFL_STATUS_DONE → o + r.out.length = img.length) ∧
      (r.status = TINFL_STATUS_NEEDS_MORE_INPUT → r.in_bytes = n) ∧
      (r.status = TINFL_STATUS_HAS_MORE_OUTPUT → r.out.length = k)

/-! ## The invariants of a session with a faithful decompressor -/

/-- The chunk loop in step with the stream: `i` bytes of `cmp` have been
consumed, `k` full buffers have been written, the frames `fs` of the stream
are still to come, and the bytes written followed by the content of the output
buffer are the first bytes of the image. -/
structure SyncAt {σ : Type} (env : Env σ) (R : σ → Nat → Nat → Prop) (img cmp : List Byte)
    (src : Nat) (rest : List Msg) (i k : Nat) (fs : List Msg) (s : State σ) : Prop where
  hpc : s.pc = .chunk_loop ∨ s.pc = .inner_loop ∨ s.pc = .chunk_end
  hsrc : s.source = src
  hfw : s.firmwaresize = img.length
  hend : s.ota_end_called = false
  hcodec : R s.decomp i (k * UNCOMPRESSED_BUF_SIZE + s.uncompressed.length)
  hmore : i < cmp.length
  hrc : s.remaining_compressed = cmp.length - i
  hout : k * UNCOMPRESSED_BUF_SIZE + s.uncompressed.length ≤ img.length
  hleft : k * UNCOMPRESSED_BUF_SIZE < img.length
  hroom : s.uncompressed.length < UNCOMPRESSED_BUF_SIZE
  hrem : s.remaining = img.length - k * UNCOMPRESSED_BUF_SIZE
  hbytes : written s.trace ++ s.uncompressed =
    img.take (k * UNCOMPRESSED_BUF_SIZE + s.uncompressed.length)
  hlens : write_lengths s.trace = List.replicate k UNCOMPRESSED_BUF_SIZE
  hnw : s.n_writes = k
  hval : s.prevalidated = true ↔ 0 < k
  hstatus : s.status = TINFL_STATUS_NEEDS_MORE_INPUT ∨ s.status = TINFL_STATUS_HAS_MORE_OUTPUT
  hinbox : s.inbox = fs ++ rest
  hframes : ∀ m ∈ fs, m.accepted env.JADE_OTA_BUF_SIZE src
  hhead : s.pc = .chunk_loop → payloads fs = cmp.drop i
  hchunk : s.pc ≠ .chunk_loop →
    s.data_buf.length = s.length ∧ s.data_buf ++ payloads fs = cmp.drop i
  hexit : s.pc = .chunk_end → s.length = 0

/-- The state of the inner loop between a call of `tinfl_decompress` and the
flush that may follow it (ota.c:290): as `SyncAt`, but the output buffer may be
full and the decompressor may be done. -/
structure Fed {σ : Type} (env : Env σ) (R : σ → Nat → Nat → Prop) (img cmp : List Byte)
    (src : Nat) (rest : List Msg) (i k : Nat) (fs : List Msg) (t : State σ) : Prop where
  hpc : t.pc = .inner_loop
  hsrc : t.source = src
  hfw : t.firmwaresize = img.length
  hend : t.ota_end_called = false
  hcodec : R t.decomp i (k * UNCOMPRESSED_BUF_SIZE + t.uncompressed.length)
  hmore : i ≤ cmp.length
  hrc : t.remaining_compressed = cmp.length - i
  hout : k * UNCOMPRESSED_BUF_SIZE + t.uncompressed.length ≤ img.length
  hleft : k * UNCOMPRESSED_BUF_SIZE < img.length
  hroom : t.uncompressed.length ≤ UNCOMPRESSED_BUF_SIZE
  hrem : t.remaining = img.length - k * UNCOMPRESSED_BUF_SIZE
  hbytes : written t.trace ++ t.uncompressed =
    img.take (k * UNCOMPRESSED_BUF_SIZE + t.uncompressed.length)
  hlens : write_lengths t.trace = List.replicate k UNCOMPRESSED_BUF_SIZE
  hnw : t.n_writes = k
  hstatus : t.status = TINFL_STATUS_DONE ∨ t.status = TINFL_STATUS_NEEDS_MORE_INPUT ∨
    t.status = TINFL_STATUS_HAS_MORE_OUTPUT
  hdone : t.status = TINFL_STATUS_DONE ↔ i = cmp.length
  hfull : t.status = TINFL_STATUS_DONE →
    k * UNCOMPRESSED_BUF_SIZE + t.uncompressed.length = img.length
  hinbox : t.inbox = fs ++ rest
  hframes : ∀ m ∈ fs, m.accepted env.JADE_OTA_BUF_SIZE src
  hchunk : t.data_buf.length = t.length ∧ t.data_buf ++ payloads fs = cmp.drop i

/-- The chunk loop is in step with the stream. -/
def Sync {σ : Type} (env : Env σ) (R : σ → Nat → Nat → Prop) (img cmp : List Byte)
    (src : Nat) (rest : List Msg) (s : State σ) : Prop :=
  ∃ i k fs, SyncAt env R img cmp src rest i k fs s

/-- The image has been written: the buffers written are the image, `remaining`
is 0, all writes but the last were of full buffers, and a last write of less
than a full buffer directly follows a call of `tinfl_decompress` that returned
`TINFL_STATUS_DONE`. -/
structure Written {σ : Type} (img : List Byte) (s : State σ) : Prop where
  hbytes : written s.trace = img
  hrem : s.remaining = 0
  hlast : ∃ k pre d post, s.trace = pre ++ Event.esp_ota_write d ESP_OK :: post ∧
    write_lengths pre = List.replicate k UNCOMPRESSED_BUF_SIZE ∧ write_lengths post = [] ∧
    k * UNCOMPRESSED_BUF_SIZE + d.length = img.length ∧ 0 < d.length ∧
    d.length ≤ UNCOMPRESSED_BUF_SIZE ∧
    (d.length < UNCOMPRESSED_BUF_SIZE → ∃ pre1 a b c e f,
      pre = pre1 ++ [Event.tinfl_decompress a b c TINFL_STATUS_DONE e f])

/-- The session can no longer finalize: `remaining` is not 0 and stays so,
because the run has left the chunk loop or the decompressor is done with
the output buffer not written. -/
structure Dead {σ : Type} (s : State σ) : Prop where
  hrem : s.remaining ≠ 0
  hend : s.ota_end_called = false
  hloop : s.pc.after_loop = false →
    s.remaining_compressed = 0 ∧ s.status = TINFL_STATUS_DONE

/-- What can keep a session with a faithful decompressor from writing the
image: a validation that fails, on the first `UNCOMPRESSED_BUF_SIZE` bytes of
the image, which are the content of the buffer at the first flush; a write
that fails, the write number `j` (from 0) being the write of the bytes of the
image from offset `j * UNCOMPRESSED_BUF_SIZE` on, at most a buffer full; or an
image shorter than the output buffer, which is never validated. -/
def Obstacle {σ : Type} (env : Env σ) (img : List Byte) : Prop :=
  (ota_init env (img.take UNCOMPRESSED_BUF_SIZE) img.length).res ≠ .SUCCESS ∨
  (∃ j, j * UNCOMPRESSED_BUF_SIZE < img.length ∧
    env.esp_ota_write j ((img.drop (j * UNCOMPRESSED_BUF_SIZE)).take UNCOMPRESSED_BUF_SIZE)
      ≠ ESP_OK) ∨
  img.length < UNCOMPRESSED_BUF_SIZE

/-- The weight of a program point of the chunk loop in `budget`. -/
def Label.weight : Label → Nat
  | .inner_loop => 2
  | .chunk_end => 1
  | _ => 0

/-- A bound on the number of transitions the chunk loop still makes before
the image is written: it decreases with every frame received, every byte
consumed and every byte produced. -/
def budget {σ : Type} (s : State σ) : Nat :=
  3 * s.inbox.length + s.pc.weight + s.remaining_compressed +
    (s.remaining - s.uncompressed.length)

/-- The state of a session with a faithful decompressor: the image is
written, or the chunk loop is in step with the stream and within `f`
transitions of the end, or the session is dead for one of the reasons
of `Obstacle`. -/
def Track {σ : Type} (env : Env σ) (R : σ → Nat → Nat → Prop) (img cmp : List Byte)
    (src : Nat) (rest : List Msg) (f : Nat) (s : State σ) : Prop :=
  Written img s ∨ (Sync env R img cmp src rest s ∧ budget s ≤ f) ∨
    (Dead s ∧ Obstacle env img)

/-! ## An example decompressor that knows the image -/

/-- A decompressor for examples, for a stream of `clen` bytes whose content it
ignores.  Its state is the numbers of bytes consumed and produced.  Every call
stores as much of the image as the output space takes; while the image is not
complete it holds back the last byte of the stream and reports
`TINFL_STATUS_HAS_MORE_OUTPUT`, afterwards it consumes all the input offered
and reports `TINFL_STATUS_DONE` with the last byte of the stream. -/
def oracle_decompress (img : List Byte) (clen : Nat) :
    Nat × Nat → List Byte → Nat → Nat → Nat → TinflResult (Nat × Nat) :=
  fun d _ n k _ =>
    if d.2 + min k (img.length - d.2) < img.length then
      { status := TINFL_STATUS_HAS_MORE_OUTPUT
        in_bytes := min n (clen - 1 - d.1)
        out := (img.drop d.2).take (min k (img.length - d.2))
        decomp := (d.1 + min n (clen - 1 - d.1), d.2 + min k (img.length - d.2)) }
    else
      { status := if d.1 + n < clen then TINFL_STATUS_NEEDS_MORE_INPUT else TINFL_STATUS_DONE
        in_bytes := n
        out := (img.drop d.2).take (min k (img.length - d.2))
        decomp := (d.1 + n, d.2 + min k (img.length - d.2)) }

/-- The example collaborators with the decompressor `oracle_decompress`. -/
def oracle_env (img : List Byte) (clen : Nat) : Env (Nat × Nat) :=
  { JADE_OTA_BUF_SIZE := 4096
    BTN_ACCEPT_OTA := 1
    CONFIG_DEBUG_UNATTENDED_CI := false
    tinfl_init := (0, 0)
    tinfl_decompress := oracle_decompress img clen
    esp_ota_get_running_partition := 0
    esp_ota_get_partition_description := ESP_OK
    new_app_info := fun _ => { version := [0], secure_version := 0 }
    esp_efuse_check_secure_version := fun _ => true
    esp_ota_get_next_update_partition := some 1
    gui_activity_wait_event := (true, 1)
    esp_ota_begin := ESP_OK
    esp_ota_write := fun _ _ => ESP_OK
    esp_ota_end := ESP_OK
    esp_ota_set_boot_partition := ESP_OK }

/-- The relation between a state of `oracle_decompress` and the bytes consumed
and produced. -/
def oracle_rel : Nat × Nat → Nat → Nat → Prop :=
  fun d i o => d = (i, o)

/-- A data frame from source 0 with a payload of `n` zero bytes. -/
def zero_frame (n : Nat) : Msg :=
  { source := 0, id := "1", method := "ota_data", params_bytes := some (zeros n) }

/-- The message `ota_complete` that ends a session. -/
def complete_msg : Msg :=
  { source := 0, id := "2", method := "ota_complete", params_bytes := none }

/-- An example image: 40000 zero bytes. -/
def example_image : List Byte := zeros 40000

/-- The data frames of an example upload: a stream of 5000 bytes split into a
full frame of 4096 bytes and a frame of 904 bytes. -/
def example_frames : List Msg := [zero_frame 4096, zero_frame 904]

/-- The compressed stream that `example_frames` carry. -/
def example_stream : List Byte := payloads example_frames

/-- The image of scenario A: 100000 zero bytes. -/
def scenario_image : List Byte := zeros 100000

/-- The data frames of scenario A: a stream of 40000 bytes split into ten
frames of 4000 bytes. -/
def scenario_frames : List Msg := List.replicate 10 (zero_frame 4000)

/-- The compressed stream that `scenario_frames` carry. -/
def scenario_stream : List Byte := payloads scenario_frames

/-! ## Validation, finalize and cleanup -/

/-- The return of `ota_init` with `SUCCESS`. -/
def Event.is_init_success : Event → Bool
  | .ota_init .SUCCESS => true
  | _ => false

/-- The call `esp_ota_set_boot_partition`. -/
def Event.is_set_boot : Event → Bool
  | .esp_ota_set_boot_partition _ => true
  | _ => false

/-- The calls that close or install the partition written: `esp_ota_end` and
`esp_ota_set_boot_partition`. -/
def Event.closes (e : Event) : Bool := e.is_esp_ota_end || e.is_set_boot

/-- The failure reports of `cleanup` (ota.c:392-403): the error reply tagged
with the id of the data frame and the error screen. -/
def Event.is_failure_report : Event → Bool
  | .reject_message_with_id _ _ _ _ => true
  | .await_error_activity _ => true
  | _ => false

/-- In the trace `tr` every call that satisfies `p` comes after a call that
satisfies `q`. -/
def Preceded (p q : Event → Bool) (tr : List Event) : Prop :=
  ∀ a x b, tr = a ++ x :: b → p x = true → ∃ y ∈ a, q y = true

/-- The invariant behind "no install without validation", for a request whose
sizes fit a 32-bit word: while `prevalidated` is false `remaining` is not 0;
the finalize of ota.c:344 is reached only with `prevalidated`, and only after
the chunk loop; the status after the loop is `SUCCESS` only after the
finalize; and an assertion fails only in a validated session. -/
structure InstallInv {σ : Type} (s : State σ) : Prop where
  hrem : s.prevalidated = false → s.remaining ≠ 0
  hfin : s.ota_end_called = true → s.prevalidated = true
  hloop : s.pc.in_loop = true ∨ s.pc = .upload_complete → s.ota_end_called = false
  hok : s.pc.after_loop = true → s.ota_return_status = .SUCCESS → s.ota_end_called = true
  habort : s.pc = .aborted → s.prevalidated = true

/-- The invariant behind the balance of the partition handle: `prevalidated`
says that `ota_init` has returned `SUCCESS`, on a full output buffer, and that
`esp_ota_begin` has succeeded; `esp_ota_end` has been called once if the
finalize was reached or a validated session has ended, and not at all
otherwise; `esp_ota_set_boot_partition` is called only after the finalize;
`esp_ota_end` and `esp_ota_set_boot_partition` come after the `SUCCESS` of
`ota_init`; the failure reports are made only where the function ends, and in
a validated session that ends without finalize they follow the `esp_ota_end`
that aborts the partition write. -/
structure HandleInv {σ : Type} (env : Env σ) (s : State σ) : Prop where
  hinit : s.prevalidated = true → ∃ buf, buf.length = UNCOMPRESSED_BUF_SIZE ∧
    (ota_init env buf s.firmwaresize).res = .SUCCESS ∧ Event.ota_init .SUCCESS ∈ s.trace
  hbegin : s.prevalidated = true ↔ ∃ f, Event.esp_ota_begin f ESP_OK ∈ s.trace
  hcount : s.trace.countP Event.is_esp_ota_end =
    if s.ota_end_called = true ∨ (s.pc.ended = true ∧ s.prevalidated = true) then 1 else 0
  hboot : ∀ e ∈ s.trace, e.is_set_boot = true → s.ota_end_called = true
  hpre : Preceded Event.closes Event.is_init_success s.trace
  hreport : s.pc.ended = false → ∀ e ∈ s.trace, e.is_failure_report = false
  hshape : s.pc.ended = true → s.prevalidated = true → s.ota_end_called = false →
    ∃ pre err post, s.trace = pre ++ Event.esp_ota_end err :: post ∧
      (∀ e ∈ pre, e.is_failure_report = false ∧ e.is_esp_ota_end = false) ∧
      (∀ e ∈ post, e.is_failure_report = true)

/-- The invariant behind "never written before validation": every
`esp_ota_write` comes after the `SUCCESS` of `ota_init`, which `prevalidated`
records. -/
def WriteInv {σ : Type} (s : State σ) : Prop :=
  Preceded Event.is_esp_ota_write Event.is_init_success s.trace ∧
  (s.prevalidated = true → ∃ y ∈ s.trace, y.is_init_success = true)

/-- The status of the session up to the end of the chunk loop: it is `SUCCESS`
(ota.c:252) as long as no `goto` has left the loop. -/
def StatusInv {σ : Type} (s : State σ) : Prop :=
  s.pc.in_loop = true ∨ s.pc = .upload_complete → s.ota_return_status = .SUCCESS

/-- What the trace says about the output space of a call: a call of
`tinfl_decompress` was offered at least 1 and at most `UNCOMPRESSED_BUF_SIZE`
bytes of output space and stored no more than offered. -/
def Event.space_ok : Event → Prop
  | .tinfl_decompress _ out_offered _ _ _ out_bytes =>
    1 ≤ out_offered ∧ out_offered ≤ UNCOMPRESSED_BUF_SIZE ∧ out_bytes ≤ out_offered
  | _ => True

/-- The invariant of the output buffer: the cursor never passes the end of the
buffer, it is below the end wherever the chunk loop rests, and every call of
`tinfl_decompress` so far was offered space in the buffer. -/
def BufInv {σ : Type} (s : State σ) : Prop :=
  s.uncompressed.length ≤ UNCOMPRESSED_BUF_SIZE ∧
  (s.pc.in_loop = true → s.uncompressed.length < UNCOMPRESSED_BUF_SIZE) ∧
  (∀ e ∈ s.trace, e.space_ok)

/-- The condition of the flush (ota.c:291) on the state after a call of
`tinfl_decompress`. -/
def flush_due {σ : Type} (s : State σ) : Prop :=
  (s.prevalidated = true ∧ s.status ≤ TINFL_STATUS_DONE) ∨
    s.uncompressed.length = UNCOMPRESSED_BUF_SIZE

/-- The condition of the decompression error (ota.c:323-324). -/
def decompress_failed {σ : Type} (s : State σ) : Prop :=
  (s.status ≠ TINFL_STATUS_DONE ∧ s.remaining_compressed = 0)
    ∨ s.status < TINFL_STATUS_DONE
    ∨ (s.status = TINFL_STATUS_DONE ∧ s.remaining_compressed > 0)

/-! ## Further example collaborators -/

/-- `TINFL_STATUS_FAILED` of miniz. -/
def TINFL_STATUS_FAILED : Int := -1

/-- A decompressor for examples whose state counts its calls: the first call
consumes one byte, fills the output space offered with zero bytes and reports
`TINFL_STATUS_HAS_MORE_OUTPUT`; every later call consumes all the input
offered, stores three zero bytes and reports the status `st`. -/
def short_decompress (st : Int) : Nat → List Byte → Nat → Nat → Nat → TinflResult Nat :=
  fun d _ n k _ =>
    if d = 0 then
      { status := TINFL_STATUS_HAS_MORE_OUTPUT, in_bytes := 1, out := zeros k, decomp := 1 }
    else
      { status := st, in_bytes := n, out := [0, 0, 0], decomp := d + 1 }

/-- The example collaborators with the decompressor `short_decompress st`. -/
def short_env (st : Int) : Env Nat :=
  { JADE_OTA_BUF_SIZE := 4096
    BTN_ACCEPT_OTA := 1
    CONFIG_DEBUG_UNATTENDED_CI := false
    tinfl_init := 0
    tinfl_decompress := short_decompress st
    esp_ota_get_running_partition := 0
    esp_ota_get_partition_description := ESP_OK
    new_app_info := fun _ => { version := [0], secure_version := 0 }
    esp_efuse_check_secure_version := fun _ => true
    esp_ota_get_next_update_partition := some 1
    gui_activity_wait_event := (true, 1)
    esp_ota_begin := ESP_OK
    esp_ota_write := fun _ _ => ESP_OK
    esp_ota_end := ESP_OK
    esp_ota_set_boot_partition := ESP_OK }

/-- An update request for 40000 bytes of firmware in 2 compressed bytes,
followed by one data frame that carries both bytes and by `ota_complete`. -/
def short_request : Request :=
  { fwsize := some 40000, cmpsize := some 2, source := 0,
    inbox := [{ source := 0, id := "1", method := "ota_data", params_bytes := some [0, 0] },
      complete_msg] }

/-- A data frame without payload. -/
def empty_frame : Msg :=
  { source := 0, id := "1", method := "ota_data", params_bytes := some [] }

/-- An update request whose first data frame has no payload. -/
def empty_frame_request : Request :=
  { fwsize := some 40000, cmpsize := some 2, source := 0, inbox := [empty_frame] }

/-- An image that fills the output buffer exactly once: 32768 zero bytes. -/
def full_buffer_image : List Byte := zeros 32768

/-- A data frame from source 0 with the id `id` and a payload of one zero
byte. -/
def byte_frame (id : String) : Msg :=
  { source := 0, id := id, method := "ota_data", params_bytes := some [0] }

/-- An update request for `full_buffer_image` in a stream of 2 bytes, split
into two data frames of one byte with the ids "1" and "2". -/
def full_buffer_request : Request :=
  { fwsize := some 32768, cmpsize := some 2, source := 0,
    inbox := [byte_frame "1", byte_frame "2"] }

/-- An image shorter than the output buffer: three zero bytes. -/
def tiny_image : List Byte := [0, 0, 0]

/-- An update request for `tiny_image` in a stream of one byte, sent in one
data frame and followed by `ota_complete`. -/
def tiny_request : Request :=
  { fwsize := some 3, cmpsize := some 1, source := 0,
    inbox := [byte_frame "1", complete_msg] }

/-- An update request for `full_buffer_image` in a stream of one byte, sent in
one data frame and followed by `ota_complete`. -/
def single_frame_request : Request :=
  { fwsize := some 32768, cmpsize := some 1, source := 0,
    inbox := [byte_frame "1", complete_msg] }

/-- The collaborators `short_env st` on a device whose first write to the
partition succeeds and whose later writes fail. -/
def failing_write_env (st : Int) : Env Nat :=
  { short_env st with esp_ota_write := fun j _ => if j = 0 then ESP_OK else ESP_FAIL }

theorem run_succ {σ : Type} (env : Env σ) (n : Nat) (s : State σ) :
    run env (n + 1) s = step env (run env n s) := by
  induction n generalizing s with
  | zero => rfl
  | succ n ih =>
    show run env (n + 1) (step env s) = _
    rw [ih]
    rfl

theorem run_add {σ : Type} (env : Env σ) (m n : Nat) (s : State σ) :
    run env (m + n) s = run env n (run env m s) := by
  induction m generalizing s with
  | zero => simp [run]
  | succ m ih =>
    rw [Nat.succ_add]
    show run env (m + n) (step env s) = run env n (run env m (step env s))
    exact ih _

/-- A property that holds at the start and that every transition preserves
holds after any number of transitions. -/
theorem run_invariant {σ : Type} (env : Env σ) (P : State σ → Prop)
    (hstep : ∀ s, P s → P (step env s)) (s : State σ) (h0 : P s) (n : Nat) :
    P (run env n s) := by
  induction n with
  | zero => exact h0
  | succ n ih =>
    rw [run_succ]
    exact hstep _ ih


/-! ## What `decompress`, `validate` and `flush` leave unchanged -/

@[simp] theorem decompress_pc {σ : Type} (env : Env σ) (s : State σ) :
    (decompress env s).pc = s.pc := rfl

@[simp] theorem decompress_source {σ : Type} (env : Env σ) (s : State σ) :
    (decompress env s).source = s.source := rfl

@[simp] theorem decompress_uploading {σ : Type} (env : Env σ) (s : State σ) :
    (decompress env s).uploading = s.uploading := rfl

@[simp] theorem decompress_ota_return_status {σ : Type} (env : Env σ) (s : State σ) :
    (decompress env s).ota_return_status = s.ota_return_status := rfl

@[simp] theorem decompress_prevalidated {σ : Type} (env : Env σ) (s : State σ) :
    (decompress env s).prevalidated = s.prevalidated := rfl

@[simp] theorem decompress_ota_end_called {σ : Type} (env : Env σ) (s : State σ) :
    (decompress env s).ota_end_called = s.ota_end_called := rfl

@[simp] theorem decompress_firmwaresize {σ : Type} (env : Env σ) (s : State σ) :
    (decompress env s).firmwaresize = s.firmwaresize := rfl

@[simp] theorem decompress_compressedsize {σ : Type} (env : Env σ) (s : State σ) :
    (decompress env s).compressedsize = s.compressedsize := rfl

@[simp] theorem decompress_update_partition {σ : Type} (env : Env σ) (s : State σ) :
    (decompress env s).update_partition = s.update_partition := rfl

@[simp] theorem decompress_remaining {σ : Type} (env : Env σ) (s : State σ) :
    (decompress env s).remaining = s.remaining := rfl

@[simp] theorem decompress_binctx {σ : Type} (env : Env σ) (s : State σ) :
    (decompress env s).binctx = s.binctx := rfl

@[simp] theorem decompress_n_writes {σ : Type} (env : Env σ) (s : State σ) :
    (decompress env s).n_writes = s.n_writes := rfl

@[simp] theorem decompress_inbox {σ : Type} (env : Env σ) (s : State σ) :
    (decompress env s).inbox = s.inbox := rfl

@[simp] theorem validate_source {σ : Type} (env : Env σ) (s : State σ) :
    (validate env s).source = s.source := by
  unfold validate; simp only []; split_ifs <;> rfl

@[simp] theorem validate_uploading {σ : Type} (env : Env σ) (s : State σ) :
    (validate env s).uploading = s.uploading := by
  unfold validate; simp only []; split_ifs <;> rfl

@[simp] theorem validate_ota_end_called {σ : Type} (env : Env σ) (s : State σ) :
    (validate env s).ota_end_called = s.ota_end_called := by
  unfold validate; simp only []; split_ifs <;> rfl

@[simp] theorem validate_firmwaresize {σ : Type} (env : Env σ) (s : State σ) :
    (validate env s).firmwaresize = s.firmwaresize := by
  unfold validate; simp only []; split_ifs <;> rfl

@[simp] theorem validate_compressedsize {σ : Type} (env : Env σ) (s : State σ) :
    (validate env s).compressedsize = s.compressedsize := by
  unfold validate; simp only []; split_ifs <;> rfl

@[simp] theorem validate_decomp {σ : Type} (env : Env σ) (s : State σ) :
    (validate env s).decomp = s.decomp := by
  unfold validate; simp only []; split_ifs <;> rfl

@[simp] theorem validate_remaining_compressed {σ : Type} (env : Env σ) (s : State σ) :
    (validate env s).remaining_compressed = s.remaining_compressed := by
  unfold validate; simp only []; split_ifs <;> rfl

@[simp] theorem validate_remaining {σ : Type} (env : Env σ) (s : State σ) :
    (validate env s).remaining = s.remaining := by
  unfold validate; simp only []; split_ifs <;> rfl

@[simp] theorem validate_status {σ : Type} (env : Env σ) (s : State σ) :
    (validate env s).status = s.status := by
  unfold validate; simp only []; split_ifs <;> rfl

@[simp] theorem validate_uncompressed {σ : Type} (env : Env σ) (s : State σ) :
    (validate env s).uncompressed = s.uncompressed := by
  unfold validate; simp only []; split_ifs <;> rfl

@[simp] theorem validate_binctx {σ : Type} (env : Env σ) (s : State σ) :
    (validate env s).binctx = s.binctx := by
  unfold validate; simp only []; split_ifs <;> rfl

@[simp] theorem validate_length {σ : Type} (env : Env σ) (s : State σ) :
    (validate env s).length = s.length := by
  unfold validate; simp only []; split_ifs <;> rfl

@[simp] theorem validate_data_buf {σ : Type} (env : Env σ) (s : State σ) :
    (validate env s).data_buf = s.data_buf := by
  unfold validate; simp only []; split_ifs <;> rfl

@[simp] theorem validate_n_writes {σ : Type} (env : Env σ) (s : State σ) :
    (validate env s).n_writes = s.n_writes := by
  unfold validate; simp only []; split_ifs <;> rfl

@[simp] theorem validate_inbox {σ : Type} (env : Env σ) (s : State σ) :
    (validate env s).inbox = s.inbox := by
  unfold validate; simp only []; split_ifs <;> rfl

@[simp] theorem flush_source {σ : Type} (env : Env σ) (s : State σ) :
    (flush env s).source = s.source := by
  unfold flush; simp only []; split_ifs <;> rfl

@[simp] theorem flush_uploading {σ : Type} (env : Env σ) (s : State σ) :
    (flush env s).uploading = s.uploading := by
  unfold flush; simp only []; split_ifs <;> rfl

@[simp] theorem flush_prevalidated {σ : Type} (env : Env σ) (s : State σ) :
    (flush env s).prevalidated = s.prevalidated := by
  unfold flush; simp only []; split_ifs <;> rfl

@[simp] theorem flush_ota_end_called {σ : Type} (env : Env σ) (s : State σ) :
    (flush env s).ota_end_called = s.ota_end_called := by
  unfold flush; simp only []; split_ifs <;> rfl

@[simp] theorem flush_firmwaresize {σ : Type} (env : Env σ) (s : State σ) :
    (flush env s).firmwaresize = s.firmwaresize := by
  unfold flush; simp only []; split_ifs <;> rfl

@[simp] theorem flush_compressedsize {σ : Type} (env : Env σ) (s : State σ) :
    (flush env s).compressedsize = s.compressedsize := by
  unfold flush; simp only []; split_ifs <;> rfl

@[simp] theorem flush_update_partition {σ : Type} (env : Env σ) (s : State σ) :
    (flush env s).update_partition = s.update_partition := by
  unfold flush; simp only []; split_ifs <;> rfl

@[simp] theorem flush_decomp {σ : Type} (env : Env σ) (s : State σ) :
    (flush env s).decomp = s.decomp := by
  unfold flush; simp only []; split_ifs <;> rfl

@[simp] theorem flush_remaining_compressed {σ : Type} (env : Env σ) (s : State σ) :
    (flush env s).remaining_compressed = s.remaining_compressed := by
  unfold flush; simp only []; split_ifs <;> rfl

@[simp] theorem flush_status {σ : Type} (env : Env σ) (s : State σ) :
    (flush env s).status = s.status := by
  unfold flush; simp only []; split_ifs <;> rfl

@[simp] theorem flush_binctx {σ : Type} (env : Env σ) (s : State σ) :
    (flush env s).binctx = s.binctx := by
  unfold flush; simp only []; split_ifs <;> rfl

@[simp] theorem flush_length {σ : Type} (env : Env σ) (s : State σ) :
    (flush env s).length = s.length := by
  unfold flush; simp only []; split_ifs <;> rfl

@[simp] theorem flush_data_buf {σ : Type} (env : Env σ) (s : State σ) :
    (flush env s).data_buf = s.data_buf := by
  unfold flush; simp only []; split_ifs <;> rfl

@[simp] theorem flush_inbox {σ : Type} (env : Env σ) (s : State σ) :
    (flush env s).inbox = s.inbox := by
  unfold flush; simp only []; split_ifs <;> rfl


@[simp] theorem validate_trace {σ : Type} (env : Env σ) (s : State σ) :
    (validate env s).trace = s.trace ++ (ota_init env s.uncompressed s.firmwaresize).calls ++
      [Event.ota_init (ota_init env s.uncompressed s.firmwaresize).res] := by
  unfold validate; simp only []; split_ifs <;> rfl

@[simp] theorem flush_trace {σ : Type} (env : Env σ) (s : State σ) :
    (flush env s).trace = s.trace ++
      [Event.esp_ota_write s.uncompressed (env.esp_ota_write s.n_writes s.uncompressed)] := by
  unfold flush; simp only []; split_ifs <;> rfl

@[simp] theorem flush_n_writes {σ : Type} (env : Env σ) (s : State σ) :
    (flush env s).n_writes = s.n_writes + 1 := by
  unfold flush; simp only []; split_ifs <;> rfl

theorem validate_ok {σ : Type} (env : Env σ) (s : State σ)
    (h : (ota_init env s.uncompressed s.firmwaresize).res = .SUCCESS) :
    (validate env s).prevalidated = true ∧ (validate env s).pc = s.pc ∧
    (validate env s).ota_return_status = s.ota_return_status := by
  unfold validate; simp [h]

theorem validate_fail {σ : Type} (env : Env σ) (s : State σ)
    (h : (ota_init env s.uncompressed s.firmwaresize).res ≠ .SUCCESS) :
    (validate env s).prevalidated = s.prevalidated ∧ (validate env s).pc = .cleanup ∧
    (validate env s).ota_return_status = (ota_init env s.uncompressed s.firmwaresize).res := by
  unfold validate; simp [h]

theorem flush_ok {σ : Type} (env : Env σ) (s : State σ)
    (h : env.esp_ota_write s.n_writes s.uncompressed = ESP_OK) :
    (flush env s).pc = s.pc ∧ (flush env s).ota_return_status = s.ota_return_status ∧
    (flush env s).remaining = sub32 s.remaining s.uncompressed.length ∧
    (flush env s).uncompressed = [] := by
  unfold flush; simp [h]

theorem flush_fail {σ : Type} (env : Env σ) (s : State σ)
    (h : env.esp_ota_write s.n_writes s.uncompressed ≠ ESP_OK) :
    (flush env s).pc = .cleanup ∧ (flush env s).ota_return_status = .ERROR_WRITE ∧
    (flush env s).remaining = s.remaining ∧
    (flush env s).uncompressed = s.uncompressed := by
  unfold flush; simp [h]

theorem flush_pc {σ : Type} (env : Env σ) (s : State σ) :
    ((flush env s).pc = s.pc ∧ (flush env s).ota_return_status = s.ota_return_status) ∨
    ((flush env s).pc = .cleanup ∧ (flush env s).ota_return_status = .ERROR_WRITE) := by
  by_cases h : env.esp_ota_write s.n_writes s.uncompressed = ESP_OK
  · left; exact ⟨(flush_ok env s h).1, (flush_ok env s h).2.1⟩
  · right; exact ⟨(flush_fail env s h).1, (flush_fail env s h).2.1⟩

theorem decompress_status {σ : Type} (env : Env σ) (s : State σ) :
    (decompress env s).status = (tinfl_call env s).status := rfl

theorem decompress_decomp {σ : Type} (env : Env σ) (s : State σ) :
    (decompress env s).decomp = (tinfl_call env s).decomp := rfl

theorem decompress_remaining_compressed {σ : Type} (env : Env σ) (s : State σ) :
    (decompress env s).remaining_compressed =
      sub32 s.remaining_compressed (tinfl_call env s).in_bytes := rfl

theorem decompress_length {σ : Type} (env : Env σ) (s : State σ) :
    (decompress env s).length = sub32 s.length (tinfl_call env s).in_bytes := rfl

theorem decompress_data_buf {σ : Type} (env : Env σ) (s : State σ) :
    (decompress env s).data_buf = s.data_buf.drop (tinfl_call env s).in_bytes := rfl

theorem decompress_uncompressed {σ : Type} (env : Env σ) (s : State σ) :
    (decompress env s).uncompressed = s.uncompressed ++ (tinfl_call env s).out := rfl

theorem decompress_trace_eq {σ : Type} (env : Env σ) (s : State σ) :
    (decompress env s).trace = s.trace ++
      [Event.tinfl_decompress s.length (out_space s) (tinfl_flags s) (tinfl_call env s).status
        (tinfl_call env s).in_bytes (tinfl_call env s).out.length] := rfl

theorem decompress_trace {σ : Type} (env : Env σ) (s : State σ) :
    ∃ a b c d e f, (decompress env s).trace = s.trace ++ [Event.tinfl_decompress a b c d e f] :=
  ⟨_, _, _, _, _, _, rfl⟩

/-! ## The outcomes of each transition -/

theorem chunk_step_cases {σ : Type} (env : Env σ) (s : State σ) :
    (s.remaining_compressed = 0 ∧ chunk_step env s = { s with pc := .upload_complete }) ∨
    (s.remaining_compressed ≠ 0 ∧ s.inbox = [] ∧ chunk_step env s = s) ∨
    (∃ m inbox, s.remaining_compressed ≠ 0 ∧ s.inbox = m :: inbox ∧
      ((handle_in_bin_data env.JADE_OTA_BUF_SIZE (reset_ctx none s.source) m).error = true ∨
        (handle_in_bin_data env.JADE_OTA_BUF_SIZE (reset_ctx none s.source) m).len
          > s.remaining_compressed) ∧
      ∃ u, chunk_step env s = { s with
        inbox := inbox
        binctx := handle_in_bin_data env.JADE_OTA_BUF_SIZE (reset_ctx none s.source) m
        trace := s.trace ++ [Event.get_in_message m]
        uploading := u
        ota_return_status := .ERROR_BADDATA
        pc := .cleanup }) ∨
    (∃ m inbox, s.remaining_compressed ≠ 0 ∧ s.inbox = m :: inbox ∧
      (handle_in_bin_data env.JADE_OTA_BUF_SIZE (reset_ctx none s.source) m).error = false ∧
      (handle_in_bin_data env.JADE_OTA_BUF_SIZE (reset_ctx none s.source) m).len
          ≤ s.remaining_compressed ∧
      chunk_step env s = { s with
        inbox := inbox
        binctx := handle_in_bin_data env.JADE_OTA_BUF_SIZE (reset_ctx none s.source) m
        trace := s.trace ++ [Event.get_in_message m]
        uploading := true
        length := (handle_in_bin_data env.JADE_OTA_BUF_SIZE (reset_ctx none s.source) m).len
        data_buf :=
          (handle_in_bin_data env.JADE_OTA_BUF_SIZE (reset_ctx none s.source) m).inbound_buf.getD []
        pc := .inner_loop }) := by
  unfold chunk_step
  by_cases hrc : s.remaining_compressed = 0
  · left; simp [hrc]
  · right
    cases hin : s.inbox with
    | nil => left; simp [hrc, hin]
    | cons m inbox =>
      right
      simp only [hrc, if_false]
      by_cases he :
          (handle_in_bin_data env.JADE_OTA_BUF_SIZE (reset_ctx none s.source) m).error = true
      · left; exact ⟨m, inbox, hrc, rfl, Or.inl he, s.uploading, by simp [he]⟩
      · by_cases hl :
            (handle_in_bin_data env.JADE_OTA_BUF_SIZE (reset_ctx none s.source) m).len
              > s.remaining_compressed
        · left; exact ⟨m, inbox, hrc, rfl, Or.inr hl, true, by simp [he, hl]⟩
        · right; exact ⟨m, inbox, hrc, rfl, by simpa using he, by omega, by simp [he, hl]⟩

theorem validate_cases {σ : Type} (env : Env σ) (s : State σ) :
    ((ota_init env s.uncompressed s.firmwaresize).res ≠ .SUCCESS ∧
      validate env s = { s with
        update_partition := (ota_init env s.uncompressed s.firmwaresize).update_partition
        trace := s.trace ++ (ota_init env s.uncompressed s.firmwaresize).calls ++
          [Event.ota_init (ota_init env s.uncompressed s.firmwaresize).res]
        ota_return_status := (ota_init env s.uncompressed s.firmwaresize).res
        pc := .cleanup }) ∨
    ((ota_init env s.uncompressed s.firmwaresize).res = .SUCCESS ∧
      validate env s = { s with
        update_partition := (ota_init env s.uncompressed s.firmwaresize).update_partition
        trace := s.trace ++ (ota_init env s.uncompressed s.firmwaresize).calls ++
          [Event.ota_init .SUCCESS]
        prevalidated := true }) := by
  unfold validate
  by_cases h : (ota_init env s.uncompressed s.firmwaresize).res = .SUCCESS
  · right; simp [h]
  · left; simp [h]

theorem flush_cases {σ : Type} (env : Env σ) (s : State σ) :
    (env.esp_ota_write s.n_writes s.uncompressed ≠ ESP_OK ∧
      flush env s = { s with
        n_writes := s.n_writes + 1
        trace := s.trace ++
          [Event.esp_ota_write s.uncompressed (env.esp_ota_write s.n_writes s.uncompressed)]
        ota_return_status := .ERROR_WRITE
        pc := .cleanup }) ∨
    (env.esp_ota_write s.n_writes s.uncompressed = ESP_OK ∧
      flush env s = { s with
        n_writes := s.n_writes + 1
        trace := s.trace ++ [Event.esp_ota_write s.uncompressed ESP_OK]
        remaining := sub32 s.remaining s.uncompressed.length
        uncompressed := [] }) := by
  unfold flush
  by_cases h : env.esp_ota_write s.n_writes s.uncompressed = ESP_OK
  · right; simp [h]
  · left; simp [h]

/-- The test of the inner loop (ota.c:276). -/
theorem inner_step_cases {σ : Type} (env : Env σ) (s : State σ) :
    (¬ (s.length > 0 ∧ s.remaining > 0 ∧ s.status > TINFL_STATUS_DONE) ∧
      inner_step env s = { s with pc := .chunk_end }) ∨
    ((s.length > 0 ∧ s.remaining > 0 ∧ s.status > TINFL_STATUS_DONE) ∧
      ¬ (((decompress env s).prevalidated = true ∧ (decompress env s).status ≤ TINFL_STATUS_DONE)
          ∨ (decompress env s).uncompressed.length = UNCOMPRESSED_BUF_SIZE) ∧
      inner_step env s = decompress env s) ∨
    ((s.length > 0 ∧ s.remaining > 0 ∧ s.status > TINFL_STATUS_DONE) ∧
      (decompress env s).uncompressed.length = UNCOMPRESSED_BUF_SIZE ∧
      s.prevalidated = false ∧
      (ota_init env (decompress env s).uncompressed s.firmwaresize).res ≠ .SUCCESS ∧
      inner_step env s = validate env (decompress env s)) ∨
    ((s.length > 0 ∧ s.remaining > 0 ∧ s.status > TINFL_STATUS_DONE) ∧
      (decompress env s).uncompressed.length = UNCOMPRESSED_BUF_SIZE ∧
      s.prevalidated = false ∧
      (ota_init env (decompress env s).uncompressed s.firmwaresize).res = .SUCCESS ∧
      inner_step env s = flush env (validate env (decompress env s))) ∨
    ((s.length > 0 ∧ s.remaining > 0 ∧ s.status > TINFL_STATUS_DONE) ∧
      ((decompress env s).status ≤ TINFL_STATUS_DONE
        ∨ (decompress env s).uncompressed.length = UNCOMPRESSED_BUF_SIZE) ∧
      s.prevalidated = true ∧
      inner_step env s = flush env (decompress env s)) := by
  have hp : (decompress env s).prevalidated = s.prevalidated := rfl
  have hf : (decompress env s).firmwaresize = s.firmwaresize := rfl
  unfold inner_step
  by_cases hc : s.length > 0 ∧ s.remaining > 0 ∧ s.status > TINFL_STATUS_DONE
  · right
    simp only [hc, and_self, if_true, true_and]
    by_cases hfl : ((decompress env s).prevalidated = true ∧
        (decompress env s).status ≤ TINFL_STATUS_DONE)
          ∨ (decompress env s).uncompressed.length = UNCOMPRESSED_BUF_SIZE
    · right
      simp only [hfl, if_true]
      cases hv : s.prevalidated with
      | false =>
        have hlen : (decompress env s).uncompressed.length = UNCOMPRESSED_BUF_SIZE := by
          rcases hfl with ⟨h, _⟩ | h
          · rw [hp, hv] at h; exact absurd h (by simp)
          · exact h
        by_cases hi : (ota_init env (decompress env s).uncompressed s.firmwaresize).res = .SUCCESS
        · right; left
          refine ⟨hlen, rfl, hi, ?_⟩
          simp [hp, hv, hf, hi]
        · left
          refine ⟨hlen, rfl, hi, ?_⟩
          simp [hp, hv, hf, hi]
      | true =>
        right; right
        refine ⟨?_, rfl, ?_⟩
        · rcases hfl with ⟨_, h⟩ | h
          · exact Or.inl h
          · exact Or.inr h
        · simp [hp, hv]
    · left
      exact ⟨hfl, by simp only [hfl, if_false]⟩
  · left
    exact ⟨hc, by simp only [hc, if_false]⟩

theorem chunk_end_step_cases {σ : Type} (s : State σ) :
    (((s.status ≠ TINFL_STATUS_DONE ∧ s.remaining_compressed = 0)
        ∨ s.status < TINFL_STATUS_DONE
        ∨ (s.status = TINFL_STATUS_DONE ∧ s.remaining_compressed > 0)) ∧
      chunk_end_step s = { s with
        trace := s.trace ++
          (if s.prevalidated = true then
            [Event.update_progress_bar s.compressedsize
              (sub32 s.compressedsize s.remaining_compressed)] else [])
        ota_return_status := .ERROR_DECOMPRESS
        pc := .cleanup }) ∨
    (¬ ((s.status ≠ TINFL_STATUS_DONE ∧ s.remaining_compressed = 0)
        ∨ s.status < TINFL_STATUS_DONE
        ∨ (s.status = TINFL_STATUS_DONE ∧ s.remaining_compressed > 0)) ∧
      chunk_end_step s = { s with
        trace := s.trace ++
          (if s.prevalidated = true then
            [Event.update_progress_bar s.compressedsize
              (sub32 s.compressedsize s.remaining_compressed)] else []) ++
          [Event.send_ok s.binctx.id]
        pc := .chunk_loop }) := by
  unfold chunk_end_step
  by_cases hc : (s.status ≠ TINFL_STATUS_DONE ∧ s.remaining_compressed = 0)
        ∨ s.status < TINFL_STATUS_DONE
        ∨ (s.status = TINFL_STATUS_DONE ∧ s.remaining_compressed > 0)
  · left
    refine ⟨hc, ?_⟩
    cases hp : s.prevalidated <;> simp [hp, hc]
  · right
    refine ⟨hc, ?_⟩
    cases hp : s.prevalidated <;> simp [hp, hc]

theorem upload_complete_step_cases {σ : Type} (env : Env σ) (s : State σ) :
    (s.remaining ≠ 0 ∧ upload_complete_step env s = { s with
        uploading := false
        ota_return_status := .ERROR_DECOMPRESS
        pc := .otacomplete }) ∨
    (s.remaining = 0 ∧ env.esp_ota_end ≠ ESP_OK ∧ upload_complete_step env s = { s with
        uploading := false
        ota_end_called := true
        trace := s.trace ++ [Event.esp_ota_end env.esp_ota_end]
        ota_return_status := .ERROR_FINISH
        pc := .otacomplete }) ∨
    (s.remaining = 0 ∧ env.esp_ota_end = ESP_OK ∧ env.esp_ota_set_boot_partition ≠ ESP_OK ∧
      upload_complete_step env s = { s with
        uploading := false
        ota_end_called := true
        trace := s.trace ++ [Event.esp_ota_end ESP_OK,
          Event.esp_ota_set_boot_partition env.esp_ota_set_boot_partition]
        ota_return_status := .ERROR_SETPARTITION
        pc := .otacomplete }) ∨
    (s.remaining = 0 ∧ env.esp_ota_end = ESP_OK ∧ env.esp_ota_set_boot_partition = ESP_OK ∧
      upload_complete_step env s = { s with
        uploading := false
        ota_end_called := true
        trace := s.trace ++ [Event.esp_ota_end ESP_OK, Event.esp_ota_set_boot_partition ESP_OK]
        pc := if s.prevalidated = false then .aborted else .otacomplete }) := by
  unfold upload_complete_step
  by_cases hr : s.remaining = 0
  · right
    by_cases he : env.esp_ota_end = ESP_OK
    · right
      by_cases hb : env.esp_ota_set_boot_partition = ESP_OK
      · right
        refine ⟨hr, he, hb, ?_⟩
        cases hp : s.prevalidated <;> simp [hr, he, hb, hp]
      · left
        exact ⟨hr, he, hb, by simp [hr, he, hb]⟩
    · left
      exact ⟨hr, he, by simp [hr, he]⟩
  · left
    exact ⟨hr, by simp [hr]⟩

theorem otacomplete_step_cases {σ : Type} (s : State σ) :
    (s.inbox = [] ∧ otacomplete_step s = s) ∨
    (∃ m inbox, s.inbox = m :: inbox ∧ otacomplete_step s = { s with
        inbox := inbox
        trace := s.trace ++
          [Event.load_in_message m, completion_reply m.method s.ota_return_status]
        pc := .cleanup }) := by
  unfold otacomplete_step
  cases hin : s.inbox with
  | nil => left; simp
  | cons m inbox =>
    right
    refine ⟨m, inbox, rfl, ?_⟩
    simp [completion_reply]

theorem cleanup_step_cases {σ : Type} (env : Env σ) (s : State σ) :
    (s.ota_return_status = .SUCCESS ∧ cleanup_step env s = { s with
        trace := s.trace ++ [Event.display_message "Upgrade successful!", Event.esp_restart]
        pc := .restarted }) ∨
    (s.ota_return_status ≠ .SUCCESS ∧ (s.prevalidated = true ∧ s.ota_end_called = false) ∧
      ¬ (env.esp_ota_end = ESP_OK ∨ env.esp_ota_end = ESP_ERR_OTA_VALIDATE_FAILED) ∧
      cleanup_step env s = { s with
        trace := s.trace ++ [Event.esp_ota_end env.esp_ota_end]
        pc := .aborted }) ∨
    (s.ota_return_status ≠ .SUCCESS ∧ (s.prevalidated = true ∧ s.ota_end_called = false) ∧
      (env.esp_ota_end = ESP_OK ∨ env.esp_ota_end = ESP_ERR_OTA_VALIDATE_FAILED) ∧
      cleanup_step env s = { s with
        trace := s.trace ++ [Event.esp_ota_end env.esp_ota_end] ++ failure_report s
        pc := .returned }) ∨
    (s.ota_return_status ≠ .SUCCESS ∧ ¬ (s.prevalidated = true ∧ s.ota_end_called = false) ∧
      cleanup_step env s = { s with
        trace := s.trace ++ failure_report s
        pc := .returned }) := by
  unfold cleanup_step failure_report
  by_cases hs : s.ota_return_status = .SUCCESS
  · left; exact ⟨hs, by simp [hs]⟩
  · right
    by_cases ha : s.prevalidated = true ∧ s.ota_end_called = false
    · by_cases he : env.esp_ota_end = ESP_OK ∨ env.esp_ota_end = ESP_ERR_OTA_VALIDATE_FAILED
      · right; left
        refine ⟨hs, ha, he, ?_⟩
        simp only [hs, if_false, ha, and_self, if_true, he, not_true_eq_false, and_false]
        by_cases hu : s.uploading = true <;>
          by_cases hm : s.ota_return_status ≠ .ERROR_OTA_SETUP ∧
            s.ota_return_status ≠ .ERROR_USER_DECLINED <;> simp [hu, hm]
      · left
        refine ⟨hs, ha, he, ?_⟩
        simp only [hs, if_false, ha, and_self, if_true, he, not_false_eq_true]
    · right; right
      refine ⟨hs, ha, ?_⟩
      simp only [hs, if_false, ha, false_and, if_false]
      by_cases hu : s.uploading = true <;>
        by_cases hm : s.ota_return_status ≠ .ERROR_OTA_SETUP ∧
          s.ota_return_status ≠ .ERROR_USER_DECLINED <;> simp [hu, hm]

/-! ## The calls of `ota_init` -/

/-- The seven ways through `ota_init`. -/
theorem ota_init_cases {σ : Type} (env : Env σ) (buf : List Byte) (fw : Nat) :
    (env.esp_ota_get_partition_description ≠ ESP_OK ∧
      ota_init env buf fw = ⟨.ERROR_BADPARTITION,
        [Event.esp_ota_get_partition_description env.esp_ota_get_partition_description],
        none⟩) ∨
    (env.esp_ota_get_partition_description = ESP_OK ∧
      strnlen (env.new_app_info buf).version (VERSION_STRING_MAX_LENGTH + 1)
        > VERSION_STRING_MAX_LENGTH ∧
      ota_init env buf fw = ⟨.ERROR_INVALIDFW,
        [Event.esp_ota_get_partition_description ESP_OK], none⟩) ∨
    (env.esp_ota_get_partition_description = ESP_OK ∧
      strnlen (env.new_app_info buf).version (VERSION_STRING_MAX_LENGTH + 1)
        ≤ VERSION_STRING_MAX_LENGTH ∧
      env.esp_efuse_check_secure_version (env.new_app_info buf).secure_version = false ∧
      ota_init env buf fw = ⟨.ERROR_NODOWNGRADE,
        [Event.esp_ota_get_partition_description ESP_OK,
          Event.esp_efuse_check_secure_version (env.new_app_info buf).secure_version false],
        none⟩) ∨
    (env.esp_efuse_check_secure_version (env.new_app_info buf).secure_version = true ∧
      (env.esp_ota_get_next_update_partition = none ∨
        env.esp_ota_get_next_update_partition = some env.esp_ota_get_running_partition) ∧
      ota_init env buf fw = ⟨.ERROR_BADPARTITION,
        [Event.esp_ota_get_partition_description ESP_OK,
          Event.esp_efuse_check_secure_version (env.new_app_info buf).secure_version true,
          Event.esp_ota_get_next_update_partition env.esp_ota_get_next_update_partition],
        env.esp_ota_get_next_update_partition⟩) ∨
    (env.esp_efuse_check_secure_version (env.new_app_info buf).secure_version = true ∧
      ((confirmation env).1 = false ∨ (confirmation env).2 ≠ env.BTN_ACCEPT_OTA) ∧
      ota_init env buf fw = ⟨.ERROR_USER_DECLINED,
        [Event.esp_ota_get_partition_description ESP_OK,
          Event.esp_efuse_check_secure_version (env.new_app_info buf).secure_version true,
          Event.esp_ota_get_next_update_partition env.esp_ota_get_next_update_partition,
          Event.make_ota_versions_activity] ++ confirmation_calls env,
        env.esp_ota_get_next_update_partition⟩) ∨
    (env.esp_efuse_check_secure_version (env.new_app_info buf).secure_version = true ∧
      ((confirmation env).1 = true ∧ (confirmation env).2 = env.BTN_ACCEPT_OTA) ∧
      env.esp_ota_begin ≠ ESP_OK ∧
      ota_init env buf fw = ⟨.ERROR_OTA_INIT,
        [Event.esp_ota_get_partition_description ESP_OK,
          Event.esp_efuse_check_secure_version (env.new_app_info buf).secure_version true,
          Event.esp_ota_get_next_update_partition env.esp_ota_get_next_update_partition,
          Event.make_ota_versions_activity] ++ confirmation_calls env ++
          [Event.display_progress_bar_activity, Event.esp_ota_begin fw env.esp_ota_begin],
        env.esp_ota_get_next_update_partition⟩) ∨
    (env.esp_efuse_check_secure_version (env.new_app_info buf).secure_version = true ∧
      ((confirmation env).1 = true ∧ (confirmation env).2 = env.BTN_ACCEPT_OTA) ∧
      env.esp_ota_begin = ESP_OK ∧
      ota_init env buf fw = ⟨.SUCCESS,
        [Event.esp_ota_get_partition_description ESP_OK,
          Event.esp_efuse_check_secure_version (env.new_app_info buf).secure_version true,
          Event.esp_ota_get_next_update_partition env.esp_ota_get_next_update_partition,
          Event.make_ota_versions_activity] ++ confirmation_calls env ++
          [Event.display_progress_bar_activity, Event.esp_ota_begin fw ESP_OK],
        env.esp_ota_get_next_update_partition⟩) := by
  unfold ota_init
  by_cases h1 : env.esp_ota_get_partition_description = ESP_OK
  · right
    by_cases h2 : strnlen (env.new_app_info buf).version (VERSION_STRING_MAX_LENGTH + 1)
        > VERSION_STRING_MAX_LENGTH
    · left; exact ⟨h1, h2, by simp [h1, h2]⟩
    · right
      cases h3 : env.esp_efuse_check_secure_version (env.new_app_info buf).secure_version with
      | false => left; exact ⟨h1, by omega, rfl, by simp [h1, h2, h3]⟩
      | true =>
        right
        by_cases h4 : env.esp_ota_get_next_update_partition = none ∨
            env.esp_ota_get_next_update_partition = some env.esp_ota_get_running_partition
        · left
          refine ⟨rfl, h4, ?_⟩
          rcases h4 with h4 | h4
          · simp [h1, h2, h3, h4]
          · simp [h1, h2, h3, h4]
        · right
          have h4a : ¬ env.esp_ota_get_next_update_partition = none := fun h => h4 (Or.inl h)
          have h4b : ¬ env.esp_ota_get_next_update_partition =
              some env.esp_ota_get_running_partition := fun h => h4 (Or.inr h)
          by_cases h5 : (confirmation env).1 = false ∨ (confirmation env).2 ≠ env.BTN_ACCEPT_OTA
          · left
            exact ⟨rfl, h5, by simp [h1, h2, h3, h4a, h4b, h5]⟩
          · right
            have h5' : (confirmation env).1 = true ∧ (confirmation env).2 = env.BTN_ACCEPT_OTA := by
              constructor
              · cases hc : (confirmation env).1 with
                | false => exact absurd (Or.inl hc) h5
                | true => rfl
              · by_contra hc
                exact h5 (Or.inr hc)
            by_cases h6 : env.esp_ota_begin = ESP_OK
            · right
              exact ⟨rfl, h5', h6, by simp [h1, h2, h3, h4a, h4b, h5', h6]⟩
            · left
              exact ⟨rfl, h5', h6, by simp [h1, h2, h3, h4a, h4b, h5', h6]⟩
  · left; exact ⟨h1, by simp [h1]⟩

theorem confirmation_calls_kind {σ : Type} (env : Env σ) :
    ∀ e ∈ confirmation_calls env, e.in_ota_init = true := by
  unfold confirmation_calls
  split_ifs <;> simp [Event.in_ota_init]

theorem ota_init_calls_kind {σ : Type} (env : Env σ) (buf : List Byte) (fw : Nat) :
    ∀ e ∈ (ota_init env buf fw).calls, e.in_ota_init = true := by
  have hc := confirmation_calls_kind env
  rcases ota_init_cases env buf fw with ⟨_, e⟩ | ⟨_, _, e⟩ | ⟨_, _, _, e⟩ | ⟨_, _, e⟩ |
    ⟨_, _, e⟩ | ⟨_, _, _, e⟩ | ⟨_, _, _, e⟩ <;> rw [e] <;>
    simp [Event.in_ota_init, or_imp, forall_and] <;> exact hc

theorem confirmation_calls_eq {σ : Type} (env : Env σ) :
    ∀ e ∈ confirmation_calls env,
      e = Event.gui_activity_wait_event (confirmation env).1 (confirmation env).2 := by
  unfold confirmation_calls confirmation
  split_ifs <;> simp

/-- What the calls of `ota_init` say about its result. -/
theorem ota_init_facts {σ : Type} (env : Env σ) (buf : List Byte) (fw : Nat) :
    (∀ v, Event.esp_efuse_check_secure_version v false ∈ (ota_init env buf fw).calls →
      (ota_init env buf fw).res = .ERROR_NODOWNGRADE) ∧
    (∀ ret ev, Event.gui_activity_wait_event ret ev ∈ (ota_init env buf fw).calls →
      (ret = false ∨ ev ≠ env.BTN_ACCEPT_OTA) →
      (ota_init env buf fw).res = .ERROR_USER_DECLINED) ∧
    (∀ f err, Event.esp_ota_begin f err ∈ (ota_init env buf fw).calls →
      (ota_init env buf fw).res = .SUCCESS ∨ (ota_init env buf fw).res = .ERROR_OTA_INIT) := by
  have hc := confirmation_calls_eq env
  rcases ota_init_cases env buf fw with ⟨_, e⟩ | ⟨_, _, e⟩ | ⟨_, _, _, e⟩ | ⟨_, _, e⟩ |
    ⟨_, h5, e⟩ | ⟨_, h5, _, e⟩ | ⟨_, h5, _, e⟩ <;> rw [e] <;>
    refine ⟨?_, ?_, ?_⟩ <;> simp
  · intro v hv; have := hc _ hv; simp at this
  · intro f err hf; have := hc _ hf; simp at this
  · intro v hv; have := hc _ hv; simp at this
  · refine ⟨?_, ?_⟩
    · intro ev hw
      have := hc _ hw
      simp only [Event.gui_activity_wait_event.injEq] at this
      rw [h5.1] at this
      exact absurd this.1 (by simp)
    · intro ev hw
      have := hc _ hw
      simp only [Event.gui_activity_wait_event.injEq] at this
      rw [this.2, h5.2]
  · intro v hv; have := hc _ hv; simp at this
  · refine ⟨?_, ?_⟩
    · intro ev hw
      have := hc _ hw
      simp only [Event.gui_activity_wait_event.injEq] at this
      rw [h5.1] at this
      exact absurd this.1 (by simp)
    · intro ev hw
      have := hc _ hw
      simp only [Event.gui_activity_wait_event.injEq] at this
      rw [this.2, h5.2]

/-! ## After the chunk loop -/

theorem after_loop_step {σ : Type} (env : Env σ) (s : State σ) (h : s.pc.after_loop = true) :
    (step env s).pc.after_loop = true ∧
    (step env s).ota_return_status = s.ota_return_status ∧
    (step env s).remaining_compressed = s.remaining_compressed ∧
    (step env s).remaining = s.remaining ∧
    (step env s).prevalidated = s.prevalidated := by
  unfold step
  split
  all_goals (try (rename_i hpc; simp [hpc, Label.after_loop] at h; done))
  · rcases otacomplete_step_cases s with ⟨_, e⟩ | ⟨m, inbox, _, e⟩
    · rw [e]; exact ⟨h, rfl, rfl, rfl, rfl⟩
    · rw [e]; simp [Label.after_loop]
  · rcases cleanup_step_cases env s with ⟨_, e⟩ | ⟨_, _, _, e⟩ | ⟨_, _, _, e⟩ | ⟨_, _, e⟩ <;>
      rw [e] <;> simp [Label.after_loop]
  all_goals exact ⟨h, rfl, rfl, rfl, rfl⟩

theorem after_loop_run {σ : Type} (env : Env σ) (s : State σ) (h : s.pc.after_loop = true)
    (k : Nat) :
    (run env k s).pc.after_loop = true ∧
    (run env k s).ota_return_status = s.ota_return_status ∧
    (run env k s).remaining_compressed = s.remaining_compressed ∧
    (run env k s).remaining = s.remaining ∧
    (run env k s).prevalidated = s.prevalidated := by
  induction k with
  | zero => exact ⟨h, rfl, rfl, rfl, rfl⟩
  | succ k ih =>
    rw [run_succ]
    obtain ⟨a, b, c, d, e⟩ := ih
    obtain ⟨a', b', c', d', e'⟩ := after_loop_step env _ a
    exact ⟨a', b'.trans b, c'.trans c, d'.trans d, e'.trans e⟩

/-- A state in which `ota_process` has ended does not change. -/
theorem ended_run {σ : Type} (env : Env σ) (s : State σ) (h : s.pc.ended = true) (k : Nat) :
    run env k s = s := by
  induction k with
  | zero => rfl
  | succ k ih =>
    rw [run_succ, ih]
    unfold step
    split <;> rename_i hpc <;> simp [hpc, Label.ended] at h <;> rfl

/-! ## Lists with one marked element -/

/-- A list splits in only one way around its only marked element. -/
theorem unique_split {α : Type} (p : α → Bool) :
    ∀ (pre post pre' post' : List α) (x x' : α),
      pre ++ x :: post = pre' ++ x' :: post' →
      (∀ e ∈ pre, p e = false) → p x = true → (∀ e ∈ post, p e = false) → p x' = true →
      pre' = pre ∧ x' = x ∧ post' = post := by
  intro pre
  induction pre with
  | nil =>
    intro post pre' post' x x' h _ hx hpost hx'
    cases pre' with
    | nil =>
      simp only [List.nil_append, List.cons.injEq] at h
      exact ⟨rfl, h.1.symm, h.2.symm⟩
    | cons y t =>
      simp only [List.nil_append, List.cons_append, List.cons.injEq] at h
      have : x' ∈ post := by rw [h.2]; simp
      have := hpost x' this
      rw [hx'] at this
      exact absurd this (by simp)
  | cons a pre ih =>
    intro post pre' post' x x' h hpre hx hpost hx'
    cases pre' with
    | nil =>
      simp only [List.nil_append, List.cons_append, List.cons.injEq] at h
      have := hpre a (by simp)
      rw [h.1, hx'] at this
      exact absurd this (by simp)
    | cons y t =>
      simp only [List.cons_append, List.cons.injEq] at h
      obtain ⟨h1, h2, h3⟩ := ih post t post' x x' h.2
        (fun e he => hpre e (by simp [he])) hx hpost hx'
      exact ⟨by rw [h.1, h1], h2, h3⟩

theorem ota_init_calls_markers {σ : Type} (env : Env σ) (buf : List Byte) (fw : Nat) :
    ∀ e ∈ (ota_init env buf fw).calls, e.is_ota_init = false := by
  intro e he
  have := ota_init_calls_kind env buf fw e he
  revert this
  cases e <;> simp [Event.in_ota_init, Event.is_ota_init]

/-! ## The trace only grows -/

theorem step_trace_mono {σ : Type} (env : Env σ) (s : State σ) :
    ∃ evs, (step env s).trace = s.trace ++ evs := by
  unfold step
  split
  · rcases chunk_step_cases env s with ⟨_, e⟩ | ⟨_, _, e⟩ | ⟨m, inbox, _, _, _, u, e⟩ |
      ⟨m, inbox, _, _, _, _, e⟩
    · exact ⟨[], by rw [e]; simp⟩
    · exact ⟨[], by rw [e]; simp⟩
    · exact ⟨_, by rw [e]⟩
    · exact ⟨_, by rw [e]⟩
  · obtain ⟨a1, a2, a3, a4, a5, a6, hdt⟩ := decompress_trace env s
    rcases inner_step_cases env s with ⟨_, e⟩ | ⟨_, _, e⟩ | ⟨_, _, _, _, e⟩ |
      ⟨_, _, _, _, e⟩ | ⟨_, _, _, e⟩
    · exact ⟨[], by rw [e]; simp⟩
    · exact ⟨_, by rw [e, hdt]⟩
    · exact ⟨_, by rw [e, validate_trace, hdt, List.append_assoc, List.append_assoc]⟩
    · exact ⟨_, by rw [e, flush_trace, validate_trace, hdt, List.append_assoc,
        List.append_assoc, List.append_assoc]⟩
    · exact ⟨_, by rw [e, flush_trace, hdt, List.append_assoc]⟩
  · rcases chunk_end_step_cases s with ⟨_, e⟩ | ⟨_, e⟩
    · exact ⟨_, by rw [e]⟩
    · exact ⟨_, by rw [e]; exact List.append_assoc _ _ _⟩
  · rcases upload_complete_step_cases env s with ⟨_, e⟩ | ⟨_, _, e⟩ | ⟨_, _, _, e⟩ |
      ⟨_, _, _, e⟩
    · exact ⟨[], by rw [e]; simp⟩
    · exact ⟨_, by rw [e]⟩
    · exact ⟨_, by rw [e]⟩
    · exact ⟨_, by rw [e]⟩
  · rcases otacomplete_step_cases s with ⟨_, e⟩ | ⟨m, inbox, _, e⟩
    · exact ⟨[], by rw [e]; simp⟩
    · exact ⟨_, by rw [e]⟩
  · rcases cleanup_step_cases env s with ⟨_, e⟩ | ⟨_, _, _, e⟩ | ⟨_, _, _, e⟩ | ⟨_, _, e⟩
    · exact ⟨_, by rw [e]⟩
    · exact ⟨_, by rw [e]⟩
    · exact ⟨_, by rw [e]; exact List.append_assoc _ _ _⟩
    · exact ⟨_, by rw [e]⟩
  all_goals exact ⟨[], by simp⟩

theorem run_trace_mono {σ : Type} (env : Env σ) (s : State σ) (k : Nat) :
    ∃ evs, (run env k s).trace = s.trace ++ evs := by
  induction k with
  | zero => exact ⟨[], by simp [run]⟩
  | succ k ih =>
    obtain ⟨evs, h⟩ := ih
    obtain ⟨evs', h'⟩ := step_trace_mono env (run env k s)
    exact ⟨evs ++ evs', by rw [run_succ, h', h, List.append_assoc]⟩

/-- An event of the trace stays in the trace. -/
theorem ota_process_trace_mono {σ : Type} (env : Env σ) (req : Request) (n m : Nat)
    (h : n ≤ m) (e : Event) (he : e ∈ (ota_process env req n).trace) :
    e ∈ (ota_process env req m).trace := by
  obtain ⟨k, rfl⟩ := Nat.exists_eq_add_of_le h
  unfold ota_process at *
  rw [run_add]
  obtain ⟨evs, h'⟩ := run_trace_mono env (run env n (ota_start env req)) k
  rw [h']
  exact List.mem_append_left _ he

/-- From `cleanup` with a failure status and no validated image the function
returns at the next transition. -/
theorem cleanup_returns {σ : Type} (env : Env σ) (s : State σ)
    (hpc : s.pc = .cleanup ∨ s.pc = .returned) (hs : s.ota_return_status ≠ .SUCCESS)
    (hp : s.prevalidated = false) : (step env s).pc = .returned := by
  unfold step
  rcases hpc with hpc | hpc
  · rw [hpc]
    simp only []
    rcases cleanup_step_cases env s with ⟨h, _⟩ | ⟨_, h, _, _⟩ | ⟨_, h, _, _⟩ | ⟨_, _, e⟩
    · exact absurd h hs
    · rw [hp] at h; exact absurd h.1 (by simp)
    · rw [hp] at h; exact absurd h.1 (by simp)
    · rw [e]
  · rw [hpc]
    simp only []
    exact hpc

/-- The failure branch of `cleanup`: it ends the function, keeps the status
and makes only the calls of a failed cleanup. -/
theorem cleanup_failure {σ : Type} (env : Env σ) (s : State σ) (hpc : s.pc = .cleanup)
    (hs : s.ota_return_status ≠ .SUCCESS) :
    ∃ evs, (step env s).trace = s.trace ++ evs ∧
      (∀ e ∈ evs, e.in_failed_cleanup = true) ∧
      (step env s).pc.ended = true ∧
      (step env s).ota_return_status = s.ota_return_status := by
  have hfr : ∀ e ∈ failure_report s, e.in_failed_cleanup = true := by
    unfold failure_report
    split_ifs <;> simp [Event.in_failed_cleanup]
  unfold step
  rw [hpc]
  simp only []
  rcases cleanup_step_cases env s with ⟨h, _⟩ | ⟨_, _, _, e⟩ | ⟨_, _, _, e⟩ | ⟨_, _, e⟩
  · exact absurd h hs
  · exact ⟨_, by rw [e], by simp [Event.in_failed_cleanup], by rw [e]; rfl, by rw [e]⟩
  · refine ⟨[Event.esp_ota_end env.esp_ota_end] ++ failure_report s, by rw [e]; simp, ?_,
      by rw [e]; rfl, by rw [e]⟩
    intro x hx
    simp only [List.mem_append, List.mem_singleton] at hx
    rcases hx with hx | hx
    · rw [hx]; rfl
    · exact hfr x hx
  · exact ⟨_, by rw [e], hfr, by rw [e]; rfl, by rw [e]⟩

/-! ## The bytes written -/

theorem written_append (a b : List Event) : written (a ++ b) = written a ++ written b := by
  induction a with
  | nil => rfl
  | cons e a ih => simp [written, ih]

theorem write_lengths_cons_of_not_write (e : Event) (tr : List Event)
    (h : e.is_esp_ota_write = false) : write_lengths (e :: tr) = write_lengths tr := by
  cases e <;> first | rfl | simp [Event.is_esp_ota_write] at h

theorem write_lengths_append (a b : List Event) :
    write_lengths (a ++ b) = write_lengths a ++ write_lengths b := by
  induction a with
  | nil => rfl
  | cons e a ih =>
    cases e <;> simp [write_lengths, ih]

theorem written_of_no_write (evs : List Event) (h : ∀ e ∈ evs, e.is_esp_ota_write = false) :
    written evs = [] ∧ write_lengths evs = [] := by
  induction evs with
  | nil => exact ⟨rfl, rfl⟩
  | cons e evs ih =>
    have he := h e (by simp)
    obtain ⟨i1, i2⟩ := ih (fun x hx => h x (by simp [hx]))
    refine ⟨?_, by rw [write_lengths_cons_of_not_write e evs he]; exact i2⟩
    show e.written ++ written evs = []
    rw [i1]
    revert he
    cases e <;> simp [Event.is_esp_ota_write, Event.written]

theorem written_write (d : List Byte) (err : Int) :
    written [Event.esp_ota_write d err] = d ∧
    write_lengths [Event.esp_ota_write d err] = [d.length] := by
  simp [written, write_lengths, Event.written]

theorem ota_init_calls_no_write {σ : Type} (env : Env σ) (buf : List Byte) (fw : Nat) :
    ∀ e ∈ (ota_init env buf fw).calls, e.is_esp_ota_write = false := by
  intro e he
  have := ota_init_calls_kind env buf fw e he
  revert this
  cases e <;> simp [Event.in_ota_init, Event.is_esp_ota_write]

/-- What a flush adds to the bytes written. -/
theorem flush_written {σ : Type} (env : Env σ) (s : State σ) :
    written (flush env s).trace = written s.trace ++ s.uncompressed ∧
    write_lengths (flush env s).trace = write_lengths s.trace ++ [s.uncompressed.length] := by
  rw [flush_trace, written_append, write_lengths_append, (written_write _ _).1,
    (written_write _ _).2]
  exact ⟨rfl, rfl⟩

/-- A validation writes nothing. -/
theorem validate_written {σ : Type} (env : Env σ) (s : State σ) :
    written (validate env s).trace = written s.trace ∧
    write_lengths (validate env s).trace = write_lengths s.trace := by
  have h : ∀ e ∈ (ota_init env s.uncompressed s.firmwaresize).calls ++
      [Event.ota_init (ota_init env s.uncompressed s.firmwaresize).res],
      e.is_esp_ota_write = false := by
    intro e he
    simp only [List.mem_append, List.mem_singleton] at he
    rcases he with he | he
    · exact ota_init_calls_no_write env _ _ e he
    · rw [he]; rfl
  rw [validate_trace, List.append_assoc, written_append, write_lengths_append,
    (written_of_no_write _ h).1, (written_of_no_write _ h).2]
  simp

/-- A call of `tinfl_decompress` writes nothing. -/
theorem decompress_written {σ : Type} (env : Env σ) (s : State σ) :
    written (decompress env s).trace = written s.trace ∧
    write_lengths (decompress env s).trace = write_lengths s.trace := by
  rw [decompress_trace_eq, written_append, write_lengths_append]
  simp [written, write_lengths, Event.written]

/-! ## Machine arithmetic -/

theorem sub32_of_le (a b : Nat) (ha : a < WORD) (hb : b ≤ a) : sub32 a b = a - b := by
  unfold sub32
  unfold WORD at *
  omega

theorem u32_of_lt (a : Nat) (ha : a < WORD) : u32 a = a := by
  unfold u32
  exact Nat.mod_eq_of_lt ha

/-! ## Example collaborators -/

@[simp] theorem zeros_length (n : Nat) : (zeros n).length = n := by
  simp [zeros]

/-! ## The phases of a run -/

theorem PhaseInv_start {σ : Type} (env : Env σ) (req : Request) :
    PhaseInv (ota_start env req) := by
  unfold ota_start PhaseInv
  simp only []
  split_ifs <;> simp [Label.in_loop, Event.loop_event, Event.is_esp_ota_write]

theorem PhaseInv_append {σ : Type} (s t : State σ) (evs : List Event) (h : PhaseInv s)
    (hp : t.prevalidated = s.prevalidated) (ht : t.trace = s.trace ++ evs)
    (hw : ∀ e ∈ evs, e.is_esp_ota_write = false)
    (hpc : t.pc.in_loop = true ∨ t.pc = .upload_complete →
      (s.pc.in_loop = true ∨ s.pc = .upload_complete) ∧ ∀ e ∈ evs, e.loop_event = true) :
    PhaseInv t := by
  obtain ⟨h1, h2⟩ := h
  refine ⟨?_, ?_⟩
  · intro hl e he
    rw [ht, List.mem_append] at he
    rcases he with he | he
    · exact h1 (hpc hl).1 e he
    · exact (hpc hl).2 e he
  · intro hpf e he
    rw [ht, List.mem_append] at he
    rcases he with he | he
    · exact h2 (hp ▸ hpf) e he
    · exact hw e he

theorem PhaseInv_step {σ : Type} (env : Env σ) (s : State σ) (h : PhaseInv s) :
    PhaseInv (step env s) := by
  unfold step
  split
  next hpc =>
    rcases chunk_step_cases env s with ⟨hrc, e⟩ | ⟨hrc, hin, e⟩ |
      ⟨m, inbox, hrc, hin, hbad, u, e⟩ | ⟨m, inbox, hrc, hin, hok, hlen, e⟩
    · rw [e]; exact PhaseInv_append s _ [] h rfl (by simp) (by simp)
        (by simp [hpc, Label.in_loop])
    · rw [e]; exact h
    · rw [e]; exact PhaseInv_append s _ [Event.get_in_message m] h rfl rfl
        (by simp [Event.is_esp_ota_write]) (by simp [Label.in_loop])
    · rw [e]; exact PhaseInv_append s _ [Event.get_in_message m] h rfl rfl
        (by simp [Event.is_esp_ota_write]) (by simp [hpc, Label.in_loop, Event.loop_event])
  next hpc =>
    have hin : s.pc.in_loop = true ∨ s.pc = .upload_complete := by simp [hpc, Label.in_loop]
    obtain ⟨a1, a2, a3, a4, a5, a6, hdt⟩ := decompress_trace env s
    have hcalls : ∀ b f, ∀ e ∈ (ota_init env b f).calls,
        e.loop_event = true ∧ e.is_esp_ota_write = false := by
      intro b f e he
      have := ota_init_calls_kind env b f e he
      revert this
      cases e <;> simp [Event.in_ota_init, Event.loop_event, Event.is_esp_ota_write]
    rcases inner_step_cases env s with ⟨hc, e⟩ | ⟨hc, hf, e⟩ | ⟨hc, hf, hp, hres, e⟩ |
      ⟨hc, hf, hp, hres, e⟩ | ⟨hc, hf, hp, e⟩
    · rw [e]; exact PhaseInv_append s _ [] h rfl (by simp) (by simp)
        (by simp [hpc, Label.in_loop])
    · rw [e]; exact PhaseInv_append s _ [_] h rfl hdt (by simp [Event.is_esp_ota_write])
        (by simp [hpc, Label.in_loop, Event.loop_event])
    · rw [e]
      obtain ⟨v1, v2, _⟩ := validate_fail env (decompress env s) hres
      refine PhaseInv_append s _
        ([Event.tinfl_decompress a1 a2 a3 a4 a5 a6] ++
          (ota_init env (decompress env s).uncompressed (decompress env s).firmwaresize).calls ++
          [Event.ota_init (ota_init env (decompress env s).uncompressed
            (decompress env s).firmwaresize).res]) h (by rw [v1]; rfl)
        (by rw [validate_trace, hdt]; simp) ?_ (by rw [v2]; simp [Label.in_loop])
      intro e he
      simp only [List.mem_append, List.mem_singleton] at he
      rcases he with (he | he) | he
      · rw [he]; rfl
      · exact (hcalls _ _ e he).2
      · rw [he]; rfl
    · rw [e]
      obtain ⟨v1, v2, _⟩ := validate_ok env (decompress env s) hres
      refine ⟨?_, ?_⟩
      · intro _ e he
        rw [flush_trace, validate_trace, hdt] at he
        simp only [List.mem_append, List.mem_singleton] at he
        rcases he with (((he | he) | he) | he) | he
        · exact h.1 hin e he
        · rw [he]; rfl
        · exact (hcalls _ _ e he).1
        · rw [he]; rfl
        · rw [he]; rfl
      · intro hpf
        rw [flush_prevalidated, v1] at hpf
        exact absurd hpf (by simp)
    · rw [e]
      refine ⟨?_, ?_⟩
      · intro _ e he
        rw [flush_trace, hdt] at he
        simp only [List.mem_append, List.mem_singleton] at he
        rcases he with (he | he) | he
        · exact h.1 hin e he
        · rw [he]; rfl
        · rw [he]; rfl
      · intro hpf
        rw [flush_prevalidated, decompress_prevalidated, hp] at hpf
        exact absurd hpf (by simp)
  next hpc =>
    rcases chunk_end_step_cases s with ⟨hc, e⟩ | ⟨hc, e⟩
    · rw [e]; refine PhaseInv_append s _ _ h rfl rfl ?_ (by simp [Label.in_loop])
      split_ifs <;> simp [Event.is_esp_ota_write]
    · rw [e]; refine PhaseInv_append s _ _ h rfl (List.append_assoc _ _ _) ?_ ?_
      · split_ifs <;> simp [Event.is_esp_ota_write]
      · intro _
        refine ⟨by simp [hpc, Label.in_loop], ?_⟩
        split_ifs <;> simp [Event.loop_event]
  next hpc =>
    rcases upload_complete_step_cases env s with ⟨hr, e⟩ | ⟨hr, he, e⟩ | ⟨hr, he, hb, e⟩ |
      ⟨hr, he, hb, e⟩
    · rw [e]; exact PhaseInv_append s _ [] h rfl (by simp) (by simp) (by simp [Label.in_loop])
    · rw [e]; exact PhaseInv_append s _ _ h rfl rfl (by simp [Event.is_esp_ota_write])
        (by simp [Label.in_loop])
    · rw [e]; exact PhaseInv_append s _ _ h rfl rfl (by simp [Event.is_esp_ota_write])
        (by simp [Label.in_loop])
    · rw [e]; refine PhaseInv_append s _ _ h rfl rfl (by simp [Event.is_esp_ota_write]) ?_
      simp only []
      split_ifs <;> simp [Label.in_loop]
  next hpc =>
    rcases otacomplete_step_cases s with ⟨hin, e⟩ | ⟨m, inbox, hin, e⟩
    · rw [e]; exact h
    · rw [e]
      refine PhaseInv_append s _ _ h rfl rfl ?_ (by simp [Label.in_loop])
      unfold completion_reply
      split_ifs <;> simp [Event.is_esp_ota_write]
  next hpc =>
    have hfr : ∀ e ∈ failure_report s, e.is_esp_ota_write = false := by
      unfold failure_report
      split_ifs <;> simp [Event.is_esp_ota_write]
    rcases cleanup_step_cases env s with ⟨hs, e⟩ | ⟨hs, ha, he, e⟩ | ⟨hs, ha, he, e⟩ |
      ⟨hs, ha, e⟩
    · rw [e]; exact PhaseInv_append s _ _ h rfl rfl (by simp [Event.is_esp_ota_write])
        (by simp [Label.in_loop])
    · rw [e]; exact PhaseInv_append s _ _ h rfl rfl (by simp [Event.is_esp_ota_write])
        (by simp [Label.in_loop])
    · rw [e]; refine PhaseInv_append s _ _ h rfl (List.append_assoc _ _ _) ?_
        (by simp [Label.in_loop])
      intro e he
      simp only [List.mem_append, List.mem_singleton] at he
      rcases he with he | he
      · rw [he]; rfl
      · exact hfr e he
    · rw [e]; exact PhaseInv_append s _ _ h rfl rfl hfr (by simp [Label.in_loop])
  next hpc => exact h
  next hpc => exact h
  next hpc => exact h

theorem PhaseInv_run {σ : Type} (env : Env σ) (req : Request) (n : Nat) :
    PhaseInv (ota_process env req n) :=
  run_invariant env PhaseInv (PhaseInv_step env) _ (PhaseInv_start env req) n

/-! ## The gating of the boot target -/

theorem GateInv_start {σ : Type} (env : Env σ) (req : Request) : GateInv (ota_start env req) := by
  unfold ota_start GateInv
  simp only []
  split_ifs <;> simp [Label.in_loop]

theorem GateInv_of_no_boot {σ : Type} (t : State σ)
    (hno : ∀ err, Event.esp_ota_set_boot_partition err ∉ t.trace)
    (hpc : t.pc ≠ .upload_complete)
    (hst : t.pc.in_loop = false → t.ota_return_status ≠ .SUCCESS) : GateInv t :=
  ⟨fun h => absurd h hpc, fun _ => hno, fun err h => absurd h (hno err),
    fun h _ hs => absurd hs (hst h)⟩

theorem GateInv_step {σ : Type} (env : Env σ) (s : State σ) (h : GateInv s) :
    GateInv (step env s) := by
  obtain ⟨h1, h2, h3, h4⟩ := h
  unfold step
  split
  next hpc =>
    have hno := h2 (by simp [hpc, Label.in_loop])
    rcases chunk_step_cases env s with ⟨hrc, e⟩ | ⟨hrc, hin, e⟩ |
      ⟨m, inbox, hrc, hin, hbad, u, e⟩ | ⟨m, inbox, hrc, hin, hok, hlen, e⟩ <;>
      rw [e] <;> unfold GateInv <;> simp [Label.in_loop, hno, hrc, hpc]
  next hpc =>
    have hno := h2 (by simp [hpc, Label.in_loop])
    have hi : ∀ b f err, Event.esp_ota_set_boot_partition err ∉ (ota_init env b f).calls := by
      intro b f err hmem
      have := ota_init_calls_kind env b f _ hmem
      simp [Event.in_ota_init] at this
    obtain ⟨a1, a2, a3, a4, a5, a6, hdt⟩ := decompress_trace env s
    have hd : ∀ err, Event.esp_ota_set_boot_partition err ∉ (decompress env s).trace := by
      intro err; rw [hdt]; simp [hno]
    rcases inner_step_cases env s with ⟨hc, e⟩ | ⟨hc, hf, e⟩ | ⟨hc, hf, hp, hres, e⟩ |
      ⟨hc, hf, hp, hres, e⟩ | ⟨hc, hf, hp, e⟩
    · rw [e]; exact GateInv_of_no_boot _ hno (by simp) (by simp [Label.in_loop])
    · rw [e]; exact GateInv_of_no_boot _ hd (by simp [hpc]) (by simp [hpc, Label.in_loop])
    · rw [e]
      obtain ⟨_, v2, v3⟩ := validate_fail env (decompress env s) hres
      refine GateInv_of_no_boot _ ?_ (by simp [v2]) (fun _ => by rw [v3]; exact hres)
      intro err; rw [validate_trace]; simp [hd, hi]
    · rw [e]
      obtain ⟨_, v2, v3⟩ := validate_ok env (decompress env s) hres
      have hpc' : (validate env (decompress env s)).pc = .inner_loop := by rw [v2]; exact hpc
      refine GateInv_of_no_boot _ ?_ ?_ ?_
      · intro err; rw [flush_trace, validate_trace]; simp [hd, hi]
      · rcases flush_pc env (validate env (decompress env s)) with ⟨f1, _⟩ | ⟨f1, _⟩ <;>
          rw [f1] <;> simp [hpc']
      · rcases flush_pc env (validate env (decompress env s)) with ⟨f1, _⟩ | ⟨f1, f2⟩
        · rw [f1]; simp [hpc', Label.in_loop]
        · rw [f1, f2]; simp
    · rw [e]
      refine GateInv_of_no_boot _ ?_ ?_ ?_
      · intro err; rw [flush_trace]; simp [hd]
      · rcases flush_pc env (decompress env s) with ⟨f1, _⟩ | ⟨f1, _⟩ <;>
          rw [f1] <;> simp [hpc]
      · rcases flush_pc env (decompress env s) with ⟨f1, _⟩ | ⟨f1, f2⟩
        · rw [f1]; simp [hpc, Label.in_loop]
        · rw [f1, f2]; simp
  next hpc =>
    have hno := h2 (by simp [hpc, Label.in_loop])
    rcases chunk_end_step_cases s with ⟨hc, e⟩ | ⟨hc, e⟩ <;>
      rw [e] <;> unfold GateInv <;> simp [Label.in_loop, hno, hpc]
  next hpc =>
    have hno := h2 (by simp [hpc, Label.in_loop])
    have hrc := h1 hpc
    rcases upload_complete_step_cases env s with ⟨hr, e⟩ | ⟨hr, he, e⟩ | ⟨hr, he, hb, e⟩ |
      ⟨hr, he, hb, e⟩
    · rw [e]; unfold GateInv; simp [Label.in_loop, hno, hpc, hrc, hr]
    · rw [e]; unfold GateInv; simp [Label.in_loop, hno, hpc, hrc, hr]
    · rw [e]; unfold GateInv; simp [Label.in_loop, hno, hpc, hrc, hr]
      exact ⟨s.trace, [], by simp⟩
    · have hshape : ∃ pre post, s.trace ++
          [Event.esp_ota_end ESP_OK, Event.esp_ota_set_boot_partition ESP_OK] =
          pre ++ [Event.esp_ota_end ESP_OK, Event.esp_ota_set_boot_partition ESP_OK] ++ post :=
        ⟨s.trace, [], by simp⟩
      cases hp : s.prevalidated <;> simp only [hp, if_true, if_false] at e <;>
        rw [e] <;> unfold GateInv <;> simp [Label.in_loop, hno, hpc, hrc, hr] <;>
        simpa using hshape
  next hpc =>
    rcases otacomplete_step_cases s with ⟨hin, e⟩ | ⟨m, inbox, hin, e⟩
    · rw [e]; exact ⟨h1, h2, h3, h4⟩
    · have h4' := h4 (by simp [hpc, Label.in_loop]) (by simp [hpc])
      have hcr : ∀ err, Event.esp_ota_set_boot_partition err ≠
          completion_reply m.method s.ota_return_status := by
        intro err; unfold completion_reply; split_ifs <;> simp
      rw [e]; unfold GateInv; simp [Label.in_loop, hcr]
      refine ⟨?_, h4'⟩
      intro err hmem
      obtain ⟨a, b, pre, post, hh⟩ := h3 err hmem
      exact ⟨a, b, pre, post ++ [Event.load_in_message m,
        completion_reply m.method s.ota_return_status], by simp [hh]⟩
  next hpc =>
    have h4' := h4 (by simp [hpc, Label.in_loop]) (by simp [hpc])
    have hfr : ∀ err, Event.esp_ota_set_boot_partition err ∉ failure_report s := by
      intro err; unfold failure_report; split_ifs <;> simp
    have hext : ∀ evs : List Event, ∀ err, Event.esp_ota_set_boot_partition err ∈ s.trace →
        s.remaining_compressed = 0 ∧ s.remaining = 0 ∧ ∃ pre post, s.trace ++ evs =
          pre ++ [Event.esp_ota_end ESP_OK, Event.esp_ota_set_boot_partition err] ++ post := by
      intro evs err hmem
      obtain ⟨a, b, pre, post, hh⟩ := h3 err hmem
      exact ⟨a, b, pre, post ++ evs, by simp [hh]⟩
    rcases cleanup_step_cases env s with ⟨hs, e⟩ | ⟨hs, ha, he, e⟩ | ⟨hs, ha, he, e⟩ |
      ⟨hs, ha, e⟩ <;>
      rw [e] <;> unfold GateInv <;> simp [Label.in_loop, hfr] <;>
      (try refine ⟨?_, h4'⟩) <;> intro err hmem <;> simpa using hext _ err hmem
  next hpc => exact ⟨h1, h2, h3, h4⟩
  next hpc => exact ⟨h1, h2, h3, h4⟩
  next hpc => exact ⟨h1, h2, h3, h4⟩

theorem GateInv_run {σ : Type} (env : Env σ) (req : Request) (n : Nat) :
    GateInv (ota_process env req n) :=
  run_invariant env GateInv (GateInv_step env) _ (GateInv_start env req) n

theorem ota_process_succ {σ : Type} (env : Env σ) (req : Request) (n : Nat) :
    ota_process env req (n + 1) = step env (ota_process env req n) := by
  unfold ota_process
  rw [run_succ]

theorem ota_process_add {σ : Type} (env : Env σ) (req : Request) (n k : Nat) :
    ota_process env req (n + k) = run env k (ota_process env req n) := by
  unfold ota_process
  rw [run_add]

/-! ## Validation happens at most once -/

theorem ValidInv_start {σ : Type} (env : Env σ) (req : Request) :
    ValidInv (ota_start env req) := by
  unfold ota_start ValidInv
  simp only []
  split_ifs <;>
    simp [Label.late, Event.validation, Event.is_ota_init, Event.in_ota_init]

/-- Appending events that are not validation events keeps `ValidInv` as long
as the validation flag is unchanged. -/
theorem ValidInv_append {σ : Type} (s t : State σ) (evs : List Event) (h : ValidInv s)
    (hp : t.prevalidated = s.prevalidated) (ht : t.trace = s.trace ++ evs)
    (hclean : ∀ e ∈ evs, e.validation = false)
    (hlate : s.pc.late = true → t.pc.late = true ∧
      ∀ e ∈ evs, e.is_tinfl_decompress = false ∧ e.is_esp_ota_write = false) :
    ValidInv t := by
  obtain ⟨h1, h2, h3⟩ := h
  refine ⟨?_, ?_, ?_⟩
  · intro hpf hl e he
    rw [ht, List.mem_append] at he
    have hsl : s.pc.late = false := by
      cases hs : s.pc.late with
      | false => rfl
      | true => rw [(hlate hs).1] at hl; exact absurd hl (by simp)
    rcases he with he | he
    · exact h1 (hp ▸ hpf) hsl e he
    · exact hclean e he
  · intro hpt
    obtain ⟨pre, post, e1, e2, e3⟩ := h2 (hp ▸ hpt)
    refine ⟨pre, post ++ evs, by rw [ht, e1]; simp, e2, ?_⟩
    intro e he
    rw [List.mem_append] at he
    rcases he with he | he
    · exact e3 e he
    · exact hclean e he
  · intro hpf
    rcases h3 (hp ▸ hpf) with hc | ⟨pre, res, post, e1, e2, e3, e4, e5⟩
    · left
      intro e he
      rw [ht, List.mem_append] at he
      rcases he with he | he
      · exact hc e he
      · exact hclean e he
    · right
      refine ⟨pre, res, post ++ evs, by rw [ht, e1]; simp, e2, e3, ?_, (hlate e5).1⟩
      intro e he
      rw [List.mem_append] at he
      rcases he with he | he
      · exact e4 e he
      · exact ⟨hclean e he, (hlate e5).2 e he⟩

theorem ValidInv_of_failed {σ : Type} (t : State σ) (pre : List Event) (res : ota_status)
    (hp : t.prevalidated = false) (hpc : t.pc.late = true)
    (ht : t.trace = pre ++ [Event.ota_init res]) (hres : res ≠ .SUCCESS)
    (hpre : ∀ e ∈ pre, e.is_ota_init = false) : ValidInv t := by
  refine ⟨?_, ?_, ?_⟩
  · intro _ hl; rw [hpc] at hl; exact absurd hl (by simp)
  · intro hpt; rw [hp] at hpt; exact absurd hpt (by simp)
  · intro _
    exact Or.inr ⟨pre, res, [], ht, hres, hpre, by simp, hpc⟩

theorem ValidInv_of_validated {σ : Type} (t : State σ) (pre post : List Event)
    (hp : t.prevalidated = true)
    (ht : t.trace = pre ++ Event.ota_init .SUCCESS :: post)
    (hpre : ∀ e ∈ pre, e.is_ota_init = false)
    (hpost : ∀ e ∈ post, e.validation = false) : ValidInv t := by
  refine ⟨?_, ?_, ?_⟩
  · intro hpf; rw [hp] at hpf; exact absurd hpf (by simp)
  · intro _; exact ⟨pre, post, ht, hpre, hpost⟩
  · intro hpf; rw [hp] at hpf; exact absurd hpf (by simp)


theorem ValidInv_step {σ : Type} (env : Env σ) (s : State σ) (h : ValidInv s) :
    ValidInv (step env s) := by
  unfold step
  split
  next hpc =>
    rcases chunk_step_cases env s with ⟨hrc, e⟩ | ⟨hrc, hin, e⟩ |
      ⟨m, inbox, hrc, hin, hbad, u, e⟩ | ⟨m, inbox, hrc, hin, hok, hlen, e⟩
    · rw [e]; exact ValidInv_append s _ [] h rfl (by simp) (by simp) (by simp [hpc, Label.late])
    · rw [e]; exact h
    · rw [e]; exact ValidInv_append s _ [Event.get_in_message m] h rfl rfl
        (by simp [Event.validation, Event.is_ota_init, Event.in_ota_init])
        (by simp [hpc, Label.late])
    · rw [e]; exact ValidInv_append s _ [Event.get_in_message m] h rfl rfl
        (by simp [Event.validation, Event.is_ota_init, Event.in_ota_init])
        (by simp [hpc, Label.late])
  next hpc =>
    have hnl : s.pc.late = false := by simp [hpc, Label.late]
    obtain ⟨a1, a2, a3, a4, a5, a6, hdt⟩ := decompress_trace env s
    have hev : (Event.tinfl_decompress a1 a2 a3 a4 a5 a6).validation = false := by
      simp [Event.validation, Event.is_ota_init, Event.in_ota_init]
    have hpre : s.prevalidated = false → ∀ e ∈ (decompress env s).trace ++
        (ota_init env (decompress env s).uncompressed (decompress env s).firmwaresize).calls,
        e.is_ota_init = false := by
      intro hp e he
      rw [hdt] at he
      simp only [List.mem_append, List.mem_singleton] at he
      rcases he with (he | he) | he
      · have := h.1 hp hnl e he
        simp only [Event.validation, Bool.or_eq_false_iff] at this
        exact this.1
      · rw [he]; rfl
      · exact ota_init_calls_markers env _ _ e he
    rcases inner_step_cases env s with ⟨hc, e⟩ | ⟨hc, hf, e⟩ | ⟨hc, hf, hp, hres, e⟩ |
      ⟨hc, hf, hp, hres, e⟩ | ⟨hc, hf, hp, e⟩
    · rw [e]; exact ValidInv_append s _ [] h rfl (by simp) (by simp) (by simp [hpc, Label.late])
    · rw [e]; exact ValidInv_append s _ [_] h rfl hdt (by simp [hev])
        (by simp [hpc, Label.late])
    · rw [e]
      obtain ⟨v1, v2, _⟩ := validate_fail env (decompress env s) hres
      exact ValidInv_of_failed _ _ _ (by rw [v1]; exact hp) (by rw [v2]; rfl)
        (validate_trace env _) hres (hpre hp)
    · rw [e]
      obtain ⟨v1, _, _⟩ := validate_ok env (decompress env s) hres
      refine ValidInv_of_validated _ _
        [Event.esp_ota_write (validate env (decompress env s)).uncompressed
          (env.esp_ota_write (validate env (decompress env s)).n_writes
            (validate env (decompress env s)).uncompressed)] (by simp [v1]) ?_ (hpre hp) ?_
      · rw [flush_trace, validate_trace]
        simp only [decompress_firmwaresize, hres, List.append_assoc, List.singleton_append]
      · simp [Event.validation, Event.is_ota_init, Event.in_ota_init]
    · rw [e]
      refine ValidInv_append s _
        [Event.tinfl_decompress a1 a2 a3 a4 a5 a6,
          Event.esp_ota_write (decompress env s).uncompressed
            (env.esp_ota_write (decompress env s).n_writes (decompress env s).uncompressed)]
        h (by simp) (by rw [flush_trace, hdt]; simp) ?_ (by simp [hpc, Label.late])
      simp [Event.validation, Event.is_ota_init, Event.in_ota_init]
  next hpc =>
    rcases chunk_end_step_cases s with ⟨hc, e⟩ | ⟨hc, e⟩
    · rw [e]; refine ValidInv_append s _ _ h rfl rfl ?_ (by simp [hpc, Label.late])
      split_ifs <;> simp [Event.validation, Event.is_ota_init, Event.in_ota_init]
    · rw [e]; refine ValidInv_append s _ _ h rfl (List.append_assoc _ _ _) ?_
        (by simp [hpc, Label.late])
      split_ifs <;> simp [Event.validation, Event.is_ota_init, Event.in_ota_init]
  next hpc =>
    rcases upload_complete_step_cases env s with ⟨hr, e⟩ | ⟨hr, he, e⟩ | ⟨hr, he, hb, e⟩ |
      ⟨hr, he, hb, e⟩
    · rw [e]; exact ValidInv_append s _ [] h rfl (by simp) (by simp) (by simp [hpc, Label.late])
    all_goals
      rw [e]
      refine ValidInv_append s _ _ h rfl rfl ?_ (by simp [hpc, Label.late])
      simp [Event.validation, Event.is_ota_init, Event.in_ota_init]
  next hpc =>
    rcases otacomplete_step_cases s with ⟨hin, e⟩ | ⟨m, inbox, hin, e⟩
    · rw [e]; exact h
    · rw [e]
      refine ValidInv_append s _ _ h rfl rfl ?_ (by simp [hpc, Label.late])
      unfold completion_reply
      split_ifs <;> simp [Event.validation, Event.is_ota_init, Event.in_ota_init]
  next hpc =>
    have hfr : ∀ e ∈ failure_report s, e.validation = false ∧
        e.is_tinfl_decompress = false ∧ e.is_esp_ota_write = false := by
      unfold failure_report
      split_ifs <;> simp [Event.validation, Event.is_ota_init, Event.in_ota_init,
        Event.is_tinfl_decompress, Event.is_esp_ota_write]
    rcases cleanup_step_cases env s with ⟨hs, e⟩ | ⟨hs, ha, he, e⟩ | ⟨hs, ha, he, e⟩ |
      ⟨hs, ha, e⟩
    · rw [e]
      refine ValidInv_append s _ _ h rfl rfl ?_ ?_ <;>
        simp [Event.validation, Event.is_ota_init, Event.in_ota_init,
          Event.is_tinfl_decompress, Event.is_esp_ota_write, Label.late]
    · rw [e]
      refine ValidInv_append s _ _ h rfl rfl ?_ ?_ <;>
        simp [Event.validation, Event.is_ota_init, Event.in_ota_init,
          Event.is_tinfl_decompress, Event.is_esp_ota_write, Label.late]
    · rw [e]
      refine ValidInv_append s _ _ h rfl (List.append_assoc _ _ _) ?_ ?_
      · intro e he
        simp only [List.mem_append, List.mem_singleton] at he
        rcases he with he | he
        · rw [he]; simp [Event.validation, Event.is_ota_init, Event.in_ota_init]
        · exact (hfr e he).1
      · intro _
        refine ⟨by simp [Label.late], ?_⟩
        intro e he
        simp only [List.mem_append, List.mem_singleton] at he
        rcases he with he | he
        · rw [he]; simp [Event.is_tinfl_decompress, Event.is_esp_ota_write]
        · exact (hfr e he).2
    · rw [e]
      refine ValidInv_append s _ _ h rfl rfl (fun e he => (hfr e he).1) ?_
      intro _
      exact ⟨by simp [Label.late], fun e he => (hfr e he).2⟩
  next hpc => exact h
  next hpc => exact h
  next hpc => exact h

theorem ValidInv_run {σ : Type} (env : Env σ) (req : Request) (n : Nat) :
    ValidInv (ota_process env req n) :=
  run_invariant env ValidInv (ValidInv_step env) _ (ValidInv_start env req) n

/-! ## The failures of `ota_init` -/

theorem InitFailInv_start {σ : Type} (env : Env σ) (req : Request) :
    InitFailInv env (ota_start env req) := by
  unfold ota_start InitFailInv
  simp only []
  split_ifs <;> simp

/-- A transition that starts before `cleanup` and makes no call of `ota_init`
keeps `InitFailInv`. -/
theorem InitFailInv_quiet {σ : Type} (env : Env σ) (s t : State σ) (evs : List Event)
    (h : InitFailInv env s) (hl : s.pc.late = false) (ht : t.trace = s.trace ++ evs)
    (hq : ∀ e ∈ evs, e.validation = false) : InitFailInv env t := by
  obtain ⟨hA, _, _, _⟩ := h
  obtain ⟨a1, a2, a3⟩ := hA hl
  have hc : ∀ v, Event.esp_efuse_check_secure_version v false ∉ t.trace := by
    intro v hv
    rw [ht, List.mem_append] at hv
    rcases hv with hv | hv
    · exact a1 v hv
    · have := hq _ hv; simp [Event.validation, Event.is_ota_init, Event.in_ota_init] at this
  have hw : ∀ ret ev, Event.gui_activity_wait_event ret ev ∈ t.trace →
      ret = true ∧ ev = env.BTN_ACCEPT_OTA := by
    intro ret ev hv
    rw [ht, List.mem_append] at hv
    rcases hv with hv | hv
    · exact a2 ret ev hv
    · have := hq _ hv; simp [Event.validation, Event.is_ota_init, Event.in_ota_init] at this
  have hm : ∀ res, Event.ota_init res ∈ t.trace → res = .SUCCESS := by
    intro res hv
    rw [ht, List.mem_append] at hv
    rcases hv with hv | hv
    · exact a3 res hv
    · have := hq _ hv; simp [Event.validation, Event.is_ota_init, Event.in_ota_init] at this
  refine ⟨fun _ => ⟨hc, hw, hm⟩, fun v hv => absurd hv (hc v), ?_, ?_⟩
  · intro ret ev hv hd
    obtain ⟨r1, r2⟩ := hw ret ev hv
    rcases hd with hd | hd
    · rw [r1] at hd; exact absurd hd (by simp)
    · exact absurd r2 hd
  · intro res hv hne
    exact absurd (hm res hv) hne

theorem InitFailInv_step {σ : Type} (env : Env σ) (s : State σ)
    (hV : ValidInv s) (hP : PhaseInv s) (h : InitFailInv env s) :
    InitFailInv env (step env s) := by
  unfold step
  split
  next hpc =>
    have hl : s.pc.late = false := by simp [hpc, Label.late]
    rcases chunk_step_cases env s with ⟨hrc, e⟩ | ⟨hrc, hin, e⟩ |
      ⟨m, inbox, hrc, hin, hbad, u, e⟩ | ⟨m, inbox, hrc, hin, hok, hlen, e⟩
    · rw [e]; exact InitFailInv_quiet env s _ [] h hl (by simp) (by simp)
    · rw [e]; exact h
    · rw [e]; exact InitFailInv_quiet env s _ [Event.get_in_message m] h hl rfl
        (by simp [Event.validation, Event.is_ota_init, Event.in_ota_init])
    · rw [e]; exact InitFailInv_quiet env s _ [Event.get_in_message m] h hl rfl
        (by simp [Event.validation, Event.is_ota_init, Event.in_ota_init])
  next hpc =>
    have hl : s.pc.late = false := by simp [hpc, Label.late]
    have hin : s.pc.in_loop = true ∨ s.pc = .upload_complete := by simp [hpc, Label.in_loop]
    obtain ⟨a1, a2, a3, a4, a5, a6, hdt⟩ := decompress_trace env s
    obtain ⟨hA1, hA2, hA3⟩ := h.1 hl
    rcases inner_step_cases env s with ⟨hc, e⟩ | ⟨hc, hf, e⟩ | ⟨hc, hf, hp, hres, e⟩ |
      ⟨hc, hf, hp, hres, e⟩ | ⟨hc, hf, hp, e⟩
    · rw [e]; exact InitFailInv_quiet env s _ [] h hl (by simp) (by simp)
    · rw [e]; exact InitFailInv_quiet env s _ [_] h hl hdt
        (by simp [Event.validation, Event.is_ota_init, Event.in_ota_init])
    · -- `ota_init` fails
      rw [e]
      obtain ⟨v1, v2, v3⟩ := validate_fail env (decompress env s) hres
      obtain ⟨f1, f2, f3⟩ := ota_init_facts env (decompress env s).uncompressed s.firmwaresize
      have hkind := ota_init_calls_kind env (decompress env s).uncompressed s.firmwaresize
      have htr : (validate env (decompress env s)).trace =
          s.trace ++ [Event.tinfl_decompress a1 a2 a3 a4 a5 a6] ++
          (ota_init env (decompress env s).uncompressed s.firmwaresize).calls ++
          [Event.ota_init (ota_init env (decompress env s).uncompressed s.firmwaresize).res] := by
        rw [validate_trace, hdt]; rfl
      refine ⟨?_, ?_, ?_, ?_⟩
      · intro hl'; rw [v2] at hl'; simp [Label.late] at hl'
      · intro v hv
        rw [htr] at hv ⊢
        simp only [List.mem_append, List.mem_singleton] at hv
        rcases hv with ((hv | hv) | hv) | hv
        · exact absurd hv (hA1 v)
        · simp at hv
        · rw [f1 v hv]; simp
        · simp at hv
      · intro ret ev hv hd
        rw [htr] at hv ⊢
        simp only [List.mem_append, List.mem_singleton] at hv
        rcases hv with ((hv | hv) | hv) | hv
        · obtain ⟨r1, r2⟩ := hA2 ret ev hv
          rcases hd with hd | hd
          · rw [r1] at hd; exact absurd hd (by simp)
          · exact absurd r2 hd
        · simp at hv
        · rw [f2 ret ev hv hd]; simp
        · simp at hv
      · intro res hv hne
        have hres' : res = (ota_init env (decompress env s).uncompressed s.firmwaresize).res := by
          rw [htr] at hv
          simp only [List.mem_append, List.mem_singleton] at hv
          rcases hv with ((hv | hv) | hv) | hv
          · exact absurd (hA3 res hv) hne
          · simp at hv
          · have := hkind _ hv; simp [Event.in_ota_init] at this
          · simpa using hv
        have hclean := hV.1 hp hl
        refine ⟨by rw [v3, hres']; rfl, by rw [v1]; exact hp, Or.inl v2, ?_, ?_, ?_⟩
        · intro e he
          rw [htr] at he
          simp only [List.mem_append, List.mem_singleton] at he
          rcases he with ((he | he) | he) | he
          · have h1 := hP.2 hp e he
            have h2 := hP.1 hin e he
            refine ⟨h1, ?_⟩
            revert h2; cases e <;> simp [Event.loop_event, Event.is_esp_ota_end]
          · rw [he]; exact ⟨rfl, rfl⟩
          · have := hkind _ he
            revert this
            cases e <;> simp [Event.in_ota_init, Event.is_esp_ota_end, Event.is_esp_ota_write]
          · rw [he]; exact ⟨rfl, rfl⟩
        · intro hni e he
          rw [htr] at he
          simp only [List.mem_append, List.mem_singleton] at he
          rcases he with ((he | he) | he) | he
          · have h1 := hclean e he
            revert h1
            cases e <;> simp [Event.validation, Event.is_ota_init, Event.in_ota_init,
              Event.is_esp_ota_begin]
          · rw [he]; rfl
          · cases e with
            | esp_ota_begin f err =>
              rcases f3 f err he with h3 | h3
              · exact absurd h3 hres
              · rw [hres'] at hni; exact absurd h3 hni
            | _ => rfl
          · rw [he]; rfl
        · intro _ e he
          rw [htr] at he
          simp only [List.mem_append, List.mem_singleton] at he
          rcases he with ((he | he) | he) | he
          · have h2 := hP.1 hin e he
            revert h2; cases e <;> simp [Event.loop_event, Event.is_await_error_activity]
          · rw [he]; rfl
          · have := hkind _ he
            revert this
            cases e <;> simp [Event.in_ota_init, Event.is_await_error_activity]
          · rw [he]; rfl
    · -- `ota_init` succeeds
      rw [e]
      obtain ⟨f1, f2, f3⟩ := ota_init_facts env (decompress env s).uncompressed s.firmwaresize
      have hkind := ota_init_calls_kind env (decompress env s).uncompressed s.firmwaresize
      have htr : (flush env (validate env (decompress env s))).trace =
          s.trace ++ [Event.tinfl_decompress a1 a2 a3 a4 a5 a6] ++
          (ota_init env (decompress env s).uncompressed s.firmwaresize).calls ++
          [Event.ota_init .SUCCESS] ++
          [Event.esp_ota_write (validate env (decompress env s)).uncompressed
            (env.esp_ota_write (validate env (decompress env s)).n_writes
              (validate env (decompress env s)).uncompressed)] := by
        rw [flush_trace, validate_trace, hdt, decompress_firmwaresize, hres]
      have hc : ∀ v, Event.esp_efuse_check_secure_version v false ∉
          (flush env (validate env (decompress env s))).trace := by
        intro v hv
        rw [htr] at hv
        simp only [List.mem_append, List.mem_singleton] at hv
        rcases hv with (((hv | hv) | hv) | hv) | hv
        · exact hA1 v hv
        · simp at hv
        · have := f1 v hv; rw [hres] at this; simp at this
        · simp at hv
        · simp at hv
      have hw : ∀ ret ev, Event.gui_activity_wait_event ret ev ∈
          (flush env (validate env (decompress env s))).trace →
          ret = true ∧ ev = env.BTN_ACCEPT_OTA := by
        intro ret ev hv
        rw [htr] at hv
        simp only [List.mem_append, List.mem_singleton] at hv
        rcases hv with (((hv | hv) | hv) | hv) | hv
        · exact hA2 ret ev hv
        · simp at hv
        · by_contra hcon
          have hd : ret = false ∨ ev ≠ env.BTN_ACCEPT_OTA := by
            by_cases hr : ret = true
            · right; intro he; exact hcon ⟨hr, he⟩
            · left; simpa using hr
          have := f2 ret ev hv hd; rw [hres] at this; simp at this
        · simp at hv
        · simp at hv
      have hm : ∀ res, Event.ota_init res ∈
          (flush env (validate env (decompress env s))).trace → res = .SUCCESS := by
        intro res hv
        rw [htr] at hv
        simp only [List.mem_append, List.mem_singleton] at hv
        rcases hv with (((hv | hv) | hv) | hv) | hv
        · exact hA3 res hv
        · simp at hv
        · have := hkind _ hv; simp [Event.in_ota_init] at this
        · simpa using hv
        · simp at hv
      refine ⟨fun _ => ⟨hc, hw, hm⟩, fun v hv => absurd hv (hc v), ?_, ?_⟩
      · intro ret ev hv hd
        obtain ⟨r1, r2⟩ := hw ret ev hv
        rcases hd with hd | hd
        · rw [r1] at hd; exact absurd hd (by simp)
        · exact absurd r2 hd
      · intro res hv hne
        exact absurd (hm res hv) hne
    · rw [e]
      exact InitFailInv_quiet env s _
        [Event.tinfl_decompress a1 a2 a3 a4 a5 a6,
          Event.esp_ota_write (decompress env s).uncompressed
            (env.esp_ota_write (decompress env s).n_writes (decompress env s).uncompressed)]
        h hl (by rw [flush_trace, hdt]; simp)
        (by simp [Event.validation, Event.is_ota_init, Event.in_ota_init])
  next hpc =>
    have hl : s.pc.late = false := by simp [hpc, Label.late]
    rcases chunk_end_step_cases s with ⟨hc, e⟩ | ⟨hc, e⟩
    · rw [e]; refine InitFailInv_quiet env s _ _ h hl rfl ?_
      split_ifs <;> simp [Event.validation, Event.is_ota_init, Event.in_ota_init]
    · rw [e]; refine InitFailInv_quiet env s _ _ h hl (List.append_assoc _ _ _) ?_
      split_ifs <;> simp [Event.validation, Event.is_ota_init, Event.in_ota_init]
  next hpc =>
    have hl : s.pc.late = false := by simp [hpc, Label.late]
    rcases upload_complete_step_cases env s with ⟨hr, e⟩ | ⟨hr, he, e⟩ | ⟨hr, he, hb, e⟩ |
      ⟨hr, he, hb, e⟩
    · rw [e]; exact InitFailInv_quiet env s _ [] h hl (by simp) (by simp)
    all_goals
      rw [e]
      refine InitFailInv_quiet env s _ _ h hl rfl ?_
      simp [Event.validation, Event.is_ota_init, Event.in_ota_init]
  next hpc =>
    have hl : s.pc.late = false := by simp [hpc, Label.late]
    rcases otacomplete_step_cases s with ⟨hin, e⟩ | ⟨m, inbox, hin, e⟩
    · rw [e]; exact h
    · rw [e]
      refine InitFailInv_quiet env s _ _ h hl rfl ?_
      unfold completion_reply
      split_ifs <;> simp [Event.validation, Event.is_ota_init, Event.in_ota_init]
  next hpc =>
    obtain ⟨_, hB, hC, hD⟩ := h
    have hmono : ∀ (t : State σ) (evs : List Event), t.trace = s.trace ++ evs →
        t.pc.late = true → (∀ e ∈ evs, e.validation = false) →
        (∀ res, Event.ota_init res ∈ s.trace → res ≠ .SUCCESS →
          t.ota_return_status = res ∧ t.prevalidated = false ∧
          (t.pc = .cleanup ∨ t.pc = .returned) ∧
          (∀ e ∈ evs, e.is_esp_ota_write = false ∧ e.is_esp_ota_end = false ∧
            e.is_esp_ota_begin = false ∧
            (res = .ERROR_USER_DECLINED → e.is_await_error_activity = false))) →
        InitFailInv env t := by
      intro t evs ht hl hq hd
      refine ⟨?_, ?_, ?_, ?_⟩
      · intro hl'; rw [hl] at hl'; exact absurd hl' (by simp)
      · intro v hv
        rw [ht, List.mem_append] at hv ⊢
        rcases hv with hv | hv
        · exact Or.inl (hB v hv)
        · have := hq _ hv; simp [Event.validation, Event.is_ota_init, Event.in_ota_init] at this
      · intro ret ev hv hdec
        rw [ht, List.mem_append] at hv ⊢
        rcases hv with hv | hv
        · exact Or.inl (hC ret ev hv hdec)
        · have := hq _ hv; simp [Event.validation, Event.is_ota_init, Event.in_ota_init] at this
      · intro res hv hne
        rw [ht, List.mem_append] at hv
        rcases hv with hv | hv
        · obtain ⟨d1, d2, d3, d4⟩ := hd res hv hne
          obtain ⟨_, _, _, o4, o5, o6⟩ := hD res hv hne
          refine ⟨d1, d2, d3, ?_, ?_, ?_⟩
          · intro e he
            rw [ht, List.mem_append] at he
            rcases he with he | he
            · exact o4 e he
            · exact ⟨(d4 e he).1, (d4 e he).2.1⟩
          · intro hni e he
            rw [ht, List.mem_append] at he
            rcases he with he | he
            · exact o5 hni e he
            · exact (d4 e he).2.2.1
          · intro hud e he
            rw [ht, List.mem_append] at he
            rcases he with he | he
            · exact o6 hud e he
            · exact (d4 e he).2.2.2 hud
        · have := hq _ hv; simp [Event.validation, Event.is_ota_init, Event.in_ota_init] at this
    have hfr : ∀ e ∈ failure_report s, e.validation = false ∧ e.is_esp_ota_write = false ∧
        e.is_esp_ota_end = false ∧ e.is_esp_ota_begin = false ∧
        (s.ota_return_status = .ERROR_USER_DECLINED → e.is_await_error_activity = false) := by
      unfold failure_report
      split_ifs with h1 h2 h2 <;>
        simp [Event.validation, Event.is_ota_init, Event.in_ota_init, Event.is_esp_ota_write,
          Event.is_esp_ota_end, Event.is_esp_ota_begin, Event.is_await_error_activity]
      · exact h2.2
      · exact h2.2
    rcases cleanup_step_cases env s with ⟨hs, e⟩ | ⟨hs, ha, he, e⟩ | ⟨hs, ha, he, e⟩ |
      ⟨hs, ha, e⟩
    · rw [e]
      refine hmono _ _ rfl (by simp [Label.late])
        (by simp [Event.validation, Event.is_ota_init, Event.in_ota_init]) ?_
      intro res hv hne
      have := (hD res hv hne).1
      rw [hs] at this
      exact absurd this.symm hne
    · rw [e]
      refine hmono _ _ rfl (by simp [Label.late])
        (by simp [Event.validation, Event.is_ota_init, Event.in_ota_init]) ?_
      intro res hv hne
      have := (hD res hv hne).2.1
      rw [ha.1] at this
      exact absurd this (by simp)
    · rw [e]
      refine hmono _ ([Event.esp_ota_end env.esp_ota_end] ++ failure_report s)
        (by simp) (by simp [Label.late]) ?_ ?_
      · intro e he
        simp only [List.mem_append, List.mem_singleton] at he
        rcases he with he | he
        · rw [he]; rfl
        · exact (hfr e he).1
      · intro res hv hne
        have := (hD res hv hne).2.1
        rw [ha.1] at this
        exact absurd this (by simp)
    · rw [e]
      refine hmono _ _ rfl (by simp [Label.late]) (fun e he => (hfr e he).1) ?_
      intro res hv hne
      obtain ⟨d1, d2, _⟩ := hD res hv hne
      refine ⟨d1, d2, Or.inr rfl, ?_⟩
      intro e he
      obtain ⟨_, r2, r3, r4, r5⟩ := hfr e he
      exact ⟨r2, r3, r4, fun hud => r5 (by rw [d1, hud])⟩
  next hpc => exact h
  next hpc => exact h
  next hpc => exact h

theorem InitFailInv_run {σ : Type} (env : Env σ) (req : Request) (n : Nat) :
    InitFailInv env (ota_process env req n) := by
  have h : ∀ n, ValidInv (ota_process env req n) ∧ PhaseInv (ota_process env req n) ∧
      InitFailInv env (ota_process env req n) := by
    intro n
    induction n with
    | zero => exact ⟨ValidInv_start env req, PhaseInv_start env req, InitFailInv_start env req⟩
    | succ n ih =>
      obtain ⟨h1, h2, h3⟩ := ih
      unfold ota_process at *
      rw [run_succ]
      exact ⟨ValidInv_step env _ h1, PhaseInv_step env _ h2, InitFailInv_step env _ h1 h2 h3⟩
  exact (h n).2.2

/-! ## A session with a faithful decompressor -/

theorem payloads_cons (m : Msg) (fs : List Msg) (bytes : List Byte)
    (h : m.params_bytes = some bytes) :
    payloads (m :: fs) = bytes ++ payloads fs := by
  simp [payloads, h]

/-- What `handle_in_bin_data` does with a frame it accepts. -/
theorem handle_in_bin_data_of_accepted (B src : Nat) (m : Msg) (bytes : List Byte)
    (hm : m.method = "ota_data") (hs : m.source = src) (hb : m.params_bytes = some bytes)
    (h0 : 0 < bytes.length) (hB : bytes.length ≤ B) :
    (handle_in_bin_data B (reset_ctx none src) m).error = false ∧
    (handle_in_bin_data B (reset_ctx none src) m).len = bytes.length ∧
    (handle_in_bin_data B (reset_ctx none src) m).inbound_buf = some bytes := by
  have h1 : ¬ bytes.length = 0 := by omega
  have h2 : ¬ B < bytes.length := by omega
  simp [handle_in_bin_data, reset_ctx, hm, hs, hb, h1, h2]

theorem CAP_lt_WORD : UNCOMPRESSED_BUF_SIZE < WORD := by
  unfold UNCOMPRESSED_BUF_SIZE WORD; omega

theorem status_pos (st : Int)
    (h : st = TINFL_STATUS_NEEDS_MORE_INPUT ∨ st = TINFL_STATUS_HAS_MORE_OUTPUT) :
    st > TINFL_STATUS_DONE ∧ st ≠ TINFL_STATUS_DONE := by
  unfold TINFL_STATUS_NEEDS_MORE_INPUT TINFL_STATUS_HAS_MORE_OUTPUT at h
  unfold TINFL_STATUS_DONE
  omega

/-- The entry of `ota_process` on a well-formed request is in step with the stream. -/
theorem Sync_start {σ : Type} (env : Env σ) (R : σ → Nat → Nat → Prop) (img cmp : List Byte)
    (src : Nat) (frames rest : List Msg)
    (hc : Faithful env R img cmp) (hsize : cmp.length < img.length) (h32 : img.length < WORD)
    (hframes : ∀ m ∈ frames, m.accepted env.JADE_OTA_BUF_SIZE src)
    (hsplit : payloads frames = cmp) :
    SyncAt env R img cmp src rest 0 0 frames
      (ota_start env ⟨some img.length, some cmp.length, src, frames ++ rest⟩) ∧
    budget (ota_start env ⟨some img.length, some cmp.length, src, frames ++ rest⟩) =
      3 * (frames ++ rest).length + cmp.length + img.length := by
  have h1 : ¬ img.length ≤ cmp.length := by omega
  have e : ota_start env ⟨some img.length, some cmp.length, src, frames ++ rest⟩ =
      { pc := .chunk_loop, source := src, uploading := false,
        ota_return_status := .SUCCESS, prevalidated := false,
        ota_end_called := false, firmwaresize := img.length,
        compressedsize := cmp.length, update_partition := none,
        decomp := env.tinfl_init, remaining_compressed := cmp.length, remaining := img.length,
        status := TINFL_STATUS_NEEDS_MORE_INPUT, uncompressed := [],
        binctx := reset_ctx none src, length := 0, data_buf := [],
        n_writes := 0, inbox := frames ++ rest,
        trace := [Event.reply_to_message_ok,
                Event.display_message "Preparing for firmware update"] } := by
    simp [ota_start, h1, u32_of_lt _ h32, u32_of_lt _ (lt_trans hsize h32)]
  rw [e]
  refine ⟨⟨Or.inl rfl, rfl, rfl, rfl, ?_, hc.stream, rfl, ?_, ?_, ?_, ?_, ?_, ?_, rfl, ?_,
    Or.inl rfl, rfl, hframes, ?_, ?_, ?_⟩, ?_⟩
  · simpa using hc.init
  · simp
  · simp; omega
  · simp [UNCOMPRESSED_BUF_SIZE]
  · simp
  · simp [written, Event.written]
  · simp [write_lengths]
  · simp
  · intro _; simpa using hsplit
  · intro h; exact absurd rfl h
  · intro h; cases h
  · simp [budget, Label.weight]

/-- The frames of the stream still to come are not exhausted before the stream is. -/
theorem frames_nonempty (cmp : List Byte) (i : Nat) (fs : List Msg) (hi : i < cmp.length)
    (h : payloads fs = cmp.drop i) : ∃ m fs1, fs = m :: fs1 := by
  cases fs with
  | nil =>
    have := congrArg List.length h
    simp [payloads] at this
    omega
  | cons m fs1 => exact ⟨m, fs1, rfl⟩

/-- The head of the chunk loop, in step with the stream, receives the next frame. -/
theorem SyncAt_chunk_step {σ : Type} (env : Env σ) (R : σ → Nat → Nat → Prop)
    (img cmp : List Byte) (src : Nat) (rest : List Msg) (i k : Nat) (fs : List Msg)
    (s : State σ) (h : SyncAt env R img cmp src rest i k fs s) (hpc : s.pc = .chunk_loop) :
    ∃ fs1, SyncAt env R img cmp src rest i k fs1 (chunk_step env s) ∧
      budget (chunk_step env s) < budget s := by
  obtain ⟨m, fs1, hfs⟩ := frames_nonempty cmp i fs h.hmore (h.hhead hpc)
  have hacc := h.hframes m (by rw [hfs]; simp)
  obtain ⟨hm, hs, bytes, hb, h0, hB⟩ := hacc
  obtain ⟨a1, a2, a3⟩ := handle_in_bin_data_of_accepted env.JADE_OTA_BUF_SIZE s.source m bytes
    hm (hs.trans h.hsrc.symm) hb h0 hB
  have hpay : bytes ++ payloads fs1 = cmp.drop i := by
    rw [← h.hhead hpc, hfs, payloads_cons m fs1 bytes hb]
  have hle : bytes.length ≤ cmp.length - i := by
    have := congrArg List.length hpay
    simp at this
    omega
  have hin : s.inbox = m :: (fs1 ++ rest) := by rw [h.hinbox, hfs]; rfl
  have hrc0 : s.remaining_compressed ≠ 0 := by rw [h.hrc]; have := h.hmore; omega
  rcases chunk_step_cases env s with ⟨h0, _⟩ | ⟨_, hnil, _⟩ | ⟨m1, in1, _, hin1, hbad, _⟩ |
    ⟨m1, in1, _, hin1, _, _, e⟩
  · exact absurd h0 hrc0
  · rw [hin] at hnil; cases hnil
  · rw [hin] at hin1
    injection hin1 with e1 e2
    subst e1
    rw [a1, a2, h.hrc] at hbad
    rcases hbad with hbad | hbad
    · cases hbad
    · omega
  · rw [hin] at hin1
    injection hin1 with e1 e2
    subst e1
    subst e2
    rw [a2, a3] at e
    refine ⟨fs1, ?_, ?_⟩
    · rw [e]
      exact
        { hpc := Or.inr (Or.inl rfl)
          hsrc := h.hsrc
          hfw := h.hfw
          hend := h.hend
          hcodec := h.hcodec
          hmore := h.hmore
          hrc := h.hrc
          hout := h.hout
          hleft := h.hleft
          hroom := h.hroom
          hrem := h.hrem
          hbytes := by
            show written (s.trace ++ [Event.get_in_message m]) ++ s.uncompressed = _
            rw [written_append]
            simpa [written, Event.written] using h.hbytes
          hlens := by
            show write_lengths (s.trace ++ [Event.get_in_message m]) = _
            rw [write_lengths_append]
            simpa [write_lengths] using h.hlens
          hnw := h.hnw
          hval := h.hval
          hstatus := h.hstatus
          hinbox := rfl
          hframes := fun x hx => h.hframes x (by rw [hfs]; simp [hx])
          hhead := fun hx => by cases hx
          hchunk := fun _ => ⟨rfl, hpay⟩
          hexit := fun hx => by cases hx }
    · rw [e]
      simp only [budget, hpc, Label.weight, hin, List.length_cons]
      omega

/-- The inner loop, in step with the stream, ends when the chunk is used up. -/
theorem SyncAt_inner_exit {σ : Type} (env : Env σ) (R : σ → Nat → Nat → Prop)
    (img cmp : List Byte) (src : Nat) (rest : List Msg) (i k : Nat) (fs : List Msg)
    (s : State σ) (h : SyncAt env R img cmp src rest i k fs s) (hpc : s.pc = .inner_loop)
    (hlen : s.length = 0) :
    SyncAt env R img cmp src rest i k fs (inner_step env s) ∧
      budget (inner_step env s) < budget s := by
  have hpc1 : s.pc ≠ .chunk_loop := by rw [hpc]; simp
  have e : inner_step env s = { s with pc := .chunk_end } := by
    rcases inner_step_cases env s with ⟨_, e⟩ | ⟨hc, _⟩ | ⟨hc, _⟩ | ⟨hc, _⟩ | ⟨hc, _⟩
    · exact e
    all_goals (rw [hlen] at hc; exact absurd hc.1 (by simp))
  rw [e]
  refine ⟨?_, ?_⟩
  · exact
      { hpc := Or.inr (Or.inr rfl)
        hsrc := h.hsrc
        hfw := h.hfw
        hend := h.hend
        hcodec := h.hcodec
        hmore := h.hmore
        hrc := h.hrc
        hout := h.hout
        hleft := h.hleft
        hroom := h.hroom
        hrem := h.hrem
        hbytes := h.hbytes
        hlens := h.hlens
        hnw := h.hnw
        hval := h.hval
        hstatus := h.hstatus
        hinbox := h.hinbox
        hframes := h.hframes
        hhead := fun hx => by cases hx
        hchunk := fun _ => h.hchunk hpc1
        hexit := fun _ => hlen }
  · simp only [budget, hpc, Label.weight]
    omega

/-- The end of an iteration, in step with the stream, acknowledges the chunk. -/
theorem SyncAt_chunk_end_step {σ : Type} (env : Env σ) (R : σ → Nat → Nat → Prop)
    (img cmp : List Byte) (src : Nat) (rest : List Msg) (i k : Nat) (fs : List Msg)
    (s : State σ) (h : SyncAt env R img cmp src rest i k fs s) (hpc : s.pc = .chunk_end) :
    SyncAt env R img cmp src rest i k fs (chunk_end_step s) ∧
      budget (chunk_end_step s) < budget s := by
  have hpc1 : s.pc ≠ .chunk_loop := by rw [hpc]; simp
  obtain ⟨hst1, hst2⟩ := status_pos s.status h.hstatus
  have hrc0 : s.remaining_compressed ≠ 0 := by rw [h.hrc]; have := h.hmore; omega
  have hquiet : ∀ e ∈ (if s.prevalidated = true then
            [Event.update_progress_bar s.compressedsize
              (sub32 s.compressedsize s.remaining_compressed)] else []) ++
          [Event.send_ok s.binctx.id], e.is_esp_ota_write = false := by
    split_ifs <;> simp [Event.is_esp_ota_write]
  rcases chunk_end_step_cases s with ⟨hbad, _⟩ | ⟨_, e⟩
  · exfalso
    rcases hbad with ⟨_, hb⟩ | hb | ⟨hb, _⟩
    · exact hrc0 hb
    · exact absurd hst1 (not_lt.mpr (le_of_lt hb))
    · exact hst2 hb
  · have hd : s.data_buf = [] := by
      have := (h.hchunk hpc1).1
      rw [h.hexit hpc] at this
      exact List.length_eq_zero.mp this
    rw [e]
    refine ⟨?_, ?_⟩
    · exact
        { hpc := Or.inl rfl
          hsrc := h.hsrc
          hfw := h.hfw
          hend := h.hend
          hcodec := h.hcodec
          hmore := h.hmore
          hrc := h.hrc
          hout := h.hout
          hleft := h.hleft
          hroom := h.hroom
          hrem := h.hrem
          hbytes := by
            show written (_ ++ _ ++ _) ++ s.uncompressed = _
            rw [List.append_assoc, written_append, (written_of_no_write _ hquiet).1,
              List.append_nil]
            exact h.hbytes
          hlens := by
            show write_lengths (_ ++ _ ++ _) = _
            rw [List.append_assoc, write_lengths_append, (written_of_no_write _ hquiet).2,
              List.append_nil]
            exact h.hlens
          hnw := h.hnw
          hval := h.hval
          hstatus := h.hstatus
          hinbox := h.hinbox
          hframes := h.hframes
          hhead := fun _ => by
            have := (h.hchunk hpc1).2
            rw [hd] at this
            simpa using this
          hchunk := fun hx => absurd rfl hx
          hexit := fun hx => by cases hx }
    · simp only [budget, hpc, Label.weight]
      omega

/-- A call of `tinfl_decompress` in step with the stream: the state after it,
and the progress it makes. -/
theorem Fed_decompress {σ : Type} (env : Env σ) (R : σ → Nat → Nat → Prop)
    (img cmp : List Byte) (src : Nat) (rest : List Msg) (i k : Nat) (fs : List Msg)
    (s : State σ) (hc : Faithful env R img cmp) (hsize : cmp.length < img.length)
    (h32 : img.length < WORD)
    (h : SyncAt env R img cmp src rest i k fs s) (hpc : s.pc = .inner_loop)
    (hlen : 0 < s.length) :
    ∃ c, Fed env R img cmp src rest (i + c) k fs (decompress env s) ∧
      budget (decompress env s) < budget s := by
  have hpc1 : s.pc ≠ .chunk_loop := by rw [hpc]; simp
  obtain ⟨hd1, hd2⟩ := h.hchunk hpc1
  have hin : i + s.length ≤ cmp.length := by
    have := congrArg List.length hd2
    simp at this
    have := h.hmore
    omega
  have hdata : (cmp.drop i).take s.length = s.data_buf := by
    rw [← hd2]
    exact List.take_left' hd1
  have hroom := h.hroom
  have hspace : out_space s = UNCOMPRESSED_BUF_SIZE - s.uncompressed.length :=
    sub32_of_le _ _ CAP_lt_WORD (le_of_lt hroom)
  have hflags : tinfl_flags s = stream_flags cmp.length i s.length := by
    unfold tinfl_flags stream_flags
    rw [h.hrc]
    by_cases hx : i + s.length < cmp.length
    · rw [if_pos hx, if_pos (by omega)]
    · rw [if_neg hx, if_neg (by omega)]
  obtain ⟨f1, f2, f3, f4, f5, f6, f7, f8, f9, f10⟩ :=
    hc.call s.decomp i _ s.length (UNCOMPRESSED_BUF_SIZE - s.uncompressed.length) h.hcodec hlen
      (by omega) hin h.hout (tinfl_call env s)
      (by unfold tinfl_call; rw [hspace, hflags, hdata])
  have hul : (decompress env s).uncompressed.length =
      s.uncompressed.length + (tinfl_call env s).out.length := by
    rw [decompress_uncompressed, List.length_append]
  have hmore := h.hmore
  have hleft := h.hleft
  have hpos : 0 < (tinfl_call env s).in_bytes + (tinfl_call env s).out.length := by
    rcases f6 with e | e | e
    · have := f7.mp e; omega
    · have := f9 e; omega
    · have := f10 e; omega
  have hrc1 : (decompress env s).remaining_compressed =
      cmp.length - (i + (tinfl_call env s).in_bytes) := by
    rw [decompress_remaining_compressed, h.hrc, sub32_of_le _ _ (by omega) (by omega)]
    omega
  refine ⟨(tinfl_call env s).in_bytes, ?_, ?_⟩
  · exact
      { hpc := hpc
        hsrc := h.hsrc
        hfw := h.hfw
        hend := h.hend
        hcodec := by
          rw [hul, ← Nat.add_assoc]
          exact f5
        hmore := by omega
        hrc := hrc1
        hout := by rw [hul]; omega
        hleft := h.hleft
        hroom := by rw [hul]; omega
        hrem := h.hrem
        hbytes := by
          rw [(decompress_written env s).1, hul, decompress_uncompressed, ← List.append_assoc,
            h.hbytes, ← Nat.add_assoc,
            List.take_add img (k * UNCOMPRESSED_BUF_SIZE + s.uncompressed.length)
              (tinfl_call env s).out.length, ← f4]
        hlens := by rw [(decompress_written env s).2]; exact h.hlens
        hnw := h.hnw
        hstatus := f6
        hdone := f7
        hfull := fun e => by rw [hul, ← Nat.add_assoc]; exact f8 e
        hinbox := h.hinbox
        hframes := h.hframes
        hchunk := by
          refine ⟨?_, ?_⟩
          · rw [decompress_data_buf, decompress_length, List.length_drop, hd1,
              sub32_of_le _ _ (by omega) f1]
          · rw [decompress_data_buf, ← List.drop_append_of_le_length (by omega), hd2,
              List.drop_drop] }
  · have e1 : (decompress env s).inbox = s.inbox := rfl
    have e2 : (decompress env s).pc = s.pc := rfl
    have e3 : (decompress env s).remaining = s.remaining := rfl
    have hrem := h.hrem
    have hrc := h.hrc
    have hout := h.hout
    unfold budget
    rw [e1, e2, e3, hrc1, hul, hrem, hrc]
    omega

/-- A validation that succeeds changes nothing between the call of
`tinfl_decompress` and the flush but `prevalidated`. -/
theorem Fed_validate {σ : Type} (env : Env σ) (R : σ → Nat → Nat → Prop)
    (img cmp : List Byte) (src : Nat) (rest : List Msg) (i k : Nat) (fs : List Msg)
    (t : State σ) (h : Fed env R img cmp src rest i k fs t)
    (hok : (ota_init env t.uncompressed t.firmwaresize).res = .SUCCESS) :
    Fed env R img cmp src rest i k fs (validate env t) ∧
      (validate env t).prevalidated = true ∧ budget (validate env t) = budget t := by
  obtain ⟨v1, v2, _⟩ := validate_ok env t hok
  refine ⟨?_, v1, ?_⟩
  · exact
      { hpc := by rw [v2]; exact h.hpc
        hsrc := by rw [validate_source]; exact h.hsrc
        hfw := by rw [validate_firmwaresize]; exact h.hfw
        hend := by rw [validate_ota_end_called]; exact h.hend
        hcodec := by rw [validate_decomp, validate_uncompressed]; exact h.hcodec
        hmore := h.hmore
        hrc := by rw [validate_remaining_compressed]; exact h.hrc
        hout := by rw [validate_uncompressed]; exact h.hout
        hleft := h.hleft
        hroom := by rw [validate_uncompressed]; exact h.hroom
        hrem := by rw [validate_remaining]; exact h.hrem
        hbytes := by rw [(validate_written env t).1, validate_uncompressed]; exact h.hbytes
        hlens := by rw [(validate_written env t).2]; exact h.hlens
        hnw := by rw [validate_n_writes]; exact h.hnw
        hstatus := by rw [validate_status]; exact h.hstatus
        hdone := by rw [validate_status]; exact h.hdone
        hfull := by rw [validate_status, validate_uncompressed]; exact h.hfull
        hinbox := by rw [validate_inbox]; exact h.hinbox
        hframes := h.hframes
        hchunk := by rw [validate_data_buf, validate_length]; exact h.hchunk }
  · unfold budget
    rw [validate_inbox, v2, validate_remaining_compressed, validate_remaining,
      validate_uncompressed]

theorem replicate_snoc {α : Type} (n : Nat) (a : α) :
    List.replicate n a ++ [a] = List.replicate (n + 1) a := by
  induction n with
  | zero => rfl
  | succ n ih =>
    show a :: (List.replicate n a ++ [a]) = a :: List.replicate (n + 1) a
    rw [ih]

/-- Without a flush the inner loop stays in step with the stream. -/
theorem Fed_sync {σ : Type} (env : Env σ) (R : σ → Nat → Nat → Prop)
    (img cmp : List Byte) (src : Nat) (rest : List Msg) (i k : Nat) (fs : List Msg)
    (t : State σ) (h : Fed env R img cmp src rest i k fs t)
    (hst : t.status ≠ TINFL_STATUS_DONE)
    (hbuf : t.uncompressed.length ≠ UNCOMPRESSED_BUF_SIZE)
    (hval : t.prevalidated = true ↔ 0 < k) :
    SyncAt env R img cmp src rest i k fs t := by
  have h1 := h.hmore
  have h2 : i ≠ cmp.length := fun e => hst (h.hdone.mpr e)
  have h3 := h.hroom
  exact
    { hpc := Or.inr (Or.inl h.hpc)
      hsrc := h.hsrc
      hfw := h.hfw
      hend := h.hend
      hcodec := h.hcodec
      hmore := by omega
      hrc := h.hrc
      hout := h.hout
      hleft := h.hleft
      hroom := by omega
      hrem := h.hrem
      hbytes := h.hbytes
      hlens := h.hlens
      hnw := h.hnw
      hval := hval
      hstatus := by
        rcases h.hstatus with e | e | e
        · exact absurd e hst
        · exact Or.inl e
        · exact Or.inr e
      hinbox := h.hinbox
      hframes := h.hframes
      hhead := fun e => by rw [h.hpc] at e; cases e
      hchunk := fun _ => h.hchunk
      hexit := fun e => by rw [h.hpc] at e; cases e }

/-- A flush that succeeds completes the image or leaves the inner loop in step
with the stream, one buffer further. -/
theorem Fed_flush {σ : Type} (env : Env σ) (R : σ → Nat → Nat → Prop)
    (img cmp : List Byte) (src : Nat) (rest : List Msg) (i k : Nat) (fs : List Msg)
    (t : State σ) (h32 : img.length < WORD) (h : Fed env R img cmp src rest i k fs t)
    (hv : t.prevalidated = true)
    (hok : env.esp_ota_write t.n_writes t.uncompressed = ESP_OK)
    (hwhy : t.uncompressed.length = UNCOMPRESSED_BUF_SIZE ∨ t.status = TINFL_STATUS_DONE)
    (hshape : t.uncompressed.length < UNCOMPRESSED_BUF_SIZE → ∃ pre1 a b c e f,
      t.trace = pre1 ++ [Event.tinfl_decompress a b c TINFL_STATUS_DONE e f]) :
    Written img (flush env t) ∨
      (SyncAt env R img cmp src rest i (k + 1) fs (flush env t) ∧
        budget (flush env t) = budget t) := by
  obtain ⟨g1, _, g3, g4⟩ := flush_ok env t hok
  have hout := h.hout
  have hleft := h.hleft
  have hroom := h.hroom
  have hrem : (flush env t).remaining =
      img.length - k * UNCOMPRESSED_BUF_SIZE - t.uncompressed.length := by
    rw [g3, h.hrem, sub32_of_le _ _ (by omega) (by omega)]
  have htr : (flush env t).trace = t.trace ++ [Event.esp_ota_write t.uncompressed ESP_OK] := by
    rw [flush_trace, hok]
  by_cases hfin : k * UNCOMPRESSED_BUF_SIZE + t.uncompressed.length = img.length
  · left
    refine ⟨?_, by rw [hrem]; omega, k, t.trace, t.uncompressed, [], htr, h.hlens, rfl, hfin,
      by omega, hroom, hshape⟩
    rw [(flush_written env t).1, h.hbytes, hfin, List.take_length]
  · right
    have hst : t.status ≠ TINFL_STATUS_DONE := fun e => hfin (h.hfull e)
    have hbuf : t.uncompressed.length = UNCOMPRESSED_BUF_SIZE := by
      rcases hwhy with e | e
      · exact e
      · exact absurd e hst
    have hk : (k + 1) * UNCOMPRESSED_BUF_SIZE =
        k * UNCOMPRESSED_BUF_SIZE + t.uncompressed.length := by
      rw [hbuf, Nat.add_mul, Nat.one_mul]
    have hmore := h.hmore
    have h2 : i ≠ cmp.length := fun e => hst (h.hdone.mpr e)
    refine ⟨?_, ?_⟩
    · exact
        { hpc := Or.inr (Or.inl (by rw [g1]; exact h.hpc))
          hsrc := by rw [flush_source]; exact h.hsrc
          hfw := by rw [flush_firmwaresize]; exact h.hfw
          hend := by rw [flush_ota_end_called]; exact h.hend
          hcodec := by
            rw [flush_decomp, g4, List.length_nil, Nat.add_zero, hk]
            exact h.hcodec
          hmore := by omega
          hrc := by rw [flush_remaining_compressed]; exact h.hrc
          hout := by rw [g4, List.length_nil, Nat.add_zero, hk]; exact hout
          hleft := by rw [hk]; omega
          hroom := by rw [g4]; simp [UNCOMPRESSED_BUF_SIZE]
          hrem := by rw [hrem, hk]; omega
          hbytes := by
            rw [(flush_written env t).1, g4, List.append_nil, List.length_nil, Nat.add_zero, hk]
            exact h.hbytes
          hlens := by
            rw [(flush_written env t).2, h.hlens, hbuf]
            exact replicate_snoc k _
          hnw := by rw [flush_n_writes, h.hnw]
          hval := by rw [flush_prevalidated, hv]; simp
          hstatus := by
            rw [flush_status]
            rcases h.hstatus with e | e | e
            · exact absurd e hst
            · exact Or.inl e
            · exact Or.inr e
          hinbox := by rw [flush_inbox]; exact h.hinbox
          hframes := h.hframes
          hhead := fun e => by rw [g1, h.hpc] at e; cases e
          hchunk := fun _ => by rw [flush_data_buf, flush_length]; exact h.hchunk
          hexit := fun e => by rw [g1, h.hpc] at e; cases e }
    · unfold budget
      rw [flush_inbox, g1, flush_remaining_compressed, hrem, g4, h.hrem]
      simp

theorem status_le_done (st : Int)
    (h : st = TINFL_STATUS_DONE ∨ st = TINFL_STATUS_NEEDS_MORE_INPUT ∨
      st = TINFL_STATUS_HAS_MORE_OUTPUT) (hle : st ≤ TINFL_STATUS_DONE) :
    st = TINFL_STATUS_DONE := by
  unfold TINFL_STATUS_NEEDS_MORE_INPUT TINFL_STATUS_HAS_MORE_OUTPUT at h
  unfold TINFL_STATUS_DONE at *
  omega

/-- A trace without a write has written nothing. -/
theorem written_nil_of_lengths (tr : List Event) (h : write_lengths tr = []) :
    written tr = [] := by
  induction tr with
  | nil => rfl
  | cons e tr ih =>
    cases e <;> first
      | (simp only [write_lengths] at h; cases h)
      | (simp only [write_lengths] at h; simp only [written, Event.written, List.nil_append]
         exact ih h)

/-- The bytes written are as many as the lengths of the writes say. -/
theorem written_length (tr : List Event) : (written tr).length = (write_lengths tr).sum := by
  induction tr with
  | nil => rfl
  | cons e tr ih =>
    cases e <;> simp [written, Event.written, write_lengths, ih]

/-- The buffer that a flush passes to `esp_ota_write`, in a session in step
with the stream: the write number `k` is the write of the bytes of the image
from offset `k * UNCOMPRESSED_BUF_SIZE` on, at most a buffer full. -/
theorem Fed_buffer {σ : Type} (env : Env σ) (R : σ → Nat → Nat → Prop)
    (img cmp : List Byte) (src : Nat) (rest : List Msg) (i k : Nat) (fs : List Msg)
    (t : State σ) (h : Fed env R img cmp src rest i k fs t)
    (hwhy : t.uncompressed.length = UNCOMPRESSED_BUF_SIZE ∨ t.status = TINFL_STATUS_DONE) :
    t.uncompressed =
      (img.drop (k * UNCOMPRESSED_BUF_SIZE)).take UNCOMPRESSED_BUF_SIZE := by
  have hleft := h.hleft
  have hroom := h.hroom
  have hwl : (written t.trace).length = k * UNCOMPRESSED_BUF_SIZE := by
    rw [written_length, h.hlens]
    simp
  have hb := h.hbytes
  rw [List.take_add] at hb
  have ht : (img.take (k * UNCOMPRESSED_BUF_SIZE)).length = k * UNCOMPRESSED_BUF_SIZE := by
    rw [List.length_take]
    omega
  have hu := (List.append_inj hb (by rw [hwl, ht])).2
  rcases hwhy with e | e
  · rw [e] at hu
    exact hu
  · have hfin := h.hfull e
    have hd : (img.drop (k * UNCOMPRESSED_BUF_SIZE)).length = t.uncompressed.length := by
      rw [List.length_drop]
      omega
    rw [hu, List.take_of_length_le (le_of_eq hd), List.take_of_length_le (by rw [hd]; exact hroom)]

/-- One iteration of the inner loop in step with the stream. -/
theorem SyncAt_inner_step {σ : Type} (env : Env σ) (R : σ → Nat → Nat → Prop)
    (img cmp : List Byte) (src : Nat) (rest : List Msg) (i k : Nat) (fs : List Msg)
    (s : State σ) (hc : Faithful env R img cmp) (hsize : cmp.length < img.length)
    (h32 : img.length < WORD)
    (h : SyncAt env R img cmp src rest i k fs s) (hpc : s.pc = .inner_loop) :
    Written img (inner_step env s) ∨
      (Sync env R img cmp src rest (inner_step env s) ∧
        budget (inner_step env s) < budget s) ∨
      (Dead (inner_step env s) ∧ Obstacle env img) := by
  by_cases hlen : s.length = 0
  · right; left
    obtain ⟨a, b⟩ := SyncAt_inner_exit env R img cmp src rest i k fs s h hpc hlen
    exact ⟨⟨i, k, fs, a⟩, b⟩
  have hleft := h.hleft
  have hcond : s.length > 0 ∧ s.remaining > 0 ∧ s.status > TINFL_STATUS_DONE := by
    refine ⟨by omega, by rw [h.hrem]; omega, (status_pos _ h.hstatus).1⟩
  obtain ⟨c, hfed, hbud⟩ := Fed_decompress env R img cmp src rest i k fs s hc hsize h32 h hpc
    (by omega)
  have hp : (decompress env s).prevalidated = s.prevalidated := rfl
  have hremne : img.length - k * UNCOMPRESSED_BUF_SIZE ≠ 0 := by omega
  rcases inner_step_cases env s with ⟨hno, _⟩ | ⟨_, hnf, e⟩ | ⟨_, hfull, hpv, hres, e⟩ |
    ⟨_, hfull, hpv, hres, e⟩ | ⟨_, hwhy, hpv, e⟩
  · exact absurd hcond hno
  · -- no flush
    rw [e]
    have hbuf : (decompress env s).uncompressed.length ≠ UNCOMPRESSED_BUF_SIZE :=
      fun x => hnf (Or.inr x)
    by_cases hst : (decompress env s).status = TINFL_STATUS_DONE
    · right; right
      have hpf : ¬ (s.prevalidated = true) := by
        intro x
        exact hnf (Or.inl ⟨x, le_of_eq hst⟩)
      have hk : k = 0 := by
        have := h.hval
        by_contra hk0
        exact hpf (this.mpr (by omega))
      have hfin := hfed.hfull hst
      have hroom := hfed.hroom
      rw [hk] at hfin
      refine ⟨⟨by rw [hfed.hrem]; exact hremne, hfed.hend, fun _ => ⟨?_, hst⟩⟩,
        Or.inr (Or.inr (by omega))⟩
      rw [hfed.hrc, hfed.hdone.mp hst]
      omega
    · right; left
      exact ⟨⟨i + c, k, fs, Fed_sync env R img cmp src rest (i + c) k fs _ hfed hst hbuf
        h.hval⟩, hbud⟩
  · -- the validation fails
    right; right
    rw [e]
    have hres1 : (ota_init env (decompress env s).uncompressed
        (decompress env s).firmwaresize).res ≠ .SUCCESS := hres
    obtain ⟨_, v2, _⟩ := validate_fail env (decompress env s) hres1
    have hk : k = 0 := by
      have hv := h.hval
      by_contra hk0
      have : s.prevalidated = true := hv.mpr (by omega)
      rw [hpv] at this
      cases this
    have hbuf : (decompress env s).uncompressed = img.take UNCOMPRESSED_BUF_SIZE := by
      have hb := hfed.hbytes
      have hl := hfed.hlens
      rw [hk] at hb hl
      rw [written_nil_of_lengths _ hl, List.nil_append, Nat.zero_mul, Nat.zero_add, hfull] at hb
      exact hb
    refine ⟨⟨by rw [validate_remaining, hfed.hrem]; exact hremne,
      by rw [validate_ota_end_called]; exact hfed.hend, fun x => ?_⟩, Or.inl ?_⟩
    · rw [v2] at x; cases x
    · rw [← hbuf, ← h.hfw]; exact hres
  · -- the validation succeeds, then the flush
    rw [e]
    have hres1 : (ota_init env (decompress env s).uncompressed
        (decompress env s).firmwaresize).res = .SUCCESS := hres
    obtain ⟨vfed, vp, vbud⟩ := Fed_validate env R img cmp src rest (i + c) k fs _ hfed hres1
    have vbuf : (validate env (decompress env s)).uncompressed.length =
        UNCOMPRESSED_BUF_SIZE := by
      rw [validate_uncompressed]; exact hfull
    by_cases hok : env.esp_ota_write (validate env (decompress env s)).n_writes
        (validate env (decompress env s)).uncompressed = ESP_OK
    · rcases Fed_flush env R img cmp src rest (i + c) k fs _ h32 vfed vp hok (Or.inl vbuf)
          (fun x => by omega) with w | ⟨w, wb⟩
      · exact Or.inl w
      · right; left
        exact ⟨⟨i + c, k + 1, fs, w⟩, by rw [wb, vbud]; exact hbud⟩
    · right; right
      obtain ⟨w1, _, w3, _⟩ := flush_fail env _ hok
      rw [Fed_buffer env R img cmp src rest (i + c) k fs _ vfed (Or.inl vbuf), vfed.hnw] at hok
      refine ⟨⟨by rw [w3, vfed.hrem]; exact hremne,
        by rw [flush_ota_end_called]; exact vfed.hend, fun x => ?_⟩,
        Or.inr (Or.inl ⟨k, hleft, hok⟩)⟩
      rw [w1] at x; cases x
  · -- the flush of a validated session
    rw [e]
    have hwhy1 : (decompress env s).uncompressed.length = UNCOMPRESSED_BUF_SIZE ∨
        (decompress env s).status = TINFL_STATUS_DONE := by
      rcases hwhy with x | x
      · exact Or.inr (status_le_done _ hfed.hstatus x)
      · exact Or.inl x
    by_cases hok : env.esp_ota_write (decompress env s).n_writes
        (decompress env s).uncompressed = ESP_OK
    · rcases Fed_flush env R img cmp src rest (i + c) k fs _ h32 hfed (by rw [hp]; exact hpv)
          hok hwhy1 (fun x => by
            have hst : (decompress env s).status = TINFL_STATUS_DONE := by
              rcases hwhy1 with y | y
              · omega
              · exact y
            have hst1 : (tinfl_call env s).status = TINFL_STATUS_DONE := hst
            exact ⟨s.trace, _, _, _, _, _, by rw [decompress_trace_eq, hst1]⟩) with w | ⟨w, wb⟩
      · exact Or.inl w
      · right; left
        exact ⟨⟨i + c, k + 1, fs, w⟩, by rw [wb]; exact hbud⟩
    · right; right
      obtain ⟨w1, _, w3, _⟩ := flush_fail env _ hok
      rw [Fed_buffer env R img cmp src rest (i + c) k fs _ hfed hwhy1, hfed.hnw] at hok
      refine ⟨⟨by rw [w3, hfed.hrem]; exact hremne,
        by rw [flush_ota_end_called]; exact hfed.hend, fun x => ?_⟩,
        Or.inr (Or.inl ⟨k, hleft, hok⟩)⟩
      rw [w1] at x; cases x

/-- One transition of a session in step with the stream. -/
theorem Sync_step {σ : Type} (env : Env σ) (R : σ → Nat → Nat → Prop)
    (img cmp : List Byte) (src : Nat) (rest : List Msg)
    (s : State σ) (hc : Faithful env R img cmp) (hsize : cmp.length < img.length)
    (h32 : img.length < WORD) (h : Sync env R img cmp src rest s) :
    Written img (step env s) ∨
      (Sync env R img cmp src rest (step env s) ∧ budget (step env s) < budget s) ∨
      (Dead (step env s) ∧ Obstacle env img) := by
  obtain ⟨i, k, fs, h⟩ := h
  rcases h.hpc with hpc | hpc | hpc
  · have e : step env s = chunk_step env s := by unfold step; rw [hpc]
    rw [e]
    obtain ⟨fs1, a, b⟩ := SyncAt_chunk_step env R img cmp src rest i k fs s h hpc
    exact Or.inr (Or.inl ⟨⟨i, k, fs1, a⟩, b⟩)
  · have e : step env s = inner_step env s := by unfold step; rw [hpc]
    rw [e]
    exact SyncAt_inner_step env R img cmp src rest i k fs s hc hsize h32 h hpc
  · have e : step env s = chunk_end_step s := by unfold step; rw [hpc]
    rw [e]
    obtain ⟨a, b⟩ := SyncAt_chunk_end_step env R img cmp src rest i k fs s h hpc
    exact Or.inr (Or.inl ⟨⟨i, k, fs, a⟩, b⟩)

theorem completion_reply_no_write (method : String) (st : ota_status) :
    (completion_reply method st).is_esp_ota_write = false := by
  unfold completion_reply
  split_ifs <;> rfl

theorem failure_report_no_write {σ : Type} (s : State σ) :
    ∀ e ∈ failure_report s, e.is_esp_ota_write = false := by
  unfold failure_report
  split_ifs <;> simp [Event.is_esp_ota_write]

/-- With `remaining` at 0 no transition writes to the partition, and
`remaining` stays 0. -/
theorem step_idle {σ : Type} (env : Env σ) (s : State σ) (h : s.remaining = 0) :
    (step env s).remaining = 0 ∧
    ∃ evs, (step env s).trace = s.trace ++ evs ∧ ∀ e ∈ evs, e.is_esp_ota_write = false := by
  unfold step
  split
  · rcases chunk_step_cases env s with ⟨_, e⟩ | ⟨_, _, e⟩ | ⟨m, inbox, _, _, _, u, e⟩ |
      ⟨m, inbox, _, _, _, _, e⟩
    · rw [e]; exact ⟨h, [], by simp, by simp⟩
    · rw [e]; exact ⟨h, [], by simp, by simp⟩
    · rw [e]; exact ⟨h, _, rfl, by simp [Event.is_esp_ota_write]⟩
    · rw [e]; exact ⟨h, _, rfl, by simp [Event.is_esp_ota_write]⟩
  · rcases inner_step_cases env s with ⟨_, e⟩ | ⟨hc, _⟩ | ⟨hc, _⟩ | ⟨hc, _⟩ | ⟨hc, _⟩
    · rw [e]; exact ⟨h, [], by simp, by simp⟩
    all_goals (rw [h] at hc; exact absurd hc.2.1 (by simp))
  · rcases chunk_end_step_cases s with ⟨_, e⟩ | ⟨_, e⟩
    · rw [e]
      refine ⟨h, _, rfl, ?_⟩
      split_ifs <;> simp [Event.is_esp_ota_write]
    · rw [e]
      refine ⟨h, _, List.append_assoc _ _ _, ?_⟩
      split_ifs <;> simp [Event.is_esp_ota_write]
  · rcases upload_complete_step_cases env s with ⟨_, e⟩ | ⟨_, _, e⟩ | ⟨_, _, _, e⟩ |
      ⟨_, _, _, e⟩
    · rw [e]; exact ⟨h, [], by simp, by simp⟩
    · rw [e]; exact ⟨h, _, rfl, by simp [Event.is_esp_ota_write]⟩
    · rw [e]; exact ⟨h, _, rfl, by simp [Event.is_esp_ota_write]⟩
    · rw [e]; exact ⟨h, _, rfl, by simp [Event.is_esp_ota_write]⟩
  · rcases otacomplete_step_cases s with ⟨_, e⟩ | ⟨m, inbox, _, e⟩
    · rw [e]; exact ⟨h, [], by simp, by simp⟩
    · rw [e]
      refine ⟨h, _, rfl, ?_⟩
      intro x hx
      simp only [List.mem_cons, List.mem_singleton, List.not_mem_nil, or_false] at hx
      rcases hx with hx | hx
      · rw [hx]; rfl
      · rw [hx]; exact completion_reply_no_write _ _
  · have hfr := failure_report_no_write s
    rcases cleanup_step_cases env s with ⟨_, e⟩ | ⟨_, _, _, e⟩ | ⟨_, _, _, e⟩ | ⟨_, _, e⟩
    · rw [e]; exact ⟨h, _, rfl, by simp [Event.is_esp_ota_write]⟩
    · rw [e]; exact ⟨h, _, rfl, by simp [Event.is_esp_ota_write]⟩
    · rw [e]
      refine ⟨h, _, List.append_assoc _ _ _, ?_⟩
      intro x hx
      simp only [List.mem_append, List.mem_singleton] at hx
      rcases hx with hx | hx
      · rw [hx]; rfl
      · exact hfr x hx
    · rw [e]; exact ⟨h, _, rfl, hfr⟩
  all_goals exact ⟨h, [], by simp, by simp⟩

/-- Once the image is written it stays written. -/
theorem Written_step {σ : Type} (env : Env σ) (img : List Byte) (s : State σ)
    (h : Written img s) : Written img (step env s) := by
  obtain ⟨h1, evs, h2, h3⟩ := step_idle env s h.hrem
  obtain ⟨w1, w2⟩ := written_of_no_write evs h3
  obtain ⟨k, pre, d, post, a1, a2, a3, a4⟩ := h.hlast
  refine ⟨?_, h1, k, pre, d, post ++ evs, ?_, a2, ?_, a4⟩
  · rw [h2, written_append, w1, List.append_nil]; exact h.hbytes
  · rw [h2, a1]; simp
  · rw [write_lengths_append, a3, w2]; rfl

/-- A dead session stays dead. -/
theorem Dead_step {σ : Type} (env : Env σ) (s : State σ) (h : Dead s) : Dead (step env s) := by
  have hrem := h.hrem
  have hend := h.hend
  unfold step
  split
  · rename_i hpc
    obtain ⟨a, b⟩ := h.hloop (by rw [hpc]; rfl)
    rcases chunk_step_cases env s with ⟨_, e⟩ | ⟨x, _⟩ | ⟨m, inbox, x, _⟩ | ⟨m, inbox, x, _⟩
    · rw [e]; exact ⟨hrem, hend, fun _ => ⟨a, b⟩⟩
    all_goals exact absurd a x
  · rename_i hpc
    obtain ⟨a, b⟩ := h.hloop (by rw [hpc]; rfl)
    rcases inner_step_cases env s with ⟨_, e⟩ | ⟨hc, _⟩ | ⟨hc, _⟩ | ⟨hc, _⟩ | ⟨hc, _⟩
    · rw [e]; exact ⟨hrem, hend, fun _ => ⟨a, b⟩⟩
    all_goals (rw [b] at hc; exact absurd hc.2.2 (lt_irrefl _))
  · rename_i hpc
    obtain ⟨a, b⟩ := h.hloop (by rw [hpc]; rfl)
    rcases chunk_end_step_cases s with ⟨_, e⟩ | ⟨_, e⟩
    · rw [e]; exact ⟨hrem, hend, fun x => by cases x⟩
    · rw [e]; exact ⟨hrem, hend, fun _ => ⟨a, b⟩⟩
  · rcases upload_complete_step_cases env s with ⟨_, e⟩ | ⟨x, _⟩ | ⟨x, _⟩ | ⟨x, _⟩
    · rw [e]; exact ⟨hrem, hend, fun x => by cases x⟩
    all_goals exact absurd x hrem
  · rename_i hpc
    rcases otacomplete_step_cases s with ⟨_, e⟩ | ⟨m, inbox, _, e⟩
    · rw [e]; exact h
    · rw [e]; exact ⟨hrem, hend, fun x => by cases x⟩
  · rcases cleanup_step_cases env s with ⟨_, e⟩ | ⟨_, _, _, e⟩ | ⟨_, _, _, e⟩ | ⟨_, _, e⟩ <;>
      (rw [e]; exact ⟨hrem, hend, fun x => by cases x⟩)
  all_goals exact h

/-- One transition of a session with a faithful decompressor. -/
theorem Track_step {σ : Type} (env : Env σ) (R : σ → Nat → Nat → Prop)
    (img cmp : List Byte) (src : Nat) (rest : List Msg) (f : Nat)
    (s : State σ) (hc : Faithful env R img cmp) (hsize : cmp.length < img.length)
    (h32 : img.length < WORD) (h : Track env R img cmp src rest f s) :
    Track env R img cmp src rest (f - 1) (step env s) := by
  rcases h with h | ⟨h, hb⟩ | ⟨h, ho⟩
  · exact Or.inl (Written_step env img s h)
  · rcases Sync_step env R img cmp src rest s hc hsize h32 h with w | ⟨w, wb⟩ | w
    · exact Or.inl w
    · exact Or.inr (Or.inl ⟨w, by omega⟩)
    · exact Or.inr (Or.inr w)
  · exact Or.inr (Or.inr ⟨Dead_step env s h, ho⟩)

theorem Track_run {σ : Type} (env : Env σ) (R : σ → Nat → Nat → Prop)
    (img cmp : List Byte) (src : Nat) (rest : List Msg) (f : Nat)
    (s : State σ) (hc : Faithful env R img cmp) (hsize : cmp.length < img.length)
    (h32 : img.length < WORD) (h : Track env R img cmp src rest f s) (n : Nat) :
    Track env R img cmp src rest (f - n) (run env n s) := by
  induction n with
  | zero => exact h
  | succ n ih =>
    rw [run_succ]
    have := Track_step env R img cmp src rest (f - n) _ hc hsize h32 ih
    rw [Nat.sub_sub] at this
    exact this

/-- A session in step with the stream has transitions left to make. -/
theorem Sync_budget_pos {σ : Type} (env : Env σ) (R : σ → Nat → Nat → Prop)
    (img cmp : List Byte) (src : Nat) (rest : List Msg) (s : State σ)
    (h : Sync env R img cmp src rest s) : 0 < budget s ∧ s.remaining ≠ 0 ∧
      s.ota_end_called = false ∧
      ∃ k, write_lengths s.trace = List.replicate k UNCOMPRESSED_BUF_SIZE ∧
        k * UNCOMPRESSED_BUF_SIZE < img.length ∧
        s.remaining = img.length - k * UNCOMPRESSED_BUF_SIZE := by
  obtain ⟨i, k, fs, h⟩ := h
  have h1 := h.hrc
  have h2 := h.hmore
  have h3 := h.hrem
  have h4 := h.hleft
  refine ⟨?_, by omega, h.hend, k, h.hlens, h4, h3⟩
  unfold budget
  omega

/-- The states of a session with a faithful decompressor on a well-formed
request. -/
theorem Track_ota_process {σ : Type} (env : Env σ) (R : σ → Nat → Nat → Prop)
    (img cmp : List Byte) (src : Nat) (frames rest : List Msg)
    (hc : Faithful env R img cmp) (hsize : cmp.length < img.length) (h32 : img.length < WORD)
    (hframes : ∀ m ∈ frames, m.accepted env.JADE_OTA_BUF_SIZE src)
    (hsplit : payloads frames = cmp) (n : Nat) :
    Track env R img cmp src rest (3 * (frames ++ rest).length + cmp.length + img.length - n)
      (ota_process env ⟨some img.length, some cmp.length, src, frames ++ rest⟩ n) := by
  obtain ⟨a, b⟩ := Sync_start env R img cmp src frames rest hc hsize h32 hframes hsplit
  exact Track_run env R img cmp src rest _ _ hc hsize h32
    (Or.inr (Or.inl ⟨⟨0, 0, frames, a⟩, le_of_eq b⟩)) n

/-! ## The example decompressor is faithful -/

theorem oracle_faithful (img cmp : List Byte) (h : 0 < cmp.length) :
    Faithful (oracle_env img cmp.length) oracle_rel img cmp := by
  refine ⟨h, rfl, ?_⟩
  intro d i o n k hR hn hk hin ho r hr
  have hd : d = (i, o) := hR
  subst hd
  have hm : ((img.drop o).take (min k (img.length - o))).length = min k (img.length - o) := by
    rw [List.length_take, List.length_drop]
    omega
  have s1 : TINFL_STATUS_HAS_MORE_OUTPUT ≠ TINFL_STATUS_DONE := by decide
  have s2 : TINFL_STATUS_HAS_MORE_OUTPUT ≠ TINFL_STATUS_NEEDS_MORE_INPUT := by decide
  have s3 : TINFL_STATUS_NEEDS_MORE_INPUT ≠ TINFL_STATUS_DONE := by decide
  by_cases hx : o + min k (img.length - o) < img.length
  · have e : r = ⟨TINFL_STATUS_HAS_MORE_OUTPUT, min n (cmp.length - 1 - i),
        (img.drop o).take (min k (img.length - o)),
        (i + min n (cmp.length - 1 - i), o + min k (img.length - o))⟩ := by
      rw [hr]
      show oracle_decompress img cmp.length (i, o) ((cmp.drop i).take n) n k
        (stream_flags cmp.length i n) = _
      unfold oracle_decompress
      exact if_pos hx
    rw [e]
    refine ⟨by simp, by rw [hm]; omega, by rw [hm]; omega, by rw [hm], ?_, Or.inr (Or.inr rfl),
      ?_, fun x => absurd x s1, fun x => absurd x s2, fun _ => by rw [hm]; omega⟩
    · show (_, _) = (_, _)
      rw [hm]
    · constructor
      · intro x; exact absurd x s1
      · intro x
        exfalso
        have : i + min n (cmp.length - 1 - i) = cmp.length := x
        omega
  · by_cases hy : i + n < cmp.length
    · have e : r = ⟨TINFL_STATUS_NEEDS_MORE_INPUT, n,
          (img.drop o).take (min k (img.length - o)),
          (i + n, o + min k (img.length - o))⟩ := by
        rw [hr]
        show oracle_decompress img cmp.length (i, o) ((cmp.drop i).take n) n k
          (stream_flags cmp.length i n) = _
        unfold oracle_decompress
        rw [if_neg hx]
        simp only [if_pos hy]
      rw [e]
      refine ⟨le_refl _, by rw [hm]; omega, by rw [hm]; omega, by rw [hm], ?_,
        Or.inr (Or.inl rfl), ?_, fun x => absurd x s3, fun _ => rfl,
        fun x => absurd x.symm s2⟩
      · show (_, _) = (_, _)
        rw [hm]
      · constructor
        · intro x; exact absurd x s3
        · intro x
          exfalso
          have : i + n = cmp.length := x
          omega
    · have e : r = ⟨TINFL_STATUS_DONE, n,
          (img.drop o).take (min k (img.length - o)),
          (i + n, o + min k (img.length - o))⟩ := by
        rw [hr]
        show oracle_decompress img cmp.length (i, o) ((cmp.drop i).take n) n k
          (stream_flags cmp.length i n) = _
        unfold oracle_decompress
        rw [if_neg hx]
        simp only [if_neg hy]
      rw [e]
      refine ⟨le_refl _, by rw [hm]; omega, by rw [hm]; omega, by rw [hm], ?_,
        Or.inl rfl, ?_, fun _ => by rw [hm]; omega, fun x => absurd x.symm s3,
        fun x => absurd x.symm s1⟩
      · show (_, _) = (_, _)
        rw [hm]
      · constructor
        · intro _
          show i + n = cmp.length
          omega
        · intro _; rfl

theorem oracle_init (img buf : List Byte) (clen fw : Nat) :
    (ota_init (oracle_env img clen) buf fw).res = .SUCCESS := by
  simp [ota_init, oracle_env, ESP_OK, strnlen, VERSION_STRING_MAX_LENGTH, confirmation,
    confirmation_calls]

theorem zero_frame_accepted (n : Nat) (h0 : 0 < n) (hn : n ≤ 4096) (img : List Byte)
    (clen : Nat) : (zero_frame n).accepted (oracle_env img clen).JADE_OTA_BUF_SIZE 0 :=
  ⟨rfl, rfl, zeros n, rfl, by rw [zeros_length]; exact h0, by rw [zeros_length]; exact hn⟩

/-! ## The entry of `ota_process` -/

/-- The entry of `ota_process` on a request with bad parameters. -/
theorem ota_start_bad {σ : Type} (env : Env σ) (req : Request)
    (h : ¬ ∃ fw cmp, req.fwsize = some fw ∧ req.cmpsize = some cmp ∧ cmp < fw) :
    (ota_start env req).pc = .cleanup ∧
    (ota_start env req).trace =
      [Event.reject_message .CBOR_RPC_BAD_PARAMETERS "Bad parameters" none] ∧
    (ota_start env req).ota_return_status = .ERROR_OTA_SETUP ∧
    (ota_start env req).prevalidated = false ∧
    (ota_start env req).uploading = false ∧
    (ota_start env req).inbox = req.inbox := by
  have hc : req.fwsize.isNone ∨ req.cmpsize.isNone ∨
      req.fwsize.getD 0 ≤ (if req.fwsize.isSome then req.cmpsize.getD 0 else 0) := by
    cases hf : req.fwsize with
    | none => left; rfl
    | some fw =>
      cases hcm : req.cmpsize with
      | none => right; left; rfl
      | some cmp =>
        right; right
        have : ¬ cmp < fw := fun hlt => h ⟨fw, cmp, hf, hcm, hlt⟩
        simp only [Option.getD_some, Option.isSome_some, if_true]
        omega
  unfold ota_start
  simp only []
  rw [if_pos hc]
  exact ⟨rfl, rfl, rfl, rfl, rfl, rfl⟩

/-- The entry of `ota_process` on a request with good parameters. -/
theorem ota_start_good {σ : Type} (env : Env σ) (req : Request) (fw cmp : Nat)
    (hfw : req.fwsize = some fw) (hcmp : req.cmpsize = some cmp) (hlt : cmp < fw) :
    (ota_start env req).pc = .chunk_loop ∧
    (ota_start env req).trace =
      [Event.reply_to_message_ok, Event.display_message "Preparing for firmware update"] ∧
    (ota_start env req).ota_return_status = .SUCCESS ∧
    (ota_start env req).prevalidated = false ∧
    (ota_start env req).ota_end_called = false ∧
    (ota_start env req).remaining_compressed = u32 cmp ∧
    (ota_start env req).remaining = u32 fw ∧
    (ota_start env req).firmwaresize = fw ∧
    (ota_start env req).compressedsize = cmp ∧
    (ota_start env req).uncompressed = [] ∧
    (ota_start env req).inbox = req.inbox := by
  have hc : ¬ (req.fwsize.isNone ∨ req.cmpsize.isNone ∨
      req.fwsize.getD 0 ≤ (if req.fwsize.isSome then req.cmpsize.getD 0 else 0)) := by
    rw [hfw, hcmp]
    simp only [Option.isNone_some, Option.getD_some, Option.isSome_some, if_true, false_or]
    intro h
    have : fw ≤ cmp := by simpa using h
    omega
  unfold ota_start
  simp only []
  rw [if_neg hc, hfw, hcmp]
  exact ⟨rfl, rfl, rfl, rfl, rfl, rfl, rfl, rfl, rfl, rfl, rfl⟩

/-- A run on a request with bad parameters: the only call is the reply
`BAD_PARAMETERS`, and the function returns at the first transition. -/
theorem ota_process_bad {σ : Type} (env : Env σ) (req : Request)
    (h : ¬ ∃ fw cmp, req.fwsize = some fw ∧ req.cmpsize = some cmp ∧ cmp < fw) (n : Nat) :
    (ota_process env req n).trace =
      [Event.reject_message .CBOR_RPC_BAD_PARAMETERS "Bad parameters" none] ∧
    (ota_process env req n).ota_return_status = .ERROR_OTA_SETUP ∧
    (ota_process env req n).inbox = req.inbox ∧
    (ota_process env req n).prevalidated = false ∧
    (ota_process env req n).pc = (if n = 0 then .cleanup else .returned) := by
  obtain ⟨b1, b2, b3, b4, b5, b6⟩ := ota_start_bad env req h
  cases n with
  | zero => exact ⟨b2, b3, b6, b4, b1⟩
  | succ n =>
    have h1 : step env (ota_start env req) = { (ota_start env req) with
        trace := (ota_start env req).trace ++ failure_report (ota_start env req)
        pc := .returned } := by
      unfold step
      rw [b1]
      simp only []
      rcases cleanup_step_cases env (ota_start env req) with ⟨x, _⟩ | ⟨_, x, _⟩ |
        ⟨_, x, _⟩ | ⟨_, _, e⟩
      · rw [b3] at x; cases x
      · rw [b4] at x; exact absurd x.1 (by simp)
      · rw [b4] at x; exact absurd x.1 (by simp)
      · exact e
    have h2 : failure_report (ota_start env req) = [] := by
      unfold failure_report
      rw [b5, b3]
      simp
    have h3 : ota_process env req (n + 1) = step env (ota_start env req) := by
      show run env (n + 1) (ota_start env req) = _
      show run env n (step env (ota_start env req)) = _
      exact ended_run env _ (by rw [h1]; rfl) n
    rw [h3, h1, h2]
    exact ⟨by simpa using b2, b3, b6, b4, by simp⟩

/-! ## Precedence in a trace -/

theorem Preceded_of_none (p q : Event → Bool) (tr : List Event)
    (h : ∀ x ∈ tr, p x = false) : Preceded p q tr := by
  intro a x b e hp
  have hx : x ∈ tr := by rw [e]; simp
  rw [h x hx] at hp
  cases hp

/-- A split of an extended trace is a split of the old trace or of the extension. -/
theorem split_append {α : Type} (t evs a b : List α) (x : α) (h : t ++ evs = a ++ x :: b) :
    (∃ b1, t = a ++ x :: b1) ∨ (∃ a1, a = t ++ a1 ∧ evs = a1 ++ x :: b) := by
  rcases List.append_eq_append_iff.mp h with ⟨c, h1, h2⟩ | ⟨c, h1, h2⟩
  · -- a = t ++ c, evs = c ++ x :: b
    exact Or.inr ⟨c, h1, h2⟩
  · -- t = a ++ c, x :: b = c ++ evs
    cases c with
    | nil =>
      right
      refine ⟨[], by simpa using h1.symm, ?_⟩
      simpa using h2.symm
    | cons y c =>
      left
      simp only [List.cons_append, List.cons.injEq] at h2
      exact ⟨c, by rw [h1, h2.1]⟩

theorem Preceded_append_quiet (p q : Event → Bool) (t evs : List Event)
    (h : Preceded p q t) (hq : ∀ x ∈ evs, p x = false) : Preceded p q (t ++ evs) := by
  intro a x b e hp
  rcases split_append t evs a b x e with ⟨b1, h1⟩ | ⟨a1, _, h2⟩
  · exact h a x b1 h1 hp
  · have hx : x ∈ evs := by rw [h2]; simp
    rw [hq x hx] at hp
    cases hp

theorem Preceded_append_after (p q : Event → Bool) (t evs : List Event)
    (h : Preceded p q t) (hq : ∃ y ∈ t, q y = true) : Preceded p q (t ++ evs) := by
  intro a x b e hp
  rcases split_append t evs a b x e with ⟨b1, h1⟩ | ⟨a1, h1, _⟩
  · exact h a x b1 h1 hp
  · obtain ⟨y, hy, hqy⟩ := hq
    exact ⟨y, by rw [h1]; exact List.mem_append_left _ hy, hqy⟩

/-! ## No finalize without validation -/

theorem InstallInv_start {σ : Type} (env : Env σ) (req : Request) (fw cmp : Nat)
    (hfw : req.fwsize = some fw) (hcmp : req.cmpsize = some cmp) (hlt : cmp < fw)
    (h32 : fw < WORD) : InstallInv (ota_start env req) := by
  obtain ⟨g1, _, _, g4, g5, _, g7, _⟩ := ota_start_good env req fw cmp hfw hcmp hlt
  refine ⟨fun _ => ?_, fun h => ?_, fun _ => g5, fun h => ?_, fun h => ?_⟩
  · rw [g7, u32_of_lt _ h32]; omega
  · rw [g5] at h; cases h
  · rw [g1] at h; cases h
  · rw [g1] at h; cases h

/-- A transition that leaves `remaining` and `ota_end_called` alone, and
`prevalidated` too or sets it, keeps the invariant. -/
theorem InstallInv_of {σ : Type} (s t : State σ) (h : InstallInv s)
    (hp : t.prevalidated = false → s.prevalidated = false ∧ t.remaining = s.remaining)
    (hm : s.prevalidated = true → t.prevalidated = true)
    (he : t.ota_end_called = s.ota_end_called)
    (hl : t.pc.in_loop = true ∨ t.pc = .upload_complete →
      s.pc.in_loop = true ∨ s.pc = .upload_complete)
    (hs : t.pc.after_loop = true → t.ota_return_status = .SUCCESS →
      s.pc.after_loop = true ∧ s.ota_return_status = .SUCCESS)
    (ha : t.pc = .aborted → s.pc = .aborted) : InstallInv t := by
  refine ⟨fun x => ?_, fun x => ?_, fun x => ?_, fun x y => ?_, fun x => ?_⟩
  · obtain ⟨a, b⟩ := hp x
    rw [b]; exact h.hrem a
  · rw [he] at x; exact hm (h.hfin x)
  · rw [he]; exact h.hloop (hl x)
  · rw [he]; exact h.hok (hs x y).1 (hs x y).2
  · exact hm (h.habort (ha x))

theorem InstallInv_step {σ : Type} (env : Env σ) (s : State σ) (h : InstallInv s) :
    InstallInv (step env s) := by
  unfold step
  split
  next hpc =>
    have hin : s.pc.in_loop = true ∨ s.pc = .upload_complete := by rw [hpc]; exact Or.inl rfl
    rcases chunk_step_cases env s with ⟨_, e⟩ | ⟨_, _, e⟩ | ⟨m, inbox, _, _, _, u, e⟩ |
      ⟨m, inbox, _, _, _, _, e⟩
    · rw [e]
      exact InstallInv_of s _ h (fun x => ⟨x, rfl⟩) (fun x => x) rfl (fun _ => hin)
        (fun x => by cases x) (fun x => by cases x)
    · rw [e]; exact h
    · rw [e]
      exact InstallInv_of s _ h (fun x => ⟨x, rfl⟩) (fun x => x) rfl (fun _ => hin)
        (fun _ y => by cases y) (fun x => by cases x)
    · rw [e]
      exact InstallInv_of s _ h (fun x => ⟨x, rfl⟩) (fun x => x) rfl (fun _ => hin)
        (fun x => by cases x) (fun x => by cases x)
  next hpc =>
    have hin : s.pc.in_loop = true ∨ s.pc = .upload_complete := by rw [hpc]; exact Or.inl rfl
    have hd : (decompress env s).pc = .inner_loop := hpc
    rcases inner_step_cases env s with ⟨_, e⟩ | ⟨_, _, e⟩ | ⟨_, _, hp, hres, e⟩ |
      ⟨_, _, hp, hres, e⟩ | ⟨_, _, hp, e⟩
    · rw [e]
      exact InstallInv_of s _ h (fun x => ⟨x, rfl⟩) (fun x => x) rfl (fun _ => hin)
        (fun x => by cases x) (fun x => by cases x)
    · rw [e]
      exact InstallInv_of s _ h (fun x => ⟨x, rfl⟩) (fun x => x) rfl (fun _ => hin)
        (fun x => by rw [hd] at x; cases x) (fun x => by rw [hd] at x; cases x)
    · rw [e]
      have hres1 : (ota_init env (decompress env s).uncompressed
          (decompress env s).firmwaresize).res ≠ .SUCCESS := hres
      obtain ⟨v1, v2, v3⟩ := validate_fail env (decompress env s) hres1
      exact InstallInv_of s _ h
        (fun _ => ⟨hp, by rw [validate_remaining]; rfl⟩)
        (fun x => by rw [hp] at x; cases x)
        (by rw [validate_ota_end_called]; rfl) (fun _ => hin)
        (fun _ y => by rw [v3] at y; exact absurd y hres1)
        (fun x => by rw [v2] at x; cases x)
    · rw [e]
      have hres1 : (ota_init env (decompress env s).uncompressed
          (decompress env s).firmwaresize).res = .SUCCESS := hres
      obtain ⟨v1, v2, v3⟩ := validate_ok env (decompress env s) hres1
      have hpv : (flush env (validate env (decompress env s))).prevalidated = true := by
        rw [flush_prevalidated]; exact v1
      refine InstallInv_of s _ h (fun x => by rw [hpv] at x; cases x) (fun _ => hpv)
        (by rw [flush_ota_end_called, validate_ota_end_called]; rfl) (fun _ => hin) ?_ ?_
      · intro x y
        rcases flush_pc env (validate env (decompress env s)) with ⟨a, _⟩ | ⟨_, b⟩
        · rw [a, v2, hd] at x; cases x
        · rw [b] at y; cases y
      · intro x
        rcases flush_pc env (validate env (decompress env s)) with ⟨a, _⟩ | ⟨a, _⟩
        · rw [a, v2, hd] at x; cases x
        · rw [a] at x; cases x
    · rw [e]
      have hpv : (flush env (decompress env s)).prevalidated = true := by
        rw [flush_prevalidated]; exact hp
      refine InstallInv_of s _ h (fun x => by rw [hpv] at x; cases x) (fun _ => hpv)
        (by rw [flush_ota_end_called]; rfl) (fun _ => hin) ?_ ?_
      · intro x y
        rcases flush_pc env (decompress env s) with ⟨a, _⟩ | ⟨_, b⟩
        · rw [a, hd] at x; cases x
        · rw [b] at y; cases y
      · intro x
        rcases flush_pc env (decompress env s) with ⟨a, _⟩ | ⟨a, _⟩
        · rw [a, hd] at x; cases x
        · rw [a] at x; cases x
  next hpc =>
    have hin : s.pc.in_loop = true ∨ s.pc = .upload_complete := by rw [hpc]; exact Or.inl rfl
    rcases chunk_end_step_cases s with ⟨_, e⟩ | ⟨_, e⟩
    · rw [e]
      exact InstallInv_of s _ h (fun x => ⟨x, rfl⟩) (fun x => x) rfl (fun _ => hin)
        (fun _ y => by cases y) (fun x => by cases x)
    · rw [e]
      exact InstallInv_of s _ h (fun x => ⟨x, rfl⟩) (fun x => x) rfl (fun _ => hin)
        (fun x => by cases x) (fun x => by cases x)
  next hpc =>
    have hin : s.pc.in_loop = true ∨ s.pc = .upload_complete := by rw [hpc]; exact Or.inr rfl
    have hpv : s.remaining = 0 → s.prevalidated = true := by
      intro hr
      cases hv : s.prevalidated with
      | false => exact absurd hr (h.hrem hv)
      | true => rfl
    rcases upload_complete_step_cases env s with ⟨_, e⟩ | ⟨hr, _, e⟩ | ⟨hr, _, _, e⟩ |
      ⟨hr, _, _, e⟩
    · rw [e]
      exact InstallInv_of s _ h (fun x => ⟨x, rfl⟩) (fun x => x) rfl (fun x => by rcases x with x | x <;> cases x)
        (fun _ y => by cases y) (fun x => by cases x)
    · rw [e]
      refine ⟨fun x => ?_, fun _ => hpv hr, fun x => ?_, fun _ y => ?_, fun x => ?_⟩
      · rw [hpv hr] at x; cases x
      · rcases x with x | x <;> cases x
      · cases y
      · cases x
    · rw [e]
      refine ⟨fun x => ?_, fun _ => hpv hr, fun x => ?_, fun _ y => ?_, fun x => ?_⟩
      · rw [hpv hr] at x; cases x
      · rcases x with x | x <;> cases x
      · cases y
      · cases x
    · rw [e]
      refine ⟨fun x => ?_, fun _ => hpv hr, fun x => ?_, fun _ _ => rfl, fun _ => hpv hr⟩
      · rw [hpv hr] at x; cases x
      · rw [hpv hr] at x
        rcases x with x | x <;> simp [Label.in_loop] at x
  next hpc =>
    rcases otacomplete_step_cases s with ⟨_, e⟩ | ⟨m, inbox, _, e⟩
    · rw [e]; exact h
    · rw [e]
      exact InstallInv_of s _ h (fun x => ⟨x, rfl⟩) (fun x => x) rfl (fun x => by rcases x with x | x <;> cases x)
        (fun _ y => ⟨by rw [hpc]; rfl, y⟩) (fun x => by cases x)
  next hpc =>
    have hal : s.pc.after_loop = true := by rw [hpc]; rfl
    rcases cleanup_step_cases env s with ⟨_, e⟩ | ⟨_, hp, _, e⟩ | ⟨_, _, _, e⟩ | ⟨_, _, e⟩
    · rw [e]
      exact InstallInv_of s _ h (fun x => ⟨x, rfl⟩) (fun x => x) rfl (fun x => by rcases x with x | x <;> cases x)
        (fun _ y => ⟨hal, y⟩) (fun x => by cases x)
    · rw [e]
      refine ⟨fun x => h.hrem x, h.hfin, fun x => ?_, fun _ y => h.hok hal y, fun _ => hp.1⟩
      rcases x with x | x <;> cases x
    · rw [e]
      exact InstallInv_of s _ h (fun x => ⟨x, rfl⟩) (fun x => x) rfl (fun x => by rcases x with x | x <;> cases x)
        (fun _ y => ⟨hal, y⟩) (fun x => by cases x)
    · rw [e]
      exact InstallInv_of s _ h (fun x => ⟨x, rfl⟩) (fun x => x) rfl (fun x => by rcases x with x | x <;> cases x)
        (fun _ y => ⟨hal, y⟩) (fun x => by cases x)
  all_goals exact h

theorem InstallInv_run {σ : Type} (env : Env σ) (req : Request) (fw cmp : Nat)
    (hfw : req.fwsize = some fw) (hcmp : req.cmpsize = some cmp) (hlt : cmp < fw)
    (h32 : fw < WORD) (n : Nat) : InstallInv (ota_process env req n) :=
  run_invariant env InstallInv (InstallInv_step env) _
    (InstallInv_start env req fw cmp hfw hcmp hlt h32) n

/-! ## The balance of the partition handle -/

theorem ota_init_calls_plain {σ : Type} (env : Env σ) (buf : List Byte) (fw : Nat) :
    ∀ e ∈ (ota_init env buf fw).calls, e.closes = false ∧ e.is_failure_report = false := by
  intro e he
  have := ota_init_calls_kind env buf fw e he
  revert this
  cases e <;> simp [Event.in_ota_init, Event.closes, Event.is_esp_ota_end, Event.is_set_boot,
    Event.is_failure_report]

/-- The call `esp_ota_begin` succeeds exactly when `ota_init` does. -/
theorem ota_init_begin_ok {σ : Type} (env : Env σ) (buf : List Byte) (fw : Nat) :
    (∃ f, Event.esp_ota_begin f ESP_OK ∈ (ota_init env buf fw).calls) ↔
      (ota_init env buf fw).res = .SUCCESS := by
  have hc := confirmation_calls_eq env
  have hcc : ∀ f, Event.esp_ota_begin f ESP_OK ∉ confirmation_calls env := by
    intro f hf
    have := hc _ hf
    cases this
  rcases ota_init_cases env buf fw with ⟨_, e⟩ | ⟨_, _, e⟩ | ⟨_, _, _, e⟩ | ⟨_, _, e⟩ |
    ⟨_, _, e⟩ | ⟨_, _, h6, e⟩ | ⟨_, _, _, e⟩ <;> rw [e]
  · simp
  · simp
  · simp
  · simp
  · simp only [List.mem_append, List.mem_cons, List.not_mem_nil, or_false, false_or,
      reduceCtorEq, iff_false, not_exists]
    intro f hf
    exact hcc f hf
  · simp only [List.mem_append, List.mem_cons, List.not_mem_nil, or_false, false_or,
      reduceCtorEq, iff_false, not_exists, Event.esp_ota_begin.injEq]
    intro f hf
    rcases hf with hf | hf
    · exact hcc f hf
    · exact h6 hf.2.symm
  · simp

theorem failure_report_kind {σ : Type} (s : State σ) :
    ∀ e ∈ failure_report s, e.is_failure_report = true ∧ e.closes = false ∧
      ∀ f, e ≠ Event.esp_ota_begin f ESP_OK := by
  unfold failure_report
  split_ifs <;> simp [Event.is_failure_report, Event.closes, Event.is_esp_ota_end,
    Event.is_set_boot]

theorem closes_false_end (e : Event) (h : e.closes = false) :
    e.is_esp_ota_end = false ∧ e.is_set_boot = false := by
  unfold Event.closes at h
  simpa using h

theorem countP_end_of_plain (evs : List Event) (h : ∀ e ∈ evs, e.closes = false) :
    evs.countP Event.is_esp_ota_end = 0 := by
  rw [List.countP_eq_zero]
  intro e he
  rw [(closes_false_end e (h e he)).1]
  simp

theorem HandleInv_start {σ : Type} (env : Env σ) (req : Request) :
    HandleInv env (ota_start env req) := by
  have hpv : (ota_start env req).prevalidated = false := by
    unfold ota_start; simp only []; split_ifs <;> rfl
  have hoe : (ota_start env req).ota_end_called = false := by
    unfold ota_start; simp only []; split_ifs <;> rfl
  have hne : (ota_start env req).pc.ended = false := by
    unfold ota_start; simp only []; split_ifs <;> rfl
  have htr : ∀ e ∈ (ota_start env req).trace, e.closes = false ∧ e.is_failure_report = false ∧
      ∀ f, e ≠ Event.esp_ota_begin f ESP_OK := by
    unfold ota_start; simp only []
    split_ifs <;> simp [Event.closes, Event.is_esp_ota_end, Event.is_set_boot,
      Event.is_failure_report]
  refine ⟨fun x => ?_, ⟨fun x => ?_, fun ⟨f, x⟩ => ?_⟩, ?_, fun e he x => ?_,
    Preceded_of_none _ _ _ (fun e he => (htr e he).1), fun _ e he => (htr e he).2.1,
    fun x => ?_⟩
  · rw [hpv] at x; cases x
  · rw [hpv] at x; cases x
  · exact absurd rfl ((htr _ x).2.2 f)
  · rw [countP_end_of_plain _ (fun e he => (htr e he).1), hoe, hne]
    simp
  · rw [(closes_false_end e (htr e he).1).2] at x; cases x
  · rw [hne] at x; cases x

/-- A transition inside the function that makes no call of `esp_ota_end` or
`esp_ota_set_boot_partition` and no failure report keeps the invariant. -/
theorem HandleInv_of {σ : Type} (env : Env σ) (s t : State σ) (evs : List Event)
    (h : HandleInv env s) (ht : t.trace = s.trace ++ evs)
    (hq : ∀ e ∈ evs, e.closes = false ∧ e.is_failure_report = false)
    (hs : s.pc.ended = false) (hte : t.pc.ended = false)
    (he : t.ota_end_called = s.ota_end_called) (hf : t.firmwaresize = s.firmwaresize)
    (hi : t.prevalidated = true → s.prevalidated = true ∨
      ∃ buf, buf.length = UNCOMPRESSED_BUF_SIZE ∧
        (ota_init env buf s.firmwaresize).res = .SUCCESS ∧ Event.ota_init .SUCCESS ∈ evs)
    (hb : t.prevalidated = true ↔
      (s.prevalidated = true ∨ ∃ f, Event.esp_ota_begin f ESP_OK ∈ evs)) :
    HandleInv env t := by
  refine ⟨fun x => ?_, ⟨fun x => ?_, fun ⟨f, x⟩ => ?_⟩, ?_, fun e x y => ?_, ?_,
    fun _ e x => ?_, fun x => ?_⟩
  · rcases hi x with y | ⟨buf, b1, b2, b3⟩
    · obtain ⟨buf, b1, b2, b3⟩ := h.hinit y
      exact ⟨buf, b1, by rw [hf]; exact b2, by rw [ht]; exact List.mem_append_left _ b3⟩
    · exact ⟨buf, b1, by rw [hf]; exact b2, by rw [ht]; exact List.mem_append_right _ b3⟩
  · rcases hb.mp x with y | ⟨f, y⟩
    · obtain ⟨f, z⟩ := h.hbegin.mp y
      exact ⟨f, by rw [ht]; exact List.mem_append_left _ z⟩
    · exact ⟨f, by rw [ht]; exact List.mem_append_right _ y⟩
  · rw [ht, List.mem_append] at x
    rcases x with x | x
    · exact hb.mpr (Or.inl (h.hbegin.mpr ⟨f, x⟩))
    · exact hb.mpr (Or.inr ⟨f, x⟩)
  · rw [ht, List.countP_append, countP_end_of_plain evs (fun e x => (hq e x).1), h.hcount,
      he, hs, hte]
    simp
  · rw [ht, List.mem_append] at x
    rcases x with x | x
    · rw [he]; exact h.hboot e x y
    · rw [(closes_false_end e (hq e x).1).2] at y; cases y
  · rw [ht]
    exact Preceded_append_quiet _ _ _ _ h.hpre (fun e x => (hq e x).1)
  · rw [ht, List.mem_append] at x
    rcases x with x | x
    · exact h.hreport hs e x
    · exact (hq e x).2
  · rw [hte] at x; cases x

/-- The same for a transition that makes no call of `esp_ota_begin` either and
leaves `prevalidated` alone. -/
theorem HandleInv_quiet {σ : Type} (env : Env σ) (s t : State σ) (evs : List Event)
    (h : HandleInv env s) (ht : t.trace = s.trace ++ evs)
    (hq : ∀ e ∈ evs, e.closes = false ∧ e.is_failure_report = false ∧
      ∀ f, e ≠ Event.esp_ota_begin f ESP_OK)
    (hs : s.pc.ended = false) (hte : t.pc.ended = false)
    (he : t.ota_end_called = s.ota_end_called) (hf : t.firmwaresize = s.firmwaresize)
    (hp : t.prevalidated = s.prevalidated) : HandleInv env t := by
  refine HandleInv_of env s t evs h ht (fun e x => ⟨(hq e x).1, (hq e x).2.1⟩) hs hte he hf
    (fun x => Or.inl (by rw [← hp]; exact x)) ⟨fun x => Or.inl (by rw [← hp]; exact x), ?_⟩
  rintro (x | ⟨f, x⟩)
  · rw [hp]; exact x
  · exact absurd rfl ((hq _ x).2.2 f)

theorem completion_reply_kind (method : String) (st : ota_status) :
    (completion_reply method st).closes = false ∧
    (completion_reply method st).is_failure_report = false ∧
    ∀ f, completion_reply method st ≠ Event.esp_ota_begin f ESP_OK := by
  unfold completion_reply
  split_ifs <;> simp [Event.closes, Event.is_esp_ota_end, Event.is_set_boot,
    Event.is_failure_report]

/-- The finalize of ota.c:344-357 keeps the invariant. -/
theorem HandleInv_finalize {σ : Type} (env : Env σ) (s t : State σ) (evs : List Event)
    (err : Int) (h : HandleInv env s) (hpc : s.pc = .upload_complete)
    (hoe : s.ota_end_called = false) (hpv : s.prevalidated = true)
    (ht : t.trace = s.trace ++ Event.esp_ota_end err :: evs)
    (hq : ∀ e ∈ evs, e.is_esp_ota_end = false ∧ e.is_failure_report = false ∧
      ∀ f, e ≠ Event.esp_ota_begin f ESP_OK)
    (hte : t.pc = .otacomplete) (he : t.ota_end_called = true)
    (hf : t.firmwaresize = s.firmwaresize) (hp : t.prevalidated = s.prevalidated) :
    HandleInv env t := by
  have hs : s.pc.ended = false := by rw [hpc]; rfl
  have hte1 : t.pc.ended = false := by rw [hte]; rfl
  obtain ⟨buf, b1, b2, b3⟩ := h.hinit hpv
  refine ⟨fun _ => ⟨buf, b1, by rw [hf]; exact b2, by
      rw [ht]; exact List.mem_append_left _ b3⟩, ⟨fun _ => ?_, fun _ => by rw [hp]; exact hpv⟩,
    ?_, fun _ _ _ => he, ?_, fun _ e x => ?_, fun x => ?_⟩
  · obtain ⟨f, z⟩ := h.hbegin.mp hpv
    exact ⟨f, by rw [ht]; exact List.mem_append_left _ z⟩
  · have hz : evs.countP Event.is_esp_ota_end = 0 := by
      rw [List.countP_eq_zero]
      intro e x
      rw [(hq e x).1]
      simp
    rw [ht, List.countP_append, List.countP_cons, hz, h.hcount, hoe, hs, he]
    simp [Event.is_esp_ota_end]
  · rw [ht]
    exact Preceded_append_after _ _ _ _ h.hpre ⟨_, b3, rfl⟩
  · rw [ht, List.mem_append, List.mem_cons] at x
    rcases x with x | x | x
    · exact h.hreport hs e x
    · rw [x]; rfl
    · exact (hq e x).2.1
  · rw [hte1] at x; cases x

theorem HandleInv_step {σ : Type} (env : Env σ) (s : State σ) (hi : InstallInv s)
    (h : HandleInv env s) : HandleInv env (step env s) := by
  unfold step
  split
  next hpc =>
    have hs : s.pc.ended = false := by rw [hpc]; rfl
    rcases chunk_step_cases env s with ⟨_, e⟩ | ⟨_, _, e⟩ | ⟨m, inbox, _, _, _, u, e⟩ |
      ⟨m, inbox, _, _, _, _, e⟩
    · rw [e]
      exact HandleInv_quiet env s _ [] h (by simp) (by simp) hs rfl rfl rfl rfl
    · rw [e]; exact h
    · rw [e]
      exact HandleInv_quiet env s _ [Event.get_in_message m] h rfl
        (by simp [Event.closes, Event.is_esp_ota_end, Event.is_set_boot,
          Event.is_failure_report]) hs rfl rfl rfl rfl
    · rw [e]
      exact HandleInv_quiet env s _ [Event.get_in_message m] h rfl
        (by simp [Event.closes, Event.is_esp_ota_end, Event.is_set_boot,
          Event.is_failure_report]) hs rfl rfl rfl rfl
  next hpc =>
    have hs : s.pc.ended = false := by rw [hpc]; rfl
    have hd : (decompress env s).pc = .inner_loop := hpc
    have hdt := decompress_trace_eq env s
    rcases inner_step_cases env s with ⟨_, e⟩ | ⟨_, _, e⟩ | ⟨_, hfull, hp, hres, e⟩ |
      ⟨_, hfull, hp, hres, e⟩ | ⟨_, _, hp, e⟩
    · rw [e]
      exact HandleInv_quiet env s _ [] h (by simp) (by simp) hs rfl rfl rfl rfl
    · rw [e]
      exact HandleInv_quiet env s _ _ h hdt
        (by simp [Event.closes, Event.is_esp_ota_end, Event.is_set_boot,
          Event.is_failure_report]) hs (by rw [hd]; rfl) rfl rfl rfl
    · rw [e]
      have hres1 : (ota_init env (decompress env s).uncompressed
          (decompress env s).firmwaresize).res ≠ .SUCCESS := hres
      obtain ⟨v1, v2, _⟩ := validate_fail env (decompress env s) hres1
      refine HandleInv_quiet env s _
        ([Event.tinfl_decompress s.length (out_space s) (tinfl_flags s) (tinfl_call env s).status
            (tinfl_call env s).in_bytes (tinfl_call env s).out.length] ++
          (ota_init env (decompress env s).uncompressed (decompress env s).firmwaresize).calls ++
          [Event.ota_init (ota_init env (decompress env s).uncompressed
            (decompress env s).firmwaresize).res]) h
        (by rw [validate_trace, hdt]; simp) ?_ hs (by rw [v2]; rfl)
        (by rw [validate_ota_end_called]; rfl) (by rw [validate_firmwaresize]; rfl)
        (by rw [v1]; rfl)
      intro x hx
      simp only [List.mem_append, List.mem_singleton] at hx
      rcases hx with (hx | hx) | hx
      · rw [hx]
        simp [Event.closes, Event.is_esp_ota_end, Event.is_set_boot, Event.is_failure_report]
      · refine ⟨(ota_init_calls_plain env _ _ x hx).1, (ota_init_calls_plain env _ _ x hx).2,
          fun f hf => ?_⟩
        rw [hf] at hx
        exact hres1 ((ota_init_begin_ok env _ _).mp ⟨f, hx⟩)
      · rw [hx]
        simp [Event.closes, Event.is_esp_ota_end, Event.is_set_boot, Event.is_failure_report]
    · rw [e]
      have hres1 : (ota_init env (decompress env s).uncompressed
          (decompress env s).firmwaresize).res = .SUCCESS := hres
      obtain ⟨v1, v2, _⟩ := validate_ok env (decompress env s) hres1
      obtain ⟨f, hf⟩ := (ota_init_begin_ok env _ _).mpr hres1
      have hpv : (flush env (validate env (decompress env s))).prevalidated = true := by
        rw [flush_prevalidated]; exact v1
      have hte : (flush env (validate env (decompress env s))).pc.ended = false := by
        rcases flush_pc env (validate env (decompress env s)) with ⟨a, _⟩ | ⟨a, _⟩
        · rw [a, v2, hd]; rfl
        · rw [a]; rfl
      refine HandleInv_of env s _
        ([Event.tinfl_decompress s.length (out_space s) (tinfl_flags s) (tinfl_call env s).status
            (tinfl_call env s).in_bytes (tinfl_call env s).out.length] ++
          (ota_init env (decompress env s).uncompressed (decompress env s).firmwaresize).calls ++
          [Event.ota_init (ota_init env (decompress env s).uncompressed
            (decompress env s).firmwaresize).res] ++
          [Event.esp_ota_write (validate env (decompress env s)).uncompressed
            (env.esp_ota_write (validate env (decompress env s)).n_writes
              (validate env (decompress env s)).uncompressed)]) h
        (by rw [flush_trace, validate_trace, hdt]; simp) ?_ hs hte
        (by rw [flush_ota_end_called, validate_ota_end_called]; rfl)
        (by rw [flush_firmwaresize, validate_firmwaresize]; rfl)
        (fun _ => Or.inr ⟨(decompress env s).uncompressed, hfull, hres, ?_⟩)
        ⟨fun _ => Or.inr ⟨f, ?_⟩, fun _ => hpv⟩
      · intro x hx
        simp only [List.mem_append, List.mem_singleton] at hx
        rcases hx with ((hx | hx) | hx) | hx
        · rw [hx]
          simp [Event.closes, Event.is_esp_ota_end, Event.is_set_boot, Event.is_failure_report]
        · exact ota_init_calls_plain env _ _ x hx
        · rw [hx]
          simp [Event.closes, Event.is_esp_ota_end, Event.is_set_boot, Event.is_failure_report]
        · rw [hx]
          simp [Event.closes, Event.is_esp_ota_end, Event.is_set_boot, Event.is_failure_report]
      · rw [hres1]; simp
      · simp only [List.mem_append, List.mem_singleton]
        exact Or.inl (Or.inl (Or.inr hf))
    · rw [e]
      have hte : (flush env (decompress env s)).pc.ended = false := by
        rcases flush_pc env (decompress env s) with ⟨a, _⟩ | ⟨a, _⟩
        · rw [a, hd]; rfl
        · rw [a]; rfl
      exact HandleInv_quiet env s _
        [Event.tinfl_decompress s.length (out_space s) (tinfl_flags s) (tinfl_call env s).status
            (tinfl_call env s).in_bytes (tinfl_call env s).out.length,
          Event.esp_ota_write (decompress env s).uncompressed
            (env.esp_ota_write (decompress env s).n_writes (decompress env s).uncompressed)] h
        (by rw [flush_trace, hdt]; simp)
        (by simp [Event.closes, Event.is_esp_ota_end, Event.is_set_boot,
          Event.is_failure_report]) hs hte (by rw [flush_ota_end_called]; rfl)
        (by rw [flush_firmwaresize]; rfl) (by rw [flush_prevalidated]; rfl)
  next hpc =>
    have hs : s.pc.ended = false := by rw [hpc]; rfl
    rcases chunk_end_step_cases s with ⟨_, e⟩ | ⟨_, e⟩
    · rw [e]
      refine HandleInv_quiet env s _ _ h rfl ?_ hs rfl rfl rfl rfl
      split_ifs <;> simp [Event.closes, Event.is_esp_ota_end, Event.is_set_boot,
        Event.is_failure_report]
    · rw [e]
      refine HandleInv_quiet env s _ _ h (List.append_assoc _ _ _) ?_ hs rfl rfl rfl rfl
      split_ifs <;> simp [Event.closes, Event.is_esp_ota_end, Event.is_set_boot,
        Event.is_failure_report]
  next hpc =>
    have hs : s.pc.ended = false := by rw [hpc]; rfl
    have hoe : s.ota_end_called = false := hi.hloop (Or.inr hpc)
    have hpv : s.remaining = 0 → s.prevalidated = true := by
      intro hr
      cases hv : s.prevalidated with
      | false => exact absurd hr (hi.hrem hv)
      | true => rfl
    rcases upload_complete_step_cases env s with ⟨_, e⟩ | ⟨hr, _, e⟩ | ⟨hr, _, _, e⟩ |
      ⟨hr, _, _, e⟩
    · rw [e]
      exact HandleInv_quiet env s _ [] h (by simp) (by simp) hs rfl rfl rfl rfl
    · rw [e]
      exact HandleInv_finalize env s _ [] _ h hpc hoe (hpv hr) rfl (by simp) rfl rfl rfl rfl
    · rw [e]
      exact HandleInv_finalize env s _ [Event.esp_ota_set_boot_partition
        env.esp_ota_set_boot_partition] _ h hpc hoe (hpv hr) rfl
        (by simp [Event.is_esp_ota_end, Event.is_failure_report]) rfl rfl rfl rfl
    · rw [e]
      exact HandleInv_finalize env s _ [Event.esp_ota_set_boot_partition ESP_OK] _ h hpc hoe
        (hpv hr) rfl (by simp [Event.is_esp_ota_end, Event.is_failure_report])
        (by simp [hpv hr]) rfl rfl rfl
  next hpc =>
    have hs : s.pc.ended = false := by rw [hpc]; rfl
    rcases otacomplete_step_cases s with ⟨_, e⟩ | ⟨m, inbox, _, e⟩
    · rw [e]; exact h
    · rw [e]
      refine HandleInv_quiet env s _ _ h rfl ?_ hs rfl rfl rfl rfl
      intro x hx
      simp only [List.mem_cons, List.mem_singleton, List.not_mem_nil, or_false] at hx
      rcases hx with hx | hx
      · rw [hx]
        simp [Event.closes, Event.is_esp_ota_end, Event.is_set_boot, Event.is_failure_report]
      · rw [hx]; exact completion_reply_kind _ _
  next hpc =>
    have hs : s.pc.ended = false := by rw [hpc]; rfl
    have hal : s.pc.after_loop = true := by rw [hpc]; rfl
    have hfr := failure_report_kind s
    have hnone : s.ota_end_called = false → ∀ e ∈ s.trace, e.is_esp_ota_end = false := by
      intro hoe e he
      have hc := h.hcount
      rw [hoe, hs] at hc
      simp only [Bool.false_eq_true, false_and, or_self, if_false] at hc
      rw [List.countP_eq_zero] at hc
      simpa using hc e he
    rcases cleanup_step_cases env s with ⟨hst, e⟩ | ⟨_, hp, _, e⟩ | ⟨_, hp, _, e⟩ |
      ⟨_, hp, e⟩
    · -- success: restart
      have hoe : s.ota_end_called = true := hi.hok hal hst
      rw [e]
      refine ⟨fun x => ?_, ⟨fun x => ?_, fun ⟨f, x⟩ => ?_⟩, ?_, fun e x y => hoe, ?_,
        fun x => (by cases x), fun _ _ x => ?_⟩
      · obtain ⟨buf, b1, b2, b3⟩ := h.hinit x
        exact ⟨buf, b1, b2, List.mem_append_left _ b3⟩
      · obtain ⟨f, z⟩ := h.hbegin.mp x
        exact ⟨f, List.mem_append_left _ z⟩
      · simp only [List.mem_append, List.mem_cons, List.not_mem_nil, or_false,
          reduceCtorEq] at x
        exact h.hbegin.mpr ⟨f, x⟩
      · show (s.trace ++ _).countP _ = _
        rw [List.countP_append, h.hcount, hoe]
        simp [Event.is_esp_ota_end]
      · exact Preceded_append_quiet _ _ _ _ h.hpre
          (by simp [Event.closes, Event.is_esp_ota_end, Event.is_set_boot])
      · rw [hoe] at x; cases x
    · -- the abort fails its assertion
      obtain ⟨buf, b1, b2, b3⟩ := h.hinit hp.1
      rw [e]
      refine ⟨fun _ => ⟨buf, b1, b2, List.mem_append_left _ b3⟩,
        ⟨fun x => ?_, fun _ => hp.1⟩, ?_, fun e x y => ?_,
        Preceded_append_after _ _ _ _ h.hpre ⟨_, b3, rfl⟩, fun x => (by cases x),
        fun _ _ _ => ⟨s.trace, env.esp_ota_end, [], rfl,
          fun e he => ⟨h.hreport hs e he, hnone hp.2 e he⟩, by simp⟩⟩
      · obtain ⟨f, z⟩ := h.hbegin.mp x
        exact ⟨f, List.mem_append_left _ z⟩
      · show (s.trace ++ _).countP _ = _
        rw [List.countP_append, h.hcount, hp.2, hs]
        simp [Event.is_esp_ota_end, Label.ended, hp.1]
      · simp only [List.mem_append, List.mem_singleton] at x
        rcases x with x | x
        · exact h.hboot e x y
        · rw [x] at y; cases y
    · -- the abort, then the failure reports
      obtain ⟨buf, b1, b2, b3⟩ := h.hinit hp.1
      have hz : (failure_report s).countP Event.is_esp_ota_end = 0 :=
        countP_end_of_plain _ (fun e he => (hfr e he).2.1)
      rw [e]
      refine ⟨fun _ => ⟨buf, b1, b2, List.mem_append_left _ (List.mem_append_left _ b3)⟩,
        ⟨fun x => ?_, fun _ => hp.1⟩, ?_, fun e x y => ?_, ?_, fun x => (by cases x),
        fun _ _ _ => ⟨s.trace, env.esp_ota_end, failure_report s, by simp,
          fun e he => ⟨h.hreport hs e he, hnone hp.2 e he⟩, fun e he => (hfr e he).1⟩⟩
      · obtain ⟨f, z⟩ := h.hbegin.mp x
        exact ⟨f, List.mem_append_left _ (List.mem_append_left _ z)⟩
      · show (s.trace ++ _ ++ _).countP _ = _
        rw [List.countP_append, List.countP_append, hz, h.hcount, hp.2, hs]
        simp [Event.is_esp_ota_end, Label.ended, hp.1]
      · simp only [List.mem_append, List.mem_singleton] at x
        rcases x with (x | x) | x
        · exact h.hboot e x y
        · rw [x] at y; cases y
        · rw [(closes_false_end e (hfr e x).2.1).2] at y; cases y
      · show Preceded _ _ (s.trace ++ _ ++ _)
        rw [List.append_assoc]
        exact Preceded_append_after _ _ _ _ h.hpre ⟨_, b3, rfl⟩
    · -- no abort
      rw [e]
      refine ⟨fun x => ?_, ⟨fun x => ?_, fun ⟨f, x⟩ => ?_⟩, ?_, fun e x y => ?_,
        Preceded_append_quiet _ _ _ _ h.hpre (fun e he => (hfr e he).2.1),
        fun x => (by cases x), fun _ x y => absurd ⟨x, y⟩ hp⟩
      · obtain ⟨buf, b1, b2, b3⟩ := h.hinit x
        exact ⟨buf, b1, b2, List.mem_append_left _ b3⟩
      · obtain ⟨f, z⟩ := h.hbegin.mp x
        exact ⟨f, List.mem_append_left _ z⟩
      · simp only [List.mem_append] at x
        rcases x with x | x
        · exact h.hbegin.mpr ⟨f, x⟩
        · exact absurd rfl ((hfr _ x).2.2 f)
      · show (s.trace ++ _).countP _ = _
        rw [List.countP_append, countP_end_of_plain _ (fun e he => (hfr e he).2.1), h.hcount,
          hs]
        cases hoe : s.ota_end_called with
        | true => simp
        | false =>
          have hpf : s.prevalidated = false := by
            cases hv : s.prevalidated with
            | false => rfl
            | true => exact absurd ⟨hv, hoe⟩ hp
          simp [hpf]
      · simp only [List.mem_append] at x
        rcases x with x | x
        · exact h.hboot e x y
        · rw [(closes_false_end e (hfr e x).2.1).2] at y; cases y
  all_goals exact h

/-- Both invariants hold at every point of a run on a request whose sizes fit
a 32-bit word. -/
theorem HandleInv_run {σ : Type} (env : Env σ) (req : Request) (fw cmp : Nat)
    (hfw : req.fwsize = some fw) (hcmp : req.cmpsize = some cmp) (hlt : cmp < fw)
    (h32 : fw < WORD) (n : Nat) :
    InstallInv (ota_process env req n) ∧ HandleInv env (ota_process env req n) :=
  run_invariant env (fun s => InstallInv s ∧ HandleInv env s)
    (fun s h => ⟨InstallInv_step env s h.1, HandleInv_step env s h.1 h.2⟩) _
    ⟨InstallInv_start env req fw cmp hfw hcmp hlt h32, HandleInv_start env req⟩ n

/-! ## What a validation that succeeds has checked -/

theorem ota_init_success {σ : Type} (env : Env σ) (buf : List Byte) (fw : Nat)
    (h : (ota_init env buf fw).res = .SUCCESS) :
    env.esp_ota_get_partition_description = ESP_OK ∧
    strnlen (env.new_app_info buf).version (VERSION_STRING_MAX_LENGTH + 1)
      ≤ VERSION_STRING_MAX_LENGTH ∧
    env.esp_efuse_check_secure_version (env.new_app_info buf).secure_version = true ∧
    (∃ p, env.esp_ota_get_next_update_partition = some p ∧
      p ≠ env.esp_ota_get_running_partition) ∧
    ((confirmation env).1 = true ∧ (confirmation env).2 = env.BTN_ACCEPT_OTA) ∧
    env.esp_ota_begin = ESP_OK := by
  by_cases h1 : env.esp_ota_get_partition_description = ESP_OK
  swap
  · simp [ota_init, h1] at h
  by_cases h2 : strnlen (env.new_app_info buf).version (VERSION_STRING_MAX_LENGTH + 1)
      > VERSION_STRING_MAX_LENGTH
  · simp [ota_init, h1, h2] at h
  by_cases h4 : env.esp_ota_get_next_update_partition = none ∨
      env.esp_ota_get_next_update_partition = some env.esp_ota_get_running_partition
  · rcases ota_init_cases env buf fw with ⟨_, e⟩ | ⟨_, _, e⟩ | ⟨_, _, _, e⟩ | ⟨_, _, e⟩ |
      ⟨h3, _, e⟩ | ⟨h3, _, _, e⟩ | ⟨h3, _, _, e⟩
    · rw [e] at h; cases h
    · rw [e] at h; cases h
    · rw [e] at h; cases h
    · rw [e] at h; cases h
    all_goals
      exfalso
      have h4a : env.esp_ota_get_next_update_partition = none ∨
          env.esp_ota_get_next_update_partition = some env.esp_ota_get_running_partition := h4
      rcases h4a with h4a | h4a
      · simp [ota_init, h1, h2, h3, h4a] at h
      · simp [ota_init, h1, h2, h3, h4a] at h
  · have hp : ∃ p, env.esp_ota_get_next_update_partition = some p ∧
        p ≠ env.esp_ota_get_running_partition := by
      cases hn : env.esp_ota_get_next_update_partition with
      | none => exact absurd (Or.inl hn) h4
      | some p =>
        refine ⟨p, rfl, fun hp => h4 (Or.inr ?_)⟩
        rw [hn, hp]
    rcases ota_init_cases env buf fw with ⟨_, e⟩ | ⟨_, _, e⟩ | ⟨_, _, _, e⟩ | ⟨_, _, e⟩ |
      ⟨_, _, e⟩ | ⟨_, _, _, e⟩ | ⟨h3, h5, h6, _⟩
    · rw [e] at h; cases h
    · rw [e] at h; cases h
    · rw [e] at h; cases h
    · rw [e] at h; cases h
    · rw [e] at h; cases h
    · rw [e] at h; cases h
    · exact ⟨h1, by omega, h3, hp, h5, h6⟩

/-! ## Every write comes after the validation -/

theorem WriteInv_of {σ : Type} (s t : State σ) (evs : List Event) (h : WriteInv s)
    (ht : t.trace = s.trace ++ evs)
    (hw : (∀ e ∈ evs, e.is_esp_ota_write = false) ∨ s.prevalidated = true)
    (hp : t.prevalidated = true →
      s.prevalidated = true ∨ ∃ y ∈ evs, y.is_init_success = true) : WriteInv t := by
  constructor
  · rw [ht]
    rcases hw with hw | hw
    · exact Preceded_append_quiet _ _ _ _ h.1 hw
    · exact Preceded_append_after _ _ _ _ h.1 (h.2 hw)
  · intro x
    rcases hp x with hp | ⟨y, hy, hq⟩
    · obtain ⟨y, hy, hq⟩ := h.2 hp
      exact ⟨y, by rw [ht]; exact List.mem_append_left _ hy, hq⟩
    · exact ⟨y, by rw [ht]; exact List.mem_append_right _ hy, hq⟩

theorem WriteInv_start {σ : Type} (env : Env σ) (req : Request) :
    WriteInv (ota_start env req) := by
  unfold ota_start WriteInv
  simp only []
  split_ifs <;> refine ⟨Preceded_of_none _ _ _ ?_, by simp⟩ <;>
    simp [Event.is_esp_ota_write]

theorem completion_reply_quiet (method : String) (st : ota_status) :
    (completion_reply method st).is_esp_ota_write = false ∧
    (completion_reply method st).is_tinfl_decompress = false ∧
    (completion_reply method st).is_send_ok = false := by
  unfold completion_reply
  split_ifs <;> simp [Event.is_esp_ota_write, Event.is_tinfl_decompress, Event.is_send_ok]

theorem failure_report_quiet {σ : Type} (s : State σ) :
    ∀ e ∈ failure_report s, e.is_esp_ota_write = false ∧ e.is_tinfl_decompress = false ∧
      e.is_send_ok = false := by
  unfold failure_report
  split_ifs <;> simp [Event.is_esp_ota_write, Event.is_tinfl_decompress, Event.is_send_ok]

theorem WriteInv_step {σ : Type} (env : Env σ) (s : State σ) (h : WriteInv s) :
    WriteInv (step env s) := by
  unfold step
  split
  · rcases chunk_step_cases env s with ⟨_, e⟩ | ⟨_, _, e⟩ | ⟨m, inbox, _, _, _, u, e⟩ |
      ⟨m, inbox, _, _, _, _, e⟩
    · rw [e]; exact h
    · rw [e]; exact h
    · rw [e]
      exact WriteInv_of s _ _ h rfl (Or.inl (by simp [Event.is_esp_ota_write]))
        (fun x => Or.inl x)
    · rw [e]
      exact WriteInv_of s _ _ h rfl (Or.inl (by simp [Event.is_esp_ota_write]))
        (fun x => Or.inl x)
  · have hd : WriteInv (decompress env s) :=
      WriteInv_of s _ _ h (decompress_trace_eq env s)
        (Or.inl (by simp [Event.is_esp_ota_write])) (fun x => Or.inl x)
    have hcalls := ota_init_calls_no_write env (decompress env s).uncompressed s.firmwaresize
    rcases inner_step_cases env s with ⟨_, e⟩ | ⟨_, _, e⟩ | ⟨_, _, _, hi, e⟩ |
      ⟨_, _, _, hi, e⟩ | ⟨_, _, hp, e⟩
    · rw [e]; exact h
    · rw [e]; exact hd
    · rw [e]
      refine WriteInv_of (decompress env s) _ _ hd
        (by rw [validate_trace, List.append_assoc]) (Or.inl ?_) (fun x => Or.inl ?_)
      · intro x hx
        rcases List.mem_append.mp hx with hx | hx
        · exact hcalls x hx
        · simp only [List.mem_singleton] at hx
          subst hx; rfl
      · rw [(validate_fail env (decompress env s) hi).1] at x
        exact x
    · rw [e]
      have hv : WriteInv (validate env (decompress env s)) := by
        refine WriteInv_of (decompress env s) _ _ hd
          (by rw [validate_trace, List.append_assoc]) (Or.inl ?_)
          (fun _ => Or.inr ⟨Event.ota_init .SUCCESS, ?_, rfl⟩)
        · intro x hx
          rcases List.mem_append.mp hx with hx | hx
          · exact hcalls x hx
          · simp only [List.mem_singleton] at hx
            subst hx; rfl
        · have hi2 : (ota_init env (decompress env s).uncompressed
              (decompress env s).firmwaresize).res = .SUCCESS := hi
          rw [hi2]
          simp
      exact WriteInv_of _ _ _ hv (flush_trace env _)
        (Or.inr (validate_ok env (decompress env s) hi).1)
        (fun x => Or.inl (by rw [flush_prevalidated] at x; exact x))
    · rw [e]
      exact WriteInv_of _ _ _ hd (flush_trace env _) (Or.inr hp)
        (fun x => Or.inl (by rw [flush_prevalidated] at x; exact x))
  · rcases chunk_end_step_cases s with ⟨_, e⟩ | ⟨_, e⟩
    · rw [e]
      refine WriteInv_of s _ _ h rfl (Or.inl ?_) (fun x => Or.inl x)
      intro x hx
      split_ifs at hx
      · simp only [List.mem_singleton] at hx
        subst hx; rfl
      · simp at hx
    · rw [e]
      refine WriteInv_of s _ _ h (List.append_assoc _ _ _) (Or.inl ?_) (fun x => Or.inl x)
      intro x hx
      rcases List.mem_append.mp hx with hx | hx
      · split_ifs at hx
        · simp only [List.mem_singleton] at hx
          subst hx; rfl
        · simp at hx
      · simp only [List.mem_singleton] at hx
        subst hx; rfl
  · rcases upload_complete_step_cases env s with ⟨_, e⟩ | ⟨_, _, e⟩ | ⟨_, _, _, e⟩ |
      ⟨_, _, _, e⟩
    · rw [e]; exact h
    · rw [e]
      exact WriteInv_of s _ _ h rfl (Or.inl (by simp [Event.is_esp_ota_write]))
        (fun x => Or.inl x)
    · rw [e]
      exact WriteInv_of s _ _ h rfl (Or.inl (by simp [Event.is_esp_ota_write]))
        (fun x => Or.inl x)
    · rw [e]
      exact WriteInv_of s _ _ h rfl (Or.inl (by simp [Event.is_esp_ota_write]))
        (fun x => Or.inl x)
  · rcases otacomplete_step_cases s with ⟨_, e⟩ | ⟨m, inbox, _, e⟩
    · rw [e]; exact h
    · rw [e]
      refine WriteInv_of s _ _ h rfl (Or.inl ?_) (fun x => Or.inl x)
      intro x hx
      simp only [List.mem_cons, List.mem_singleton, List.not_mem_nil, or_false] at hx
      rcases hx with rfl | rfl
      · rfl
      · exact (completion_reply_quiet _ _).1
  · have hfr := failure_report_quiet s
    rcases cleanup_step_cases env s with ⟨_, e⟩ | ⟨_, _, _, e⟩ | ⟨_, _, _, e⟩ | ⟨_, _, e⟩
    · rw [e]
      exact WriteInv_of s _ _ h rfl (Or.inl (by simp [Event.is_esp_ota_write]))
        (fun x => Or.inl x)
    · rw [e]
      exact WriteInv_of s _ _ h rfl (Or.inl (by simp [Event.is_esp_ota_write]))
        (fun x => Or.inl x)
    · rw [e]
      refine WriteInv_of s _ _ h (List.append_assoc _ _ _) (Or.inl ?_) (fun x => Or.inl x)
      intro x hx
      rcases List.mem_append.mp hx with hx | hx
      · simp only [List.mem_singleton] at hx
        subst hx; rfl
      · exact (hfr x hx).1
    · rw [e]
      exact WriteInv_of s _ _ h rfl (Or.inl (fun x hx => (hfr x hx).1)) (fun x => Or.inl x)
  all_goals exact h

theorem WriteInv_run {σ : Type} (env : Env σ) (req : Request) (n : Nat) :
    WriteInv (ota_process env req n) :=
  run_invariant env WriteInv (WriteInv_step env) _ (WriteInv_start env req) n

/-! ## The output buffer -/

theorem space_ok_of_not_tinfl (e : Event) (h : e.is_tinfl_decompress = false) : e.space_ok := by
  cases e <;> simp [Event.space_ok, Event.is_tinfl_decompress] at h ⊢

theorem space_ok_append (t evs : List Event) (h : ∀ e ∈ t, e.space_ok)
    (hq : ∀ e ∈ evs, e.is_tinfl_decompress = false) : ∀ e ∈ t ++ evs, e.space_ok := by
  intro e he
  rcases List.mem_append.mp he with he | he
  · exact h e he
  · exact space_ok_of_not_tinfl e (hq e he)

theorem BufInv_start {σ : Type} (env : Env σ) (req : Request) :
    BufInv (ota_start env req) := by
  unfold ota_start BufInv
  simp only []
  split_ifs <;> simp [UNCOMPRESSED_BUF_SIZE, Event.space_ok]

/-- A transition that calls no `tinfl_decompress` and leaves the buffer alone. -/
theorem BufInv_quiet {σ : Type} (s t : State σ) (evs : List Event) (h : BufInv s)
    (ht : t.trace = s.trace ++ evs) (hq : ∀ e ∈ evs, e.is_tinfl_decompress = false)
    (hu : t.uncompressed = s.uncompressed)
    (hl : t.pc.in_loop = true → s.pc.in_loop = true) : BufInv t := by
  refine ⟨by rw [hu]; exact h.1, fun x => by rw [hu]; exact h.2.1 (hl x), ?_⟩
  rw [ht]
  exact space_ok_append _ _ h.2.2 hq

/-- The call of `tinfl_decompress` in the loop: the space offered is what is
left of the buffer, at least one byte, and a decompressor that stores no more
than offered leaves the cursor in the buffer. -/
theorem BufInv_decompress {σ : Type} (env : Env σ) (s : State σ) (h : BufInv s)
    (hpc : s.pc.in_loop = true)
    (hcodec : ∀ d data n k f, (env.tinfl_decompress d data n k f).out.length ≤ k) :
    out_space s = UNCOMPRESSED_BUF_SIZE - s.uncompressed.length ∧
    1 ≤ out_space s ∧
    (decompress env s).uncompressed.length ≤ UNCOMPRESSED_BUF_SIZE ∧
    ∀ e ∈ (decompress env s).trace, e.space_ok := by
  have hlt := h.2.1 hpc
  have hsp : out_space s = UNCOMPRESSED_BUF_SIZE - s.uncompressed.length := by
    unfold out_space
    exact sub32_of_le _ _ (by unfold UNCOMPRESSED_BUF_SIZE WORD; omega) (Nat.le_of_lt hlt)
  have hout : (tinfl_call env s).out.length ≤ out_space s := hcodec _ _ _ _ _
  refine ⟨hsp, by omega, ?_, ?_⟩
  · rw [decompress_uncompressed, List.length_append]
    omega
  · rw [decompress_trace_eq]
    intro e he
    rcases List.mem_append.mp he with he | he
    · exact h.2.2 e he
    · simp only [List.mem_singleton] at he
      rw [he]
      exact ⟨by omega, by omega, hout⟩

theorem BufInv_flush {σ : Type} (env : Env σ) (t : State σ)
    (hle : t.uncompressed.length ≤ UNCOMPRESSED_BUF_SIZE)
    (htr : ∀ e ∈ t.trace, e.space_ok) : BufInv (flush env t) := by
  have hq : ∀ e ∈ (flush env t).trace, e.space_ok := by
    rw [flush_trace]
    exact space_ok_append _ _ htr (by simp [Event.is_tinfl_decompress])
  rcases flush_cases env t with ⟨hne, _⟩ | ⟨hok, _⟩
  · obtain ⟨p, _, _, u⟩ := flush_fail env t hne
    exact ⟨by rw [u]; exact hle, fun x => (by rw [p] at x; cases x), hq⟩
  · obtain ⟨_, _, _, u⟩ := flush_ok env t hok
    refine ⟨by rw [u]; simp, fun _ => by rw [u]; simp [UNCOMPRESSED_BUF_SIZE], hq⟩

theorem BufInv_step {σ : Type} (env : Env σ)
    (hcodec : ∀ d data n k f, (env.tinfl_decompress d data n k f).out.length ≤ k)
    (s : State σ) (h : BufInv s) : BufInv (step env s) := by
  unfold step
  split
  · rename_i hpc
    have hin : s.pc.in_loop = true := by rw [hpc]; rfl
    rcases chunk_step_cases env s with ⟨_, e⟩ | ⟨_, _, e⟩ | ⟨m, inbox, _, _, _, u, e⟩ |
      ⟨m, inbox, _, _, _, _, e⟩
    · rw [e]
      exact BufInv_quiet s _ [] h (List.append_nil _).symm (by simp) rfl (fun x => by cases x)
    · rw [e]; exact h
    · rw [e]
      exact BufInv_quiet s _ _ h rfl (by simp [Event.is_tinfl_decompress]) rfl
        (fun x => by cases x)
    · rw [e]
      exact BufInv_quiet s _ _ h rfl (by simp [Event.is_tinfl_decompress]) rfl (fun _ => hin)
  · rename_i hpc
    have hin : s.pc.in_loop = true := by rw [hpc]; rfl
    obtain ⟨_, _, hle, htr⟩ := BufInv_decompress env s h hin hcodec
    have hcalls : ∀ e ∈ (ota_init env (decompress env s).uncompressed s.firmwaresize).calls,
        e.is_tinfl_decompress = false := by
      intro e he
      have := ota_init_calls_kind env _ _ e he
      revert this
      cases e <;> simp [Event.in_ota_init, Event.is_tinfl_decompress]
    have hvt : ∀ e ∈ (validate env (decompress env s)).trace, e.space_ok := by
      rw [validate_trace, List.append_assoc]
      refine space_ok_append _ _ htr ?_
      intro x hx
      rcases List.mem_append.mp hx with hx | hx
      · exact hcalls x hx
      · simp only [List.mem_singleton] at hx
        subst hx; rfl
    rcases inner_step_cases env s with ⟨_, e⟩ | ⟨_, hnf, e⟩ | ⟨_, _, _, hi, e⟩ |
      ⟨_, _, _, hi, e⟩ | ⟨_, _, hp, e⟩
    · rw [e]
      exact BufInv_quiet s _ [] h (List.append_nil _).symm (by simp) rfl (fun _ => hin)
    · rw [e]
      refine ⟨hle, fun _ => ?_, htr⟩
      have hne : (decompress env s).uncompressed.length ≠ UNCOMPRESSED_BUF_SIZE :=
        fun x => hnf (Or.inr x)
      omega
    · rw [e]
      refine ⟨by rw [validate_uncompressed]; exact hle, fun x => ?_, hvt⟩
      rw [(validate_fail env (decompress env s) hi).2.1] at x
      cases x
    · rw [e]
      exact BufInv_flush env _ (by rw [validate_uncompressed]; exact hle) hvt
    · rw [e]
      exact BufInv_flush env _ hle htr
  · rename_i hpc
    have hin : s.pc.in_loop = true := by rw [hpc]; rfl
    rcases chunk_end_step_cases s with ⟨_, e⟩ | ⟨_, e⟩
    · rw [e]
      refine BufInv_quiet s _ _ h rfl ?_ rfl (fun _ => hin)
      intro x hx
      split_ifs at hx
      · simp only [List.mem_singleton] at hx
        subst hx; rfl
      · simp at hx
    · rw [e]
      refine BufInv_quiet s _ _ h (List.append_assoc _ _ _) ?_ rfl (fun _ => hin)
      intro x hx
      rcases List.mem_append.mp hx with hx | hx
      · split_ifs at hx
        · simp only [List.mem_singleton] at hx
          subst hx; rfl
        · simp at hx
      · simp only [List.mem_singleton] at hx
        subst hx; rfl
  · rcases upload_complete_step_cases env s with ⟨_, e⟩ | ⟨_, _, e⟩ | ⟨_, _, _, e⟩ |
      ⟨_, _, _, e⟩
    · rw [e]
      exact BufInv_quiet s _ [] h (List.append_nil _).symm (by simp) rfl (fun x => by cases x)
    · rw [e]
      exact BufInv_quiet s _ _ h rfl (by simp [Event.is_tinfl_decompress]) rfl
        (fun x => by cases x)
    · rw [e]
      exact BufInv_quiet s _ _ h rfl (by simp [Event.is_tinfl_decompress]) rfl
        (fun x => by cases x)
    · rw [e]
      refine BufInv_quiet s _ _ h rfl (by simp [Event.is_tinfl_decompress]) rfl (fun x => ?_)
      simp only [] at x
      split_ifs at x <;> cases x
  · rcases otacomplete_step_cases s with ⟨_, e⟩ | ⟨m, inbox, _, e⟩
    · rw [e]; exact h
    · rw [e]
      refine BufInv_quiet s _ _ h rfl ?_ rfl (fun x => by cases x)
      intro x hx
      simp only [List.mem_cons, List.mem_singleton, List.not_mem_nil, or_false] at hx
      rcases hx with rfl | rfl
      · rfl
      · exact (completion_reply_quiet _ _).2.1
  · have hfr := failure_report_quiet s
    rcases cleanup_step_cases env s with ⟨_, e⟩ | ⟨_, _, _, e⟩ | ⟨_, _, _, e⟩ | ⟨_, _, e⟩
    · rw [e]
      exact BufInv_quiet s _ _ h rfl (by simp [Event.is_tinfl_decompress]) rfl
        (fun x => by cases x)
    · rw [e]
      exact BufInv_quiet s _ _ h rfl (by simp [Event.is_tinfl_decompress]) rfl
        (fun x => by cases x)
    · rw [e]
      refine BufInv_quiet s _ _ h (List.append_assoc _ _ _) ?_ rfl (fun x => by cases x)
      intro x hx
      rcases List.mem_append.mp hx with hx | hx
      · simp only [List.mem_singleton] at hx
        subst hx; rfl
      · exact (hfr x hx).2.1
    · rw [e]
      exact BufInv_quiet s _ _ h rfl (fun x hx => (hfr x hx).2.1) rfl (fun x => by cases x)
  all_goals exact h

theorem BufInv_run {σ : Type} (env : Env σ)
    (hcodec : ∀ d data n k f, (env.tinfl_decompress d data n k f).out.length ≤ k)
    (req : Request) (n : Nat) : BufInv (ota_process env req n) :=
  run_invariant env BufInv (BufInv_step env hcodec) _ (BufInv_start env req) n

/-! ## The status of the session in the chunk loop -/

theorem StatusInv_start {σ : Type} (env : Env σ) (req : Request) :
    StatusInv (ota_start env req) := by
  unfold ota_start StatusInv
  simp only []
  split_ifs <;> simp [Label.in_loop]

theorem StatusInv_step {σ : Type} (env : Env σ) (s : State σ) (h : StatusInv s) :
    StatusInv (step env s) := by
  unfold step
  split
  · rename_i hpc
    have hs : s.ota_return_status = .SUCCESS := h (Or.inl (by rw [hpc]; rfl))
    rcases chunk_step_cases env s with ⟨_, e⟩ | ⟨_, _, e⟩ | ⟨m, inbox, _, _, _, u, e⟩ |
      ⟨m, inbox, _, _, _, _, e⟩
    · rw [e]; exact fun _ => hs
    · rw [e]; exact h
    · rw [e]; rintro (x | x) <;> cases x
    · rw [e]; exact fun _ => hs
  · rename_i hpc
    have hs : s.ota_return_status = .SUCCESS := h (Or.inl (by rw [hpc]; rfl))
    have hfl : ∀ t : State σ, t.ota_return_status = .SUCCESS → StatusInv (flush env t) := by
      intro t ht
      rcases flush_pc env t with ⟨_, b⟩ | ⟨a, _⟩
      · exact fun _ => by rw [b]; exact ht
      · rintro (x | x) <;> rw [a] at x <;> cases x
    rcases inner_step_cases env s with ⟨_, e⟩ | ⟨_, _, e⟩ | ⟨_, _, _, hi, e⟩ |
      ⟨_, _, _, hi, e⟩ | ⟨_, _, _, e⟩
    · rw [e]; exact fun _ => hs
    · rw [e]; exact fun _ => hs
    · rw [e]
      have hi1 : (ota_init env (decompress env s).uncompressed
          (decompress env s).firmwaresize).res ≠ .SUCCESS := hi
      obtain ⟨_, v2, _⟩ := validate_fail env _ hi1
      rintro (x | x) <;> rw [v2] at x <;> cases x
    · rw [e]
      have hi1 : (ota_init env (decompress env s).uncompressed
          (decompress env s).firmwaresize).res = .SUCCESS := hi
      obtain ⟨_, _, v3⟩ := validate_ok env _ hi1
      exact hfl _ (by rw [v3]; exact hs)
    · rw [e]
      exact hfl _ hs
  · rename_i hpc
    have hs : s.ota_return_status = .SUCCESS := h (Or.inl (by rw [hpc]; rfl))
    rcases chunk_end_step_cases s with ⟨_, e⟩ | ⟨_, e⟩
    · rw [e]; rintro (x | x) <;> cases x
    · rw [e]; exact fun _ => hs
  · rcases upload_complete_step_cases env s with ⟨_, e⟩ | ⟨_, _, e⟩ | ⟨_, _, _, e⟩ |
      ⟨_, _, _, e⟩
    · rw [e]; rintro (x | x) <;> cases x
    · rw [e]; rintro (x | x) <;> cases x
    · rw [e]; rintro (x | x) <;> cases x
    · rw [e]
      rintro (x | x) <;> simp only [] at x <;> split_ifs at x <;> cases x
  · rcases otacomplete_step_cases s with ⟨_, e⟩ | ⟨m, inbox, _, e⟩
    · rw [e]; exact h
    · rw [e]; rintro (x | x) <;> cases x
  · rcases cleanup_step_cases env s with ⟨_, e⟩ | ⟨_, _, _, e⟩ | ⟨_, _, _, e⟩ | ⟨_, _, e⟩ <;>
      rw [e] <;> rintro (x | x) <;> cases x
  all_goals exact h

theorem StatusInv_run {σ : Type} (env : Env σ) (req : Request) (n : Nat) :
    StatusInv (ota_process env req n) :=
  run_invariant env StatusInv (StatusInv_step env) _ (StatusInv_start env req) n

/-! ## Example runs -/

theorem short_init (st : Int) (buf : List Byte) (fw : Nat) :
    ota_init (short_env st) buf fw = ⟨.SUCCESS,
      [Event.esp_ota_get_partition_description ESP_OK,
       Event.esp_efuse_check_secure_version 0 true,
       Event.esp_ota_get_next_update_partition (some 1),
       Event.make_ota_versions_activity,
       Event.gui_activity_wait_event true 1,
       Event.display_progress_bar_activity,
       Event.esp_ota_begin fw ESP_OK], some 1⟩ := by
  simp [ota_init, short_env, ESP_OK, strnlen, VERSION_STRING_MAX_LENGTH, confirmation,
    confirmation_calls]

theorem short_env_decompress (st : Int) :
    (short_env st).tinfl_decompress = short_decompress st := rfl

theorem short_env_write (st : Int) (k : Nat) (d : List Byte) :
    (short_env st).esp_ota_write k d = ESP_OK := rfl

theorem short_env_end (st : Int) : (short_env st).esp_ota_end = ESP_OK := rfl

theorem short_env_init (st : Int) : (short_env st).tinfl_init = 0 := rfl

theorem short_env_buf (st : Int) : (short_env st).JADE_OTA_BUF_SIZE = 4096 := rfl

theorem short_run_1 (st : Int) :
    ota_process (short_env st) short_request 1 =
      { pc := .inner_loop, source := 0, uploading := true,
        ota_return_status := .SUCCESS, prevalidated := false,
        ota_end_called := false, firmwaresize := 40000,
        compressedsize := 2, update_partition := none,
        decomp := 0, remaining_compressed := 2, remaining := 40000,
        status := TINFL_STATUS_NEEDS_MORE_INPUT, uncompressed := [],
        binctx := { id := "1", inbound_buf := some [0, 0], len := 2, expected_source := 0,
                    error := false },
        length := 2, data_buf := [0, 0],
        n_writes := 0, inbox := [complete_msg],
        trace := [Event.reply_to_message_ok,
                Event.display_message "Preparing for firmware update",
                Event.get_in_message
                  { source := 0, id := "1", method := "ota_data", params_bytes := some [0, 0] }] } := by
  simp [ota_process, run, step, ota_start, short_request, chunk_step, handle_in_bin_data,
    reset_ctx, short_env_init, short_env_buf, u32, WORD]

theorem short_run_2 (st : Int) :
    ota_process (short_env st) short_request 2 =
      { pc := .inner_loop, source := 0, uploading := true,
        ota_return_status := .SUCCESS, prevalidated := true,
        ota_end_called := false, firmwaresize := 40000,
        compressedsize := 2, update_partition := some 1,
        decomp := 1, remaining_compressed := 1, remaining := 7232,
        status := TINFL_STATUS_HAS_MORE_OUTPUT, uncompressed := [],
        binctx := { id := "1", inbound_buf := some [0, 0], len := 2, expected_source := 0,
                    error := false },
        length := 1, data_buf := [0],
        n_writes := 1, inbox := [complete_msg],
        trace := [Event.reply_to_message_ok,
                Event.display_message "Preparing for firmware update",
                Event.get_in_message
                  { source := 0, id := "1", method := "ota_data", params_bytes := some [0, 0] },
                Event.tinfl_decompress 2 32768 1 TINFL_STATUS_HAS_MORE_OUTPUT 1 32768,
                Event.esp_ota_get_partition_description ESP_OK,
                Event.esp_efuse_check_secure_version 0 true,
                Event.esp_ota_get_next_update_partition (some 1),
                Event.make_ota_versions_activity,
                Event.gui_activity_wait_event true 1,
                Event.display_progress_bar_activity,
                Event.esp_ota_begin 40000 ESP_OK,
                Event.ota_init .SUCCESS,
                Event.esp_ota_write (zeros 32768) ESP_OK] } := by
  rw [ota_process_succ, short_run_1]
  simp [step, inner_step, decompress, tinfl_call, out_space, tinfl_flags, validate, flush,
    short_init, sub32, WORD, UNCOMPRESSED_BUF_SIZE, TINFL_STATUS_DONE,
    TINFL_STATUS_NEEDS_MORE_INPUT, TINFL_STATUS_HAS_MORE_OUTPUT,
    TINFL_FLAG_PARSE_ZLIB_HEADER, TINFL_FLAG_HAS_MORE_INPUT,
    short_env_decompress, short_env_write, short_decompress]

theorem short_done_3 :
    ota_process (short_env TINFL_STATUS_DONE) short_request 3 =
      { pc := .inner_loop, source := 0, uploading := true,
        ota_return_status := .SUCCESS, prevalidated := true,
        ota_end_called := false, firmwaresize := 40000,
        compressedsize := 2, update_partition := some 1,
        decomp := 2, remaining_compressed := 0, remaining := 7229,
        status := TINFL_STATUS_DONE, uncompressed := [],
        binctx := { id := "1", inbound_buf := some [0, 0], len := 2, expected_source := 0,
                    error := false },
        length := 0, data_buf := [],
        n_writes := 2, inbox := [complete_msg],
        trace := [Event.reply_to_message_ok,
                Event.display_message "Preparing for firmware update",
                Event.get_in_message
                  { source := 0, id := "1", method := "ota_data", params_bytes := some [0, 0] },
                Event.tinfl_decompress 2 32768 1 TINFL_STATUS_HAS_MORE_OUTPUT 1 32768,
                Event.esp_ota_get_partition_description ESP_OK,
                Event.esp_efuse_check_secure_version 0 true,
                Event.esp_ota_get_next_update_partition (some 1),
                Event.make_ota_versions_activity,
                Event.gui_activity_wait_event true 1,
                Event.display_progress_bar_activity,
                Event.esp_ota_begin 40000 ESP_OK,
                Event.ota_init .SUCCESS,
                Event.esp_ota_write (zeros 32768) ESP_OK,
                Event.tinfl_decompress 1 32768 1 TINFL_STATUS_DONE 1 3,
                Event.esp_ota_write [0, 0, 0] ESP_OK] } := by
  rw [ota_process_succ, short_run_2]
  simp [step, inner_step, decompress, tinfl_call, out_space, tinfl_flags, validate, flush,
    chunk_step, chunk_end_step, upload_complete_step, otacomplete_step, cleanup_step,
    complete_msg, MESSAGES,
    short_init, sub32, WORD, UNCOMPRESSED_BUF_SIZE, TINFL_STATUS_DONE,
    TINFL_STATUS_NEEDS_MORE_INPUT, TINFL_STATUS_HAS_MORE_OUTPUT, TINFL_STATUS_FAILED,
    TINFL_FLAG_PARSE_ZLIB_HEADER, TINFL_FLAG_HAS_MORE_INPUT, ESP_OK,
    ESP_ERR_OTA_VALIDATE_FAILED,
    short_env_decompress, short_env_write, short_env_end, short_decompress]

theorem short_done_4 :
    ota_process (short_env TINFL_STATUS_DONE) short_request 4 =
      { pc := .chunk_end, source := 0, uploading := true,
        ota_return_status := .SUCCESS, prevalidated := true,
        ota_end_called := false, firmwaresize := 40000,
        compressedsize := 2, update_partition := some 1,
        decomp := 2, remaining_compressed := 0, remaining := 7229,
        status := TINFL_STATUS_DONE, uncompressed := [],
        binctx := { id := "1", inbound_buf := some [0, 0], len := 2, expected_source := 0,
                    error := false },
        length := 0, data_buf := [],
        n_writes := 2, inbox := [complete_msg],
        trace := [Event.reply_to_message_ok,
                Event.display_message "Preparing for firmware update",
                Event.get_in_message
                  { source := 0, id := "1", method := "ota_data", params_bytes := some [0, 0] },
                Event.tinfl_decompress 2 32768 1 TINFL_STATUS_HAS_MORE_OUTPUT 1 32768,
                Event.esp_ota_get_partition_description ESP_OK,
                Event.esp_efuse_check_secure_version 0 true,
                Event.esp_ota_get_next_update_partition (some 1),
                Event.make_ota_versions_activity,
                Event.gui_activity_wait_event true 1,
                Event.display_progress_bar_activity,
                Event.esp_ota_begin 40000 ESP_OK,
                Event.ota_init .SUCCESS,
                Event.esp_ota_write (zeros 32768) ESP_OK,
                Event.tinfl_decompress 1 32768 1 TINFL_STATUS_DONE 1 3,
                Event.esp_ota_write [0, 0, 0] ESP_OK] } := by
  rw [ota_process_succ, short_done_3]
  simp [step, inner_step, decompress, tinfl_call, out_space, tinfl_flags, validate, flush,
    chunk_step, chunk_end_step, upload_complete_step, otacomplete_step, cleanup_step,
    complete_msg, MESSAGES,
    short_init, sub32, WORD, UNCOMPRESSED_BUF_SIZE, TINFL_STATUS_DONE,
    TINFL_STATUS_NEEDS_MORE_INPUT, TINFL_STATUS_HAS_MORE_OUTPUT, TINFL_STATUS_FAILED,
    TINFL_FLAG_PARSE_ZLIB_HEADER, TINFL_FLAG_HAS_MORE_INPUT, ESP_OK,
    ESP_ERR_OTA_VALIDATE_FAILED,
    short_env_decompress, short_env_write, short_env_end, short_decompress]

theorem short_done_5 :
    ota_process (short_env TINFL_STATUS_DONE) short_request 5 =
      { pc := .chunk_loop, source := 0, uploading := true,
        ota_return_status := .SUCCESS, prevalidated := true,
        ota_end_called := false, firmwaresize := 40000,
        compressedsize := 2, update_partition := some 1,
        decomp := 2, remaining_compressed := 0, remaining := 7229,
        status := TINFL_STATUS_DONE, uncompressed := [],
        binctx := { id := "1", inbound_buf := some [0, 0], len := 2, expected_source := 0,
                    error := false },
        length := 0, data_buf := [],
        n_writes := 2, inbox := [complete_msg],
        trace := [Event.reply_to_message_ok,
                Event.display_message "Preparing for firmware update",
                Event.get_in_message
                  { source := 0, id := "1", method := "ota_data", params_bytes := some [0, 0] },
                Event.tinfl_decompress 2 32768 1 TINFL_STATUS_HAS_MORE_OUTPUT 1 32768,
                Event.esp_ota_get_partition_description ESP_OK,
                Event.esp_efuse_check_secure_version 0 true,
                Event.esp_ota_get_next_update_partition (some 1),
                Event.make_ota_versions_activity,
                Event.gui_activity_wait_event true 1,
                Event.display_progress_bar_activity,
                Event.esp_ota_begin 40000 ESP_OK,
                Event.ota_init .SUCCESS,
                Event.esp_ota_write (zeros 32768) ESP_OK,
                Event.tinfl_decompress 1 32768 1 TINFL_STATUS_DONE 1 3,
                Event.esp_ota_write [0, 0, 0] ESP_OK,
                Event.update_progress_bar 2 2,
                Event.send_ok "1"] } := by
  rw [ota_process_succ, short_done_4]
  simp [step, inner_step, decompress, tinfl_call, out_space, tinfl_flags, validate, flush,
    chunk_step, chunk_end_step, upload_complete_step, otacomplete_step, cleanup_step,
    complete_msg, MESSAGES,
    short_init, sub32, WORD, UNCOMPRESSED_BUF_SIZE, TINFL_STATUS_DONE,
    TINFL_STATUS_NEEDS_MORE_INPUT, TINFL_STATUS_HAS_MORE_OUTPUT, TINFL_STATUS_FAILED,
    TINFL_FLAG_PARSE_ZLIB_HEADER, TINFL_FLAG_HAS_MORE_INPUT, ESP_OK,
    ESP_ERR_OTA_VALIDATE_FAILED,
    short_env_decompress, short_env_write, short_env_end, short_decompress]

theorem short_done_6 :
    ota_process (short_env TINFL_STATUS_DONE) short_request 6 =
      { pc := .upload_complete, source := 0, uploading := true,
        ota_return_status := .SUCCESS, prevalidated := true,
        ota_end_called := false, firmwaresize := 40000,
        compressedsize := 2, update_partition := some 1,
        decomp := 2, remaining_compressed := 0, remaining := 7229,
        status := TINFL_STATUS_DONE, uncompressed := [],
        binctx := { id := "1", inbound_buf := some [0, 0], len := 2, expected_source := 0,
                    error := false },
        length := 0, data_buf := [],
        n_writes := 2, inbox := [complete_msg],
        trace := [Event.reply_to_message_ok,
                Event.display_message "Preparing for firmware update",
                Event.get_in_message
                  { source := 0, id := "1", method := "ota_data", params_bytes := some [0, 0] },
                Event.tinfl_decompress 2 32768 1 TINFL_STATUS_HAS_MORE_OUTPUT 1 32768,
                Event.esp_ota_get_partition_description ESP_OK,
                Event.esp_efuse_check_secure_version 0 true,
                Event.esp_ota_get_next_update_partition (some 1),
                Event.make_ota_versions_activity,
                Event.gui_activity_wait_event true 1,
                Event.display_progress_bar_activity,
                Event.esp_ota_begin 40000 ESP_OK,
                Event.ota_init .SUCCESS,
                Event.esp_ota_write (zeros 32768) ESP_OK,
                Event.tinfl_decompress 1 32768 1 TINFL_STATUS_DONE 1 3,
                Event.esp_ota_write [0, 0, 0] ESP_OK,
                Event.update_progress_bar 2 2,
                Event.send_ok "1"] } := by
  rw [ota_process_succ, short_done_5]
  simp [step, inner_step, decompress, tinfl_call, out_space, tinfl_flags, validate, flush,
    chunk_step, chunk_end_step, upload_complete_step, otacomplete_step, cleanup_step,
    complete_msg, MESSAGES,
    short_init, sub32, WORD, UNCOMPRESSED_BUF_SIZE, TINFL_STATUS_DONE,
    TINFL_STATUS_NEEDS_MORE_INPUT, TINFL_STATUS_HAS_MORE_OUTPUT, TINFL_STATUS_FAILED,
    TINFL_FLAG_PARSE_ZLIB_HEADER, TINFL_FLAG_HAS_MORE_INPUT, ESP_OK,
    ESP_ERR_OTA_VALIDATE_FAILED,
    short_env_decompress, short_env_write, short_env_end, short_decompress]

theorem short_done_7 :
    ota_process (short_env TINFL_STATUS_DONE) short_request 7 =
      { pc := .otacomplete, source := 0, uploading := false,
        ota_return_status := .ERROR_DECOMPRESS, prevalidated := true,
        ota_end_called := false, firmwaresize := 40000,
        compressedsize := 2, update_partition := some 1,
        decomp := 2, remaining_compressed := 0, remaining := 7229,
        status := TINFL_STATUS_DONE, uncompressed := [],
        binctx := { id := "1", inbound_buf := some [0, 0], len := 2, expected_source := 0,
                    error := false },
        length := 0, data_buf := [],
        n_writes := 2, inbox := [complete_msg],
        trace := [Event.reply_to_message_ok,
                Event.display_message "Preparing for firmware update",
                Event.get_in_message
                  { source := 0, id := "1", method := "ota_data", params_bytes := some [0, 0] },
                Event.tinfl_decompress 2 32768 1 TINFL_STATUS_HAS_MORE_OUTPUT 1 32768,
                Event.esp_ota_get_partition_description ESP_OK,
                Event.esp_efuse_check_secure_version 0 true,
                Event.esp_ota_get_next_update_partition (some 1),
                Event.make_ota_versions_activity,
                Event.gui_activity_wait_event true 1,
                Event.display_progress_bar_activity,
                Event.esp_ota_begin 40000 ESP_OK,
                Event.ota_init .SUCCESS,
                Event.esp_ota_write (zeros 32768) ESP_OK,
                Event.tinfl_decompress 1 32768 1 TINFL_STATUS_DONE 1 3,
                Event.esp_ota_write [0, 0, 0] ESP_OK,
                Event.update_progress_bar 2 2,
                Event.send_ok "1"] } := by
  rw [ota_process_succ, short_done_6]
  simp [step, inner_step, decompress, tinfl_call, out_space, tinfl_flags, validate, flush,
    chunk_step, chunk_end_step, upload_complete_step, otacomplete_step, cleanup_step,
    complete_msg, MESSAGES,
    short_init, sub32, WORD, UNCOMPRESSED_BUF_SIZE, TINFL_STATUS_DONE,
    TINFL_STATUS_NEEDS_MORE_INPUT, TINFL_STATUS_HAS_MORE_OUTPUT, TINFL_STATUS_FAILED,
    TINFL_FLAG_PARSE_ZLIB_HEADER, TINFL_FLAG_HAS_MORE_INPUT, ESP_OK,
    ESP_ERR_OTA_VALIDATE_FAILED,
    short_env_decompress, short_env_write, short_env_end, short_decompress]

theorem short_done_8 :
    ota_process (short_env TINFL_STATUS_DONE) short_request 8 =
      { pc := .cleanup, source := 0, uploading := false,
        ota_return_status := .ERROR_DECOMPRESS, prevalidated := true,
        ota_end_called := false, firmwaresize := 40000,
        compressedsize := 2, update_partition := some 1,
        decomp := 2, remaining_compressed := 0, remaining := 7229,
        status := TINFL_STATUS_DONE, uncompressed := [],
        binctx := { id := "1", inbound_buf := some [0, 0], len := 2, expected_source := 0,
                    error := false },
        length := 0, data_buf := [],
        n_writes := 2, inbox := [],
        trace := [Event.reply_to_message_ok,
                Event.display_message "Preparing for firmware update",
                Event.get_in_message
                  { source := 0, id := "1", method := "ota_data", params_bytes := some [0, 0] },
                Event.tinfl_decompress 2 32768 1 TINFL_STATUS_HAS_MORE_OUTPUT 1 32768,
                Event.esp_ota_get_partition_description ESP_OK,
                Event.esp_efuse_check_secure_version 0 true,
                Event.esp_ota_get_next_update_partition (some 1),
                Event.make_ota_versions_activity,
                Event.gui_activity_wait_event true 1,
                Event.display_progress_bar_activity,
                Event.esp_ota_begin 40000 ESP_OK,
                Event.ota_init .SUCCESS,
                Event.esp_ota_write (zeros 32768) ESP_OK,
                Event.tinfl_decompress 1 32768 1 TINFL_STATUS_DONE 1 3,
                Event.esp_ota_write [0, 0, 0] ESP_OK,
                Event.update_progress_bar 2 2,
                Event.send_ok "1",
                Event.load_in_message complete_msg,
                Event.reject_message .CBOR_RPC_INTERNAL_ERROR "Error completing OTA"
                  (some "ERROR_DECOMPRESS")] } := by
  rw [ota_process_succ, short_done_7]
  simp [step, inner_step, decompress, tinfl_call, out_space, tinfl_flags, validate, flush,
    chunk_step, chunk_end_step, upload_complete_step, otacomplete_step, cleanup_step,
    complete_msg, MESSAGES,
    short_init, sub32, WORD, UNCOMPRESSED_BUF_SIZE, TINFL_STATUS_DONE,
    TINFL_STATUS_NEEDS_MORE_INPUT, TINFL_STATUS_HAS_MORE_OUTPUT, TINFL_STATUS_FAILED,
    TINFL_FLAG_PARSE_ZLIB_HEADER, TINFL_FLAG_HAS_MORE_INPUT, ESP_OK,
    ESP_ERR_OTA_VALIDATE_FAILED,
    short_env_decompress, short_env_write, short_env_end, short_decompress]

theorem short_done_9 :
    ota_process (short_env TINFL_STATUS_DONE) short_request 9 =
      { pc := .returned, source := 0, uploading := false,
        ota_return_status := .ERROR_DECOMPRESS, prevalidated := true,
        ota_end_called := false, firmwaresize := 40000,
        compressedsize := 2, update_partition := some 1,
        decomp := 2, remaining_compressed := 0, remaining := 7229,
        status := TINFL_STATUS_DONE, uncompressed := [],
        binctx := { id := "1", inbound_buf := some [0, 0], len := 2, expected_source := 0,
                    error := false },
        length := 0, data_buf := [],
        n_writes := 2, inbox := [],
        trace := [Event.reply_to_message_ok,
                Event.display_message "Preparing for firmware update",
                Event.get_in_message
                  { source := 0, id := "1", method := "ota_data", params_bytes := some [0, 0] },
                Event.tinfl_decompress 2 32768 1 TINFL_STATUS_HAS_MORE_OUTPUT 1 32768,
                Event.esp_ota_get_partition_description ESP_OK,
                Event.esp_efuse_check_secure_version 0 true,
                Event.esp_ota_get_next_update_partition (some 1),
                Event.make_ota_versions_activity,
                Event.gui_activity_wait_event true 1,
                Event.display_progress_bar_activity,
                Event.esp_ota_begin 40000 ESP_OK,
                Event.ota_init .SUCCESS,
                Event.esp_ota_write (zeros 32768) ESP_OK,
                Event.tinfl_decompress 1 32768 1 TINFL_STATUS_DONE 1 3,
                Event.esp_ota_write [0, 0, 0] ESP_OK,
                Event.update_progress_bar 2 2,
                Event.send_ok "1",
                Event.load_in_message complete_msg,
                Event.reject_message .CBOR_RPC_INTERNAL_ERROR "Error completing OTA"
                  (some "ERROR_DECOMPRESS"),
                Event.esp_ota_end ESP_OK,
                Event.await_error_activity "ERROR_DECOMPRESS"] } := by
  rw [ota_process_succ, short_done_8]
  simp [step, inner_step, decompress, tinfl_call, out_space, tinfl_flags, validate, flush,
    chunk_step, chunk_end_step, upload_complete_step, otacomplete_step, cleanup_step,
    complete_msg, MESSAGES,
    short_init, sub32, WORD, UNCOMPRESSED_BUF_SIZE, TINFL_STATUS_DONE,
    TINFL_STATUS_NEEDS_MORE_INPUT, TINFL_STATUS_HAS_MORE_OUTPUT, TINFL_STATUS_FAILED,
    TINFL_FLAG_PARSE_ZLIB_HEADER, TINFL_FLAG_HAS_MORE_INPUT, ESP_OK,
    ESP_ERR_OTA_VALIDATE_FAILED,
    short_env_decompress, short_env_write, short_env_end, short_decompress]

theorem short_run_3_failed :
    ota_process (short_env TINFL_STATUS_FAILED) short_request 3 =
      { pc := .inner_loop, source := 0, uploading := true,
        ota_return_status := .SUCCESS, prevalidated := true,
        ota_end_called := false, firmwaresize := 40000,
        compressedsize := 2, update_partition := some 1,
        decomp := 2, remaining_compressed := 0, remaining := 7229,
        status := TINFL_STATUS_FAILED, uncompressed := [],
        binctx := { id := "1", inbound_buf := some [0, 0], len := 2, expected_source := 0,
                    error := false },
        length := 0, data_buf := [],
        n_writes := 2, inbox := [complete_msg],
        trace := [Event.reply_to_message_ok,
                Event.display_message "Preparing for firmware update",
                Event.get_in_message
                  { source := 0, id := "1", method := "ota_data", params_bytes := some [0, 0] },
                Event.tinfl_decompress 2 32768 1 TINFL_STATUS_HAS_MORE_OUTPUT 1 32768,
                Event.esp_ota_get_partition_description ESP_OK,
                Event.esp_efuse_check_secure_version 0 true,
                Event.esp_ota_get_next_update_partition (some 1),
                Event.make_ota_versions_activity,
                Event.gui_activity_wait_event true 1,
                Event.display_progress_bar_activity,
                Event.esp_ota_begin 40000 ESP_OK,
                Event.ota_init .SUCCESS,
                Event.esp_ota_write (zeros 32768) ESP_OK,
                Event.tinfl_decompress 1 32768 1 TINFL_STATUS_FAILED 1 3,
                Event.esp_ota_write [0, 0, 0] ESP_OK] } := by
  rw [ota_process_succ, short_run_2]
  simp [step, inner_step, decompress, tinfl_call, out_space, tinfl_flags, validate, flush,
    short_init, sub32, WORD, UNCOMPRESSED_BUF_SIZE, TINFL_STATUS_DONE,
    TINFL_STATUS_NEEDS_MORE_INPUT, TINFL_STATUS_HAS_MORE_OUTPUT, TINFL_STATUS_FAILED,
    TINFL_FLAG_PARSE_ZLIB_HEADER, TINFL_FLAG_HAS_MORE_INPUT,
    short_env_decompress, short_env_write, short_decompress]

theorem short_failed_4 :
    ota_process (short_env TINFL_STATUS_FAILED) short_request 4 =
      { pc := .chunk_end, source := 0, uploading := true,
        ota_return_status := .SUCCESS, prevalidated := true,
        ota_end_called := false, firmwaresize := 40000,
        compressedsize := 2, update_partition := some 1,
        decomp := 2, remaining_compressed := 0, remaining := 7229,
        status := TINFL_STATUS_FAILED, uncompressed := [],
        binctx := { id := "1", inbound_buf := some [0, 0], len := 2, expected_source := 0,
                    error := false },
        length := 0, data_buf := [],
        n_writes := 2, inbox := [complete_msg],
        trace := [Event.reply_to_message_ok,
                Event.display_message "Preparing for firmware update",
                Event.get_in_message
                  { source := 0, id := "1", method := "ota_data", params_bytes := some [0, 0] },
                Event.tinfl_decompress 2 32768 1 TINFL_STATUS_HAS_MORE_OUTPUT 1 32768,
                Event.esp_ota_get_partition_description ESP_OK,
                Event.esp_efuse_check_secure_version 0 true,
                Event.esp_ota_get_next_update_partition (some 1),
                Event.make_ota_versions_activity,
                Event.gui_activity_wait_event true 1,
                Event.display_progress_bar_activity,
                Event.esp_ota_begin 40000 ESP_OK,
                Event.ota_init .SUCCESS,
                Event.esp_ota_write (zeros 32768) ESP_OK,
                Event.tinfl_decompress 1 32768 1 TINFL_STATUS_FAILED 1 3,
                Event.esp_ota_write [0, 0, 0] ESP_OK] } := by
  rw [ota_process_succ, short_run_3_failed]
  simp [step, inner_step, decompress, tinfl_call, out_space, tinfl_flags, validate, flush,
    chunk_step, chunk_end_step, upload_complete_step, otacomplete_step, cleanup_step,
    complete_msg, MESSAGES,
    short_init, sub32, WORD, UNCOMPRESSED_BUF_SIZE, TINFL_STATUS_DONE,
    TINFL_STATUS_NEEDS_MORE_INPUT, TINFL_STATUS_HAS_MORE_OUTPUT, TINFL_STATUS_FAILED,
    TINFL_FLAG_PARSE_ZLIB_HEADER, TINFL_FLAG_HAS_MORE_INPUT, ESP_OK,
    ESP_ERR_OTA_VALIDATE_FAILED,
    short_env_decompress, short_env_write, short_env_end, short_decompress]

/-! ## Evaluation of runs with the example decompressor `oracle_decompress` -/

theorem oracle_init_calls (img : List Byte) (clen : Nat) (buf : List Byte) (fw : Nat) :
    ota_init (oracle_env img clen) buf fw = ⟨.SUCCESS,
      [Event.esp_ota_get_partition_description ESP_OK,
       Event.esp_efuse_check_secure_version 0 true,
       Event.esp_ota_get_next_update_partition (some 1),
       Event.make_ota_versions_activity,
       Event.gui_activity_wait_event true 1,
       Event.display_progress_bar_activity,
       Event.esp_ota_begin fw ESP_OK], some 1⟩ := by
  simp [ota_init, oracle_env, ESP_OK, strnlen, VERSION_STRING_MAX_LENGTH, confirmation,
    confirmation_calls]

theorem oracle_env_decompress (img : List Byte) (clen : Nat) :
    (oracle_env img clen).tinfl_decompress = oracle_decompress img clen := rfl

theorem oracle_env_write (img : List Byte) (clen : Nat) (k : Nat) (d : List Byte) :
    (oracle_env img clen).esp_ota_write k d = ESP_OK := rfl

theorem oracle_env_init (img : List Byte) (clen : Nat) :
    (oracle_env img clen).tinfl_init = (0, 0) := rfl

theorem oracle_env_buf (img : List Byte) (clen : Nat) :
    (oracle_env img clen).JADE_OTA_BUF_SIZE = 4096 := rfl

theorem oracle_env_end (img : List Byte) (clen : Nat) :
    (oracle_env img clen).esp_ota_end = ESP_OK := rfl

theorem oracle_env_boot (img : List Byte) (clen : Nat) :
    (oracle_env img clen).esp_ota_set_boot_partition = ESP_OK := rfl

theorem byte_frame_accepted (id : String) (img : List Byte) (clen : Nat) :
    (byte_frame id).accepted (oracle_env img clen).JADE_OTA_BUF_SIZE 0 :=
  ⟨rfl, rfl, [0], rfl, by decide, by rw [oracle_env_buf]; decide⟩

theorem full_buffer_image_length : full_buffer_image.length = 32768 := by
  unfold full_buffer_image
  exact zeros_length _

theorem sub32_2_1 : sub32 2 1 = 1 := by decide

theorem sub32_1_1 : sub32 1 1 = 0 := by decide

theorem sub32_1_0 : sub32 1 0 = 1 := by decide

theorem sub32_full_0 : sub32 32768 0 = 32768 := by decide

theorem sub32_full_full : sub32 32768 32768 = 0 := by decide

theorem sub32_40000_full : sub32 40000 32768 = 7232 := by decide

theorem example_stream_length : example_stream.length = 5000 := by
  unfold example_stream example_frames
  rw [payloads_cons _ _ (zeros 4096) rfl, payloads_cons _ _ (zeros 904) rfl]
  simp [payloads]

theorem example_image_length : example_image.length = 40000 := zeros_length 40000

theorem example_frames_accepted (img : List Byte) (clen : Nat) :
    ∀ m ∈ example_frames, m.accepted (oracle_env img clen).JADE_OTA_BUF_SIZE 0 := by
  intro m hm
  simp only [example_frames, List.mem_cons, List.mem_singleton, List.not_mem_nil,
    or_false] at hm
  rcases hm with hm | hm
  · rw [hm]; exact zero_frame_accepted 4096 (by decide) (by decide) img clen
  · rw [hm]; exact zero_frame_accepted 904 (by decide) (by decide) img clen

/-- The call of `oracle_decompress` that delivers a whole image of 3 bytes at
the only byte of the stream. -/
theorem oracle_tiny_call (img : List Byte) (hl : img.length = 3) (data : List Byte)
    (f : Nat) :
    oracle_decompress img 1 0 data 1 32768 f =
      { status := TINFL_STATUS_DONE, in_bytes := 1, out := img, decomp := (1, 3) } := by
  show oracle_decompress img 1 (0, 0) data 1 32768 f = _
  have ht : List.take 3 img = img := List.take_of_length_le (Nat.le_of_eq hl)
  unfold oracle_decompress
  simp [hl, ht]

theorem tiny_run_1 (img : List Byte) :
    ota_process (oracle_env img 1) tiny_request 1 =
      { pc := .inner_loop, source := 0, uploading := true,
        ota_return_status := .SUCCESS, prevalidated := false,
        ota_end_called := false, firmwaresize := 3,
        compressedsize := 1, update_partition := none,
        decomp := (0, 0), remaining_compressed := 1, remaining := 3,
        status := TINFL_STATUS_NEEDS_MORE_INPUT, uncompressed := [],
        binctx := { id := "1", inbound_buf := some [0], len := 1, expected_source := 0,
                    error := false },
        length := 1, data_buf := [0],
        n_writes := 0, inbox := [complete_msg],
        trace := [Event.reply_to_message_ok,
                Event.display_message "Preparing for firmware update",
                Event.get_in_message (byte_frame "1")] } := by
  simp [ota_process, run, step, ota_start, tiny_request, chunk_step, handle_in_bin_data,
    reset_ctx, oracle_env_init, oracle_env_buf, u32, WORD, byte_frame]

theorem tiny_run_2 (img : List Byte) (hl : img.length = 3) :
    ota_process (oracle_env img 1) tiny_request 2 =
      { pc := .inner_loop, source := 0, uploading := true,
        ota_return_status := .SUCCESS, prevalidated := false,
        ota_end_called := false, firmwaresize := 3,
        compressedsize := 1, update_partition := none,
        decomp := (1, 3), remaining_compressed := 0, remaining := 3,
        status := TINFL_STATUS_DONE, uncompressed := img,
        binctx := { id := "1", inbound_buf := some [0], len := 1, expected_source := 0,
                    error := false },
        length := 0, data_buf := [],
        n_writes := 0, inbox := [complete_msg],
        trace := [Event.reply_to_message_ok,
                Event.display_message "Preparing for firmware update",
                Event.get_in_message (byte_frame "1"),
                Event.tinfl_decompress 1 32768 1 TINFL_STATUS_DONE 1 3] } := by
  rw [ota_process_succ, tiny_run_1 img]
  simp [step, inner_step, decompress, tinfl_call, out_space, tinfl_flags, validate, flush,
    chunk_step, chunk_end_step, upload_complete_step, otacomplete_step, cleanup_step,
    complete_msg, MESSAGES, oracle_init_calls, sub32_2_1, sub32_1_1,
    sub32_full_0, sub32_full_full, UNCOMPRESSED_BUF_SIZE,
    TINFL_STATUS_DONE, TINFL_STATUS_NEEDS_MORE_INPUT, TINFL_STATUS_HAS_MORE_OUTPUT,
    TINFL_FLAG_PARSE_ZLIB_HEADER, TINFL_FLAG_HAS_MORE_INPUT, ESP_OK,
    ESP_ERR_OTA_VALIDATE_FAILED, oracle_env_decompress, oracle_env_write, oracle_env_end,
    oracle_env_boot, oracle_tiny_call img hl, hl]

theorem tiny_run_3 (img : List Byte) (hl : img.length = 3) :
    ota_process (oracle_env img 1) tiny_request 3 =
      { pc := .chunk_end, source := 0, uploading := true,
        ota_return_status := .SUCCESS, prevalidated := false,
        ota_end_called := false, firmwaresize := 3,
        compressedsize := 1, update_partition := none,
        decomp := (1, 3), remaining_compressed := 0, remaining := 3,
        status := TINFL_STATUS_DONE, uncompressed := img,
        binctx := { id := "1", inbound_buf := some [0], len := 1, expected_source := 0,
                    error := false },
        length := 0, data_buf := [],
        n_writes := 0, inbox := [complete_msg],
        trace := [Event.reply_to_message_ok,
                Event.display_message "Preparing for firmware update",
                Event.get_in_message (byte_frame "1"),
                Event.tinfl_decompress 1 32768 1 TINFL_STATUS_DONE 1 3] } := by
  rw [ota_process_succ, tiny_run_2 img hl]
  simp [step, inner_step, decompress, tinfl_call, out_space, tinfl_flags, validate, flush,
    chunk_step, chunk_end_step, upload_complete_step, otacomplete_step, cleanup_step,
    complete_msg, MESSAGES, oracle_init_calls, sub32_2_1, sub32_1_1,
    sub32_full_0, sub32_full_full, UNCOMPRESSED_BUF_SIZE,
    TINFL_STATUS_DONE, TINFL_STATUS_NEEDS_MORE_INPUT, TINFL_STATUS_HAS_MORE_OUTPUT,
    TINFL_FLAG_PARSE_ZLIB_HEADER, TINFL_FLAG_HAS_MORE_INPUT, ESP_OK,
    ESP_ERR_OTA_VALIDATE_FAILED, oracle_env_decompress, oracle_env_write, oracle_env_end,
    oracle_env_boot, oracle_tiny_call img hl, hl]

theorem tiny_run_4 (img : List Byte) (hl : img.length = 3) :
    ota_process (oracle_env img 1) tiny_request 4 =
      { pc := .chunk_loop, source := 0, uploading := true,
        ota_return_status := .SUCCESS, prevalidated := false,
        ota_end_called := false, firmwaresize := 3,
        compressedsize := 1, update_partition := none,
        decomp := (1, 3), remaining_compressed := 0, remaining := 3,
        status := TINFL_STATUS_DONE, uncompressed := img,
        binctx := { id := "1", inbound_buf := some [0], len := 1, expected_source := 0,
                    error := false },
        length := 0, data_buf := [],
        n_writes := 0, inbox := [complete_msg],
        trace := [Event.reply_to_message_ok,
                Event.display_message "Preparing for firmware update",
                Event.get_in_message (byte_frame "1"),
                Event.tinfl_decompress 1 32768 1 TINFL_STATUS_DONE 1 3,
                Event.send_ok "1"] } := by
  rw [ota_process_succ, tiny_run_3 img hl]
  simp [step, inner_step, decompress, tinfl_call, out_space, tinfl_flags, validate, flush,
    chunk_step, chunk_end_step, upload_complete_step, otacomplete_step, cleanup_step,
    complete_msg, MESSAGES, oracle_init_calls, sub32_2_1, sub32_1_1,
    sub32_full_0, sub32_full_full, UNCOMPRESSED_BUF_SIZE,
    TINFL_STATUS_DONE, TINFL_STATUS_NEEDS_MORE_INPUT, TINFL_STATUS_HAS_MORE_OUTPUT,
    TINFL_FLAG_PARSE_ZLIB_HEADER, TINFL_FLAG_HAS_MORE_INPUT, ESP_OK,
    ESP_ERR_OTA_VALIDATE_FAILED, oracle_env_decompress, oracle_env_write, oracle_env_end,
    oracle_env_boot, oracle_tiny_call img hl, hl]

theorem tiny_run_5 (img : List Byte) (hl : img.length = 3) :
    ota_process (oracle_env img 1) tiny_request 5 =
      { pc := .upload_complete, source := 0, uploading := true,
        ota_return_status := .SUCCESS, prevalidated := false,
        ota_end_called := false, firmwaresize := 3,
        compressedsize := 1, update_partition := none,
        decomp := (1, 3), remaining_compressed := 0, remaining := 3,
        status := TINFL_STATUS_DONE, uncompressed := img,
        binctx := { id := "1", inbound_buf := some [0], len := 1, expected_source := 0,
                    error := false },
        length := 0, data_buf := [],
        n_writes := 0, inbox := [complete_msg],
        trace := [Event.reply_to_message_ok,
                Event.display_message "Preparing for firmware update",
                Event.get_in_message (byte_frame "1"),
                Event.tinfl_decompress 1 32768 1 TINFL_STATUS_DONE 1 3,
                Event.send_ok "1"] } := by
  rw [ota_process_succ, tiny_run_4 img hl]
  simp [step, inner_step, decompress, tinfl_call, out_space, tinfl_flags, validate, flush,
    chunk_step, chunk_end_step, upload_complete_step, otacomplete_step, cleanup_step,
    complete_msg, MESSAGES, oracle_init_calls, sub32_2_1, sub32_1_1,
    sub32_full_0, sub32_full_full, UNCOMPRESSED_BUF_SIZE,
    TINFL_STATUS_DONE, TINFL_STATUS_NEEDS_MORE_INPUT, TINFL_STATUS_HAS_MORE_OUTPUT,
    TINFL_FLAG_PARSE_ZLIB_HEADER, TINFL_FLAG_HAS_MORE_INPUT, ESP_OK,
    ESP_ERR_OTA_VALIDATE_FAILED, oracle_env_decompress, oracle_env_write, oracle_env_end,
    oracle_env_boot, oracle_tiny_call img hl, hl]

theorem tiny_run_6 (img : List Byte) (hl : img.length = 3) :
    ota_process (oracle_env img 1) tiny_request 6 =
      { pc := .otacomplete, source := 0, uploading := false,
        ota_return_status := .ERROR_DECOMPRESS, prevalidated := false,
        ota_end_called := false, firmwaresize := 3,
        compressedsize := 1, update_partition := none,
        decomp := (1, 3), remaining_compressed := 0, remaining := 3,
        status := TINFL_STATUS_DONE, uncompressed := img,
        binctx := { id := "1", inbound_buf := some [0], len := 1, expected_source := 0,
                    error := false },
        length := 0, data_buf := [],
        n_writes := 0, inbox := [complete_msg],
        trace := [Event.reply_to_message_ok,
                Event.display_message "Preparing for firmware update",
                Event.get_in_message (byte_frame "1"),
                Event.tinfl_decompress 1 32768 1 TINFL_STATUS_DONE 1 3,
                Event.send_ok "1"] } := by
  rw [ota_process_succ, tiny_run_5 img hl]
  simp [step, inner_step, decompress, tinfl_call, out_space, tinfl_flags, validate, flush,
    chunk_step, chunk_end_step, upload_complete_step, otacomplete_step, cleanup_step,
    complete_msg, MESSAGES, oracle_init_calls, sub32_2_1, sub32_1_1,
    sub32_full_0, sub32_full_full, UNCOMPRESSED_BUF_SIZE,
    TINFL_STATUS_DONE, TINFL_STATUS_NEEDS_MORE_INPUT, TINFL_STATUS_HAS_MORE_OUTPUT,
    TINFL_FLAG_PARSE_ZLIB_HEADER, TINFL_FLAG_HAS_MORE_INPUT, ESP_OK,
    ESP_ERR_OTA_VALIDATE_FAILED, oracle_env_decompress, oracle_env_write, oracle_env_end,
    oracle_env_boot, oracle_tiny_call img hl, hl]

theorem tiny_run_7 (img : List Byte) (hl : img.length = 3) :
    ota_process (oracle_env img 1) tiny_request 7 =
      { pc := .cleanup, source := 0, uploading := false,
        ota_return_status := .ERROR_DECOMPRESS, prevalidated := false,
        ota_end_called := false, firmwaresize := 3,
        compressedsize := 1, update_partition := none,
        decomp := (1, 3), remaining_compressed := 0, remaining := 3,
        status := TINFL_STATUS_DONE, uncompressed := img,
        binctx := { id := "1", inbound_buf := some [0], len := 1, expected_source := 0,
                    error := false },
        length := 0, data_buf := [],
        n_writes := 0, inbox := [],
        trace := [Event.reply_to_message_ok,
                Event.display_message "Preparing for firmware update",
                Event.get_in_message (byte_frame "1"),
                Event.tinfl_decompress 1 32768 1 TINFL_STATUS_DONE 1 3,
                Event.send_ok "1",
                Event.load_in_message complete_msg,
                Event.reject_message .CBOR_RPC_INTERNAL_ERROR "Error completing OTA"
                  (some "ERROR_DECOMPRESS")] } := by
  rw [ota_process_succ, tiny_run_6 img hl]
  simp [step, inner_step, decompress, tinfl_call, out_space, tinfl_flags, validate, flush,
    chunk_step, chunk_end_step, upload_complete_step, otacomplete_step, cleanup_step,
    complete_msg, MESSAGES, oracle_init_calls, sub32_2_1, sub32_1_1,
    sub32_full_0, sub32_full_full, UNCOMPRESSED_BUF_SIZE,
    TINFL_STATUS_DONE, TINFL_STATUS_NEEDS_MORE_INPUT, TINFL_STATUS_HAS_MORE_OUTPUT,
    TINFL_FLAG_PARSE_ZLIB_HEADER, TINFL_FLAG_HAS_MORE_INPUT, ESP_OK,
    ESP_ERR_OTA_VALIDATE_FAILED, oracle_env_decompress, oracle_env_write, oracle_env_end,
    oracle_env_boot, oracle_tiny_call img hl, hl]

theorem tiny_run_8 (img : List Byte) (hl : img.length = 3) :
    ota_process (oracle_env img 1) tiny_request 8 =
      { pc := .returned, source := 0, uploading := false,
        ota_return_status := .ERROR_DECOMPRESS, prevalidated := false,
        ota_end_called := false, firmwaresize := 3,
        compressedsize := 1, update_partition := none,
        decomp := (1, 3), remaining_compressed := 0, remaining := 3,
        status := TINFL_STATUS_DONE, uncompressed := img,
        binctx := { id := "1", inbound_buf := some [0], len := 1, expected_source := 0,
                    error := false },
        length := 0, data_buf := [],
        n_writes := 0, inbox := [],
        trace := [Event.reply_to_message_ok,
                Event.display_message "Preparing for firmware update",
                Event.get_in_message (byte_frame "1"),
                Event.tinfl_decompress 1 32768 1 TINFL_STATUS_DONE 1 3,
                Event.send_ok "1",
                Event.load_in_message complete_msg,
                Event.reject_message .CBOR_RPC_INTERNAL_ERROR "Error completing OTA"
                  (some "ERROR_DECOMPRESS"),
                Event.await_error_activity "ERROR_DECOMPRESS"] } := by
  rw [ota_process_succ, tiny_run_7 img hl]
  simp [step, inner_step, decompress, tinfl_call, out_space, tinfl_flags, validate, flush,
    chunk_step, chunk_end_step, upload_complete_step, otacomplete_step, cleanup_step,
    complete_msg, MESSAGES, oracle_init_calls, sub32_2_1, sub32_1_1,
    sub32_full_0, sub32_full_full, UNCOMPRESSED_BUF_SIZE,
    TINFL_STATUS_DONE, TINFL_STATUS_NEEDS_MORE_INPUT, TINFL_STATUS_HAS_MORE_OUTPUT,
    TINFL_FLAG_PARSE_ZLIB_HEADER, TINFL_FLAG_HAS_MORE_INPUT, ESP_OK,
    ESP_ERR_OTA_VALIDATE_FAILED, oracle_env_decompress, oracle_env_write, oracle_env_end,
    oracle_env_boot, oracle_tiny_call img hl, hl]

/-- C1, the claim fails as stated for an image shorter than the output
buffer.  The image `tiny_image` has 3 bytes, its stream has one byte, sent in
one accepted data frame and followed by `ota_complete`; the decompressor
`oracle_decompress` reproduces the image incrementally, every validation and
every write would succeed and so would the finalize.  The decompressor
delivers the image and reports `TINFL_STATUS_DONE` with the buffer not full
and the session not validated, so nothing is flushed (ota.c:291); after the
chunk loop `remaining` is not 0 (ota.c:338) and the session ends with
`ERROR_DECOMPRESS`: the bytes passed to `esp_ota_write` are none, not the
image. -/
theorem short_image_not_written :
    Faithful (oracle_env tiny_image 1) oracle_rel tiny_image [0] ∧
    (∀ m ∈ [byte_frame "1"], m.accepted (oracle_env tiny_image 1).JADE_OTA_BUF_SIZE 0) ∧
    payloads [byte_frame "1"] = [0] ∧
    (∀ buf fw, (ota_init (oracle_env tiny_image 1) buf fw).res = .SUCCESS) ∧
    (∀ j d, (oracle_env tiny_image 1).esp_ota_write j d = ESP_OK) ∧
    (oracle_env tiny_image 1).esp_ota_end = ESP_OK ∧
    tiny_request = ⟨some tiny_image.length, some 1, 0, [byte_frame "1"] ++ [complete_msg]⟩ ∧
    ∀ k, (ota_process (oracle_env tiny_image 1) tiny_request (8 + k)).pc = .returned ∧
      (ota_process (oracle_env tiny_image 1) tiny_request (8 + k)).ota_return_status
        = .ERROR_DECOMPRESS ∧
      written (ota_process (oracle_env tiny_image 1) tiny_request (8 + k)).trace = [] ∧
      written (ota_process (oracle_env tiny_image 1) tiny_request (8 + k)).trace
        ≠ tiny_image := by
  have h8 := tiny_run_8 tiny_image rfl
  refine ⟨oracle_faithful tiny_image [0] (by decide), ?_, rfl, fun buf fw => oracle_init _ _ _ _,
    fun _ _ => rfl, rfl, rfl, fun k => ?_⟩
  · intro m hm
    simp only [List.mem_singleton] at hm
    rw [hm]
    exact byte_frame_accepted "1" tiny_image 1
  · have hstate : ota_process (oracle_env tiny_image 1) tiny_request (8 + k) =
        ota_process (oracle_env tiny_image 1) tiny_request 8 := by
      rw [ota_process_add]
      exact ended_run _ _ (by rw [h8]; rfl) k
    rw [hstate, h8]
    refine ⟨rfl, rfl, ?_, ?_⟩
    · simp [written, Event.written]
    · simp [written, Event.written, tiny_image]

/-- C1 as amended, the round trip of `ota_process`.  Take any image `img`
whose size fits a 32-bit word, any compressed stream `cmp` of it that is
shorter than the image, any split of `cmp` into data frames that
`handle_in_bin_data` accepts (`frames`, followed by any further messages
`rest`) and a decompressor that reproduces the image incrementally from the
stream.  Then
(1) in every state of the session in which `remaining` is 0 or the finalize
of ota.c:344 has been reached, the buffers passed to `esp_ota_write`,
concatenated in call order, are exactly the image; and
(2) when the image fills the output buffer at least once, the validation
succeeds on the first `UNCOMPRESSED_BUF_SIZE` bytes of the image, which are
the content of the buffer at the first flush, and every write succeeds, the
write number `j` (from 0) being the write of the bytes of the image from
offset `j * UNCOMPRESSED_BUF_SIZE` on, at most a buffer full, the session gets
there: after `3 * messages + |cmp| + |img|` transitions, and from
then on, the buffers written are exactly the image and `remaining` is 0. -/
theorem round_trip {σ : Type} (env : Env σ) (R : σ → Nat → Nat → Prop)
    (img cmp : List Byte) (src : Nat) (frames rest : List Msg)
    (hcodec : Faithful env R img cmp) (hsize : cmp.length < img.length)
    (h32 : img.length < WORD)
    (hframes : ∀ m ∈ frames, m.accepted env.JADE_OTA_BUF_SIZE src)
    (hsplit : payloads frames = cmp) :
    (∀ n,
      (ota_process env ⟨some img.length, some cmp.length, src, frames ++ rest⟩ n).remaining = 0 ∨
      (ota_process env ⟨some img.length, some cmp.length, src, frames ++ rest⟩ n).ota_end_called
        = true →
      written (ota_process env ⟨some img.length, some cmp.length, src, frames ++ rest⟩ n).trace
        = img) ∧
    (UNCOMPRESSED_BUF_SIZE ≤ img.length →
      (ota_init env (img.take UNCOMPRESSED_BUF_SIZE) img.length).res = .SUCCESS →
      (∀ j, j * UNCOMPRESSED_BUF_SIZE < img.length →
        env.esp_ota_write j
          ((img.drop (j * UNCOMPRESSED_BUF_SIZE)).take UNCOMPRESSED_BUF_SIZE) = ESP_OK) →
      ∀ n, 3 * (frames ++ rest).length + cmp.length + img.length ≤ n →
        written (ota_process env ⟨some img.length, some cmp.length, src, frames ++ rest⟩ n).trace
          = img ∧
        (ota_process env ⟨some img.length, some cmp.length, src, frames ++ rest⟩ n).remaining
          = 0) := by
  have key := Track_ota_process env R img cmp src frames rest hcodec hsize h32 hframes hsplit
  refine ⟨?_, ?_⟩
  · intro n hn
    rcases key n with w | ⟨w, _⟩ | ⟨w, _⟩
    · exact w.hbytes
    · obtain ⟨_, a, b, _⟩ := Sync_budget_pos env R img cmp src rest _ w
      rcases hn with hn | hn
      · exact absurd hn a
      · rw [b] at hn; cases hn
    · rcases hn with hn | hn
      · exact absurd hn w.hrem
      · rw [w.hend] at hn; cases hn
  · intro hbig hinit hwrite n hn
    have hk := key n
    rw [Nat.sub_eq_zero_of_le hn] at hk
    rcases hk with w | ⟨w, wb⟩ | ⟨_, ho⟩
    · exact ⟨w.hbytes, w.hrem⟩
    · have := (Sync_budget_pos env R img cmp src rest _ w).1
      omega
    · exfalso
      rcases ho with hb | ⟨j, hj, hb⟩ | hb
      · exact hb hinit
      · exact hb (hwrite j hj)
      · omega

/-- C1 as amended, at an example: the image of 40000 zero bytes, a stream of
5000 bytes in two frames, the example decompressor and collaborators that
succeed. -/
theorem round_trip_witness :
    written (ota_process (oracle_env example_image example_stream.length)
      ⟨some example_image.length, some example_stream.length, 0,
        example_frames ++ [complete_msg]⟩ 45009).trace = example_image :=
  ((round_trip (oracle_env example_image example_stream.length) oracle_rel example_image
    example_stream 0 example_frames [complete_msg]
    (oracle_faithful example_image example_stream (by rw [example_stream_length]; decide))
    (by rw [example_stream_length, example_image_length]; decide)
    (by rw [example_image_length]; decide)
    (example_frames_accepted _ _) rfl).2
    (by rw [example_image_length]; decide)
    (oracle_init _ _ _ _) (fun _ _ => rfl) 45009
    (by rw [example_stream_length, example_image_length]; decide)).1

/-- C2. Anti-rollback.  If at some point of a run `ota_init` has called
`esp_efuse_check_secure_version` on the header's `secure_version` and the
check has returned false (the version is below the device's counter), then at
every later point the function has returned with status `ERROR_NODOWNGRADE`,
and neither `esp_ota_begin` (no partition write handle is ever opened) nor
`esp_ota_write` has ever been called. -/
theorem anti_rollback_rejects {σ : Type} (env : Env σ) (req : Request) (n v : Nat)
    (h : Event.esp_efuse_check_secure_version v false ∈ (ota_process env req n).trace) :
    ∀ m, n < m →
      (ota_process env req m).pc = .returned ∧
      (ota_process env req m).ota_return_status = .ERROR_NODOWNGRADE ∧
      (∀ f err, Event.esp_ota_begin f err ∉ (ota_process env req m).trace) ∧
      (∀ d err, Event.esp_ota_write d err ∉ (ota_process env req m).trace) := by
  intro m hm
  obtain ⟨k, rfl⟩ : ∃ k, m = k + 1 := ⟨m - 1, by omega⟩
  have hk := ota_process_trace_mono env req n k (by omega) _ h
  have hk1 := ota_process_trace_mono env req n (k + 1) (by omega) _ h
  obtain ⟨_, hB, _, hD⟩ := InitFailInv_run env req k
  obtain ⟨d1, d2, d3, _⟩ := hD _ (hB v hk) (by simp)
  obtain ⟨_, hB', _, hD'⟩ := InitFailInv_run env req (k + 1)
  obtain ⟨e1, _, _, e4, e5, _⟩ := hD' _ (hB' v hk1) (by simp)
  refine ⟨?_, e1, ?_, ?_⟩
  · show (run env (k + 1) (ota_start env req)).pc = .returned
    rw [run_succ]
    exact cleanup_returns env _ d3 (by rw [show (run env k (ota_start env req)).ota_return_status = _ from d1]; simp) d2
  · intro f err hmem
    have := e5 (by simp) _ hmem
    simp [Event.is_esp_ota_begin] at this
  · intro d err hmem
    have := (e4 _ hmem).1
    simp [Event.is_esp_ota_write] at this

/-- C2, witness: on a device whose counter is above the image's secure
version, the run on the example request reaches the anti-rollback check after
two transitions, and from the third on it has returned `ERROR_NODOWNGRADE`
without `esp_ota_begin` or `esp_ota_write`. -/
theorem anti_rollback_rejects_witness :
    Event.esp_efuse_check_secure_version 0 false ∈
      (ota_process downgrade_env example_request 2).trace ∧
    ∀ m, 2 < m →
      (ota_process downgrade_env example_request m).pc = .returned ∧
      (ota_process downgrade_env example_request m).ota_return_status = .ERROR_NODOWNGRADE ∧
      (∀ f err, Event.esp_ota_begin f err ∉ (ota_process downgrade_env example_request m).trace) ∧
      (∀ d err, Event.esp_ota_write d err ∉ (ota_process downgrade_env example_request m).trace) :=
  have h : Event.esp_efuse_check_secure_version 0 false ∈
      (ota_process downgrade_env example_request 2).trace := by
    simp [ota_process, run, step, ota_start, example_request, chunk_step, handle_in_bin_data,
      reset_ctx, downgrade_env, example_env, u32, WORD, inner_step, decompress, tinfl_call, out_space, tinfl_flags, validate,
      ota_init, fill_decompress, sub32, UNCOMPRESSED_BUF_SIZE, TINFL_STATUS_DONE,
      TINFL_STATUS_NEEDS_MORE_INPUT, TINFL_STATUS_HAS_MORE_OUTPUT, ESP_OK, strnlen,
      VERSION_STRING_MAX_LENGTH]
  ⟨h, anti_rollback_rejects downgrade_env example_request 2 0 h⟩

/-- C3. Boot-target gating in `ota_process`.  At every point of every run:
(1) if `esp_ota_set_boot_partition` has been called, then `remaining_compressed`
and `remaining` are both 0 and the call directly follows a call of
`esp_ota_end` that returned `ESP_OK`;
(2) if the chunk loop has just ended (the run is at `// Uploading complete`)
with `remaining != 0`, the status is `ERROR_DECOMPRESS` from the next
transition on, for the rest of the run;
(3) if it has ended with `remaining == 0` and `esp_ota_end` fails, the status
is `ERROR_FINISH` from then on, and if `esp_ota_end` succeeds and
`esp_ota_set_boot_partition` fails, it is `ERROR_SETPARTITION`;
(4) if the function has ended with status `SUCCESS`, both counters are 0. -/
theorem boot_partition_gating {σ : Type} (env : Env σ) (req : Request) (n : Nat) :
    (∀ err, Event.esp_ota_set_boot_partition err ∈ (ota_process env req n).trace →
      (ota_process env req n).remaining_compressed = 0 ∧
      (ota_process env req n).remaining = 0 ∧
      ∃ pre post, (ota_process env req n).trace =
        pre ++ [Event.esp_ota_end ESP_OK, Event.esp_ota_set_boot_partition err] ++ post) ∧
    ((ota_process env req n).pc = .upload_complete → (ota_process env req n).remaining ≠ 0 →
      ∀ k, (ota_process env req (n + 1 + k)).ota_return_status = .ERROR_DECOMPRESS) ∧
    ((ota_process env req n).pc = .upload_complete → (ota_process env req n).remaining = 0 →
      env.esp_ota_end ≠ ESP_OK →
      ∀ k, (ota_process env req (n + 1 + k)).ota_return_status = .ERROR_FINISH) ∧
    ((ota_process env req n).pc = .upload_complete → (ota_process env req n).remaining = 0 →
      env.esp_ota_end = ESP_OK → env.esp_ota_set_boot_partition ≠ ESP_OK →
      ∀ k, (ota_process env req (n + 1 + k)).ota_return_status = .ERROR_SETPARTITION) ∧
    ((ota_process env req n).pc.ended = true →
      (ota_process env req n).ota_return_status = .SUCCESS →
      (ota_process env req n).remaining_compressed = 0 ∧
      (ota_process env req n).remaining = 0) := by
  have hinv : GateInv (ota_process env req n) := GateInv_run env req n
  have hrun : ∀ k, ota_process env req (n + 1 + k) =
      run env k (step env (ota_process env req n)) := by
    intro k
    unfold ota_process
    rw [run_add, run_succ]
  have hstep : (ota_process env req n).pc = .upload_complete →
      step env (ota_process env req n) = upload_complete_step env (ota_process env req n) := by
    intro hpc
    rw [step, hpc]
  obtain ⟨_, _, h3, h4⟩ := hinv
  refine ⟨h3, ?_, ?_, ?_, ?_⟩
  · intro hpc hr k
    rw [hrun, hstep hpc]
    rcases upload_complete_step_cases env (ota_process env req n) with ⟨_, e⟩ | ⟨hr', _, e⟩ |
      ⟨hr', _, _, e⟩ | ⟨hr', _, _, e⟩
    · rw [e, (after_loop_run env _ (by simp [Label.after_loop]) k).2.1]
    all_goals exact absurd hr' hr
  · intro hpc hr he k
    rw [hrun, hstep hpc]
    rcases upload_complete_step_cases env (ota_process env req n) with ⟨hr', e⟩ | ⟨_, _, e⟩ |
      ⟨_, he', _, e⟩ | ⟨_, he', _, e⟩
    · exact absurd hr hr'
    · rw [e, (after_loop_run env _ (by simp [Label.after_loop]) k).2.1]
    all_goals exact absurd he' he
  · intro hpc hr he hb k
    rw [hrun, hstep hpc]
    rcases upload_complete_step_cases env (ota_process env req n) with ⟨hr', e⟩ | ⟨_, he', e⟩ |
      ⟨_, _, _, e⟩ | ⟨_, _, hb', e⟩
    · exact absurd hr hr'
    · exact absurd he he'
    · rw [e, (after_loop_run env _ (by simp [Label.after_loop]) k).2.1]
    · exact absurd hb' hb
  · intro hpc hs
    refine h4 ?_ ?_ hs
    · revert hpc; cases (ota_process env req n).pc <;> simp [Label.ended, Label.in_loop]
    · intro h; rw [h] at hpc; simp [Label.ended] at hpc

/-- C4. Validation runs at most once per session.  At every point of every
run of `ota_process`, whatever the chunks and however many flushes: the trace
holds at most one return of `ota_init`; no call made by `ota_init` and no
second return of it comes after the first one, so after a `SUCCESS` every
later flush goes straight to `esp_ota_write`; and after a return other than
`SUCCESS` there is no further `tinfl_decompress` and no `esp_ota_write`. -/
theorem validation_at_most_once {σ : Type} (env : Env σ) (req : Request) (n : Nat) :
    (ota_process env req n).trace.countP Event.is_ota_init ≤ 1 ∧
    (∀ pre res post, (ota_process env req n).trace = pre ++ Event.ota_init res :: post →
      (∀ e ∈ post, e.validation = false) ∧
      (res ≠ .SUCCESS →
        ∀ e ∈ post, e.is_tinfl_decompress = false ∧ e.is_esp_ota_write = false)) := by
  have hinv : ValidInv (ota_process env req n) :=
    run_invariant env ValidInv (ValidInv_step env) _ (ValidInv_start env req) n
  have hcount : ∀ (pre post : List Event) (res : ota_status),
      (∀ e ∈ pre, e.is_ota_init = false) → (∀ e ∈ post, e.validation = false) →
      (pre ++ Event.ota_init res :: post).countP Event.is_ota_init ≤ 1 := by
    intro pre post res hpre hpost
    have h1 : pre.countP Event.is_ota_init = 0 := by
      rw [List.countP_eq_zero]
      intro e he; simp [hpre e he]
    have h2 : post.countP Event.is_ota_init = 0 := by
      rw [List.countP_eq_zero]
      intro e he
      have := hpost e he
      simp only [Event.validation, Bool.or_eq_false_iff] at this
      simp [this.1]
    rw [List.countP_append, List.countP_cons, h1, h2]
    simp [Event.is_ota_init]
  have hval : ∀ (post : List Event), (∀ e ∈ post, e.validation = false) →
      ∀ e ∈ post, e.is_ota_init = false := by
    intro post hpost e he
    have := hpost e he
    simp only [Event.validation, Bool.or_eq_false_iff] at this
    exact this.1
  obtain ⟨h1, h2, h3⟩ := hinv
  cases hp : (ota_process env req n).prevalidated with
  | true =>
    obtain ⟨pre0, post0, e0, hpre0, hpost0⟩ := h2 hp
    refine ⟨by rw [e0]; exact hcount _ _ _ hpre0 hpost0, ?_⟩
    intro pre res post e
    rw [e0] at e
    obtain ⟨_, e2, e3⟩ := unique_split Event.is_ota_init pre0 post0 pre post _ _ e hpre0 rfl
      (hval _ hpost0) rfl
    simp only [Event.ota_init.injEq] at e2
    rw [e3, e2]
    exact ⟨hpost0, fun h => absurd rfl h⟩
  | false =>
    rcases h3 hp with hc | ⟨pre0, res0, post0, e0, hres0, hpre0, hpost0, _⟩
    · have hz : (ota_process env req n).trace.countP Event.is_ota_init = 0 := by
        rw [List.countP_eq_zero]
        intro e he; simp [hval _ hc e he]
      refine ⟨by omega, ?_⟩
      intro pre res post e
      have := hval _ hc (Event.ota_init res) (by rw [e]; simp)
      simp [Event.is_ota_init] at this
    · refine ⟨by rw [e0]; exact hcount _ _ _ hpre0 (fun e he => (hpost0 e he).1), ?_⟩
      intro pre res post e
      rw [e0] at e
      obtain ⟨_, e2, e3⟩ := unique_split Event.is_ota_init pre0 post0 pre post _ _ e hpre0 rfl
        (hval _ (fun e he => (hpost0 e he).1)) rfl
      rw [e3]
      exact ⟨fun e he => (hpost0 e he).1, fun _ e he => (hpost0 e he).2⟩

theorem consumed_append (a b : List Event) : consumed (a ++ b) = consumed a + consumed b := by
  simp [consumed]

theorem consumed_eq_zero (evs : List Event) (h : ∀ e ∈ evs, e.is_tinfl_decompress = false) :
    consumed evs = 0 := by
  induction evs with
  | nil => rfl
  | cons a evs ih =>
    have ha := h a (by simp)
    have := ih (fun e he => h e (by simp [he]))
    unfold consumed at *
    simp only [List.map_cons, List.sum_cons, this, add_zero]
    revert ha
    cases a <;> simp [Event.is_tinfl_decompress, Event.consumed]

theorem CompInv_append {σ : Type} (s t : State σ) (evs : List Event) (h : CompInv s)
    (ht : t.trace = s.trace ++ evs) (hq : ∀ e ∈ evs, e.is_tinfl_decompress = false)
    (hc : t.compressedsize = s.compressedsize)
    (hrc : t.remaining_compressed = s.remaining_compressed)
    (hlen : t.pc = .inner_loop ∨ t.pc = .chunk_end → t.length ≤ s.remaining_compressed) :
    CompInv t := by
  obtain ⟨h1, h2, h3⟩ := h
  refine ⟨by rw [hc]; exact h1, ?_, ?_⟩
  · rw [ht, consumed_append, consumed_eq_zero evs hq, hrc, hc, add_zero]; exact h2
  · intro hpc; rw [hrc]; exact hlen hpc

theorem CompInv_start {σ : Type} (env : Env σ) (req : Request) (fw cmp : Nat)
    (hfw : req.fwsize = some fw) (hcmp : req.cmpsize = some cmp) (hlt : cmp < fw)
    (h32 : cmp < WORD) :
    CompInv (ota_start env req) ∧ (ota_start env req).compressedsize = cmp := by
  have hnot : ¬ fw ≤ cmp := by omega
  unfold ota_start CompInv
  simp [hfw, hcmp, hnot, consumed, Event.consumed, u32_of_lt cmp h32, h32]

theorem CompInv_step {σ : Type} (env : Env σ)
    (hcodec : ∀ d data n k f, 0 < n → (env.tinfl_decompress d data n k f).in_bytes ≤ n)
    (s : State σ) (h : CompInv s) :
    CompInv (step env s) ∧ (step env s).compressedsize = s.compressedsize ∧
    (step env s).remaining_compressed ≤ s.remaining_compressed := by
  unfold step
  split
  next hpc =>
    rcases chunk_step_cases env s with ⟨hrc, e⟩ | ⟨hrc, hin, e⟩ |
      ⟨m, inbox, hrc, hin, hbad, u, e⟩ | ⟨m, inbox, hrc, hin, hok, hlen, e⟩
    · rw [e]; exact ⟨CompInv_append s _ [] h (by simp) (by simp) rfl rfl (by simp), rfl,
        le_refl _⟩
    · rw [e]; exact ⟨h, rfl, le_refl _⟩
    · rw [e]; exact ⟨CompInv_append s _ [Event.get_in_message m] h rfl
        (by simp [Event.is_tinfl_decompress]) rfl rfl (by simp), rfl, le_refl _⟩
    · rw [e]; exact ⟨CompInv_append s _ [Event.get_in_message m] h rfl
        (by simp [Event.is_tinfl_decompress]) rfl rfl (fun _ => hlen), rfl, le_refl _⟩
  next hpc =>
    obtain ⟨h1, h2, h3⟩ := h
    have hlen := h3 (Or.inl hpc)
    have hrcW : s.remaining_compressed < WORD := by omega
    have hcalls : ∀ b f, ∀ e ∈ (ota_init env b f).calls, e.is_tinfl_decompress = false := by
      intro b f e he
      have := ota_init_calls_kind env b f e he
      revert this
      cases e <;> simp [Event.in_ota_init, Event.is_tinfl_decompress]
    -- the state after the call of `tinfl_decompress`
    have hd : (s.length > 0 ∧ s.remaining > 0 ∧ s.status > TINFL_STATUS_DONE) →
        CompInv (decompress env s) ∧
        (decompress env s).remaining_compressed ≤ s.remaining_compressed := by
      intro hc
      have hin : (tinfl_call env s).in_bytes ≤ s.length := hcodec _ _ _ _ _ hc.1
      have e1 : (decompress env s).remaining_compressed =
          s.remaining_compressed - (tinfl_call env s).in_bytes := by
        rw [decompress_remaining_compressed, sub32_of_le _ _ hrcW (by omega)]
      have e2 : (decompress env s).length = s.length - (tinfl_call env s).in_bytes := by
        rw [decompress_length, sub32_of_le _ _ (by omega) hin]
      refine ⟨⟨h1, ?_, ?_⟩, by rw [e1]; omega⟩
      · rw [e1, decompress_trace_eq, consumed_append]
        show _ + (consumed s.trace + ((tinfl_call env s).in_bytes + 0)) = s.compressedsize
        omega
      · intro _; rw [e1, e2]; omega
    rcases inner_step_cases env s with ⟨hc, e⟩ | ⟨hc, hf, e⟩ | ⟨hc, hf, hp, hres, e⟩ |
      ⟨hc, hf, hp, hres, e⟩ | ⟨hc, hf, hp, e⟩
    · rw [e]; exact ⟨CompInv_append s _ [] ⟨h1, h2, h3⟩ (by simp) (by simp) rfl rfl
        (fun _ => hlen), rfl, le_refl _⟩
    · rw [e]; exact ⟨(hd hc).1, rfl, (hd hc).2⟩
    · rw [e]
      refine ⟨CompInv_append (decompress env s) _ _ (hd hc).1
        ((validate_trace env _).trans (List.append_assoc _ _ _)) ?_
        (by simp) (by simp) ?_, by simp, by simpa using (hd hc).2⟩
      · intro e he
        simp only [List.mem_append, List.mem_singleton] at he
        rcases he with he | he
        · exact hcalls _ _ e he
        · rw [he]; rfl
      · intro hpc'; rw [validate_length]; exact (hd hc).1.2.2 (Or.inl hpc)
    · rw [e]
      refine ⟨CompInv_append (decompress env s) _
        ((ota_init env (decompress env s).uncompressed (decompress env s).firmwaresize).calls ++
          [Event.ota_init (ota_init env (decompress env s).uncompressed
            (decompress env s).firmwaresize).res] ++
          [Event.esp_ota_write (validate env (decompress env s)).uncompressed
            (env.esp_ota_write (validate env (decompress env s)).n_writes
              (validate env (decompress env s)).uncompressed)]) (hd hc).1
        (by rw [flush_trace, validate_trace]; simp) ?_ (by simp) (by simp) ?_, by simp,
        by simpa using (hd hc).2⟩
      · intro e he
        simp only [List.mem_append, List.mem_singleton] at he
        rcases he with (he | he) | he
        · exact hcalls _ _ e he
        · rw [he]; rfl
        · rw [he]; rfl
      · intro hpc'; rw [flush_length, validate_length]; exact (hd hc).1.2.2 (Or.inl hpc)
    · rw [e]
      refine ⟨CompInv_append (decompress env s) _ _ (hd hc).1 (flush_trace env _)
        (by simp [Event.is_tinfl_decompress]) (by simp) (by simp) ?_, by simp,
        by simpa using (hd hc).2⟩
      intro hpc'; rw [flush_length]; exact (hd hc).1.2.2 (Or.inl hpc)
  next hpc =>
    rcases chunk_end_step_cases s with ⟨hc, e⟩ | ⟨hc, e⟩
    · rw [e]; refine ⟨CompInv_append s _ _ h rfl ?_ rfl rfl (by simp), rfl, le_refl _⟩
      split_ifs <;> simp [Event.is_tinfl_decompress]
    · rw [e]; refine ⟨CompInv_append s _ _ h (List.append_assoc _ _ _) ?_ rfl rfl (by simp),
        rfl, le_refl _⟩
      split_ifs <;> simp [Event.is_tinfl_decompress]
  next hpc =>
    rcases upload_complete_step_cases env s with ⟨hr, e⟩ | ⟨hr, he, e⟩ | ⟨hr, he, hb, e⟩ |
      ⟨hr, he, hb, e⟩
    · rw [e]; exact ⟨CompInv_append s _ [] h (by simp) (by simp) rfl rfl (by simp), rfl,
        le_refl _⟩
    · rw [e]; exact ⟨CompInv_append s _ _ h rfl (by simp [Event.is_tinfl_decompress]) rfl rfl
        (by simp), rfl, le_refl _⟩
    · rw [e]; exact ⟨CompInv_append s _ _ h rfl (by simp [Event.is_tinfl_decompress]) rfl rfl
        (by simp), rfl, le_refl _⟩
    · rw [e]
      refine ⟨CompInv_append s _ _ h rfl (by simp [Event.is_tinfl_decompress]) rfl rfl ?_, rfl,
        le_refl _⟩
      simp only []
      split_ifs <;> simp
  next hpc =>
    rcases otacomplete_step_cases s with ⟨hin, e⟩ | ⟨m, inbox, hin, e⟩
    · rw [e]; exact ⟨h, rfl, le_refl _⟩
    · rw [e]
      refine ⟨CompInv_append s _ _ h rfl ?_ rfl rfl (by simp), rfl, le_refl _⟩
      unfold completion_reply
      split_ifs <;> simp [Event.is_tinfl_decompress]
  next hpc =>
    have hfr : ∀ e ∈ failure_report s, e.is_tinfl_decompress = false := by
      unfold failure_report
      split_ifs <;> simp [Event.is_tinfl_decompress]
    rcases cleanup_step_cases env s with ⟨hs, e⟩ | ⟨hs, ha, he, e⟩ | ⟨hs, ha, he, e⟩ |
      ⟨hs, ha, e⟩
    · rw [e]; exact ⟨CompInv_append s _ _ h rfl (by simp [Event.is_tinfl_decompress]) rfl rfl
        (by simp), rfl, le_refl _⟩
    · rw [e]; exact ⟨CompInv_append s _ _ h rfl (by simp [Event.is_tinfl_decompress]) rfl rfl
        (by simp), rfl, le_refl _⟩
    · rw [e]; refine ⟨CompInv_append s _ _ h (List.append_assoc _ _ _) ?_ rfl rfl (by simp),
        rfl, le_refl _⟩
      intro e he
      simp only [List.mem_append, List.mem_singleton] at he
      rcases he with he | he
      · rw [he]; rfl
      · exact hfr e he
    · rw [e]; exact ⟨CompInv_append s _ _ h rfl hfr rfl rfl (by simp), rfl, le_refl _⟩
  next hpc => exact ⟨h, rfl, le_refl _⟩
  next hpc => exact ⟨h, rfl, le_refl _⟩
  next hpc => exact ⟨h, rfl, le_refl _⟩

/-- C5. Compressed byte accounting.  Let the request carry `fwsize = fw` and
`cmpsize = cmp` with `cmp < fw`, `cmp` a 32-bit `size_t`, and let every call
of `tinfl_decompress` consume at most the input offered.  Then at every point
`n` of the run: `remaining_compressed` plus the compressed bytes consumed by
the decompressor so far is `cmp`; inside an iteration of the chunk loop the
unconsumed `length` of the current chunk is at most `remaining_compressed`;
and the next transition does not increase `remaining_compressed`.  The
counters are computed modulo `2^32`, so the first equation says that
`remaining_compressed` never wraps around. -/
theorem compressed_accounting {σ : Type} (env : Env σ) (req : Request) (fw cmp : Nat)
    (hfw : req.fwsize = some fw) (hcmp : req.cmpsize = some cmp) (hlt : cmp < fw)
    (h32 : cmp < WORD)
    (hcodec : ∀ d data n k f, 0 < n → (env.tinfl_decompress d data n k f).in_bytes ≤ n)
    (n : Nat) :
    (ota_process env req n).remaining_compressed + consumed (ota_process env req n).trace
      = cmp ∧
    ((ota_process env req n).pc = .inner_loop ∨ (ota_process env req n).pc = .chunk_end →
      (ota_process env req n).length ≤ (ota_process env req n).remaining_compressed) ∧
    (ota_process env req (n + 1)).remaining_compressed
      ≤ (ota_process env req n).remaining_compressed := by
  have h : ∀ n, CompInv (ota_process env req n) ∧
      (ota_process env req n).compressedsize = cmp := by
    intro n
    induction n with
    | zero => exact CompInv_start env req fw cmp hfw hcmp hlt h32
    | succ n ih =>
      rw [ota_process_succ]
      obtain ⟨a, b, _⟩ := CompInv_step env hcodec _ ih.1
      exact ⟨a, b.trans ih.2⟩
  obtain ⟨⟨_, h2, h3⟩, hc⟩ := h n
  refine ⟨by rw [h2, hc], h3, ?_⟩
  rw [ota_process_succ]
  exact (CompInv_step env hcodec _ (h n).1).2.2

/-- C5, witness: the example request (40000 bytes of firmware in 2 compressed
bytes) with the example decompressor, which consumes one byte per call, after
two transitions. -/
theorem compressed_accounting_witness :
    (ota_process example_env example_request 2).remaining_compressed +
      consumed (ota_process example_env example_request 2).trace = 2 ∧
    ((ota_process example_env example_request 2).pc = .inner_loop ∨
      (ota_process example_env example_request 2).pc = .chunk_end →
      (ota_process example_env example_request 2).length
        ≤ (ota_process example_env example_request 2).remaining_compressed) ∧
    (ota_process example_env example_request (2 + 1)).remaining_compressed
      ≤ (ota_process example_env example_request 2).remaining_compressed :=
  compressed_accounting example_env example_request 40000 2 rfl rfl (by decide)
    (by decide) (fun _ _ _ _ _ h => h) 2

theorem example_call (s : State Unit) :
    (tinfl_call example_env s).status = TINFL_STATUS_HAS_MORE_OUTPUT ∧
    (tinfl_call example_env s).in_bytes = 1 ∧
    (tinfl_call example_env s).out.length = out_space s := by
  simp [tinfl_call, example_env, fill_decompress]

theorem example_init (buf : List Byte) (fw : Nat) :
    (ota_init example_env buf fw).res = .SUCCESS := by
  simp [ota_init, example_env, ESP_OK, strnlen, VERSION_STRING_MAX_LENGTH, confirmation,
    confirmation_calls]

theorem example_run_1 :
    (ota_process example_env example_request 1).pc = .inner_loop ∧
    (ota_process example_env example_request 1).length = 2 ∧
    (ota_process example_env example_request 1).remaining = 40000 ∧
    (ota_process example_env example_request 1).status = TINFL_STATUS_NEEDS_MORE_INPUT ∧
    (ota_process example_env example_request 1).uncompressed = [] ∧
    (ota_process example_env example_request 1).prevalidated = false ∧
    (ota_process example_env example_request 1).firmwaresize = 40000 ∧
    written (ota_process example_env example_request 1).trace = [] := by
  simp [ota_process, run, step, ota_start, example_request, chunk_step, handle_in_bin_data,
    reset_ctx, example_env, u32, WORD, written, Event.written]

theorem example_run_2 :
    (ota_process example_env example_request 2).pc = .inner_loop ∧
    (ota_process example_env example_request 2).length = 1 ∧
    (ota_process example_env example_request 2).remaining = 7232 ∧
    (ota_process example_env example_request 2).status = TINFL_STATUS_HAS_MORE_OUTPUT ∧
    (ota_process example_env example_request 2).uncompressed = [] ∧
    (ota_process example_env example_request 2).prevalidated = true ∧
    (ota_process example_env example_request 2).firmwaresize = 40000 ∧
    (written (ota_process example_env example_request 2).trace).length = 32768 := by
  obtain ⟨h1, h2, h3, h4, h5, h6, h7, h8⟩ := example_run_1
  obtain ⟨c1, c2, c3⟩ := example_call (ota_process example_env example_request 1)
  have hsp : out_space (ota_process example_env example_request 1) = 32768 := by
    unfold out_space
    rw [h5]
    rfl
  have hlen : (decompress example_env
      (ota_process example_env example_request 1)).uncompressed.length = 32768 := by
    rw [decompress_uncompressed, h5, List.nil_append, c3, hsp]
  rw [ota_process_succ, step, h1]
  simp only []
  rcases inner_step_cases example_env (ota_process example_env example_request 1) with
    ⟨hc, _⟩ | ⟨_, hf, _⟩ | ⟨_, _, _, hres, _⟩ | ⟨_, _, _, hres, e⟩ | ⟨_, _, hp, _⟩
  · exfalso; apply hc; rw [h2, h3, h4]; decide
  · exfalso; exact hf (Or.inr hlen)
  · exact absurd (example_init _ _) hres
  · obtain ⟨v1, v2, _⟩ := validate_ok example_env _ hres
    obtain ⟨f1, _, f3, f4⟩ := flush_ok example_env
      (validate example_env (decompress example_env (ota_process example_env example_request 1)))
      rfl
    rw [e]
    refine ⟨by rw [f1, v2]; exact h1, ?_, ?_, ?_, f4, by rw [flush_prevalidated, v1], ?_, ?_⟩
    · rw [flush_length, validate_length, decompress_length, h2, c2]; rfl
    · rw [f3, validate_remaining, decompress_remaining, validate_uncompressed, hlen, h3]; rfl
    · rw [flush_status, validate_status, decompress_status, c1]
    · rw [flush_firmwaresize, validate_firmwaresize, decompress_firmwaresize, h7]
    · rw [(flush_written _ _).1, (validate_written _ _).1, (decompress_written _ _).1, h8,
        validate_uncompressed, List.nil_append, hlen]
  · rw [h6] at hp; exact absurd hp (by simp)

/-- C6, the code at a failing input.  The request declares 40000 bytes of
firmware; the example decompressor emits exactly the output space offered in
every call (never more), 65536 bytes for the two compressed bytes of the
frame.  After the first flush `remaining` is 40000 - 32768 = 7232; the second
flush passes 32768 bytes more to `esp_ota_write` and `remaining -= towrite`
wraps around to 7232 - 32768 + 2^32 = 4294941760: the 32-bit counter has
increased, and `remaining` plus the 65536 bytes written is not 40000. -/
theorem remaining_wraps_around :
    (∀ d data n k f, (example_env.tinfl_decompress d data n k f).out.length = k) ∧
    (ota_process example_env example_request 2).remaining = 7232 ∧
    (ota_process example_env example_request 3).remaining = 4294941760 ∧
    (ota_process example_env example_request 3).firmwaresize = 40000 ∧
    (written (ota_process example_env example_request 3).trace).length = 65536 := by
  obtain ⟨h1, h2, h3, h4, h5, h6, h7, h8⟩ := example_run_2
  obtain ⟨c1, c2, c3⟩ := example_call (ota_process example_env example_request 2)
  have hsp : out_space (ota_process example_env example_request 2) = 32768 := by
    unfold out_space
    rw [h5]
    rfl
  have hlen : (decompress example_env
      (ota_process example_env example_request 2)).uncompressed.length = 32768 := by
    rw [decompress_uncompressed, h5, List.nil_append, c3, hsp]
  refine ⟨?_, h3, ?_⟩
  · intro d data n k f
    simp [example_env, fill_decompress]
  rw [ota_process_succ, step, h1]
  simp only []
  rcases inner_step_cases example_env (ota_process example_env example_request 2) with
    ⟨hc, _⟩ | ⟨_, hf, _⟩ | ⟨_, _, hp, _, _⟩ | ⟨_, _, hp, _, _⟩ | ⟨_, _, _, e⟩
  · exfalso; apply hc; rw [h2, h3, h4]; decide
  · exfalso; exact hf (Or.inr hlen)
  · rw [h6] at hp; exact absurd hp (by simp)
  · rw [h6] at hp; exact absurd hp (by simp)
  · obtain ⟨_, _, f3, _⟩ := flush_ok example_env
      (decompress example_env (ota_process example_env example_request 2)) rfl
    rw [e]
    refine ⟨?_, ?_, ?_⟩
    · rw [f3, decompress_remaining, hlen, h3]; rfl
    · rw [flush_firmwaresize, decompress_firmwaresize, h7]
    · rw [(flush_written _ _).1, (decompress_written _ _).1, List.length_append, h8, hlen]

/-- C7. Rejected frames never reach the decompressor.  Let a run stand at the
head of the chunk loop with compressed bytes still expected
(`remaining_compressed != 0`) and let `m` be the next inbound message.  If
`handle_in_bin_data` flags `m` as an error (a method other than `ota_data`,
`ota_complete` included, a wrong source, no payload, or a payload larger than
`JADE_OTA_BUF_SIZE`), or its payload length exceeds `remaining_compressed`,
then at every later point: the trace is the old trace, the receipt of `m`
and calls among which there is no `tinfl_decompress`, no `esp_ota_write` and
no `send_ok`; `esp_ota_set_boot_partition` has never been called; the status
is `ERROR_BADDATA`; and from the second transition on the function has ended.
The codec and the decompressor state are arbitrary. -/
theorem rejected_frame {σ : Type} (env : Env σ) (req : Request) (n : Nat) (m : Msg)
    (rest : List Msg)
    (hpc : (ota_process env req n).pc = .chunk_loop)
    (hrc : (ota_process env req n).remaining_compressed ≠ 0)
    (hin : (ota_process env req n).inbox = m :: rest)
    (hbad :
      (handle_in_bin_data env.JADE_OTA_BUF_SIZE
        (reset_ctx none (ota_process env req n).source) m).error = true ∨
      (handle_in_bin_data env.JADE_OTA_BUF_SIZE
        (reset_ctx none (ota_process env req n).source) m).len
          > (ota_process env req n).remaining_compressed) :
    ∀ k, ∃ post,
      (ota_process env req (n + 1 + k)).trace =
        (ota_process env req n).trace ++ Event.get_in_message m :: post ∧
      (∀ e ∈ post, e.is_tinfl_decompress = false ∧ e.is_esp_ota_write = false ∧
        e.is_send_ok = false) ∧
      (∀ err, Event.esp_ota_set_boot_partition err ∉ (ota_process env req (n + 1 + k)).trace) ∧
      (ota_process env req (n + 1 + k)).ota_return_status = .ERROR_BADDATA ∧
      (0 < k → (ota_process env req (n + 1 + k)).pc.ended = true) := by
  have hgate : GateInv (ota_process env req n) := GateInv_run env req n
  have hno := hgate.2.1 (Or.inl (by rw [hpc]; rfl))
  -- the transition that receives `m`
  have h1 : (ota_process env req (n + 1)).trace =
        (ota_process env req n).trace ++ [Event.get_in_message m] ∧
      (ota_process env req (n + 1)).pc = .cleanup ∧
      (ota_process env req (n + 1)).ota_return_status = .ERROR_BADDATA := by
    rw [ota_process_succ, step, hpc]
    simp only []
    rcases chunk_step_cases env (ota_process env req n) with ⟨h, _⟩ | ⟨_, h, _⟩ |
      ⟨m', inbox, _, hin', _, u, e⟩ | ⟨m', inbox, _, hin', hok, hlen, _⟩
    · exact absurd h hrc
    · rw [hin] at h; exact absurd h (by simp)
    · rw [hin] at hin'
      simp only [List.cons.injEq] at hin'
      rw [e, ← hin'.1]
      exact ⟨rfl, rfl, rfl⟩
    · rw [hin] at hin'
      simp only [List.cons.injEq] at hin'
      rw [← hin'.1] at hok hlen
      rcases hbad with hb | hb
      · rw [hok] at hb; exact absurd hb (by simp)
      · omega
  obtain ⟨t1, p1, s1⟩ := h1
  intro k
  cases k with
  | zero =>
    refine ⟨[], by simpa using t1, by simp, ?_, s1, by simp⟩
    intro err hmem
    rw [show n + 1 + 0 = n + 1 from rfl, t1] at hmem
    simp only [List.mem_append, List.mem_singleton] at hmem
    rcases hmem with hmem | hmem
    · exact hno err hmem
    · simp at hmem
  | succ k =>
    obtain ⟨evs, c1, c2, c3, c4⟩ := cleanup_failure env (ota_process env req (n + 1)) p1
      (by rw [s1]; simp)
    have hstate : ota_process env req (n + 1 + (k + 1)) =
        step env (ota_process env req (n + 1)) := by
      have : n + 1 + (k + 1) = (n + 1 + 1) + k := by omega
      rw [this, ota_process_add, ota_process_succ]
      exact ended_run env _ c3 k
    rw [hstate]
    refine ⟨evs, by rw [c1, t1]; simp, ?_, ?_, by rw [c4, s1], fun _ => c3⟩
    · intro e he
      have := c2 e he
      revert this
      cases e <;> simp [Event.in_failed_cleanup, Event.is_tinfl_decompress,
        Event.is_esp_ota_write, Event.is_send_ok]
    · intro err hmem
      rw [c1, t1] at hmem
      simp only [List.mem_append, List.mem_singleton] at hmem
      rcases hmem with (hmem | hmem) | hmem
      · exact hno err hmem
      · simp at hmem
      · have := c2 _ hmem
        simp [Event.in_failed_cleanup] at this

/-- C7, witness: an `ota_complete` that arrives as the first message while two
compressed bytes are still expected. -/
theorem rejected_frame_witness :
    (ota_process example_env premature_request 0).pc = .chunk_loop ∧
    (ota_process example_env premature_request 0).remaining_compressed ≠ 0 ∧
    (handle_in_bin_data example_env.JADE_OTA_BUF_SIZE
      (reset_ctx none (ota_process example_env premature_request 0).source)
      { source := 0, id := "1", method := "ota_complete", params_bytes := none }).error = true ∧
    ∀ k, ∃ post,
      (ota_process example_env premature_request (0 + 1 + k)).trace =
        (ota_process example_env premature_request 0).trace ++
          Event.get_in_message
            { source := 0, id := "1", method := "ota_complete", params_bytes := none } :: post ∧
      (∀ e ∈ post, e.is_tinfl_decompress = false ∧ e.is_esp_ota_write = false ∧
        e.is_send_ok = false) ∧
      (∀ err, Event.esp_ota_set_boot_partition err ∉
        (ota_process example_env premature_request (0 + 1 + k)).trace) ∧
      (ota_process example_env premature_request (0 + 1 + k)).ota_return_status
        = .ERROR_BADDATA ∧
      (0 < k → (ota_process example_env premature_request (0 + 1 + k)).pc.ended = true) :=
  have hpc : (ota_process example_env premature_request 0).pc = .chunk_loop := by
    simp [ota_process, run, ota_start, premature_request]
  have hrc : (ota_process example_env premature_request 0).remaining_compressed ≠ 0 := by
    simp [ota_process, run, ota_start, premature_request, u32, WORD]
  have hin : (ota_process example_env premature_request 0).inbox =
      { source := 0, id := "1", method := "ota_complete", params_bytes := none } :: [] := by
    simp [ota_process, run, ota_start, premature_request]
  have herr : (handle_in_bin_data example_env.JADE_OTA_BUF_SIZE
      (reset_ctx none (ota_process example_env premature_request 0).source)
      { source := 0, id := "1", method := "ota_complete", params_bytes := none }).error
        = true := by
    simp [handle_in_bin_data]
  ⟨hpc, hrc, herr,
    rejected_frame example_env premature_request 0 _ [] hpc hrc hin (Or.inl herr)⟩

/-- C8. The chunk validator `handle_in_bin_data`, run on the context that
`reset_ctx` prepares for the expected source `src`, accepts a request frame
(leaves `error` false) exactly when its method is `ota_data`, its first raw
byte equals `src` and its `params` byte string has a length `n` with
`0 < n` and `n ≤ JADE_OTA_BUF_SIZE`; it then sets `len` to that length and
`inbound_buf` to the payload.  In every other case `error` is true and `len`
stays 0. -/
theorem handle_in_bin_data_accepts_iff (JADE_OTA_BUF_SIZE src : Nat) (m : Msg) :
    ((handle_in_bin_data JADE_OTA_BUF_SIZE (reset_ctx none src) m).error = false ↔
      (m.method = "ota_data" ∧ m.source = src ∧
        ∃ bytes, m.params_bytes = some bytes ∧ 0 < bytes.length ∧
          bytes.length ≤ JADE_OTA_BUF_SIZE)) ∧
    (∀ bytes, (handle_in_bin_data JADE_OTA_BUF_SIZE (reset_ctx none src) m).error = false →
      m.params_bytes = some bytes →
      (handle_in_bin_data JADE_OTA_BUF_SIZE (reset_ctx none src) m).len = bytes.length ∧
      (handle_in_bin_data JADE_OTA_BUF_SIZE (reset_ctx none src) m).inbound_buf = some bytes) ∧
    ((handle_in_bin_data JADE_OTA_BUF_SIZE (reset_ctx none src) m).error = true →
      (handle_in_bin_data JADE_OTA_BUF_SIZE (reset_ctx none src) m).len = 0) := by
  unfold handle_in_bin_data reset_ctx
  by_cases hm : m.method = "ota_data"
  · cases hp : m.params_bytes with
    | none => simp [hm]
    | some bytes =>
      by_cases h0 : bytes.length = 0
      · simp [hm, h0]
      · by_cases hs : m.source = src
        · by_cases hB : bytes.length ≤ JADE_OTA_BUF_SIZE
          · have : ¬ JADE_OTA_BUF_SIZE < bytes.length := by omega
            simp [hm, h0, hs, this, hB]
            omega
          · have : JADE_OTA_BUF_SIZE < bytes.length := by omega
            simp [hm, h0, hs, this, hB]
        · simp [hm, h0, hs]
  · simp [hm]

theorem payloads_replicate_length (k n : Nat) :
    (payloads (List.replicate k (zero_frame n))).length = k * n := by
  induction k with
  | zero => simp [payloads]
  | succ k ih =>
    rw [List.replicate_succ, payloads_cons _ _ (zeros n) rfl, List.length_append, ih,
      zeros_length, Nat.succ_mul, Nat.add_comm]

theorem scenario_stream_length : scenario_stream.length = 40000 :=
  payloads_replicate_length 10 4000

theorem scenario_image_length : scenario_image.length = 100000 := zeros_length 100000

theorem scenario_frames_accepted (img : List Byte) (clen : Nat) :
    ∀ m ∈ scenario_frames, m.accepted (oracle_env img clen).JADE_OTA_BUF_SIZE 0 := by
  intro m hm
  rw [List.eq_of_mem_replicate hm]
  exact zero_frame_accepted 4000 (by decide) (by decide) img clen

/-- C9, scenario A.  For an image of 100000 bytes, a compressed stream of
40000 bytes, any split of the stream into accepted data frames, a decompressor
that reproduces the image incrementally, a validation that succeeds on the
first `UNCOMPRESSED_BUF_SIZE` = 32768 bytes of the image, which are the content
of the output buffer at the first flush, and writes that succeed, the write
number `j` (from 0) being the write of the bytes of the image from offset
`j * 32768` on, at most a buffer full:
(1) at every point of the session the lengths of the buffers passed to
`esp_ota_write` so far are the first `j` of 32768, 32768, 32768, 1696 and
`remaining` is 100000 minus their sum, that is 100000, 67232, 34464, 1696, 0
after 0, 1, 2, 3, 4 writes;
(2) after `3 * messages + 140000` transitions, and from then on, there have
been exactly four writes, the last one, of 1696 bytes, directly after a call of
`tinfl_decompress` that returned `TINFL_STATUS_DONE`, and `remaining` is 0. -/
theorem scenario_A {σ : Type} (env : Env σ) (R : σ → Nat → Nat → Prop)
    (img cmp : List Byte) (src : Nat) (frames rest : List Msg)
    (hfw : img.length = 100000) (hcmp : cmp.length = 40000)
    (hcodec : Faithful env R img cmp)
    (hframes : ∀ m ∈ frames, m.accepted env.JADE_OTA_BUF_SIZE src)
    (hsplit : payloads frames = cmp)
    (hinit : (ota_init env (img.take UNCOMPRESSED_BUF_SIZE) 100000).res = .SUCCESS)
    (hwrite : ∀ j, j * UNCOMPRESSED_BUF_SIZE < 100000 →
      env.esp_ota_write j
        ((img.drop (j * UNCOMPRESSED_BUF_SIZE)).take UNCOMPRESSED_BUF_SIZE) = ESP_OK) :
    (∀ n, ∃ j, j ≤ 4 ∧
      write_lengths (ota_process env ⟨some 100000, some 40000, src, frames ++ rest⟩ n).trace
        = List.take j [32768, 32768, 32768, 1696] ∧
      (ota_process env ⟨some 100000, some 40000, src, frames ++ rest⟩ n).remaining
        = 100000 - (List.take j [32768, 32768, 32768, 1696]).sum) ∧
    (∀ n, 3 * (frames ++ rest).length + 140000 ≤ n →
      ∃ pre a b c e f d post,
        (ota_process env ⟨some 100000, some 40000, src, frames ++ rest⟩ n).trace
          = pre ++ Event.tinfl_decompress a b c TINFL_STATUS_DONE e f ::
              Event.esp_ota_write d ESP_OK :: post ∧
        write_lengths pre = [32768, 32768, 32768] ∧ d.length = 1696 ∧
        write_lengths post = [] ∧
        write_lengths
          (ota_process env ⟨some 100000, some 40000, src, frames ++ rest⟩ n).trace
          = [32768, 32768, 32768, 1696] ∧
        (ota_process env ⟨some 100000, some 40000, src, frames ++ rest⟩ n).remaining = 0) := by
  have key := Track_ota_process env R img cmp src frames rest hcodec (by omega)
    (by rw [hfw]; decide) hframes hsplit
  rw [hfw, hcmp] at key
  have hobs : ¬ Obstacle env img := by
    intro ho
    rcases ho with hb | ⟨j, hj, hb⟩ | hb
    · rw [hfw] at hb; exact hb hinit
    · rw [hfw] at hj; exact hb (hwrite j hj)
    · rw [hfw] at hb; revert hb; decide
  have hdone : ∀ s : State σ, Written img s →
      ∃ pre a b c e f d post,
        s.trace = pre ++ Event.tinfl_decompress a b c TINFL_STATUS_DONE e f ::
              Event.esp_ota_write d ESP_OK :: post ∧
        write_lengths pre = [32768, 32768, 32768] ∧ d.length = 1696 ∧
        write_lengths post = [] ∧ write_lengths s.trace = [32768, 32768, 32768, 1696] ∧
        s.remaining = 0 := by
    intro s w
    obtain ⟨k, pre, d, post, a1, a2, a3, a4, a5, a6, a7⟩ := w.hlast
    rw [hfw] at a4
    have hk : k = 3 := by
      unfold UNCOMPRESSED_BUF_SIZE at a4 a6
      omega
    subst hk
    have hd : d.length = 1696 := by
      unfold UNCOMPRESSED_BUF_SIZE at a4
      omega
    obtain ⟨pre1, a, b, c, e, f, hp⟩ := a7 (by rw [hd]; decide)
    have hl : write_lengths pre1 = [32768, 32768, 32768] := by
      rw [hp, write_lengths_append] at a2
      simpa [write_lengths, UNCOMPRESSED_BUF_SIZE] using a2
    refine ⟨pre1, a, b, c, e, f, d, post, ?_, hl, hd, a3, ?_, w.hrem⟩
    · rw [a1, hp, List.append_assoc]; rfl
    · rw [a1, write_lengths_append, a2]
      show _ ++ (d.length :: write_lengths post) = _
      rw [a3, hd]
      rfl
  refine ⟨?_, ?_⟩
  · intro n
    rcases key n with w | ⟨w, _⟩ | ⟨_, ho⟩
    · obtain ⟨_, _, _, _, _, _, _, _, _, _, _, _, h5, h6⟩ := hdone _ w
      exact ⟨4, le_refl _, h5, by rw [h6]; rfl⟩
    · obtain ⟨_, _, _, k, b1, b2, b3⟩ := Sync_budget_pos env R img cmp src rest _ w
      rw [hfw] at b2 b3
      have hk : k ≤ 3 := by
        unfold UNCOMPRESSED_BUF_SIZE at b2
        omega
      refine ⟨k, by omega, ?_, ?_⟩
      · rw [b1]
        interval_cases k <;> rfl
      · rw [b3]
        interval_cases k <;> rfl
    · exact absurd ho hobs
  · intro n hn
    have hk := key n
    rw [Nat.sub_eq_zero_of_le (by omega)] at hk
    rcases hk with w | ⟨w, wb⟩ | ⟨_, ho⟩
    · exact hdone _ w
    · have := (Sync_budget_pos env R img cmp src rest _ w).1
      omega
    · exact absurd ho hobs

/-- C9 at an example: an image of 100000 zero bytes, a stream of 40000 bytes
in ten frames, the example decompressor and collaborators that succeed. -/
theorem scenario_A_witness :
    write_lengths (ota_process (oracle_env scenario_image scenario_stream.length)
      ⟨some 100000, some 40000, 0, scenario_frames ++ [complete_msg]⟩ 140033).trace
      = [32768, 32768, 32768, 1696] := by
  obtain ⟨_, _, _, _, _, _, _, _, _, _, _, _, h, _⟩ :=
    (scenario_A (oracle_env scenario_image scenario_stream.length) oracle_rel scenario_image
      scenario_stream 0 scenario_frames [complete_msg] scenario_image_length
      scenario_stream_length
      (oracle_faithful scenario_image scenario_stream
        (by rw [scenario_stream_length]; decide))
      (scenario_frames_accepted _ _) rfl
      (oracle_init _ _ _ _) (fun _ _ => rfl)).2 140033 (by decide)
  exact h

/-- C10. Scenario B, the user declines.  If at some point of a run the
confirmation step of `ota_init` has been reached and `gui_activity_wait_event`
has failed or has delivered an event other than `BTN_ACCEPT_OTA`, then
`ota_init` has returned `ERROR_USER_DECLINED`, and at every later point the
function has returned with status `ERROR_USER_DECLINED`, and `esp_ota_begin`,
`esp_ota_write`, `esp_ota_end` and `await_error_activity` (the error screen)
have never been called. -/
theorem user_declined {σ : Type} (env : Env σ) (req : Request) (n : Nat) (ret : Bool)
    (ev_id : Int)
    (h : Event.gui_activity_wait_event ret ev_id ∈ (ota_process env req n).trace)
    (hdecl : ret = false ∨ ev_id ≠ env.BTN_ACCEPT_OTA) :
    Event.ota_init .ERROR_USER_DECLINED ∈ (ota_process env req n).trace ∧
    ∀ m, n < m →
      (ota_process env req m).pc = .returned ∧
      (ota_process env req m).ota_return_status = .ERROR_USER_DECLINED ∧
      (∀ f err, Event.esp_ota_begin f err ∉ (ota_process env req m).trace) ∧
      (∀ d err, Event.esp_ota_write d err ∉ (ota_process env req m).trace) ∧
      (∀ err, Event.esp_ota_end err ∉ (ota_process env req m).trace) ∧
      (∀ msg, Event.await_error_activity msg ∉ (ota_process env req m).trace) := by
  refine ⟨(InitFailInv_run env req n).2.2.1 ret ev_id h hdecl, ?_⟩
  intro m hm
  obtain ⟨k, rfl⟩ : ∃ k, m = k + 1 := ⟨m - 1, by omega⟩
  have hk := ota_process_trace_mono env req n k (by omega) _ h
  have hk1 := ota_process_trace_mono env req n (k + 1) (by omega) _ h
  obtain ⟨_, _, hC, hD⟩ := InitFailInv_run env req k
  obtain ⟨d1, d2, d3, _⟩ := hD _ (hC ret ev_id hk hdecl) (by simp)
  obtain ⟨_, _, hC', hD'⟩ := InitFailInv_run env req (k + 1)
  obtain ⟨e1, _, _, e4, e5, e6⟩ := hD' _ (hC' ret ev_id hk1 hdecl) (by simp)
  refine ⟨?_, e1, ?_, ?_, ?_, ?_⟩
  · show (run env (k + 1) (ota_start env req)).pc = .returned
    rw [run_succ]
    exact cleanup_returns env _ d3 (by rw [show (run env k (ota_start env req)).ota_return_status = _ from d1]; simp) d2
  · intro f err hmem
    have := e5 (by simp) _ hmem
    simp [Event.is_esp_ota_begin] at this
  · intro d err hmem
    have := (e4 _ hmem).1
    simp [Event.is_esp_ota_write] at this
  · intro err hmem
    have := (e4 _ hmem).2
    simp [Event.is_esp_ota_end] at this
  · intro msg hmem
    have := e6 rfl _ hmem
    simp [Event.is_await_error_activity] at this

/-- C10, witness: with a user who presses another button, the run on the
example request reaches the confirmation step after two transitions. -/
theorem user_declined_witness :
    Event.gui_activity_wait_event true 2 ∈ (ota_process decline_env example_request 2).trace ∧
    (true = false ∨ (2 : Int) ≠ decline_env.BTN_ACCEPT_OTA) ∧
    Event.ota_init .ERROR_USER_DECLINED ∈ (ota_process decline_env example_request 2).trace ∧
    ∀ m, 2 < m →
      (ota_process decline_env example_request m).pc = .returned ∧
      (ota_process decline_env example_request m).ota_return_status = .ERROR_USER_DECLINED ∧
      (∀ f err, Event.esp_ota_begin f err ∉ (ota_process decline_env example_request m).trace) ∧
      (∀ d err, Event.esp_ota_write d err ∉ (ota_process decline_env example_request m).trace) ∧
      (∀ err, Event.esp_ota_end err ∉ (ota_process decline_env example_request m).trace) ∧
      (∀ msg, Event.await_error_activity msg ∉
        (ota_process decline_env example_request m).trace) :=
  have h : Event.gui_activity_wait_event true 2 ∈
      (ota_process decline_env example_request 2).trace := by
    simp [ota_process, run, step, ota_start, example_request, chunk_step, handle_in_bin_data,
      reset_ctx, decline_env, example_env, u32, WORD, inner_step, decompress, tinfl_call, out_space, tinfl_flags, validate,
      ota_init, fill_decompress, sub32, UNCOMPRESSED_BUF_SIZE, TINFL_STATUS_DONE,
      TINFL_STATUS_NEEDS_MORE_INPUT, TINFL_STATUS_HAS_MORE_OUTPUT, ESP_OK, strnlen,
      VERSION_STRING_MAX_LENGTH, confirmation, confirmation_calls]
  have hd : true = false ∨ (2 : Int) ≠ decline_env.BTN_ACCEPT_OTA := by
    right; simp [decline_env, example_env]
  ⟨h, hd, user_declined decline_env example_request 2 true 2 h hd⟩

/-- The calls of one pass of the inner loop: `tinfl_decompress`, the calls of
`ota_init` and `esp_ota_write`; no reply is among them. -/
theorem inner_step_no_reply {σ : Type} (env : Env σ) (s : State σ) :
    ∃ post, (inner_step env s).trace = s.trace ++ post ∧
      ∀ e ∈ post, e.is_send_ok = false := by
  have hk := ota_init_calls_kind env (decompress env s).uncompressed s.firmwaresize
  have hq : ∀ e ∈ (ota_init env (decompress env s).uncompressed s.firmwaresize).calls,
      e.is_send_ok = false := by
    intro e he
    have := hk e he
    revert this
    cases e <;> simp [Event.in_ota_init, Event.is_send_ok]
  rcases inner_step_cases env s with ⟨_, e⟩ | ⟨_, _, e⟩ | ⟨_, _, _, _, e⟩ |
    ⟨_, _, _, _, e⟩ | ⟨_, _, _, e⟩
  · exact ⟨[], by rw [e]; simp, by simp⟩
  · refine ⟨_, by rw [e, decompress_trace_eq], ?_⟩
    simp [Event.is_send_ok]
  · refine ⟨_, by rw [e, validate_trace, decompress_trace_eq, List.append_assoc,
      List.append_assoc], ?_⟩
    intro x hx
    simp only [List.mem_append, List.mem_singleton, List.mem_cons, List.not_mem_nil,
      or_false] at hx
    rcases hx with rfl | hx | rfl
    · rfl
    · exact hq x hx
    · rfl
  · refine ⟨_, by rw [e, flush_trace, validate_trace, decompress_trace_eq, List.append_assoc,
      List.append_assoc, List.append_assoc], ?_⟩
    intro x hx
    simp only [List.mem_append, List.mem_singleton, List.mem_cons, List.not_mem_nil,
      or_false] at hx
    rcases hx with rfl | hx | rfl | rfl
    · rfl
    · exact hq x hx
    · rfl
    · rfl
  · refine ⟨_, by rw [e, flush_trace, decompress_trace_eq, List.append_assoc], ?_⟩
    simp [Event.is_send_ok]

/-- From `cleanup` with a failure status the function ends at the next
transition; the calls it still makes are those of the failure branch of
`cleanup`, and the status stays. -/
theorem cleanup_tail {σ : Type} (env : Env σ) (req : Request) (n : Nat)
    (hpc : (ota_process env req n).pc = .cleanup)
    (hs : (ota_process env req n).ota_return_status ≠ .SUCCESS) :
    ∀ k, ∃ evs, (ota_process env req (n + k)).trace = (ota_process env req n).trace ++ evs ∧
      (∀ e ∈ evs, e.is_send_ok = false ∧ e.is_tinfl_decompress = false ∧
        e.is_esp_ota_write = false) ∧
      (ota_process env req (n + k)).ota_return_status
        = (ota_process env req n).ota_return_status ∧
      (0 < k → (ota_process env req (n + k)).pc.ended = true) := by
  intro k
  cases k with
  | zero => exact ⟨[], by simp, by simp, rfl, fun h => absurd h (by decide)⟩
  | succ k =>
    obtain ⟨evs, c1, c2, c3, c4⟩ := cleanup_failure env (ota_process env req n) hpc hs
    have hstate : ota_process env req (n + (k + 1)) = step env (ota_process env req n) := by
      have : n + (k + 1) = (n + 1) + k := by omega
      rw [this, ota_process_add, ota_process_succ]
      exact ended_run env _ c3 k
    rw [hstate]
    refine ⟨evs, c1, ?_, c4, fun _ => c3⟩
    intro e he
    have := c2 e he
    revert this
    cases e <;> simp [Event.in_failed_cleanup, Event.is_tinfl_decompress,
      Event.is_esp_ota_write, Event.is_send_ok]

/-- The check of ota.c:323 when it fails. -/
theorem check_fails {σ : Type} (env : Env σ) (req : Request) (n : Nat)
    (hpc : (ota_process env req n).pc = .chunk_end)
    (hfail : decompress_failed (ota_process env req n)) :
    ∀ k, ∃ post,
      (ota_process env req (n + 1 + k)).trace = (ota_process env req n).trace ++ post ∧
      (∀ e ∈ post, e.is_send_ok = false ∧ e.is_tinfl_decompress = false ∧
        e.is_esp_ota_write = false) ∧
      (ota_process env req (n + 1 + k)).ota_return_status = .ERROR_DECOMPRESS ∧
      (k = 0 → (ota_process env req (n + 1 + k)).pc = .cleanup) ∧
      (0 < k → (ota_process env req (n + 1 + k)).pc.ended = true) := by
  have h1 : (∃ pre, (ota_process env req (n + 1)).trace =
        (ota_process env req n).trace ++ pre ∧
        ∀ e ∈ pre, e.is_send_ok = false ∧ e.is_tinfl_decompress = false ∧
          e.is_esp_ota_write = false) ∧
      (ota_process env req (n + 1)).pc = .cleanup ∧
      (ota_process env req (n + 1)).ota_return_status = .ERROR_DECOMPRESS := by
    rw [ota_process_succ, step, hpc]
    simp only []
    rcases chunk_end_step_cases (ota_process env req n) with ⟨_, e⟩ | ⟨h, _⟩
    · rw [e]
      refine ⟨⟨_, rfl, ?_⟩, rfl, rfl⟩
      intro x hx
      split_ifs at hx
      · simp only [List.mem_singleton] at hx
        rw [hx]
        exact ⟨rfl, rfl, rfl⟩
      · simp at hx
    · exact absurd hfail h
  obtain ⟨⟨pre, t1, q1⟩, p1, s1⟩ := h1
  intro k
  obtain ⟨evs, c1, c2, c3, c4⟩ := cleanup_tail env req (n + 1) p1 (by rw [s1]; simp) k
  refine ⟨pre ++ evs, by rw [c1, t1, List.append_assoc], ?_, by rw [c3, s1], ?_, c4⟩
  · intro e he
    rcases List.mem_append.mp he with he | he
    · exact q1 e he
    · exact c2 e he
  · intro hk
    subst hk
    exact p1

theorem failing_init (st : Int) (buf : List Byte) (fw : Nat) :
    ota_init (failing_write_env st) buf fw = ⟨.SUCCESS,
      [Event.esp_ota_get_partition_description ESP_OK,
       Event.esp_efuse_check_secure_version 0 true,
       Event.esp_ota_get_next_update_partition (some 1),
       Event.make_ota_versions_activity,
       Event.gui_activity_wait_event true 1,
       Event.display_progress_bar_activity,
       Event.esp_ota_begin fw ESP_OK], some 1⟩ := by
  simp [ota_init, failing_write_env, short_env, ESP_OK, strnlen, VERSION_STRING_MAX_LENGTH,
    confirmation, confirmation_calls]

theorem failing_env_decompress (st : Int) :
    (failing_write_env st).tinfl_decompress = short_decompress st := rfl

theorem failing_env_write (st : Int) (k : Nat) (d : List Byte) :
    (failing_write_env st).esp_ota_write k d = if k = 0 then ESP_OK else ESP_FAIL := rfl

theorem failing_env_end (st : Int) : (failing_write_env st).esp_ota_end = ESP_OK := rfl

theorem failing_env_init (st : Int) : (failing_write_env st).tinfl_init = 0 := rfl

theorem failing_env_buf (st : Int) : (failing_write_env st).JADE_OTA_BUF_SIZE = 4096 := rfl

theorem failing_run_1 :
    ota_process (failing_write_env TINFL_STATUS_FAILED) short_request 1 =
      { pc := .inner_loop, source := 0, uploading := true,
        ota_return_status := .SUCCESS, prevalidated := false,
        ota_end_called := false, firmwaresize := 40000,
        compressedsize := 2, update_partition := none,
        decomp := 0, remaining_compressed := 2, remaining := 40000,
        status := TINFL_STATUS_NEEDS_MORE_INPUT, uncompressed := [],
        binctx := { id := "1", inbound_buf := some [0, 0], len := 2, expected_source := 0,
                    error := false },
        length := 2, data_buf := [0, 0],
        n_writes := 0, inbox := [complete_msg],
        trace := [Event.reply_to_message_ok,
                Event.display_message "Preparing for firmware update",
                Event.get_in_message
                  { source := 0, id := "1", method := "ota_data", params_bytes := some [0, 0] }] } := by
  simp [ota_process, run, step, ota_start, short_request, chunk_step, handle_in_bin_data,
    reset_ctx, failing_env_init, failing_env_buf, u32, WORD]

theorem failing_run_2 :
    ota_process (failing_write_env TINFL_STATUS_FAILED) short_request 2 =
      { pc := .inner_loop, source := 0, uploading := true,
        ota_return_status := .SUCCESS, prevalidated := true,
        ota_end_called := false, firmwaresize := 40000,
        compressedsize := 2, update_partition := some 1,
        decomp := 1, remaining_compressed := 1, remaining := 7232,
        status := TINFL_STATUS_HAS_MORE_OUTPUT, uncompressed := [],
        binctx := { id := "1", inbound_buf := some [0, 0], len := 2, expected_source := 0,
                    error := false },
        length := 1, data_buf := [0],
        n_writes := 1, inbox := [complete_msg],
        trace := [Event.reply_to_message_ok,
                Event.display_message "Preparing for firmware update",
                Event.get_in_message
                  { source := 0, id := "1", method := "ota_data", params_bytes := some [0, 0] },
                Event.tinfl_decompress 2 32768 1 TINFL_STATUS_HAS_MORE_OUTPUT 1 32768,
                Event.esp_ota_get_partition_description ESP_OK,
                Event.esp_efuse_check_secure_version 0 true,
                Event.esp_ota_get_next_update_partition (some 1),
                Event.make_ota_versions_activity,
                Event.gui_activity_wait_event true 1,
                Event.display_progress_bar_activity,
                Event.esp_ota_begin 40000 ESP_OK,
                Event.ota_init .SUCCESS,
                Event.esp_ota_write (zeros 32768) ESP_OK] } := by
  rw [ota_process_succ, failing_run_1]
  simp [step, inner_step, decompress, tinfl_call, out_space, tinfl_flags, validate, flush,
    chunk_step, chunk_end_step, upload_complete_step, otacomplete_step, cleanup_step,
    complete_msg, MESSAGES, failing_init, sub32_2_1, sub32_1_1, sub32_full_0,
    sub32_40000_full, UNCOMPRESSED_BUF_SIZE, TINFL_STATUS_DONE,
    TINFL_STATUS_NEEDS_MORE_INPUT, TINFL_STATUS_HAS_MORE_OUTPUT, TINFL_STATUS_FAILED,
    TINFL_FLAG_PARSE_ZLIB_HEADER, TINFL_FLAG_HAS_MORE_INPUT, ESP_OK, ESP_FAIL,
    ESP_ERR_OTA_VALIDATE_FAILED, failing_env_decompress, failing_env_write, failing_env_end,
    short_decompress]

theorem failing_run_3 :
    ota_process (failing_write_env TINFL_STATUS_FAILED) short_request 3 =
      { pc := .cleanup, source := 0, uploading := true,
        ota_return_status := .ERROR_WRITE, prevalidated := true,
        ota_end_called := false, firmwaresize := 40000,
        compressedsize := 2, update_partition := some 1,
        decomp := 2, remaining_compressed := 0, remaining := 7232,
        status := TINFL_STATUS_FAILED, uncompressed := [0, 0, 0],
        binctx := { id := "1", inbound_buf := some [0, 0], len := 2, expected_source := 0,
                    error := false },
        length := 0, data_buf := [],
        n_writes := 2, inbox := [complete_msg],
        trace := [Event.reply_to_message_ok,
                Event.display_message "Preparing for firmware update",
                Event.get_in_message
                  { source := 0, id := "1", method := "ota_data", params_bytes := some [0, 0] },
                Event.tinfl_decompress 2 32768 1 TINFL_STATUS_HAS_MORE_OUTPUT 1 32768,
                Event.esp_ota_get_partition_description ESP_OK,
                Event.esp_efuse_check_secure_version 0 true,
                Event.esp_ota_get_next_update_partition (some 1),
                Event.make_ota_versions_activity,
                Event.gui_activity_wait_event true 1,
                Event.display_progress_bar_activity,
                Event.esp_ota_begin 40000 ESP_OK,
                Event.ota_init .SUCCESS,
                Event.esp_ota_write (zeros 32768) ESP_OK,
                Event.tinfl_decompress 1 32768 1 TINFL_STATUS_FAILED 1 3,
                Event.esp_ota_write [0, 0, 0] ESP_FAIL] } := by
  rw [ota_process_succ, failing_run_2]
  simp [step, inner_step, decompress, tinfl_call, out_space, tinfl_flags, validate, flush,
    chunk_step, chunk_end_step, upload_complete_step, otacomplete_step, cleanup_step,
    complete_msg, MESSAGES, failing_init, sub32_2_1, sub32_1_1, sub32_full_0,
    sub32_40000_full, UNCOMPRESSED_BUF_SIZE, TINFL_STATUS_DONE,
    TINFL_STATUS_NEEDS_MORE_INPUT, TINFL_STATUS_HAS_MORE_OUTPUT, TINFL_STATUS_FAILED,
    TINFL_FLAG_PARSE_ZLIB_HEADER, TINFL_FLAG_HAS_MORE_INPUT, ESP_OK, ESP_FAIL,
    ESP_ERR_OTA_VALIDATE_FAILED, failing_env_decompress, failing_env_write, failing_env_end,
    short_decompress]

theorem failing_run_4 :
    ota_process (failing_write_env TINFL_STATUS_FAILED) short_request 4 =
      { pc := .returned, source := 0, uploading := true,
        ota_return_status := .ERROR_WRITE, prevalidated := true,
        ota_end_called := false, firmwaresize := 40000,
        compressedsize := 2, update_partition := some 1,
        decomp := 2, remaining_compressed := 0, remaining := 7232,
        status := TINFL_STATUS_FAILED, uncompressed := [0, 0, 0],
        binctx := { id := "1", inbound_buf := some [0, 0], len := 2, expected_source := 0,
                    error := false },
        length := 0, data_buf := [],
        n_writes := 2, inbox := [complete_msg],
        trace := [Event.reply_to_message_ok,
                Event.display_message "Preparing for firmware update",
                Event.get_in_message
                  { source := 0, id := "1", method := "ota_data", params_bytes := some [0, 0] },
                Event.tinfl_decompress 2 32768 1 TINFL_STATUS_HAS_MORE_OUTPUT 1 32768,
                Event.esp_ota_get_partition_description ESP_OK,
                Event.esp_efuse_check_secure_version 0 true,
                Event.esp_ota_get_next_update_partition (some 1),
                Event.make_ota_versions_activity,
                Event.gui_activity_wait_event true 1,
                Event.display_progress_bar_activity,
                Event.esp_ota_begin 40000 ESP_OK,
                Event.ota_init .SUCCESS,
                Event.esp_ota_write (zeros 32768) ESP_OK,
                Event.tinfl_decompress 1 32768 1 TINFL_STATUS_FAILED 1 3,
                Event.esp_ota_write [0, 0, 0] ESP_FAIL,
                Event.esp_ota_end ESP_OK,
                Event.reject_message_with_id "1" .CBOR_RPC_INTERNAL_ERROR "Error uploading OTA data"
                  "ERROR_WRITE",
                Event.await_error_activity "ERROR_WRITE"] } := by
  rw [ota_process_succ, failing_run_3]
  simp [step, inner_step, decompress, tinfl_call, out_space, tinfl_flags, validate, flush,
    chunk_step, chunk_end_step, upload_complete_step, otacomplete_step, cleanup_step,
    complete_msg, MESSAGES, failing_init, sub32_2_1, sub32_1_1, sub32_full_0,
    sub32_40000_full, UNCOMPRESSED_BUF_SIZE, TINFL_STATUS_DONE,
    TINFL_STATUS_NEEDS_MORE_INPUT, TINFL_STATUS_HAS_MORE_OUTPUT, TINFL_STATUS_FAILED,
    TINFL_FLAG_PARSE_ZLIB_HEADER, TINFL_FLAG_HAS_MORE_INPUT, ESP_OK, ESP_FAIL,
    ESP_ERR_OTA_VALIDATE_FAILED, failing_env_decompress, failing_env_write, failing_env_end,
    short_decompress]

/-- C11, the claim fails as stated.  On a device whose second write to the
partition fails, the run of `short_request` with the decompressor
`short_decompress TINFL_STATUS_FAILED` stands in the inner loop after two
transitions, validated, with the test of the loop true; the next call of
`tinfl_decompress` reports `TINFL_STATUS_FAILED`, an error status; the flush
that the same pass makes (ota.c:291-308) fails, and the session ends with
`ERROR_WRITE`, not with `ERROR_DECOMPRESS`. -/
theorem write_failure_overrides :
    (ota_process (failing_write_env TINFL_STATUS_FAILED) short_request 2).pc = .inner_loop ∧
    ((ota_process (failing_write_env TINFL_STATUS_FAILED) short_request 2).length > 0 ∧
      (ota_process (failing_write_env TINFL_STATUS_FAILED) short_request 2).remaining > 0 ∧
      (ota_process (failing_write_env TINFL_STATUS_FAILED) short_request 2).status
        > TINFL_STATUS_DONE) ∧
    (decompress (failing_write_env TINFL_STATUS_FAILED)
      (ota_process (failing_write_env TINFL_STATUS_FAILED) short_request 2)).status
        = TINFL_STATUS_FAILED ∧
    TINFL_STATUS_FAILED < TINFL_STATUS_DONE ∧
    ∀ k, (ota_process (failing_write_env TINFL_STATUS_FAILED) short_request (4 + k)).pc
        = .returned ∧
      (ota_process (failing_write_env TINFL_STATUS_FAILED) short_request
        (4 + k)).ota_return_status = .ERROR_WRITE ∧
      (ota_process (failing_write_env TINFL_STATUS_FAILED) short_request
        (4 + k)).ota_return_status ≠ .ERROR_DECOMPRESS := by
  refine ⟨by rw [failing_run_2], ?_, ?_, by decide, fun k => ?_⟩
  · simp [failing_run_2, TINFL_STATUS_HAS_MORE_OUTPUT, TINFL_STATUS_DONE]
  · rw [failing_run_2]
    simp [decompress, tinfl_call, failing_env_decompress, short_decompress]
  · have hstate : ota_process (failing_write_env TINFL_STATUS_FAILED) short_request (4 + k) =
        ota_process (failing_write_env TINFL_STATUS_FAILED) short_request 4 := by
      rw [ota_process_add]
      exact ended_run _ _ (by rw [failing_run_4]; rfl) k
    rw [hstate, failing_run_4]
    exact ⟨rfl, rfl, by simp⟩

/-- C11, amended.  At every point `n` of every run:
(1) A pass of the inner loop sends no reply, and when the test of the loop
fails (no input left, nothing left to write, or a status at or below
`TINFL_STATUS_DONE`) the next transition leads to the check of ota.c:323 with
the state unchanged.
(2) At the check, if the status that `tinfl_decompress` reported last is an
error (`status < TINFL_STATUS_DONE`), or is `TINFL_STATUS_DONE` while
`remaining_compressed > 0`, or is not `TINFL_STATUS_DONE` while
`remaining_compressed == 0`, then at every later point the status of the
session is `ERROR_DECOMPRESS`, the calls added to the trace contain no
`send_ok`, no `tinfl_decompress` and no `esp_ota_write`, the next program point
is `cleanup` and from the second transition on the function has ended.
(3) At the check, in every other case the chunk is acknowledged: `send_ok` with
the id of the frame is the last call of the transition and the chunk loop goes
on with the status of the session unchanged.
(4) A pass of the inner loop, that is a call of `tinfl_decompress` and the
flush that may follow it, either stays in the loop with the status that the
call reported and the status of the session unchanged, or its flush fails:
then the next program point is `cleanup`, the status of the session is
`ERROR_WRITE`, or the status other than `SUCCESS` that `ota_init` returned in a
session not yet validated, it stays so, no `send_ok` follows, and the function
has ended one transition later.
(5) So when a call of `tinfl_decompress` reports an error, or reports
`TINFL_STATUS_DONE` while compressed bytes remain, and the flush of that pass
does not fail, the session ends with `ERROR_DECOMPRESS`: from the third
transition on the status is `ERROR_DECOMPRESS`, no `send_ok` has been sent
since the call, and one transition later the function has ended. -/
theorem decompression_errors {σ : Type} (env : Env σ) (req : Request) (n : Nat) :
    ((ota_process env req n).pc = .inner_loop →
      (∃ post, (ota_process env req (n + 1)).trace = (ota_process env req n).trace ++ post ∧
        ∀ e ∈ post, e.is_send_ok = false) ∧
      (¬ ((ota_process env req n).length > 0 ∧ (ota_process env req n).remaining > 0 ∧
          (ota_process env req n).status > TINFL_STATUS_DONE) →
        ota_process env req (n + 1) = { ota_process env req n with pc := .chunk_end })) ∧
    ((ota_process env req n).pc = .chunk_end → decompress_failed (ota_process env req n) →
      ∀ k, ∃ post,
        (ota_process env req (n + 1 + k)).trace = (ota_process env req n).trace ++ post ∧
        (∀ e ∈ post, e.is_send_ok = false ∧ e.is_tinfl_decompress = false ∧
          e.is_esp_ota_write = false) ∧
        (ota_process env req (n + 1 + k)).ota_return_status = .ERROR_DECOMPRESS ∧
        (k = 0 → (ota_process env req (n + 1 + k)).pc = .cleanup) ∧
        (0 < k → (ota_process env req (n + 1 + k)).pc.ended = true)) ∧
    ((ota_process env req n).pc = .chunk_end → ¬ decompress_failed (ota_process env req n) →
      (ota_process env req (n + 1)).pc = .chunk_loop ∧
      (ota_process env req (n + 1)).ota_return_status
        = (ota_process env req n).ota_return_status ∧
      ∃ pre, (ota_process env req (n + 1)).trace = (ota_process env req n).trace ++ pre ++
          [Event.send_ok (ota_process env req n).binctx.id] ∧
        ∀ e ∈ pre, e.is_send_ok = false) ∧
    ((ota_process env req n).pc = .inner_loop →
      ((ota_process env req n).length > 0 ∧ (ota_process env req n).remaining > 0 ∧
        (ota_process env req n).status > TINFL_STATUS_DONE) →
      ((ota_process env req (n + 1)).pc = .inner_loop ∧
        (ota_process env req (n + 1)).status
          = (decompress env (ota_process env req n)).status ∧
        (ota_process env req (n + 1)).remaining_compressed
          = (decompress env (ota_process env req n)).remaining_compressed ∧
        (ota_process env req (n + 1)).ota_return_status
          = (ota_process env req n).ota_return_status) ∨
      ((ota_process env req (n + 1)).pc = .cleanup ∧
        ((ota_process env req (n + 1)).ota_return_status = .ERROR_WRITE ∨
          ((ota_process env req n).prevalidated = false ∧
            (ota_process env req (n + 1)).ota_return_status =
              (ota_init env (decompress env (ota_process env req n)).uncompressed
                (ota_process env req n).firmwaresize).res ∧
            (ota_process env req (n + 1)).ota_return_status ≠ .SUCCESS)) ∧
        ∀ k, ∃ post,
          (ota_process env req (n + 1 + k)).trace = (ota_process env req n).trace ++ post ∧
          (∀ e ∈ post, e.is_send_ok = false) ∧
          (ota_process env req (n + 1 + k)).ota_return_status
            = (ota_process env req (n + 1)).ota_return_status ∧
          (0 < k → (ota_process env req (n + 1 + k)).pc.ended = true))) ∧
    ((ota_process env req n).pc = .inner_loop →
      ((ota_process env req n).length > 0 ∧ (ota_process env req n).remaining > 0 ∧
        (ota_process env req n).status > TINFL_STATUS_DONE) →
      ((decompress env (ota_process env req n)).status < TINFL_STATUS_DONE ∨
        ((decompress env (ota_process env req n)).status = TINFL_STATUS_DONE ∧
          (decompress env (ota_process env req n)).remaining_compressed > 0)) →
      (ota_process env req (n + 1)).pc = .inner_loop →
      ∀ k, ∃ post,
        (ota_process env req (n + 3 + k)).trace = (ota_process env req n).trace ++ post ∧
        (∀ e ∈ post, e.is_send_ok = false) ∧
        (ota_process env req (n + 3 + k)).ota_return_status = .ERROR_DECOMPRESS ∧
        (0 < k → (ota_process env req (n + 3 + k)).pc.ended = true)) := by
  -- the transition out of the inner loop when its test fails
  have hexit : ∀ j, (ota_process env req j).pc = .inner_loop →
      ¬ ((ota_process env req j).length > 0 ∧ (ota_process env req j).remaining > 0 ∧
          (ota_process env req j).status > TINFL_STATUS_DONE) →
      ota_process env req (j + 1) = { ota_process env req j with pc := .chunk_end } := by
    intro j hpc hc
    rw [ota_process_succ, step, hpc]
    simp only []
    rcases inner_step_cases env (ota_process env req j) with ⟨_, e⟩ | ⟨h, _⟩ | ⟨h, _⟩ |
      ⟨h, _⟩ | ⟨h, _⟩
    · exact e
    all_goals exact absurd h hc
  have hquiet : ∀ j, (ota_process env req j).pc = .inner_loop →
      ∃ post, (ota_process env req (j + 1)).trace = (ota_process env req j).trace ++ post ∧
        ∀ e ∈ post, e.is_send_ok = false := by
    intro j hpc
    rw [ota_process_succ, step, hpc]
    exact inner_step_no_reply env _
  -- a pass of the inner loop
  have hpass : (ota_process env req n).pc = .inner_loop →
      ((ota_process env req n).length > 0 ∧ (ota_process env req n).remaining > 0 ∧
        (ota_process env req n).status > TINFL_STATUS_DONE) →
      ((ota_process env req (n + 1)).pc = .inner_loop ∧
        (ota_process env req (n + 1)).status
          = (decompress env (ota_process env req n)).status ∧
        (ota_process env req (n + 1)).remaining_compressed
          = (decompress env (ota_process env req n)).remaining_compressed ∧
        (ota_process env req (n + 1)).ota_return_status
          = (ota_process env req n).ota_return_status) ∨
      ((ota_process env req (n + 1)).pc = .cleanup ∧
        ((ota_process env req (n + 1)).ota_return_status = .ERROR_WRITE ∨
          ((ota_process env req n).prevalidated = false ∧
            (ota_process env req (n + 1)).ota_return_status =
              (ota_init env (decompress env (ota_process env req n)).uncompressed
                (ota_process env req n).firmwaresize).res ∧
            (ota_process env req (n + 1)).ota_return_status ≠ .SUCCESS))) := by
    intro hpc hc
    have hfl : ∀ t : State σ, t.pc = .inner_loop →
        ((flush env t).pc = .inner_loop ∧ (flush env t).ota_return_status = t.ota_return_status)
        ∨ ((flush env t).pc = .cleanup ∧ (flush env t).ota_return_status = .ERROR_WRITE) := by
      intro t ht
      rcases flush_pc env t with ⟨a, b⟩ | ⟨a, b⟩
      · exact Or.inl ⟨by rw [a, ht], b⟩
      · exact Or.inr ⟨a, b⟩
    have hdpc : (decompress env (ota_process env req n)).pc = .inner_loop := hpc
    rw [ota_process_succ, step, hpc]
    simp only []
    rcases inner_step_cases env (ota_process env req n) with ⟨h, _⟩ | ⟨_, _, e⟩ |
      ⟨_, _, hpv, hi, e⟩ | ⟨_, _, hpv, hi, e⟩ | ⟨_, _, hpv, e⟩
    · exact absurd hc h
    · rw [e]
      exact Or.inl ⟨hdpc, rfl, rfl, rfl⟩
    · rw [e]
      have hi1 : (ota_init env (decompress env (ota_process env req n)).uncompressed
          (decompress env (ota_process env req n)).firmwaresize).res ≠ .SUCCESS := hi
      obtain ⟨_, v2, v3⟩ := validate_fail env _ hi1
      exact Or.inr ⟨v2, Or.inr ⟨hpv, v3, by rw [v3]; exact hi⟩⟩
    · rw [e]
      have hi1 : (ota_init env (decompress env (ota_process env req n)).uncompressed
          (decompress env (ota_process env req n)).firmwaresize).res = .SUCCESS := hi
      obtain ⟨_, v2, v3⟩ := validate_ok env _ hi1
      rcases hfl (validate env (decompress env (ota_process env req n)))
          (by rw [v2]; exact hdpc) with ⟨a, b⟩ | ⟨a, b⟩
      · refine Or.inl ⟨a, ?_, ?_, ?_⟩
        · rw [flush_status, validate_status]
        · rw [flush_remaining_compressed, validate_remaining_compressed]
        · rw [b, v3]; rfl
      · exact Or.inr ⟨a, Or.inl b⟩
    · rw [e]
      rcases hfl (decompress env (ota_process env req n)) hdpc with ⟨a, b⟩ | ⟨a, b⟩
      · refine Or.inl ⟨a, ?_, ?_, ?_⟩
        · rw [flush_status]
        · rw [flush_remaining_compressed]
        · rw [b]; rfl
      · exact Or.inr ⟨a, Or.inl b⟩
  refine ⟨fun hpc => ⟨hquiet n hpc, hexit n hpc⟩, check_fails env req n, fun hpc hgood => ?_,
    fun hpc hc => ?_, fun hpc hc herr hp1 k => ?_⟩
  · rw [ota_process_succ, step, hpc]
    simp only []
    rcases chunk_end_step_cases (ota_process env req n) with ⟨h, _⟩ | ⟨_, e⟩
    · exact absurd h hgood
    · rw [e]
      refine ⟨rfl, rfl, _, rfl, ?_⟩
      intro x hx
      split_ifs at hx
      · simp only [List.mem_singleton] at hx
        rw [hx]
        rfl
      · simp at hx
  · rcases hpass hpc hc with h | ⟨p1, hs⟩
    · exact Or.inl h
    · refine Or.inr ⟨p1, hs, fun k => ?_⟩
      have hne : (ota_process env req (n + 1)).ota_return_status ≠ .SUCCESS := by
        rcases hs with h | ⟨_, _, h⟩
        · rw [h]; simp
        · exact h
      obtain ⟨post1, t1, q1⟩ := hquiet n hpc
      obtain ⟨evs, c1, c2, c3, c4⟩ := cleanup_tail env req (n + 1) p1 hne k
      refine ⟨post1 ++ evs, by rw [c1, t1, List.append_assoc], ?_, c3, c4⟩
      intro e he
      rcases List.mem_append.mp he with he | he
      · exact q1 e he
      · exact (c2 e he).1
  · rcases hpass hpc hc with ⟨_, hst, hrc, _⟩ | ⟨p1, _⟩
    · -- the test of the loop fails, then the check fails
      have hle : (ota_process env req (n + 1)).status ≤ TINFL_STATUS_DONE := by
        rw [hst]
        rcases herr with h | ⟨h, _⟩
        · exact le_of_lt h
        · exact le_of_eq h
      have h2 := hexit (n + 1) hp1 (fun x => absurd x.2.2 (not_lt.mpr hle))
      have hp2 : (ota_process env req (n + 1 + 1)).pc = .chunk_end := by rw [h2]
      have hf2 : decompress_failed (ota_process env req (n + 1 + 1)) := by
        have e1 : (ota_process env req (n + 1 + 1)).status
            = (ota_process env req (n + 1)).status := by rw [h2]
        have e2 : (ota_process env req (n + 1 + 1)).remaining_compressed
            = (ota_process env req (n + 1)).remaining_compressed := by rw [h2]
        unfold decompress_failed
        rw [e1, e2, hst, hrc]
        rcases herr with h | h
        · exact Or.inr (Or.inl h)
        · exact Or.inr (Or.inr h)
      obtain ⟨post, c1, c2, c3, _, c5⟩ := check_fails env req (n + 1 + 1) hp2 hf2 k
      obtain ⟨post1, t1, q1⟩ := hquiet n hpc
      have t2 : (ota_process env req (n + 1 + 1)).trace = (ota_process env req (n + 1)).trace := by
        rw [h2]
      have hidx : n + 3 + k = n + 1 + 1 + 1 + k := by omega
      rw [hidx]
      refine ⟨post1 ++ post, by rw [c1, t2, t1, List.append_assoc], ?_, c3, c5⟩
      intro e he
      rcases List.mem_append.mp he with he | he
      · exact q1 e he
      · exact (c2 e he).1
    · rw [hp1] at p1
      cases p1

/-- C11, amended, at an example: a decompressor that reports
`TINFL_STATUS_FAILED` at its second call, on a device whose writes succeed.
After two transitions the run stands in the inner loop with the test true, the
call reports the error, the flush of the pass succeeds, and the session ends
with `ERROR_DECOMPRESS` and no `send_ok`. -/
theorem decompression_errors_witness :
    (ota_process (short_env TINFL_STATUS_FAILED) short_request 2).pc = .inner_loop ∧
    (decompress (short_env TINFL_STATUS_FAILED)
      (ota_process (short_env TINFL_STATUS_FAILED) short_request 2)).status
        < TINFL_STATUS_DONE ∧
    (ota_process (short_env TINFL_STATUS_FAILED) short_request (2 + 1)).pc = .inner_loop ∧
    ∀ k, ∃ post,
      (ota_process (short_env TINFL_STATUS_FAILED) short_request (2 + 3 + k)).trace =
        (ota_process (short_env TINFL_STATUS_FAILED) short_request 2).trace ++ post ∧
      (∀ e ∈ post, e.is_send_ok = false) ∧
      (ota_process (short_env TINFL_STATUS_FAILED) short_request (2 + 3 + k)).ota_return_status
        = .ERROR_DECOMPRESS ∧
      (0 < k → (ota_process (short_env TINFL_STATUS_FAILED) short_request (2 + 3 + k)).pc.ended
        = true) :=
  have hpc : (ota_process (short_env TINFL_STATUS_FAILED) short_request 2).pc = .inner_loop := by
    rw [short_run_2]
  have hc : (ota_process (short_env TINFL_STATUS_FAILED) short_request 2).length > 0 ∧
      (ota_process (short_env TINFL_STATUS_FAILED) short_request 2).remaining > 0 ∧
      (ota_process (short_env TINFL_STATUS_FAILED) short_request 2).status
        > TINFL_STATUS_DONE := by
    simp [short_run_2, TINFL_STATUS_HAS_MORE_OUTPUT, TINFL_STATUS_DONE]
  have hst : (decompress (short_env TINFL_STATUS_FAILED)
      (ota_process (short_env TINFL_STATUS_FAILED) short_request 2)).status
        < TINFL_STATUS_DONE := by
    rw [short_run_2]
    simp [decompress, tinfl_call, short_env_decompress, short_decompress, TINFL_STATUS_FAILED,
      TINFL_STATUS_DONE]
  have hp1 : (ota_process (short_env TINFL_STATUS_FAILED) short_request (2 + 1)).pc
      = .inner_loop := by
    rw [short_run_3_failed]
  ⟨hpc, hst, hp1,
    (decompression_errors (short_env TINFL_STATUS_FAILED) short_request 2).2.2.2.2 hpc hc
      (Or.inl hst) hp1⟩

/-- C12, the claim fails as stated.  In the run of the example request with
a decompressor that is done after 32771 of the 40000 bytes declared,
`esp_ota_begin` has succeeded, the partition write is never finalized, and the
function returns with `ERROR_DECOMPRESS`; the error reply to the peer
(`INTERNAL_ERROR`, "Error completing OTA") is sent at `otacomplete`, directly
before the `esp_ota_end` that aborts the partition write in `cleanup`: the
last four calls of the run are the receipt of `ota_complete`, that error
reply, the abort and the error screen. -/
theorem reply_before_abort :
    (ota_process (short_env TINFL_STATUS_DONE) short_request 9).pc = .returned ∧
    (ota_process (short_env TINFL_STATUS_DONE) short_request 9).ota_return_status
      = .ERROR_DECOMPRESS ∧
    (ota_process (short_env TINFL_STATUS_DONE) short_request 9).ota_end_called = false ∧
    Event.esp_ota_begin 40000 ESP_OK ∈
      (ota_process (short_env TINFL_STATUS_DONE) short_request 9).trace ∧
    (ota_process (short_env TINFL_STATUS_DONE) short_request 9).trace =
      (ota_process (short_env TINFL_STATUS_DONE) short_request 7).trace ++
        [Event.load_in_message complete_msg,
          Event.reject_message .CBOR_RPC_INTERNAL_ERROR "Error completing OTA"
            (some "ERROR_DECOMPRESS"),
          Event.esp_ota_end ESP_OK,
          Event.await_error_activity "ERROR_DECOMPRESS"] := by
  rw [short_done_9, short_done_7]
  exact ⟨rfl, rfl, rfl, by simp, rfl⟩

/-- C12 as amended.  Let the sizes of the request fit a 32-bit word and let
the function have ended (returned, restarted or stopped at an assertion).
(1) If `esp_ota_begin` has succeeded and the finalize of ota.c:344 was not
reached, so that the status is not `SUCCESS`, then `esp_ota_end` was called
exactly at one place, in `cleanup`, and the failure reports of `cleanup`, the
error reply tagged with the id of the data frame and the error screen, all
come after it: before it there is neither of them nor another `esp_ota_end`.
An error reply to the completion message, which `otacomplete` sends when the
chunk loop ended with `remaining != 0`, is not among them: it precedes the
abort.
(2) If `esp_ota_begin` has not succeeded, `esp_ota_end` is never called. -/
theorem cleanup_on_failure {σ : Type} (env : Env σ) (req : Request)
    (h32 : ∀ fw, req.fwsize = some fw → fw < WORD) (n : Nat)
    (hend : (ota_process env req n).pc.ended = true) :
    ((∃ f, Event.esp_ota_begin f ESP_OK ∈ (ota_process env req n).trace) →
      (ota_process env req n).ota_end_called = false →
      (ota_process env req n).ota_return_status ≠ .SUCCESS ∧
      ∃ pre err post, (ota_process env req n).trace = pre ++ Event.esp_ota_end err :: post ∧
        (∀ e ∈ pre, e.is_failure_report = false ∧ e.is_esp_ota_end = false) ∧
        (∀ e ∈ post, e.is_failure_report = true)) ∧
    ((¬ ∃ f, Event.esp_ota_begin f ESP_OK ∈ (ota_process env req n).trace) →
      ∀ e ∈ (ota_process env req n).trace, e.is_esp_ota_end = false) := by
  by_cases hgood : ∃ fw cmp, req.fwsize = some fw ∧ req.cmpsize = some cmp ∧ cmp < fw
  · obtain ⟨fw, cmp, hfw, hcmp, hlt⟩ := hgood
    obtain ⟨hi, hh⟩ := HandleInv_run env req fw cmp hfw hcmp hlt (h32 fw hfw) n
    refine ⟨fun hb hoe => ⟨fun hs => ?_, hh.hshape hend (hh.hbegin.mpr hb) hoe⟩, fun hb => ?_⟩
    · have hal : (ota_process env req n).pc.after_loop = true := by
        revert hend
        cases (ota_process env req n).pc <;> simp [Label.ended, Label.after_loop]
      rw [hi.hok hal hs] at hoe
      cases hoe
    · have hpf : (ota_process env req n).prevalidated = false := by
        cases hv : (ota_process env req n).prevalidated with
        | false => rfl
        | true => exact absurd (hh.hbegin.mp hv) hb
      have hoe : (ota_process env req n).ota_end_called = false := by
        cases hv : (ota_process env req n).ota_end_called with
        | false => rfl
        | true => rw [hi.hfin hv] at hpf; cases hpf
      have hc := hh.hcount
      rw [hoe, hpf] at hc
      simp only [Bool.false_eq_true, and_false, or_self, if_false] at hc
      rw [List.countP_eq_zero] at hc
      intro e he
      simpa using hc e he
  · obtain ⟨b1, _⟩ := ota_process_bad env req hgood n
    refine ⟨fun ⟨f, hb⟩ => ?_, fun _ e he => ?_⟩
    · rw [b1] at hb
      simp at hb
    · rw [b1] at he
      simp only [List.mem_singleton] at he
      rw [he]; rfl

/-- C12 as amended, at an example: the run of the example request with a
decompressor that is done after 32771 of the 40000 bytes declared has ended
after nine transitions, `esp_ota_begin` has succeeded and the finalize was not
reached; the abort splits the trace as stated. -/
theorem cleanup_on_failure_witness :
    (ota_process (short_env TINFL_STATUS_DONE) short_request 9).pc.ended = true ∧
    (∃ f, Event.esp_ota_begin f ESP_OK ∈
      (ota_process (short_env TINFL_STATUS_DONE) short_request 9).trace) ∧
    (ota_process (short_env TINFL_STATUS_DONE) short_request 9).ota_end_called = false ∧
    (ota_process (short_env TINFL_STATUS_DONE) short_request 9).ota_return_status
      ≠ .SUCCESS ∧
    ∃ pre err post, (ota_process (short_env TINFL_STATUS_DONE) short_request 9).trace =
        pre ++ Event.esp_ota_end err :: post ∧
      (∀ e ∈ pre, e.is_failure_report = false ∧ e.is_esp_ota_end = false) ∧
      (∀ e ∈ post, e.is_failure_report = true) :=
  have hend : (ota_process (short_env TINFL_STATUS_DONE) short_request 9).pc.ended = true := by
    rw [short_done_9]; rfl
  have hb : ∃ f, Event.esp_ota_begin f ESP_OK ∈
      (ota_process (short_env TINFL_STATUS_DONE) short_request 9).trace :=
    ⟨40000, by rw [short_done_9]; simp⟩
  have ho : (ota_process (short_env TINFL_STATUS_DONE) short_request 9).ota_end_called
      = false := by
    rw [short_done_9]
  ⟨hend, hb, ho,
    (cleanup_on_failure (short_env TINFL_STATUS_DONE) short_request
      (fun fw h => by
        have : fw = 40000 := by
          have h2 : short_request.fwsize = some 40000 := rfl
          rw [h2] at h
          exact (Option.some.inj h).symm
        rw [this]; decide) 9 hend).1 hb ho⟩

/-- The call of `oracle_decompress` that delivers a whole image of 32768 bytes
at the only byte of the stream. -/
theorem oracle_single_call (img : List Byte) (hl : img.length = 32768) (data : List Byte)
    (f : Nat) :
    oracle_decompress img 1 0 data 1 32768 f =
      { status := TINFL_STATUS_DONE, in_bytes := 1, out := img, decomp := (1, 32768) } := by
  show oracle_decompress img 1 (0, 0) data 1 32768 f = _
  have ht : List.take 32768 img = img := List.take_of_length_le (Nat.le_of_eq hl)
  unfold oracle_decompress
  simp [hl, ht]

theorem single_run_1 (img : List Byte) :
    ota_process (oracle_env img 1) single_frame_request 1 =
      { pc := .inner_loop, source := 0, uploading := true,
        ota_return_status := .SUCCESS, prevalidated := false,
        ota_end_called := false, firmwaresize := 32768,
        compressedsize := 1, update_partition := none,
        decomp := (0, 0), remaining_compressed := 1, remaining := 32768,
        status := TINFL_STATUS_NEEDS_MORE_INPUT, uncompressed := [],
        binctx := { id := "1", inbound_buf := some [0], len := 1, expected_source := 0,
                    error := false },
        length := 1, data_buf := [0],
        n_writes := 0, inbox := [complete_msg],
        trace := [Event.reply_to_message_ok,
                Event.display_message "Preparing for firmware update",
                Event.get_in_message (byte_frame "1")] } := by
  simp [ota_process, run, step, ota_start, single_frame_request, chunk_step,
    handle_in_bin_data, reset_ctx, oracle_env_init, oracle_env_buf, u32, WORD, byte_frame]

theorem single_run_2 (img : List Byte) (hl : img.length = 32768) :
    ota_process (oracle_env img 1) single_frame_request 2 =
      { pc := .inner_loop, source := 0, uploading := true,
        ota_return_status := .SUCCESS, prevalidated := true,
        ota_end_called := false, firmwaresize := 32768,
        compressedsize := 1, update_partition := some 1,
        decomp := (1, 32768), remaining_compressed := 0, remaining := 0,
        status := TINFL_STATUS_DONE, uncompressed := [],
        binctx := { id := "1", inbound_buf := some [0], len := 1, expected_source := 0,
                    error := false },
        length := 0, data_buf := [],
        n_writes := 1, inbox := [complete_msg],
        trace := [Event.reply_to_message_ok,
                Event.display_message "Preparing for firmware update",
                Event.get_in_message (byte_frame "1"),
                Event.tinfl_decompress 1 32768 1 TINFL_STATUS_DONE 1 32768,
                Event.esp_ota_get_partition_description ESP_OK,
                Event.esp_efuse_check_secure_version 0 true,
                Event.esp_ota_get_next_update_partition (some 1),
                Event.make_ota_versions_activity,
                Event.gui_activity_wait_event true 1,
                Event.display_progress_bar_activity,
                Event.esp_ota_begin 32768 ESP_OK,
                Event.ota_init .SUCCESS,
                Event.esp_ota_write img ESP_OK] } := by
  rw [ota_process_succ, single_run_1 img]
  simp [step, inner_step, decompress, tinfl_call, out_space, tinfl_flags, validate, flush,
    chunk_step, chunk_end_step, upload_complete_step, otacomplete_step, cleanup_step,
    complete_msg, MESSAGES, oracle_init_calls, sub32_1_1, sub32_1_0,
    sub32_full_0, sub32_full_full, UNCOMPRESSED_BUF_SIZE,
    TINFL_STATUS_DONE, TINFL_STATUS_NEEDS_MORE_INPUT, TINFL_STATUS_HAS_MORE_OUTPUT,
    TINFL_FLAG_PARSE_ZLIB_HEADER, TINFL_FLAG_HAS_MORE_INPUT, ESP_OK,
    ESP_ERR_OTA_VALIDATE_FAILED, oracle_env_decompress, oracle_env_write, oracle_env_end,
    oracle_env_boot, oracle_single_call img hl, hl]

theorem single_run_3 (img : List Byte) (hl : img.length = 32768) :
    ota_process (oracle_env img 1) single_frame_request 3 =
      { pc := .chunk_end, source := 0, uploading := true,
        ota_return_status := .SUCCESS, prevalidated := true,
        ota_end_called := false, firmwaresize := 32768,
        compressedsize := 1, update_partition := some 1,
        decomp := (1, 32768), remaining_compressed := 0, remaining := 0,
        status := TINFL_STATUS_DONE, uncompressed := [],
        binctx := { id := "1", inbound_buf := some [0], len := 1, expected_source := 0,
                    error := false },
        length := 0, data_buf := [],
        n_writes := 1, inbox := [complete_msg],
        trace := [Event.reply_to_message_ok,
                Event.display_message "Preparing for firmware update",
                Event.get_in_message (byte_frame "1"),
                Event.tinfl_decompress 1 32768 1 TINFL_STATUS_DONE 1 32768,
                Event.esp_ota_get_partition_description ESP_OK,
                Event.esp_efuse_check_secure_version 0 true,
                Event.esp_ota_get_next_update_partition (some 1),
                Event.make_ota_versions_activity,
                Event.gui_activity_wait_event true 1,
                Event.display_progress_bar_activity,
                Event.esp_ota_begin 32768 ESP_OK,
                Event.ota_init .SUCCESS,
                Event.esp_ota_write img ESP_OK] } := by
  rw [ota_process_succ, single_run_2 img hl]
  simp [step, inner_step, decompress, tinfl_call, out_space, tinfl_flags, validate, flush,
    chunk_step, chunk_end_step, upload_complete_step, otacomplete_step, cleanup_step,
    complete_msg, MESSAGES, oracle_init_calls, sub32_1_1, sub32_1_0,
    sub32_full_0, sub32_full_full, UNCOMPRESSED_BUF_SIZE,
    TINFL_STATUS_DONE, TINFL_STATUS_NEEDS_MORE_INPUT, TINFL_STATUS_HAS_MORE_OUTPUT,
    TINFL_FLAG_PARSE_ZLIB_HEADER, TINFL_FLAG_HAS_MORE_INPUT, ESP_OK,
    ESP_ERR_OTA_VALIDATE_FAILED, oracle_env_decompress, oracle_env_write, oracle_env_end,
    oracle_env_boot, oracle_single_call img hl, hl]

theorem single_run_4 (img : List Byte) (hl : img.length = 32768) :
    ota_process (oracle_env img 1) single_frame_request 4 =
      { pc := .chunk_loop, source := 0, uploading := true,
        ota_return_status := .SUCCESS, prevalidated := true,
        ota_end_called := false, firmwaresize := 32768,
        compressedsize := 1, update_partition := some 1,
        decomp := (1, 32768), remaining_compressed := 0, remaining := 0,
        status := TINFL_STATUS_DONE, uncompressed := [],
        binctx := { id := "1", inbound_buf := some [0], len := 1, expected_source := 0,
                    error := false },
        length := 0, data_buf := [],
        n_writes := 1, inbox := [complete_msg],
        trace := [Event.reply_to_message_ok,
                Event.display_message "Preparing for firmware update",
                Event.get_in_message (byte_frame "1"),
                Event.tinfl_decompress 1 32768 1 TINFL_STATUS_DONE 1 32768,
                Event.esp_ota_get_partition_description ESP_OK,
                Event.esp_efuse_check_secure_version 0 true,
                Event.esp_ota_get_next_update_partition (some 1),
                Event.make_ota_versions_activity,
                Event.gui_activity_wait_event true 1,
                Event.display_progress_bar_activity,
                Event.esp_ota_begin 32768 ESP_OK,
                Event.ota_init .SUCCESS,
                Event.esp_ota_write img ESP_OK,
                Event.update_progress_bar 1 1,
                Event.send_ok "1"] } := by
  rw [ota_process_succ, single_run_3 img hl]
  simp [step, inner_step, decompress, tinfl_call, out_space, tinfl_flags, validate, flush,
    chunk_step, chunk_end_step, upload_complete_step, otacomplete_step, cleanup_step,
    complete_msg, MESSAGES, oracle_init_calls, sub32_1_1, sub32_1_0,
    sub32_full_0, sub32_full_full, UNCOMPRESSED_BUF_SIZE,
    TINFL_STATUS_DONE, TINFL_STATUS_NEEDS_MORE_INPUT, TINFL_STATUS_HAS_MORE_OUTPUT,
    TINFL_FLAG_PARSE_ZLIB_HEADER, TINFL_FLAG_HAS_MORE_INPUT, ESP_OK,
    ESP_ERR_OTA_VALIDATE_FAILED, oracle_env_decompress, oracle_env_write, oracle_env_end,
    oracle_env_boot, oracle_single_call img hl, hl]

theorem single_run_5 (img : List Byte) (hl : img.length = 32768) :
    ota_process (oracle_env img 1) single_frame_request 5 =
      { pc := .upload_complete, source := 0, uploading := true,
        ota_return_status := .SUCCESS, prevalidated := true,
        ota_end_called := false, firmwaresize := 32768,
        compressedsize := 1, update_partition := some 1,
        decomp := (1, 32768), remaining_compressed := 0, remaining := 0,
        status := TINFL_STATUS_DONE, uncompressed := [],
        binctx := { id := "1", inbound_buf := some [0], len := 1, expected_source := 0,
                    error := false },
        length := 0, data_buf := [],
        n_writes := 1, inbox := [complete_msg],
        trace := [Event.reply_to_message_ok,
                Event.display_message "Preparing for firmware update",
                Event.get_in_message (byte_frame "1"),
                Event.tinfl_decompress 1 32768 1 TINFL_STATUS_DONE 1 32768,
                Event.esp_ota_get_partition_description ESP_OK,
                Event.esp_efuse_check_secure_version 0 true,
                Event.esp_ota_get_next_update_partition (some 1),
                Event.make_ota_versions_activity,
                Event.gui_activity_wait_event true 1,
                Event.display_progress_bar_activity,
                Event.esp_ota_begin 32768 ESP_OK,
                Event.ota_init .SUCCESS,
                Event.esp_ota_write img ESP_OK,
                Event.update_progress_bar 1 1,
                Event.send_ok "1"] } := by
  rw [ota_process_succ, single_run_4 img hl]
  simp [step, inner_step, decompress, tinfl_call, out_space, tinfl_flags, validate, flush,
    chunk_step, chunk_end_step, upload_complete_step, otacomplete_step, cleanup_step,
    complete_msg, MESSAGES, oracle_init_calls, sub32_1_1, sub32_1_0,
    sub32_full_0, sub32_full_full, UNCOMPRESSED_BUF_SIZE,
    TINFL_STATUS_DONE, TINFL_STATUS_NEEDS_MORE_INPUT, TINFL_STATUS_HAS_MORE_OUTPUT,
    TINFL_FLAG_PARSE_ZLIB_HEADER, TINFL_FLAG_HAS_MORE_INPUT, ESP_OK,
    ESP_ERR_OTA_VALIDATE_FAILED, oracle_env_decompress, oracle_env_write, oracle_env_end,
    oracle_env_boot, oracle_single_call img hl, hl]

/-- C13. The completion handshake.  Let the sizes of the request fit a 32-bit
word, let the chunk loop of a run have ended at point `n` (the run is at
`// Uploading complete`) and let `m` be the next inbound message.  Then
(1) the next transition leads to `otacomplete` with the terminal status, which
no later transition changes: `ERROR_DECOMPRESS` if `remaining` is not 0,
`ERROR_FINISH` if `esp_ota_end` fails, `ERROR_SETPARTITION` if
`esp_ota_set_boot_partition` fails, and `SUCCESS` otherwise;
(2) the transition after it loads `m` and sends one reply: `PROTOCOL_ERROR`
("Unexpected message, expecting 'ota_complete'") if the method of `m` is not
`ota_complete`, whatever the status is; otherwise `ok` if the status is
`SUCCESS`, and if it is not, `INTERNAL_ERROR` ("Error completing OTA")
carrying `MESSAGES[status]`, which is the name of the status: the string
"ERROR_DECOMPRESS", "ERROR_FINISH" or "ERROR_SETPARTITION";
(3) so the reply is `ok` exactly when the method is `ota_complete` and the
status is `SUCCESS`. -/
theorem completion_handshake {σ : Type} (env : Env σ) (req : Request) (fw cmp : Nat)
    (hfw : req.fwsize = some fw) (hcmp : req.cmpsize = some cmp) (hlt : cmp < fw)
    (h32 : fw < WORD) (n : Nat) (m : Msg) (rest : List Msg)
    (hpc : (ota_process env req n).pc = .upload_complete)
    (hin : (ota_process env req n).inbox = m :: rest) :
    (ota_process env req (n + 1)).pc = .otacomplete ∧
    (∀ k, (ota_process env req (n + 1 + k)).ota_return_status
      = (ota_process env req (n + 1)).ota_return_status) ∧
    (((ota_process env req n).remaining ≠ 0 ∧
        (ota_process env req (n + 1)).ota_return_status = .ERROR_DECOMPRESS) ∨
      ((ota_process env req n).remaining = 0 ∧ env.esp_ota_end ≠ ESP_OK ∧
        (ota_process env req (n + 1)).ota_return_status = .ERROR_FINISH) ∨
      ((ota_process env req n).remaining = 0 ∧ env.esp_ota_end = ESP_OK ∧
        env.esp_ota_set_boot_partition ≠ ESP_OK ∧
        (ota_process env req (n + 1)).ota_return_status = .ERROR_SETPARTITION) ∨
      ((ota_process env req n).remaining = 0 ∧ env.esp_ota_end = ESP_OK ∧
        env.esp_ota_set_boot_partition = ESP_OK ∧
        (ota_process env req (n + 1)).ota_return_status = .SUCCESS)) ∧
    ∃ reply, (ota_process env req (n + 2)).trace =
        (ota_process env req (n + 1)).trace ++ [Event.load_in_message m, reply] ∧
      (m.method ≠ "ota_complete" →
        reply = Event.reject_message .CBOR_RPC_PROTOCOL_ERROR
          "Unexpected message, expecting 'ota_complete'" none) ∧
      (m.method = "ota_complete" →
        (ota_process env req (n + 1)).ota_return_status = .SUCCESS →
        reply = Event.reply_to_message_ok) ∧
      (m.method = "ota_complete" →
        (ota_process env req (n + 1)).ota_return_status ≠ .SUCCESS →
        reply = Event.reject_message .CBOR_RPC_INTERNAL_ERROR "Error completing OTA"
          (some (MESSAGES (ota_process env req (n + 1)).ota_return_status))) ∧
      (m.method = "ota_complete" →
        (ota_process env req (n + 1)).ota_return_status = .ERROR_DECOMPRESS →
        reply = Event.reject_message .CBOR_RPC_INTERNAL_ERROR "Error completing OTA"
          (some "ERROR_DECOMPRESS")) ∧
      (m.method = "ota_complete" →
        (ota_process env req (n + 1)).ota_return_status = .ERROR_FINISH →
        reply = Event.reject_message .CBOR_RPC_INTERNAL_ERROR "Error completing OTA"
          (some "ERROR_FINISH")) ∧
      (m.method = "ota_complete" →
        (ota_process env req (n + 1)).ota_return_status = .ERROR_SETPARTITION →
        reply = Event.reject_message .CBOR_RPC_INTERNAL_ERROR "Error completing OTA"
          (some "ERROR_SETPARTITION")) ∧
      (reply = Event.reply_to_message_ok ↔
        m.method = "ota_complete" ∧
          (ota_process env req (n + 1)).ota_return_status = .SUCCESS) := by
  have hi := InstallInv_run env req fw cmp hfw hcmp hlt h32 n
  have hs0 : (ota_process env req n).ota_return_status = .SUCCESS :=
    StatusInv_run env req n (Or.inr hpc)
  have hpv : (ota_process env req n).remaining = 0 →
      (ota_process env req n).prevalidated = true := by
    intro hr
    cases hv : (ota_process env req n).prevalidated with
    | false => exact absurd hr (hi.hrem hv)
    | true => rfl
  have h1 : (ota_process env req (n + 1)).pc = .otacomplete ∧
      (ota_process env req (n + 1)).inbox = m :: rest ∧
      (((ota_process env req n).remaining ≠ 0 ∧
          (ota_process env req (n + 1)).ota_return_status = .ERROR_DECOMPRESS) ∨
        ((ota_process env req n).remaining = 0 ∧ env.esp_ota_end ≠ ESP_OK ∧
          (ota_process env req (n + 1)).ota_return_status = .ERROR_FINISH) ∨
        ((ota_process env req n).remaining = 0 ∧ env.esp_ota_end = ESP_OK ∧
          env.esp_ota_set_boot_partition ≠ ESP_OK ∧
          (ota_process env req (n + 1)).ota_return_status = .ERROR_SETPARTITION) ∨
        ((ota_process env req n).remaining = 0 ∧ env.esp_ota_end = ESP_OK ∧
          env.esp_ota_set_boot_partition = ESP_OK ∧
          (ota_process env req (n + 1)).ota_return_status = .SUCCESS)) := by
    rw [ota_process_succ, step, hpc]
    simp only []
    rcases upload_complete_step_cases env (ota_process env req n) with ⟨hr, e⟩ | ⟨hr, he, e⟩ |
      ⟨hr, he, hb, e⟩ | ⟨hr, he, hb, e⟩
    · rw [e]; exact ⟨rfl, hin, Or.inl ⟨hr, rfl⟩⟩
    · rw [e]; exact ⟨rfl, hin, Or.inr (Or.inl ⟨hr, he, rfl⟩)⟩
    · rw [e]; exact ⟨rfl, hin, Or.inr (Or.inr (Or.inl ⟨hr, he, hb, rfl⟩))⟩
    · rw [e]
      exact ⟨by simp [hpv hr], hin, Or.inr (Or.inr (Or.inr ⟨hr, he, hb, hs0⟩))⟩
  obtain ⟨p1, i1, hcase⟩ := h1
  have hal : (ota_process env req (n + 1)).pc.after_loop = true := by rw [p1]; rfl
  refine ⟨p1, fun k => ?_, hcase, completion_reply m.method
    (ota_process env req (n + 1)).ota_return_status, ?_, ?_, ?_, ?_, ?_, ?_, ?_, ?_⟩
  · rw [ota_process_add]
    exact (after_loop_run env _ hal k).2.1
  · rw [show n + 2 = (n + 1) + 1 from rfl, ota_process_succ, step, p1]
    simp only []
    rcases otacomplete_step_cases (ota_process env req (n + 1)) with ⟨x, _⟩ | ⟨m1, in1, x, e⟩
    · rw [i1] at x; cases x
    · rw [i1] at x
      injection x with x1 x2
      subst x1
      rw [e]
  · intro hm
    simp [completion_reply, hm]
  · intro hm hs
    simp [completion_reply, hm, hs]
  · intro hm hs
    simp [completion_reply, hm, hs]
  · intro hm hs
    simp [completion_reply, hm, hs, MESSAGES]
  · intro hm hs
    simp [completion_reply, hm, hs, MESSAGES]
  · intro hm hs
    simp [completion_reply, hm, hs, MESSAGES]
  · unfold completion_reply
    split_ifs with a b
    · simp [a]
    · simp [b]
    · simp only [true_iff]
      exact ⟨by simpa using a, by simpa using b⟩

/-- C13 at two examples.  In the run of `short_request` with a decompressor
that is done after 32771 of the 40000 bytes declared, the chunk loop has ended
after six transitions with `remaining` not 0, and the reply to `ota_complete`
is `INTERNAL_ERROR` carrying "ERROR_DECOMPRESS".  In the run of
`single_frame_request`, whose image fills the buffer exactly once, the chunk
loop has ended after five transitions, the finalize succeeds, and the reply to
`ota_complete` is `ok`. -/
theorem completion_handshake_witness :
    (ota_process (short_env TINFL_STATUS_DONE) short_request 6).pc = .upload_complete ∧
    (ota_process (short_env TINFL_STATUS_DONE) short_request 6).inbox = [complete_msg] ∧
    (ota_process (short_env TINFL_STATUS_DONE) short_request (6 + 2)).trace =
      (ota_process (short_env TINFL_STATUS_DONE) short_request (6 + 1)).trace ++
        [Event.load_in_message complete_msg,
         Event.reject_message .CBOR_RPC_INTERNAL_ERROR "Error completing OTA"
          (some "ERROR_DECOMPRESS")] ∧
    (ota_process (oracle_env full_buffer_image 1) single_frame_request 5).pc
      = .upload_complete ∧
    (ota_process (oracle_env full_buffer_image 1) single_frame_request 5).inbox
      = [complete_msg] ∧
    (ota_process (oracle_env full_buffer_image 1) single_frame_request (5 + 2)).trace =
      (ota_process (oracle_env full_buffer_image 1) single_frame_request (5 + 1)).trace ++
        [Event.load_in_message complete_msg, Event.reply_to_message_ok] :=
  have a1 : (ota_process (short_env TINFL_STATUS_DONE) short_request 6).pc
      = .upload_complete := by rw [short_done_6]
  have a2 : (ota_process (short_env TINFL_STATUS_DONE) short_request 6).inbox
      = complete_msg :: [] := by rw [short_done_6]
  have a3 : (ota_process (short_env TINFL_STATUS_DONE) short_request 6).remaining ≠ 0 := by
    rw [short_done_6]; decide
  have b5 := single_run_5 full_buffer_image full_buffer_image_length
  have b1 : (ota_process (oracle_env full_buffer_image 1) single_frame_request 5).pc
      = .upload_complete := by rw [b5]
  have b2 : (ota_process (oracle_env full_buffer_image 1) single_frame_request 5).inbox
      = complete_msg :: [] := by rw [b5]
  have b3 : (ota_process (oracle_env full_buffer_image 1) single_frame_request 5).remaining
      = 0 := by rw [b5]
  have hm : complete_msg.method = "ota_complete" := rfl
  ⟨a1, a2, by
    obtain ⟨_, _, hcase, reply, htr, _, _, _, hdec, _⟩ :=
      completion_handshake (short_env TINFL_STATUS_DONE) short_request 40000 2 rfl rfl
        (by decide) (by decide) 6 complete_msg [] a1 a2
    have hs : (ota_process (short_env TINFL_STATUS_DONE) short_request (6 + 1)).ota_return_status
        = .ERROR_DECOMPRESS := by
      rcases hcase with ⟨_, h⟩ | ⟨h, _⟩ | ⟨h, _⟩ | ⟨h, _⟩
      · exact h
      all_goals exact absurd h a3
    rw [htr, hdec hm hs],
    b1, b2, by
    obtain ⟨_, _, hcase, reply, htr, _, hok, _⟩ :=
      completion_handshake (oracle_env full_buffer_image 1) single_frame_request 32768 1 rfl rfl
        (by decide) (by decide) 5 complete_msg [] b1 b2
    have hs : (ota_process (oracle_env full_buffer_image 1) single_frame_request
        (5 + 1)).ota_return_status = .SUCCESS := by
      rcases hcase with ⟨h, _⟩ | ⟨_, h, _⟩ | ⟨_, _, h, _⟩ | ⟨_, _, _, h⟩
      · exact absurd b3 h
      · exact absurd rfl h
      · exact absurd rfl h
      · exact h
    rw [htr, hok hm hs]⟩

/-- C14. The initiating request.  At every point `n` of every run: the first
call of `ota_process` is the reply `ok` exactly when `fwsize` and `cmpsize`
are both present and `fwsize > cmpsize`; in that case the run starts at the
test of the chunk loop with `remaining_compressed = cmpsize` (modulo `2^32`),
so with compressed bytes to come it expects a data frame.  Otherwise the only
call ever made is the reply `BAD_PARAMETERS`: no message is taken from the
channel, the decompressor and the partition are never touched, no error
screen is shown and there is no restart; the status stays `ERROR_OTA_SETUP`
and the function returns at the first transition. -/
theorem initiating_request {σ : Type} (env : Env σ) (req : Request) (n : Nat) :
    ((∃ post, (ota_process env req n).trace = Event.reply_to_message_ok :: post) ↔
      ∃ fw cmp, req.fwsize = some fw ∧ req.cmpsize = some cmp ∧ cmp < fw) ∧
    (∀ fw cmp, req.fwsize = some fw → req.cmpsize = some cmp → cmp < fw →
      (ota_process env req 0).pc = .chunk_loop ∧
      (ota_process env req 0).remaining_compressed = u32 cmp ∧
      (ota_process env req 0).inbox = req.inbox) ∧
    ((¬ ∃ fw cmp, req.fwsize = some fw ∧ req.cmpsize = some cmp ∧ cmp < fw) →
      (ota_process env req n).trace =
        [Event.reject_message .CBOR_RPC_BAD_PARAMETERS "Bad parameters" none] ∧
      (ota_process env req n).ota_return_status = .ERROR_OTA_SETUP ∧
      (ota_process env req n).inbox = req.inbox ∧
      (ota_process env req n).pc = (if n = 0 then .cleanup else .returned)) := by
  have hbad : (¬ ∃ fw cmp, req.fwsize = some fw ∧ req.cmpsize = some cmp ∧ cmp < fw) →
      (ota_process env req n).trace =
        [Event.reject_message .CBOR_RPC_BAD_PARAMETERS "Bad parameters" none] ∧
      (ota_process env req n).ota_return_status = .ERROR_OTA_SETUP ∧
      (ota_process env req n).inbox = req.inbox ∧
      (ota_process env req n).pc = (if n = 0 then .cleanup else .returned) := by
    intro h
    obtain ⟨b1, b2, b3, b4, b5, b6⟩ := ota_start_bad env req h
    cases n with
    | zero => exact ⟨b2, b3, b6, b1⟩
    | succ n =>
      have h1 : step env (ota_start env req) = { (ota_start env req) with
          trace := (ota_start env req).trace ++ failure_report (ota_start env req)
          pc := .returned } := by
        unfold step
        rw [b1]
        simp only []
        rcases cleanup_step_cases env (ota_start env req) with ⟨x, _⟩ | ⟨_, x, _⟩ |
          ⟨_, x, _⟩ | ⟨_, _, e⟩
        · rw [b3] at x; cases x
        · rw [b4] at x; exact absurd x.1 (by simp)
        · rw [b4] at x; exact absurd x.1 (by simp)
        · exact e
      have h2 : failure_report (ota_start env req) = [] := by
        unfold failure_report
        rw [b5, b3]
        simp
      have h3 : ota_process env req (n + 1) = step env (ota_start env req) := by
        show run env (n + 1) (ota_start env req) = _
        show run env n (step env (ota_start env req)) = _
        exact ended_run env _ (by rw [h1]; rfl) n
      rw [h3, h1, h2]
      exact ⟨by simpa using b2, b3, b6, by simp⟩
  refine ⟨⟨?_, ?_⟩, ?_, hbad⟩
  · rintro ⟨post, hp⟩
    by_contra h
    rw [(hbad h).1] at hp
    simp at hp
  · rintro ⟨fw, cmp, hfw, hcmp, hlt⟩
    obtain ⟨_, g2, _⟩ := ota_start_good env req fw cmp hfw hcmp hlt
    obtain ⟨evs, he⟩ := run_trace_mono env (ota_start env req) n
    exact ⟨_, by rw [show (ota_process env req n).trace = _ from he, g2]; rfl⟩
  · intro fw cmp hfw hcmp hlt
    obtain ⟨g1, _, _, _, _, g6, _, _, _, _, g11⟩ := ota_start_good env req fw cmp hfw hcmp hlt
    exact ⟨g1, g6, g11⟩

/-- The id that `handle_in_bin_data` stores is the id of the message. -/
theorem handle_in_bin_data_id (B : Nat) (bctx : bin_msg) (m : Msg) :
    (handle_in_bin_data B bctx m).id = m.id := by
  unfold handle_in_bin_data
  simp only []
  split_ifs <;> (try rfl) <;> cases m.params_bytes <;> rfl

/-- The head of the chunk loop on a frame that `handle_in_bin_data` flags as an
error (ota.c:258-262): `uploading` is left as it was. -/
theorem chunk_step_malformed {σ : Type} (env : Env σ) (s : State σ) (m : Msg)
    (rest : List Msg) (hrc : s.remaining_compressed ≠ 0) (hin : s.inbox = m :: rest)
    (herr : (handle_in_bin_data env.JADE_OTA_BUF_SIZE (reset_ctx none s.source) m).error
      = true) :
    chunk_step env s = { s with
      inbox := rest
      binctx := handle_in_bin_data env.JADE_OTA_BUF_SIZE (reset_ctx none s.source) m
      trace := s.trace ++ [Event.get_in_message m]
      ota_return_status := .ERROR_BADDATA
      pc := .cleanup } := by
  unfold chunk_step
  rw [if_neg hrc, hin]
  simp only [herr, if_true]

/-- C15, what the code does with a malformed frame.  Let the run stand at the
head of the chunk loop with compressed bytes still expected and let the next
message `m` be flagged as an error by `handle_in_bin_data` (a method other
than `ota_data`, no payload or an empty one, a wrong source, a payload larger
than `JADE_OTA_BUF_SIZE`).  Then from the second transition on the function
has ended and the trace is the old trace, the receipt of `m`, the abort of the
partition write if the session is validated, then the error reply tagged with
the id of `m` only if `uploading` was true when `m` arrived, and the error
screen; or, when the assertion on the result of the abort fails, the function
has ended after the abort.  At the start of the chunk loop `uploading` is
false (ota.c:203), and it is set only after a frame has passed the check
(ota.c:264): a malformed first frame is answered by no reply at all. -/
theorem malformed_frame_reply {σ : Type} (env : Env σ) (req : Request) (n : Nat) (m : Msg)
    (rest : List Msg)
    (hpc : (ota_process env req n).pc = .chunk_loop)
    (hrc : (ota_process env req n).remaining_compressed ≠ 0)
    (hin : (ota_process env req n).inbox = m :: rest)
    (herr : (handle_in_bin_data env.JADE_OTA_BUF_SIZE
      (reset_ctx none (ota_process env req n).source) m).error = true) :
    (ota_process env req 0).uploading = false ∧
    ∀ k,
      ((ota_process env req (n + 2 + k)).pc = .returned ∧
        (ota_process env req (n + 2 + k)).trace =
          (ota_process env req n).trace ++ [Event.get_in_message m] ++
          (if (ota_process env req n).prevalidated = true ∧
              (ota_process env req n).ota_end_called = false then
            [Event.esp_ota_end env.esp_ota_end] else []) ++
          (if (ota_process env req n).uploading = true then
            [Event.reject_message_with_id m.id .CBOR_RPC_INTERNAL_ERROR
              "Error uploading OTA data" "ERROR_BADDATA"] else []) ++
          [Event.await_error_activity "ERROR_BADDATA"]) ∨
      ((ota_process env req (n + 2 + k)).pc = .aborted ∧
        (ota_process env req n).prevalidated = true ∧
        (ota_process env req n).ota_end_called = false ∧
        (ota_process env req (n + 2 + k)).trace =
          (ota_process env req n).trace ++
            [Event.get_in_message m, Event.esp_ota_end env.esp_ota_end]) := by
  constructor
  · unfold ota_process run ota_start
    simp only []
    split_ifs <;> rfl
  have h1 : ota_process env req (n + 1) = { ota_process env req n with
      inbox := rest
      binctx := handle_in_bin_data env.JADE_OTA_BUF_SIZE
        (reset_ctx none (ota_process env req n).source) m
      trace := (ota_process env req n).trace ++ [Event.get_in_message m]
      ota_return_status := .ERROR_BADDATA
      pc := .cleanup } := by
    rw [ota_process_succ, step, hpc]
    exact chunk_step_malformed env _ m rest hrc hin herr
  have hid := handle_in_bin_data_id env.JADE_OTA_BUF_SIZE
    (reset_ctx none (ota_process env req n).source) m
  have hfr : failure_report (ota_process env req (n + 1)) =
      (if (ota_process env req n).uploading = true then
        [Event.reject_message_with_id m.id .CBOR_RPC_INTERNAL_ERROR
          "Error uploading OTA data" "ERROR_BADDATA"] else []) ++
      [Event.await_error_activity "ERROR_BADDATA"] := by
    rw [h1]
    unfold failure_report
    simp only [hid, MESSAGES]
    simp
  have ht1 : (ota_process env req (n + 1)).trace =
      (ota_process env req n).trace ++ [Event.get_in_message m] := by rw [h1]
  have hp1 : (ota_process env req (n + 1)).pc = .cleanup := by rw [h1]
  have hs1 : (ota_process env req (n + 1)).ota_return_status = .ERROR_BADDATA := by rw [h1]
  have hv1 : (ota_process env req (n + 1)).prevalidated = (ota_process env req n).prevalidated := by
    rw [h1]
  have he1 : (ota_process env req (n + 1)).ota_end_called
      = (ota_process env req n).ota_end_called := by
    rw [h1]
  have h2 : ((ota_process env req (n + 2)).pc = .returned ∧
        (ota_process env req (n + 2)).trace =
          (ota_process env req n).trace ++ [Event.get_in_message m] ++
          (if (ota_process env req n).prevalidated = true ∧
              (ota_process env req n).ota_end_called = false then
            [Event.esp_ota_end env.esp_ota_end] else []) ++
          (if (ota_process env req n).uploading = true then
            [Event.reject_message_with_id m.id .CBOR_RPC_INTERNAL_ERROR
              "Error uploading OTA data" "ERROR_BADDATA"] else []) ++
          [Event.await_error_activity "ERROR_BADDATA"]) ∨
      ((ota_process env req (n + 2)).pc = .aborted ∧
        (ota_process env req n).prevalidated = true ∧
        (ota_process env req n).ota_end_called = false ∧
        (ota_process env req (n + 2)).trace =
          (ota_process env req n).trace ++
            [Event.get_in_message m, Event.esp_ota_end env.esp_ota_end]) := by
    rw [show n + 2 = (n + 1) + 1 from rfl, ota_process_succ, step, hp1]
    simp only []
    rcases cleanup_step_cases env (ota_process env req (n + 1)) with ⟨h, _⟩ | ⟨_, ha, _, e⟩ |
      ⟨_, ha, _, e⟩ | ⟨_, ha, e⟩
    · rw [hs1] at h; cases h
    · rw [hv1, he1] at ha
      refine Or.inr ⟨by rw [e], ha.1, ha.2, ?_⟩
      rw [e]
      simp only []
      rw [ht1, List.append_assoc]
      rfl
    · rw [hv1, he1] at ha
      refine Or.inl ⟨by rw [e], ?_⟩
      rw [e]
      simp only []
      rw [hfr, ht1, if_pos ha]
      simp only [List.append_assoc]
    · rw [hv1, he1] at ha
      refine Or.inl ⟨by rw [e], ?_⟩
      rw [e]
      simp only []
      rw [hfr, ht1, if_neg ha]
      simp only [List.append_assoc, List.append_nil, List.nil_append]
  intro k
  have hstate : ota_process env req (n + 2 + k) = ota_process env req (n + 2) := by
    rw [ota_process_add]
    refine ended_run env _ ?_ k
    rcases h2 with ⟨h, _⟩ | ⟨h, _⟩ <;> rw [h] <;> rfl
  rw [hstate]
  exact h2

/-- C15 at the failing input: an update request with good parameters whose
first data frame has an empty payload.  The calls of the whole session are the
`ok` to the request, the message screen, the receipt of the frame and the
error screen: the frame, its id "1" known, gets neither `ok` nor an error
reply. -/
theorem malformed_frame_reply_witness :
    (ota_process example_env empty_frame_request 0).pc = .chunk_loop ∧
    (ota_process example_env empty_frame_request 0).inbox = [empty_frame] ∧
    (handle_in_bin_data example_env.JADE_OTA_BUF_SIZE
      (reset_ctx none (ota_process example_env empty_frame_request 0).source)
      empty_frame).error = true ∧
    ∀ k, (ota_process example_env empty_frame_request (0 + 2 + k)).pc = .returned ∧
      (ota_process example_env empty_frame_request (0 + 2 + k)).trace =
        [Event.reply_to_message_ok, Event.display_message "Preparing for firmware update",
         Event.get_in_message empty_frame, Event.await_error_activity "ERROR_BADDATA"] :=
  have h0 : ota_process example_env empty_frame_request 0 =
      { pc := .chunk_loop, source := 0, uploading := false,
        ota_return_status := .SUCCESS, prevalidated := false,
        ota_end_called := false, firmwaresize := 40000,
        compressedsize := 2, update_partition := none,
        decomp := (), remaining_compressed := 2, remaining := 40000,
        status := TINFL_STATUS_NEEDS_MORE_INPUT, uncompressed := [],
        binctx := reset_ctx none 0, length := 0, data_buf := [],
        n_writes := 0, inbox := [empty_frame],
        trace := [Event.reply_to_message_ok,
                  Event.display_message "Preparing for firmware update"] } := by
    simp [ota_process, run, ota_start, empty_frame_request, u32, WORD, example_env]
  have hpc : (ota_process example_env empty_frame_request 0).pc = .chunk_loop := by rw [h0]
  have hrc : (ota_process example_env empty_frame_request 0).remaining_compressed ≠ 0 := by
    rw [h0]; decide
  have hin : (ota_process example_env empty_frame_request 0).inbox = empty_frame :: [] := by
    rw [h0]
  have herr : (handle_in_bin_data example_env.JADE_OTA_BUF_SIZE
      (reset_ctx none (ota_process example_env empty_frame_request 0).source)
      empty_frame).error = true := by
    simp [handle_in_bin_data, empty_frame]
  ⟨hpc, hin, herr, fun k => by
    have h := (malformed_frame_reply example_env empty_frame_request 0 empty_frame [] hpc hrc
      hin herr).2 k
    rw [h0] at h
    simpa using h⟩

/-- C16, the claim as worded fails: a flush is started although the
decompressor has reported an error and the buffer is not full.  With the
decompressor `short_decompress TINFL_STATUS_FAILED` the run of `short_request`
stands in the inner loop after two transitions, validated; the next call of
`tinfl_decompress` reports `TINFL_STATUS_FAILED`, which is below
`TINFL_STATUS_DONE`, and leaves 3 bytes in the buffer; the same transition
passes these 3 bytes to `esp_ota_write`. -/
theorem write_on_codec_error :
    (ota_process (short_env TINFL_STATUS_FAILED) short_request 2).pc = .inner_loop ∧
    (ota_process (short_env TINFL_STATUS_FAILED) short_request 2).prevalidated = true ∧
    (decompress (short_env TINFL_STATUS_FAILED)
      (ota_process (short_env TINFL_STATUS_FAILED) short_request 2)).status
        = TINFL_STATUS_FAILED ∧
    TINFL_STATUS_FAILED < TINFL_STATUS_DONE ∧
    (decompress (short_env TINFL_STATUS_FAILED)
      (ota_process (short_env TINFL_STATUS_FAILED) short_request 2)).uncompressed = [0, 0, 0] ∧
    (ota_process (short_env TINFL_STATUS_FAILED) short_request 3).trace =
      (ota_process (short_env TINFL_STATUS_FAILED) short_request 2).trace ++
        [Event.tinfl_decompress 1 32768 1 TINFL_STATUS_FAILED 1 3,
         Event.esp_ota_write [0, 0, 0] ESP_OK] := by
  rw [short_run_3_failed, short_run_2]
  refine ⟨rfl, rfl, ?_, by decide, ?_, rfl⟩
  · simp [decompress, tinfl_call, short_env_decompress, short_decompress]
  · simp [decompress, tinfl_call, short_env_decompress, short_decompress]

/-- C16, amended.  Let the run stand at the test of the inner loop in the state
`s` with the test true, so that the next transition calls `tinfl_decompress`,
and let `decompress env s` be the state after the call and the updates of the
counters and cursors.  The flush is due (ota.c:291) when the session is
validated and the status reported is at or below `TINFL_STATUS_DONE`, that is
`TINFL_STATUS_DONE` or an error, or when the buffer holds exactly
`UNCOMPRESSED_BUF_SIZE` bytes.
(1) If the flush is not due the transition ends after the call: nothing is
validated or written and the cursor stays.
(2) If it is due in a validated session, the buffered bytes are passed to
`esp_ota_write`.
(3) If it is due in a session not yet validated, the buffer is full and
`ota_init` is called on it; when `ota_init` fails the transition ends at
`cleanup` with the status of `ota_init` and nothing is written; when it
succeeds `prevalidated` is set and the buffered bytes are passed to
`esp_ota_write`.
(4) A flush appends the call of `esp_ota_write` with the buffered bytes; when
the write succeeds the cursor is reset and `remaining` decreases by the number
of bytes written, when it fails the next point is `cleanup` with
`ERROR_WRITE`.
(5) At every point of every run each call of `esp_ota_write` comes after the
return of `ota_init` with `SUCCESS`. -/
theorem flush_trigger {σ : Type} (env : Env σ) (req : Request) (n : Nat) (s : State σ)
    (hs : ota_process env req n = s) (hpc : s.pc = .inner_loop)
    (hc : s.length > 0 ∧ s.remaining > 0 ∧ s.status > TINFL_STATUS_DONE) :
    (¬ flush_due (decompress env s) →
      ota_process env req (n + 1) = decompress env s ∧
      (ota_process env req (n + 1)).trace = s.trace ++
        [Event.tinfl_decompress s.length (out_space s) (tinfl_flags s)
          (decompress env s).status (tinfl_call env s).in_bytes (tinfl_call env s).out.length] ∧
      (ota_process env req (n + 1)).uncompressed = s.uncompressed ++ (tinfl_call env s).out) ∧
    (flush_due (decompress env s) → s.prevalidated = true →
      ota_process env req (n + 1) = flush env (decompress env s) ∧
      (ota_process env req (n + 1)).trace = s.trace ++
        [Event.tinfl_decompress s.length (out_space s) (tinfl_flags s)
          (decompress env s).status (tinfl_call env s).in_bytes (tinfl_call env s).out.length,
         Event.esp_ota_write (decompress env s).uncompressed
          (env.esp_ota_write s.n_writes (decompress env s).uncompressed)]) ∧
    (flush_due (decompress env s) → s.prevalidated = false →
      (decompress env s).uncompressed.length = UNCOMPRESSED_BUF_SIZE ∧
      ((ota_init env (decompress env s).uncompressed s.firmwaresize).res ≠ .SUCCESS →
        ota_process env req (n + 1) = validate env (decompress env s) ∧
        (ota_process env req (n + 1)).pc = .cleanup ∧
        (ota_process env req (n + 1)).ota_return_status
          = (ota_init env (decompress env s).uncompressed s.firmwaresize).res ∧
        (ota_process env req (n + 1)).trace = s.trace ++
          [Event.tinfl_decompress s.length (out_space s) (tinfl_flags s)
            (decompress env s).status (tinfl_call env s).in_bytes
            (tinfl_call env s).out.length] ++
          (ota_init env (decompress env s).uncompressed s.firmwaresize).calls ++
          [Event.ota_init (ota_init env (decompress env s).uncompressed s.firmwaresize).res]) ∧
      ((ota_init env (decompress env s).uncompressed s.firmwaresize).res = .SUCCESS →
        ota_process env req (n + 1) = flush env (validate env (decompress env s)) ∧
        (ota_process env req (n + 1)).prevalidated = true ∧
        (ota_process env req (n + 1)).trace = s.trace ++
          [Event.tinfl_decompress s.length (out_space s) (tinfl_flags s)
            (decompress env s).status (tinfl_call env s).in_bytes
            (tinfl_call env s).out.length] ++
          (ota_init env (decompress env s).uncompressed s.firmwaresize).calls ++
          [Event.ota_init .SUCCESS,
           Event.esp_ota_write (decompress env s).uncompressed
            (env.esp_ota_write s.n_writes (decompress env s).uncompressed)])) ∧
    (∀ t : State σ,
      (flush env t).trace = t.trace ++
        [Event.esp_ota_write t.uncompressed (env.esp_ota_write t.n_writes t.uncompressed)] ∧
      (env.esp_ota_write t.n_writes t.uncompressed = ESP_OK →
        (flush env t).uncompressed = [] ∧
        (flush env t).remaining = sub32 t.remaining t.uncompressed.length ∧
        (flush env t).pc = t.pc) ∧
      (env.esp_ota_write t.n_writes t.uncompressed ≠ ESP_OK →
        (flush env t).pc = .cleanup ∧ (flush env t).ota_return_status = .ERROR_WRITE)) ∧
    (∀ m pre x post, (ota_process env req m).trace = pre ++ x :: post →
      x.is_esp_ota_write = true → Event.ota_init .SUCCESS ∈ pre) := by
  have hstep : ota_process env req (n + 1) = inner_step env s := by
    rw [ota_process_succ, hs, step, hpc]
  refine ⟨fun hnd => ?_, fun hd hp => ?_, fun hd hp => ⟨?_, fun hi => ?_, fun hi => ?_⟩,
    fun t => ⟨flush_trace env t, fun hw => ?_, fun hw => ?_⟩, fun m pre x post hsplit hx => ?_⟩
  · rw [hstep]
    rcases inner_step_cases env s with ⟨h, _⟩ | ⟨_, _, e⟩ | ⟨_, h, _⟩ | ⟨_, h, _⟩ | ⟨_, h, hp, _⟩
    · exact absurd hc h
    · rw [e]
      exact ⟨rfl, rfl, rfl⟩
    · exact absurd (Or.inr h) hnd
    · exact absurd (Or.inr h) hnd
    · rcases h with h | h
      · exact absurd (Or.inl ⟨hp, h⟩) hnd
      · exact absurd (Or.inr h) hnd
  · rw [hstep]
    rcases inner_step_cases env s with ⟨h, _⟩ | ⟨_, h, _⟩ | ⟨_, _, h, _⟩ | ⟨_, _, h, _⟩ |
      ⟨_, _, _, e⟩
    · exact absurd hc h
    · exact absurd hd h
    · rw [hp] at h; cases h
    · rw [hp] at h; cases h
    · rw [e]
      refine ⟨rfl, ?_⟩
      rw [flush_trace, decompress_trace_eq, List.append_assoc]
      rfl
  · rcases hd with ⟨h, _⟩ | h
    · rw [decompress_prevalidated, hp] at h
      cases h
    · exact h
  · rw [hstep]
    rcases inner_step_cases env s with ⟨h, _⟩ | ⟨_, h, _⟩ | ⟨_, _, _, _, e⟩ | ⟨_, _, _, h, _⟩ |
      ⟨_, _, h, _⟩
    · exact absurd hc h
    · exact absurd hd h
    · rw [e]
      refine ⟨rfl, (validate_fail env _ hi).2.1, (validate_fail env _ hi).2.2, ?_⟩
      rw [validate_trace, decompress_trace_eq]
      rfl
    · exact absurd h hi
    · rw [hp] at h; cases h
  · rw [hstep]
    rcases inner_step_cases env s with ⟨h, _⟩ | ⟨_, h, _⟩ | ⟨_, _, _, h, _⟩ | ⟨_, _, _, _, e⟩ |
      ⟨_, _, h, _⟩
    · exact absurd hc h
    · exact absurd hd h
    · exact absurd hi h
    · rw [e]
      refine ⟨rfl, ?_, ?_⟩
      · rw [flush_prevalidated]
        exact (validate_ok env _ hi).1
      · have hi2 : (ota_init env (decompress env s).uncompressed
            (decompress env s).firmwaresize).res = .SUCCESS := hi
        rw [flush_trace, validate_trace, decompress_trace_eq, hi2, validate_uncompressed,
          validate_n_writes, decompress_n_writes]
        simp only [List.append_assoc, List.singleton_append, decompress_firmwaresize]
        rfl
    · rw [hp] at h; cases h
  · obtain ⟨a, _, c, d⟩ := flush_ok env t hw
    exact ⟨d, c, a⟩
  · obtain ⟨a, b, _, _⟩ := flush_fail env t hw
    exact ⟨a, b⟩
  · obtain ⟨y, hy, hq⟩ := (WriteInv_run env req m).1 pre x post hsplit hx
    have : y = Event.ota_init .SUCCESS := by
      cases y with
      | ota_init res => cases res <;> first | rfl | cases hq
      | _ => cases hq
    rw [← this]
    exact hy

/-- C16, amended, at the example of the decompressor that fails at its
second call: the flush is due at the call that reports `TINFL_STATUS_FAILED`
because the session is validated, and the transition is the call followed by
the flush. -/
theorem flush_trigger_witness :
    (ota_process (short_env TINFL_STATUS_FAILED) short_request 2).pc = .inner_loop ∧
    flush_due (decompress (short_env TINFL_STATUS_FAILED)
      (ota_process (short_env TINFL_STATUS_FAILED) short_request 2)) ∧
    ota_process (short_env TINFL_STATUS_FAILED) short_request (2 + 1) =
      flush (short_env TINFL_STATUS_FAILED) (decompress (short_env TINFL_STATUS_FAILED)
        (ota_process (short_env TINFL_STATUS_FAILED) short_request 2)) :=
  have hpc : (ota_process (short_env TINFL_STATUS_FAILED) short_request 2).pc = .inner_loop := by
    rw [short_run_2]
  have hc : (ota_process (short_env TINFL_STATUS_FAILED) short_request 2).length > 0 ∧
      (ota_process (short_env TINFL_STATUS_FAILED) short_request 2).remaining > 0 ∧
      (ota_process (short_env TINFL_STATUS_FAILED) short_request 2).status
        > TINFL_STATUS_DONE := by
    simp [short_run_2, TINFL_STATUS_HAS_MORE_OUTPUT, TINFL_STATUS_DONE]
  have hp : (ota_process (short_env TINFL_STATUS_FAILED) short_request 2).prevalidated
      = true := by
    rw [short_run_2]
  have hd : flush_due (decompress (short_env TINFL_STATUS_FAILED)
      (ota_process (short_env TINFL_STATUS_FAILED) short_request 2)) := by
    refine Or.inl ⟨(decompress_prevalidated _ _).trans hp, ?_⟩
    rw [short_run_2]
    simp [decompress, tinfl_call, short_env_decompress, short_decompress, TINFL_STATUS_FAILED,
      TINFL_STATUS_DONE]
  ⟨hpc, hd, ((flush_trigger (short_env TINFL_STATUS_FAILED) short_request 2 _ rfl hpc hc).2.1
    hd hp).1⟩

/-- C17. The output buffer.  Let every call of `tinfl_decompress` store no more
bytes than the output space it was offered.  Then at every point `n` of the
run:
(1) the cursor is inside the buffer: `nout - uncompressed`, the number of bytes
buffered since the last flush, is at most `UNCOMPRESSED_BUF_SIZE`;
(2) wherever the chunk loop rests, and so at the start of every pass of the
inner loop, the cursor is strictly below `UNCOMPRESSED_BUF_SIZE`, the
expression `uncompressed + UNCOMPRESSED_BUF_SIZE - nout` of ota.c:278 does not
wrap and the output space offered is at least 1 byte;
(3) every call of `tinfl_decompress` made so far was offered between 1 and
`UNCOMPRESSED_BUF_SIZE` bytes of output space and stored no more than offered;
(4) a pass of the inner loop that fills the buffer ends with the buffer empty
again, after the flush, or with `goto cleanup`: a full buffer is never offered
to the decompressor. -/
theorem output_buffer_invariant {σ : Type} (env : Env σ) (req : Request)
    (hcodec : ∀ d data n k f, (env.tinfl_decompress d data n k f).out.length ≤ k) (n : Nat) :
    (ota_process env req n).uncompressed.length ≤ UNCOMPRESSED_BUF_SIZE ∧
    ((ota_process env req n).pc.in_loop = true →
      (ota_process env req n).uncompressed.length < UNCOMPRESSED_BUF_SIZE ∧
      out_space (ota_process env req n)
        = UNCOMPRESSED_BUF_SIZE - (ota_process env req n).uncompressed.length ∧
      1 ≤ out_space (ota_process env req n)) ∧
    (∀ len k f st i o,
      Event.tinfl_decompress len k f st i o ∈ (ota_process env req n).trace →
      1 ≤ k ∧ k ≤ UNCOMPRESSED_BUF_SIZE ∧ o ≤ k) ∧
    ((ota_process env req n).pc = .inner_loop →
      ((ota_process env req n).length > 0 ∧ (ota_process env req n).remaining > 0 ∧
        (ota_process env req n).status > TINFL_STATUS_DONE) →
      (decompress env (ota_process env req n)).uncompressed.length = UNCOMPRESSED_BUF_SIZE →
      (ota_process env req (n + 1)).uncompressed = [] ∨
        (ota_process env req (n + 1)).pc = .cleanup) := by
  have h := BufInv_run env hcodec req n
  refine ⟨h.1, fun hin => ?_, fun len k f st i o he => h.2.2 _ he, fun hpc hc hfull => ?_⟩
  · obtain ⟨a, b, _, _⟩ := BufInv_decompress env _ h hin hcodec
    exact ⟨h.2.1 hin, a, b⟩
  · rw [ota_process_succ, step, hpc]
    simp only []
    have hfl : ∀ t : State σ, (flush env t).uncompressed = [] ∨ (flush env t).pc = .cleanup := by
      intro t
      by_cases hw : env.esp_ota_write t.n_writes t.uncompressed = ESP_OK
      · exact Or.inl (flush_ok env t hw).2.2.2
      · exact Or.inr (flush_fail env t hw).1
    rcases inner_step_cases env (ota_process env req n) with ⟨hn, _⟩ | ⟨_, hnf, _⟩ |
      ⟨_, _, _, hi, e⟩ | ⟨_, _, _, _, e⟩ | ⟨_, _, _, e⟩
    · exact absurd hc hn
    · exact absurd (Or.inr hfull) hnf
    · rw [e]
      exact Or.inr (validate_fail env _ hi).2.1
    · rw [e]
      exact hfl _
    · rw [e]
      exact hfl _

/-- C17 at an example: the decompressor of the example collaborators fills the
output space offered and never stores more; after the first transition the run
rests in the chunk loop with the cursor below the end of the buffer. -/
theorem output_buffer_invariant_witness :
    (∀ d data n k f, (example_env.tinfl_decompress d data n k f).out.length ≤ k) ∧
    (ota_process example_env example_request 1).uncompressed.length ≤ UNCOMPRESSED_BUF_SIZE ∧
    ((ota_process example_env example_request 1).pc.in_loop = true →
      (ota_process example_env example_request 1).uncompressed.length
        < UNCOMPRESSED_BUF_SIZE ∧
      out_space (ota_process example_env example_request 1)
        = UNCOMPRESSED_BUF_SIZE
          - (ota_process example_env example_request 1).uncompressed.length ∧
      1 ≤ out_space (ota_process example_env example_request 1)) :=
  have hcodec : ∀ d data n k f, (example_env.tinfl_decompress d data n k f).out.length ≤ k :=
    fun _ _ _ k _ => by simp [example_env, fill_decompress]
  ⟨hcodec, (output_buffer_invariant example_env example_request hcodec 1).1,
    (output_buffer_invariant example_env example_request hcodec 1).2.1⟩

theorem is_init_success_eq (e : Event) (h : e.is_init_success = true) :
    e = Event.ota_init .SUCCESS := by
  cases e with
  | ota_init res => cases res <;> first | rfl | cases h
  | _ => cases h

/-- C18. No install without validation.  Let the request carry `fwsize = fw`
and `cmpsize = cmp` with `cmp < fw` and `fw` a 32-bit word.  At every point
`n` of the run:
(1) every call of `esp_ota_end` (as finalize or as abort) and every call of
`esp_ota_set_boot_partition` comes after the return of `ota_init` with
`SUCCESS`;
(2) if one of them has been called, or the finalize of ota.c:344 has been
reached, `prevalidated` is true;
(3) if `prevalidated` is true, `ota_init` has succeeded on a full output
buffer `buf`: the description of the running partition was read, the version
string of the new image is at most 32 characters long, the anti-rollback check
has passed, the update partition exists and is not the running one, the user
has accepted and `esp_ota_begin` has succeeded;
(4) from `// Uploading complete` the next transition leads to `otacomplete`:
the assertion `JADE_ASSERT(prevalidated)` does not fail;
(5) a status `SUCCESS` after the chunk loop implies `prevalidated`, so
`SUCCESS` is never reported for an image that was not validated. -/
theorem no_install_without_validation {σ : Type} (env : Env σ) (req : Request)
    (fw cmp : Nat) (hfw : req.fwsize = some fw) (hcmp : req.cmpsize = some cmp)
    (hlt : cmp < fw) (h32 : fw < WORD) (n : Nat) :
    (∀ pre e post, (ota_process env req n).trace = pre ++ e :: post →
      e.is_esp_ota_end = true ∨ e.is_set_boot = true → Event.ota_init .SUCCESS ∈ pre) ∧
    ((∃ e ∈ (ota_process env req n).trace, e.is_esp_ota_end = true ∨ e.is_set_boot = true) ∨
      (ota_process env req n).ota_end_called = true →
      (ota_process env req n).prevalidated = true) ∧
    ((ota_process env req n).prevalidated = true →
      Event.ota_init .SUCCESS ∈ (ota_process env req n).trace ∧
      ∃ buf, buf.length = UNCOMPRESSED_BUF_SIZE ∧
        env.esp_ota_get_partition_description = ESP_OK ∧
        strnlen (env.new_app_info buf).version (VERSION_STRING_MAX_LENGTH + 1)
          ≤ VERSION_STRING_MAX_LENGTH ∧
        env.esp_efuse_check_secure_version (env.new_app_info buf).secure_version = true ∧
        (∃ p, env.esp_ota_get_next_update_partition = some p ∧
          p ≠ env.esp_ota_get_running_partition) ∧
        ((confirmation env).1 = true ∧ (confirmation env).2 = env.BTN_ACCEPT_OTA) ∧
        env.esp_ota_begin = ESP_OK) ∧
    ((ota_process env req n).pc = .upload_complete →
      (ota_process env req (n + 1)).pc = .otacomplete) ∧
    ((ota_process env req n).pc.after_loop = true →
      (ota_process env req n).ota_return_status = .SUCCESS →
      (ota_process env req n).prevalidated = true) := by
  obtain ⟨hi, hh⟩ := HandleInv_run env req fw cmp hfw hcmp hlt h32 n
  refine ⟨fun pre e post hsplit he => ?_, fun hc => ?_, fun hp => ?_, fun hpc => ?_,
    fun hal hs => hi.hfin (hi.hok hal hs)⟩
  · have hcl : e.closes = true := by
      unfold Event.closes
      rcases he with he | he <;> simp [he]
    obtain ⟨y, hy, hq⟩ := hh.hpre pre e post hsplit hcl
    rw [← is_init_success_eq y hq]
    exact hy
  · rcases hc with ⟨e, he, hc | hc⟩ | hc
    · have hpos : 0 < (ota_process env req n).trace.countP Event.is_esp_ota_end :=
        List.countP_pos_iff.mpr ⟨e, he, hc⟩
      rw [hh.hcount] at hpos
      by_cases hx : (ota_process env req n).ota_end_called = true ∨
          ((ota_process env req n).pc.ended = true ∧
            (ota_process env req n).prevalidated = true)
      · rcases hx with hx | hx
        · exact hi.hfin hx
        · exact hx.2
      · rw [if_neg hx] at hpos
        cases hpos
    · exact hi.hfin (hh.hboot e he hc)
    · exact hi.hfin hc
  · obtain ⟨buf, b1, b2, b3⟩ := hh.hinit hp
    exact ⟨b3, buf, b1, ota_init_success env buf _ b2⟩
  · have hpv : (ota_process env req n).remaining = 0 →
        (ota_process env req n).prevalidated = true := by
      intro hr
      cases hv : (ota_process env req n).prevalidated with
      | false => exact absurd hr (hi.hrem hv)
      | true => rfl
    rw [ota_process_succ, step, hpc]
    simp only []
    rcases upload_complete_step_cases env (ota_process env req n) with ⟨_, e⟩ | ⟨_, _, e⟩ |
      ⟨_, _, _, e⟩ | ⟨hr, _, _, e⟩
    · rw [e]
    · rw [e]
    · rw [e]
    · rw [e]; simp [hpv hr]

/-- C18 at an example: the run of the example request with a decompressor
that is done too early ends with the abort of the partition write; the call of
`esp_ota_end` is in the trace and the session is validated. -/
theorem no_install_without_validation_witness :
    Event.esp_ota_end ESP_OK ∈
      (ota_process (short_env TINFL_STATUS_DONE) short_request 9).trace ∧
    (ota_process (short_env TINFL_STATUS_DONE) short_request 9).prevalidated = true :=
  have he : Event.esp_ota_end ESP_OK ∈
      (ota_process (short_env TINFL_STATUS_DONE) short_request 9).trace := by
    rw [short_done_9]; simp
  ⟨he, (no_install_without_validation (short_env TINFL_STATUS_DONE) short_request 40000 2 rfl
    rfl (by decide) (by decide) 9).2.1 (Or.inl ⟨_, he, Or.inl rfl⟩)⟩

/-- C19. Balance of the partition handle.  Let the sizes of the request fit a
32-bit word and let the function have ended at point `n` (returned, restarted
or stopped at an assertion).  If `esp_ota_begin` has succeeded, `esp_ota_end`
has been called exactly once, so never both as finalize and as abort.  If
`esp_ota_begin` was not called or has failed, `esp_ota_end` has not been
called at all. -/
theorem partition_handle_balance {σ : Type} (env : Env σ) (req : Request)
    (h32 : ∀ fw, req.fwsize = some fw → fw < WORD) (n : Nat)
    (hend : (ota_process env req n).pc.ended = true) :
    ((∃ f, Event.esp_ota_begin f ESP_OK ∈ (ota_process env req n).trace) →
      (ota_process env req n).trace.countP Event.is_esp_ota_end = 1) ∧
    ((¬ ∃ f, Event.esp_ota_begin f ESP_OK ∈ (ota_process env req n).trace) →
      (ota_process env req n).trace.countP Event.is_esp_ota_end = 0) := by
  by_cases hgood : ∃ fw cmp, req.fwsize = some fw ∧ req.cmpsize = some cmp ∧ cmp < fw
  · obtain ⟨fw, cmp, hfw, hcmp, hlt⟩ := hgood
    obtain ⟨hi, hh⟩ := HandleInv_run env req fw cmp hfw hcmp hlt (h32 fw hfw) n
    refine ⟨fun hb => ?_, fun hb => ?_⟩
    · rw [hh.hcount, hend, hh.hbegin.mpr hb]
      simp
    · have hpf : (ota_process env req n).prevalidated = false := by
        cases hv : (ota_process env req n).prevalidated with
        | false => rfl
        | true => exact absurd (hh.hbegin.mp hv) hb
      have hoe : (ota_process env req n).ota_end_called = false := by
        cases hv : (ota_process env req n).ota_end_called with
        | false => rfl
        | true => rw [hi.hfin hv] at hpf; cases hpf
      rw [hh.hcount, hoe, hpf]
      simp
  · obtain ⟨b1, _⟩ := ota_process_bad env req hgood n
    refine ⟨fun ⟨f, hb⟩ => ?_, fun _ => ?_⟩
    · rw [b1] at hb
      simp at hb
    · rw [b1]
      rfl

/-- C19 at an example: the run of the example request with a decompressor
that is done too early ends after 9 transitions, validated and not finalized,
with exactly one `esp_ota_end`, the abort. -/
theorem partition_handle_balance_witness :
    (ota_process (short_env TINFL_STATUS_DONE) short_request 9).trace.countP
      Event.is_esp_ota_end = 1 :=
  (partition_handle_balance (short_env TINFL_STATUS_DONE) short_request
    (fun fw h => by
      have : fw = 40000 := by
        have h2 : short_request.fwsize = some 40000 := rfl
        rw [h2] at h
        exact (Option.some.inj h).symm
      rw [this]; decide) 9
    (by rw [short_done_9]; rfl)).1 ⟨40000, by rw [short_done_9]; simp⟩

/-- The call of `oracle_decompress` that delivers a whole image of 32768 bytes
while one byte of the stream is still to come. -/
theorem oracle_full_call (img : List Byte) (hl : img.length = 32768) (data : List Byte)
    (f : Nat) :
    oracle_decompress img 2 0 data 1 32768 f =
      { status := TINFL_STATUS_NEEDS_MORE_INPUT, in_bytes := 1, out := img,
        decomp := (1, 32768) } := by
  show oracle_decompress img 2 (0, 0) data 1 32768 f = _
  have ht : List.take 32768 img = img := List.take_of_length_le (Nat.le_of_eq hl)
  unfold oracle_decompress
  simp [hl, ht]

theorem full_run_1 (img : List Byte) :
    ota_process (oracle_env img 2) full_buffer_request 1 =
      { pc := .inner_loop, source := 0, uploading := true,
        ota_return_status := .SUCCESS, prevalidated := false,
        ota_end_called := false, firmwaresize := 32768,
        compressedsize := 2, update_partition := none,
        decomp := (0, 0), remaining_compressed := 2, remaining := 32768,
        status := TINFL_STATUS_NEEDS_MORE_INPUT, uncompressed := [],
        binctx := { id := "1", inbound_buf := some [0], len := 1, expected_source := 0,
                    error := false },
        length := 1, data_buf := [0],
        n_writes := 0, inbox := [byte_frame "2"],
        trace := [Event.reply_to_message_ok,
                Event.display_message "Preparing for firmware update",
                Event.get_in_message (byte_frame "1")] } := by
  simp [ota_process, run, step, ota_start, full_buffer_request, chunk_step, handle_in_bin_data,
    reset_ctx, oracle_env_init, oracle_env_buf, u32, WORD, byte_frame]

theorem full_run_2 (img : List Byte) (hl : img.length = 32768) :
    ota_process (oracle_env img 2) full_buffer_request 2 =
      { pc := .inner_loop, source := 0, uploading := true,
        ota_return_status := .SUCCESS, prevalidated := true,
        ota_end_called := false, firmwaresize := 32768,
        compressedsize := 2, update_partition := some 1,
        decomp := (1, 32768), remaining_compressed := 1, remaining := 0,
        status := TINFL_STATUS_NEEDS_MORE_INPUT, uncompressed := [],
        binctx := { id := "1", inbound_buf := some [0], len := 1, expected_source := 0,
                    error := false },
        length := 0, data_buf := [],
        n_writes := 1, inbox := [byte_frame "2"],
        trace := [Event.reply_to_message_ok,
                Event.display_message "Preparing for firmware update",
                Event.get_in_message (byte_frame "1"),
                Event.tinfl_decompress 1 32768 3 TINFL_STATUS_NEEDS_MORE_INPUT 1 32768,
                Event.esp_ota_get_partition_description ESP_OK,
                Event.esp_efuse_check_secure_version 0 true,
                Event.esp_ota_get_next_update_partition (some 1),
                Event.make_ota_versions_activity,
                Event.gui_activity_wait_event true 1,
                Event.display_progress_bar_activity,
                Event.esp_ota_begin 32768 ESP_OK,
                Event.ota_init .SUCCESS,
                Event.esp_ota_write img ESP_OK] } := by
  rw [ota_process_succ, full_run_1 img]
  simp [step, inner_step, decompress, tinfl_call, out_space, tinfl_flags, validate, flush,
    chunk_step, chunk_end_step, oracle_init_calls, sub32_2_1, sub32_1_1, sub32_full_0,
    sub32_full_full, UNCOMPRESSED_BUF_SIZE,
    TINFL_STATUS_DONE, TINFL_STATUS_NEEDS_MORE_INPUT, TINFL_STATUS_HAS_MORE_OUTPUT,
    TINFL_FLAG_PARSE_ZLIB_HEADER, TINFL_FLAG_HAS_MORE_INPUT, ESP_OK,
    oracle_env_decompress, oracle_env_write, oracle_full_call img hl, hl]

theorem full_run_3 (img : List Byte) (hl : img.length = 32768) :
    ota_process (oracle_env img 2) full_buffer_request 3 =
      { pc := .chunk_end, source := 0, uploading := true,
        ota_return_status := .SUCCESS, prevalidated := true,
        ota_end_called := false, firmwaresize := 32768,
        compressedsize := 2, update_partition := some 1,
        decomp := (1, 32768), remaining_compressed := 1, remaining := 0,
        status := TINFL_STATUS_NEEDS_MORE_INPUT, uncompressed := [],
        binctx := { id := "1", inbound_buf := some [0], len := 1, expected_source := 0,
                    error := false },
        length := 0, data_buf := [],
        n_writes := 1, inbox := [byte_frame "2"],
        trace := [Event.reply_to_message_ok,
                Event.display_message "Preparing for firmware update",
                Event.get_in_message (byte_frame "1"),
                Event.tinfl_decompress 1 32768 3 TINFL_STATUS_NEEDS_MORE_INPUT 1 32768,
                Event.esp_ota_get_partition_description ESP_OK,
                Event.esp_efuse_check_secure_version 0 true,
                Event.esp_ota_get_next_update_partition (some 1),
                Event.make_ota_versions_activity,
                Event.gui_activity_wait_event true 1,
                Event.display_progress_bar_activity,
                Event.esp_ota_begin 32768 ESP_OK,
                Event.ota_init .SUCCESS,
                Event.esp_ota_write img ESP_OK] } := by
  rw [ota_process_succ, full_run_2 img hl]
  simp [step, inner_step, decompress, tinfl_call, out_space, tinfl_flags, validate, flush,
    chunk_step, chunk_end_step, oracle_init_calls, sub32_2_1, sub32_1_1, sub32_full_0,
    sub32_full_full, UNCOMPRESSED_BUF_SIZE,
    TINFL_STATUS_DONE, TINFL_STATUS_NEEDS_MORE_INPUT, TINFL_STATUS_HAS_MORE_OUTPUT,
    TINFL_FLAG_PARSE_ZLIB_HEADER, TINFL_FLAG_HAS_MORE_INPUT, ESP_OK,
    oracle_env_decompress, oracle_env_write, oracle_full_call img hl, hl]

theorem full_run_4 (img : List Byte) (hl : img.length = 32768) :
    ota_process (oracle_env img 2) full_buffer_request 4 =
      { pc := .chunk_loop, source := 0, uploading := true,
        ota_return_status := .SUCCESS, prevalidated := true,
        ota_end_called := false, firmwaresize := 32768,
        compressedsize := 2, update_partition := some 1,
        decomp := (1, 32768), remaining_compressed := 1, remaining := 0,
        status := TINFL_STATUS_NEEDS_MORE_INPUT, uncompressed := [],
        binctx := { id := "1", inbound_buf := some [0], len := 1, expected_source := 0,
                    error := false },
        length := 0, data_buf := [],
        n_writes := 1, inbox := [byte_frame "2"],
        trace := [Event.reply_to_message_ok,
                Event.display_message "Preparing for firmware update",
                Event.get_in_message (byte_frame "1"),
                Event.tinfl_decompress 1 32768 3 TINFL_STATUS_NEEDS_MORE_INPUT 1 32768,
                Event.esp_ota_get_partition_description ESP_OK,
                Event.esp_efuse_check_secure_version 0 true,
                Event.esp_ota_get_next_update_partition (some 1),
                Event.make_ota_versions_activity,
                Event.gui_activity_wait_event true 1,
                Event.display_progress_bar_activity,
                Event.esp_ota_begin 32768 ESP_OK,
                Event.ota_init .SUCCESS,
                Event.esp_ota_write img ESP_OK,
                Event.update_progress_bar 2 1,
                Event.send_ok "1"] } := by
  rw [ota_process_succ, full_run_3 img hl]
  simp [step, inner_step, decompress, tinfl_call, out_space, tinfl_flags, validate, flush,
    chunk_step, chunk_end_step, oracle_init_calls, sub32_2_1, sub32_1_1, sub32_full_0,
    sub32_full_full, UNCOMPRESSED_BUF_SIZE,
    TINFL_STATUS_DONE, TINFL_STATUS_NEEDS_MORE_INPUT, TINFL_STATUS_HAS_MORE_OUTPUT,
    TINFL_FLAG_PARSE_ZLIB_HEADER, TINFL_FLAG_HAS_MORE_INPUT, ESP_OK,
    oracle_env_decompress, oracle_env_write, oracle_full_call img hl, hl]

/-- C20, what the code does with a frame that arrives when `remaining` is 0.
Let the run stand at the head of the chunk loop with compressed bytes still
expected (`remaining_compressed != 0`), nothing left to write
(`remaining == 0`) and a status above `TINFL_STATUS_DONE`, and let the next
message `m` be a data frame that `handle_in_bin_data` accepts, with a payload
no longer than `remaining_compressed`.  Then the payload is not empty, the
inner loop makes no pass (ota.c:276), the check of ota.c:323 passes and the
frame is acknowledged: after three transitions the run stands at the head of
the chunk loop again with `send_ok` of the id of `m` as the last call, no call
of `tinfl_decompress` in between, and `remaining_compressed`, `remaining` and
the status unchanged.  The same holds for every further frame: the chunk loop
makes no progress. -/
theorem acknowledged_unconsumed {σ : Type} (env : Env σ) (req : Request) (n : Nat) (m : Msg)
    (rest : List Msg)
    (hpc : (ota_process env req n).pc = .chunk_loop)
    (hrc : (ota_process env req n).remaining_compressed ≠ 0)
    (hrem : (ota_process env req n).remaining = 0)
    (hst : (ota_process env req n).status > TINFL_STATUS_DONE)
    (hin : (ota_process env req n).inbox = m :: rest)
    (hok : (handle_in_bin_data env.JADE_OTA_BUF_SIZE
      (reset_ctx none (ota_process env req n).source) m).error = false)
    (hlen : (handle_in_bin_data env.JADE_OTA_BUF_SIZE
      (reset_ctx none (ota_process env req n).source) m).len
        ≤ (ota_process env req n).remaining_compressed) :
    0 < (handle_in_bin_data env.JADE_OTA_BUF_SIZE
      (reset_ctx none (ota_process env req n).source) m).len ∧
    (ota_process env req (n + 3)).pc = .chunk_loop ∧
    (ota_process env req (n + 3)).remaining_compressed
      = (ota_process env req n).remaining_compressed ∧
    (ota_process env req (n + 3)).remaining = 0 ∧
    (ota_process env req (n + 3)).status = (ota_process env req n).status ∧
    (ota_process env req (n + 3)).ota_return_status
      = (ota_process env req n).ota_return_status ∧
    (ota_process env req (n + 3)).inbox = rest ∧
    (ota_process env req (n + 3)).trace =
      (ota_process env req n).trace ++ [Event.get_in_message m] ++
        (if (ota_process env req n).prevalidated = true then
          [Event.update_progress_bar (ota_process env req n).compressedsize
            (sub32 (ota_process env req n).compressedsize
              (ota_process env req n).remaining_compressed)] else []) ++
        [Event.send_ok m.id] := by
  have hid : (handle_in_bin_data env.JADE_OTA_BUF_SIZE
      (reset_ctx none (ota_process env req n).source) m).id = m.id := by
    unfold handle_in_bin_data
    simp only []
    split_ifs <;> (try rfl) <;> cases m.params_bytes <;> rfl
  have hpos : 0 < (handle_in_bin_data env.JADE_OTA_BUF_SIZE
      (reset_ctx none (ota_process env req n).source) m).len := by
    revert hok
    unfold handle_in_bin_data
    simp only []
    split_ifs with h1 h2
    · intro h; cases h
    · intro h; cases h
    · intro _
      simp only []
      omega
  -- the receipt of the frame
  have h1 : ota_process env req (n + 1) = { ota_process env req n with
      inbox := rest
      binctx := handle_in_bin_data env.JADE_OTA_BUF_SIZE
        (reset_ctx none (ota_process env req n).source) m
      trace := (ota_process env req n).trace ++ [Event.get_in_message m]
      uploading := true
      length := (handle_in_bin_data env.JADE_OTA_BUF_SIZE
        (reset_ctx none (ota_process env req n).source) m).len
      data_buf := (handle_in_bin_data env.JADE_OTA_BUF_SIZE
        (reset_ctx none (ota_process env req n).source) m).inbound_buf.getD []
      pc := .inner_loop } := by
    rw [ota_process_succ, step, hpc]
    simp only []
    rcases chunk_step_cases env (ota_process env req n) with ⟨h, _⟩ | ⟨_, h, _⟩ |
      ⟨m', inbox, _, hin', hbad, _⟩ | ⟨m', inbox, _, hin', _, _, e⟩
    · exact absurd h hrc
    · rw [hin] at h; cases h
    · rw [hin] at hin'
      simp only [List.cons.injEq] at hin'
      rw [← hin'.1] at hbad
      rcases hbad with hb | hb
      · rw [hok] at hb; cases hb
      · omega
    · rw [hin] at hin'
      simp only [List.cons.injEq] at hin'
      rw [e, ← hin'.1, ← hin'.2]
  -- the test of the inner loop fails
  have h2 : ota_process env req (n + 2) = { ota_process env req (n + 1) with pc := .chunk_end } := by
    have hp1 : (ota_process env req (n + 1)).pc = .inner_loop := by rw [h1]
    have hr1 : (ota_process env req (n + 1)).remaining = 0 := by rw [h1]; exact hrem
    rw [show n + 2 = (n + 1) + 1 from rfl, ota_process_succ, step, hp1]
    simp only []
    rcases inner_step_cases env (ota_process env req (n + 1)) with ⟨_, e⟩ | ⟨h, _⟩ | ⟨h, _⟩ |
      ⟨h, _⟩ | ⟨h, _⟩
    · exact e
    all_goals (rw [hr1] at h; exact absurd h.2.1 (by decide))
  -- the check passes
  have hp2 : (ota_process env req (n + 2)).pc = .chunk_end := by rw [h2]
  have hs2 : (ota_process env req (n + 2)).status = (ota_process env req n).status := by
    rw [h2, h1]
  have hc2 : (ota_process env req (n + 2)).remaining_compressed
      = (ota_process env req n).remaining_compressed := by
    rw [h2, h1]
  have hgood : ¬ (((ota_process env req (n + 2)).status ≠ TINFL_STATUS_DONE ∧
        (ota_process env req (n + 2)).remaining_compressed = 0)
      ∨ (ota_process env req (n + 2)).status < TINFL_STATUS_DONE
      ∨ ((ota_process env req (n + 2)).status = TINFL_STATUS_DONE ∧
        (ota_process env req (n + 2)).remaining_compressed > 0)) := by
    rw [hs2, hc2]
    rintro (⟨_, h⟩ | h | ⟨h, _⟩)
    · exact hrc h
    · omega
    · omega
  have h3 : ota_process env req (n + 3) = { ota_process env req (n + 2) with
      trace := (ota_process env req (n + 2)).trace ++
        (if (ota_process env req (n + 2)).prevalidated = true then
          [Event.update_progress_bar (ota_process env req (n + 2)).compressedsize
            (sub32 (ota_process env req (n + 2)).compressedsize
              (ota_process env req (n + 2)).remaining_compressed)] else []) ++
        [Event.send_ok (ota_process env req (n + 2)).binctx.id]
      pc := .chunk_loop } := by
    rw [show n + 3 = (n + 2) + 1 from rfl, ota_process_succ, step, hp2]
    simp only []
    rcases chunk_end_step_cases (ota_process env req (n + 2)) with ⟨h, _⟩ | ⟨_, e⟩
    · exact absurd h hgood
    · exact e
  refine ⟨hpos, by rw [h3], by rw [h3]; exact hc2, by rw [h3, h2, h1]; exact hrem,
    by rw [h3]; exact hs2, by rw [h3, h2, h1], by rw [h3, h2, h1], ?_⟩
  rw [h3]
  simp only []
  rw [h2]
  simp only []
  rw [h1]
  simp only [hid]

/-- C20 at the failing input: the image `full_buffer_image` of exactly 32768
bytes, a stream of 2 bytes sent in two frames of one byte, and the
decompressor `oracle_decompress`, which delivers the whole image at the first
byte and reports `TINFL_STATUS_NEEDS_MORE_INPUT`.  After four transitions the
first frame is acknowledged and `remaining` is 0 with one compressed byte to
come; the second frame, of one byte, is acknowledged with `send_ok "2"` and
`remaining_compressed` is still 1. -/
theorem acknowledged_unconsumed_witness :
    (ota_process (oracle_env full_buffer_image 2) full_buffer_request 4).pc = .chunk_loop ∧
    (ota_process (oracle_env full_buffer_image 2) full_buffer_request 4).remaining_compressed
      = 1 ∧
    (ota_process (oracle_env full_buffer_image 2) full_buffer_request 4).remaining = 0 ∧
    (ota_process (oracle_env full_buffer_image 2) full_buffer_request 4).inbox
      = [byte_frame "2"] ∧
    (handle_in_bin_data (oracle_env full_buffer_image 2).JADE_OTA_BUF_SIZE
      (reset_ctx none
        (ota_process (oracle_env full_buffer_image 2) full_buffer_request 4).source)
      (byte_frame "2")).len = 1 ∧
    (ota_process (oracle_env full_buffer_image 2) full_buffer_request (4 + 3)).pc
      = .chunk_loop ∧
    (ota_process (oracle_env full_buffer_image 2) full_buffer_request (4 + 3)).remaining_compressed
      = 1 ∧
    (ota_process (oracle_env full_buffer_image 2) full_buffer_request (4 + 3)).trace =
      (ota_process (oracle_env full_buffer_image 2) full_buffer_request 4).trace ++
        [Event.get_in_message (byte_frame "2"), Event.update_progress_bar 2 1,
         Event.send_ok "2"] :=
  have h4 := full_run_4 full_buffer_image full_buffer_image_length
  have hpc : (ota_process (oracle_env full_buffer_image 2) full_buffer_request 4).pc
      = .chunk_loop := by rw [h4]
  have hrc : (ota_process (oracle_env full_buffer_image 2) full_buffer_request
      4).remaining_compressed = 1 := by rw [h4]
  have hrem : (ota_process (oracle_env full_buffer_image 2) full_buffer_request 4).remaining
      = 0 := by rw [h4]
  have hst : (ota_process (oracle_env full_buffer_image 2) full_buffer_request 4).status
      > TINFL_STATUS_DONE := by
    rw [h4]; decide
  have hin : (ota_process (oracle_env full_buffer_image 2) full_buffer_request 4).inbox
      = byte_frame "2" :: [] := by rw [h4]
  have hsrc : (ota_process (oracle_env full_buffer_image 2) full_buffer_request 4).source
      = 0 := by rw [h4]
  have hb : handle_in_bin_data (oracle_env full_buffer_image 2).JADE_OTA_BUF_SIZE
      (reset_ctx none
        (ota_process (oracle_env full_buffer_image 2) full_buffer_request 4).source)
      (byte_frame "2") =
      { id := "2", inbound_buf := some [0], len := 1, expected_source := 0, error := false } := by
    rw [hsrc]
    simp [handle_in_bin_data, reset_ctx, byte_frame, oracle_env_buf]
  have hpv : (ota_process (oracle_env full_buffer_image 2) full_buffer_request 4).prevalidated
      = true := by rw [h4]
  have hcs : (ota_process (oracle_env full_buffer_image 2) full_buffer_request 4).compressedsize
      = 2 := by rw [h4]
  have h := acknowledged_unconsumed (oracle_env full_buffer_image 2) full_buffer_request 4
    (byte_frame "2") [] hpc (by rw [hrc]; decide) hrem hst hin (by rw [hb])
    (by rw [hb, hrc])
  ⟨hpc, hrc, hrem, hin, by rw [hb], h.2.1, h.2.2.1.trans hrc, by
    rw [h.2.2.2.2.2.2.2, hpv, hcs, hrc, if_pos rfl, sub32_2_1]
    simp [byte_frame]⟩

end Jade
